import Mathlib

/-! # Save-state (snapshot) module of the Apple II emulator

A shallow embedding of `RAppleWin/source/SaveState.cpp`.

* Globals of the translation unit (`g_strSaveStatePathname`, `m_ConfigNew`, ...) and the few
  globals of other modules it reads or writes (`g_Apple2Type`, `g_Slot4`, ...) are the fields
  of `Machine`.
* A C++ function that may `throw std::string` is an `Exec α`: it maps a `Machine` to either
  `Res.ok a m` (returned `a`) or `Res.throw msg m` (threw `msg`), in both cases with the
  machine as the function left it.
* Calls into other modules are recorded, in program order, in `Machine.trace`.
* The document under the YAML reader is a `Document`: what each reader call of the source
  yields on it.
-/

namespace SaveState

/-! ## Constants of the translation unit -/

/-- The default snapshot name, `#define DEFAULT_SNAPSHOT_NAME`. -/
def DEFAULT_SNAPSHOT_NAME : String := "SaveState.aws.yaml"

/-- The file format version, `#define SS_FILE_VER 2`. -/
def SS_FILE_VER : Nat := 2

/-- The core-machine unit version, `#define UNIT_APPLE2_VER 2`. -/
def UNIT_APPLE2_VER : Nat := 2

/-- The peripheral-slots unit version, `#define UNIT_SLOTS_VER 1`. -/
def UNIT_SLOTS_VER : Nat := 1

/-- The name of the core-machine unit, `GetSnapshotUnitApple2Name()`. -/
def GetSnapshotUnitApple2Name : String := "Apple2"

/-- The name of the peripheral-slots unit, `GetSnapshotUnitSlotsName()`. -/
def GetSnapshotUnitSlotsName : String := "Slots"

/-- The key of the model entry, `#define SS_YAML_KEY_MODEL`. -/
def SS_YAML_KEY_MODEL : String := "Model"

def SS_YAML_VALUE_APPLE2 : String := "Apple]["
def SS_YAML_VALUE_APPLE2PLUS : String := "Apple][+"
def SS_YAML_VALUE_APPLE2E : String := "Apple//e"
def SS_YAML_VALUE_APPLE2EENHANCED : String := "Enhanced Apple//e"
def SS_YAML_VALUE_APPLE2C : String := "Apple2c"
def SS_YAML_VALUE_PRAVETS82 : String := "Pravets82"
def SS_YAML_VALUE_PRAVETS8M : String := "Pravets8M"
def SS_YAML_VALUE_PRAVETS8A : String := "Pravets8A"
def SS_YAML_VALUE_TK30002E : String := "TK3000//e"

/-- The number of entries of `CConfigNeedingRestart::m_Slot`; the header that defines
`NUM_SLOTS` is outside the sources, the value is the one `ParseSlots` checks slot numbers
against (`slot > 7` is rejected). -/
def NUM_SLOTS : Nat := 8

/-! ## Types declared in headers of other modules -/

/-- The machine variants `eApple2Type` that `SaveState.cpp` names; `A2TYPE_OTHER raw` stands
for every further enumerator of the header (the `default:` case of `GetApple2TypeAsString`). -/
inductive eApple2Type where
  | A2TYPE_APPLE2
  | A2TYPE_APPLE2PLUS
  | A2TYPE_APPLE2E
  | A2TYPE_APPLE2EENHANCED
  | A2TYPE_APPLE2C
  | A2TYPE_PRAVETS82
  | A2TYPE_PRAVETS8M
  | A2TYPE_PRAVETS8A
  | A2TYPE_TK30002E
  | A2TYPE_OTHER (raw : Nat)
  deriving DecidableEq, Repr

/-- The main CPU type `eCpuType`, kept as the enumerator's number: the module only copies it. -/
abbrev eCpuType := Nat

/-- The card types `SS_CARDTYPE` that `SaveState.cpp` names; `CT_OTHER raw` stands for every
further enumerator of the header. -/
inductive SS_CARDTYPE where
  | CT_Empty
  | CT_Disk2
  | CT_SSC
  | CT_MockingboardC
  | CT_GenericPrinter
  | CT_GenericHDD
  | CT_MouseInterface
  | CT_Z80
  | CT_Phasor
  | CT_Uthernet
  | CT_LanguageCard
  | CT_Saturn128K
  | CT_OTHER (raw : Nat)
  deriving DecidableEq, Repr

open eApple2Type SS_CARDTYPE

/-- The fields of `CConfigNeedingRestart` that `SaveState.cpp` reads or writes. `m_Slot` is the
array `m_Slot[NUM_SLOTS]`, as the map from an index to the entry. -/
structure CConfigNeedingRestart where
  m_Apple2Type : eApple2Type
  m_CpuType : eCpuType
  m_Slot : Nat → SS_CARDTYPE
  m_SlotAux : SS_CARDTYPE
  m_bEnableHDD : Bool

/-- One call into another module (or into the C/Win32 library), with the arguments that the
snapshot engine chooses. `ParseUnit` is the one entry that is not a call out of the module: it
marks that `ParseUnit` was entered. -/
inductive Event where
  -- the YAML reader
  | InitParser (pathname : String)
  | FinaliseParser
  -- RetroAchievements hooks
  | RA_WarnDisableHardcore (activity : String)
  | RA_OnLoadState (pathname : String)
  | RA_OnSaveState (pathname : String)
  -- subsystem resets of Snapshot_LoadState_v2
  | MemReset
  | PravetsReset
  | DiskReset
  | HD_Reset
  | KeybReset
  | VideoResetState
  | MB_InitializeForLoadingSnapshot
  | SSC_CommReset
  | Speech_Reset
  | Mouse_Uninitialize
  | Mouse_Reset
  | HD_SetEnabled (enabled : Bool)
  -- unit parsing
  | ParseUnit (loading_state : Bool)
  | SetApple2Type (type : eApple2Type)
  | CpuLoadSnapshot
  | JoyLoadSnapshot
  | KeybLoadSnapshot (version : Nat)
  | SpkrLoadSnapshot
  | VideoLoadSnapshot
  | MemLoadSnapshot (version : Nat)
  | VideoReinitialize
  | FrameUpdateApple2Type
  | MemLoadSnapshotAux (version : Nat)
  -- card handlers, load
  | Printer_LoadSnapshot (slot : Nat) (version : Nat)
  | SSC_LoadSnapshot (slot : Nat) (version : Nat)
  | Mouse_LoadSnapshot (slot : Nat) (version : Nat)
  | Z80_LoadSnapshot (slot : Nat) (version : Nat)
  | MB_LoadSnapshot (slot : Nat) (version : Nat)
  | Phasor_LoadSnapshot (slot : Nat) (version : Nat)
  | DiskLoadSnapshot (slot : Nat) (version : Nat)
  | HD_LoadSnapshot (slot : Nat) (version : Nat) (path : String)
  | SetExpansionMemType (type : SS_CARDTYPE)
  | CreateLanguageCard
  | LanguageCard_LoadSnapshot (slot : Nat) (version : Nat)
  -- after the units
  | SetLoadedSaveStateFlag (flag : Bool)
  | ApplyNewConfig
  | MemInitializeROM
  | MemInitializeCustomF8ROM
  | MemInitializeIO
  | MemInitializeCardExpansionRomFromSnapshot
  | MemUpdatePaging (bInit : Bool)
  -- user interface
  | MessageBox (text : String) (caption : String)
  | PostMessage_WM_USER_RESTART
  -- the YAML writer and the save routines
  | YamlSaveHelper (pathname : String)
  | FileHdr (version : Nat)
  | UnitHdr (type : String) (version : Nat)
  | Label_State
  | Save_Model (model : String)
  | CpuSaveSnapshot
  | JoySaveSnapshot
  | KeybSaveSnapshot
  | SpkrSaveSnapshot
  | VideoSaveSnapshot
  | MemSaveSnapshot
  | MemSaveSnapshotAux
  | LanguageCard_SaveSnapshot
  | Printer_SaveSnapshot
  | SSC_SaveSnapshot
  | Mouse_SaveSnapshot
  | Z80_SaveSnapshot (slot : Nat)
  | MB_SaveSnapshot (slot : Nat)
  | Phasor_SaveSnapshot (slot : Nat)
  | DiskSaveSnapshot
  | HD_SaveSnapshot
  deriving Repr

/-- A call as data with decidable equality: the number of the constructor and its arguments. -/
structure EventCode where
  tag : Nat
  nats : List Nat
  strs : List String
  bools : List Bool
  a2 : Option eApple2Type
  card : Option SS_CARDTYPE
  deriving DecidableEq

/-- The code of a call. -/
def Event.code : Event → EventCode
  | Event.InitParser pathname => ⟨0, [], [pathname], [], none, none⟩
  | Event.FinaliseParser => ⟨1, [], [], [], none, none⟩
  | Event.RA_WarnDisableHardcore activity => ⟨2, [], [activity], [], none, none⟩
  | Event.RA_OnLoadState pathname => ⟨3, [], [pathname], [], none, none⟩
  | Event.RA_OnSaveState pathname => ⟨4, [], [pathname], [], none, none⟩
  | Event.MemReset => ⟨5, [], [], [], none, none⟩
  | Event.PravetsReset => ⟨6, [], [], [], none, none⟩
  | Event.DiskReset => ⟨7, [], [], [], none, none⟩
  | Event.HD_Reset => ⟨8, [], [], [], none, none⟩
  | Event.KeybReset => ⟨9, [], [], [], none, none⟩
  | Event.VideoResetState => ⟨10, [], [], [], none, none⟩
  | Event.MB_InitializeForLoadingSnapshot => ⟨11, [], [], [], none, none⟩
  | Event.SSC_CommReset => ⟨12, [], [], [], none, none⟩
  | Event.Speech_Reset => ⟨13, [], [], [], none, none⟩
  | Event.Mouse_Uninitialize => ⟨14, [], [], [], none, none⟩
  | Event.Mouse_Reset => ⟨15, [], [], [], none, none⟩
  | Event.HD_SetEnabled enabled => ⟨16, [], [], [enabled], none, none⟩
  | Event.ParseUnit loading_state => ⟨17, [], [], [loading_state], none, none⟩
  | Event.SetApple2Type type => ⟨18, [], [], [], some type, none⟩
  | Event.CpuLoadSnapshot => ⟨19, [], [], [], none, none⟩
  | Event.JoyLoadSnapshot => ⟨20, [], [], [], none, none⟩
  | Event.KeybLoadSnapshot version => ⟨21, [version], [], [], none, none⟩
  | Event.SpkrLoadSnapshot => ⟨22, [], [], [], none, none⟩
  | Event.VideoLoadSnapshot => ⟨23, [], [], [], none, none⟩
  | Event.MemLoadSnapshot version => ⟨24, [version], [], [], none, none⟩
  | Event.VideoReinitialize => ⟨25, [], [], [], none, none⟩
  | Event.FrameUpdateApple2Type => ⟨26, [], [], [], none, none⟩
  | Event.MemLoadSnapshotAux version => ⟨27, [version], [], [], none, none⟩
  | Event.Printer_LoadSnapshot slot version => ⟨28, [slot, version], [], [], none, none⟩
  | Event.SSC_LoadSnapshot slot version => ⟨29, [slot, version], [], [], none, none⟩
  | Event.Mouse_LoadSnapshot slot version => ⟨30, [slot, version], [], [], none, none⟩
  | Event.Z80_LoadSnapshot slot version => ⟨31, [slot, version], [], [], none, none⟩
  | Event.MB_LoadSnapshot slot version => ⟨32, [slot, version], [], [], none, none⟩
  | Event.Phasor_LoadSnapshot slot version => ⟨33, [slot, version], [], [], none, none⟩
  | Event.DiskLoadSnapshot slot version => ⟨34, [slot, version], [], [], none, none⟩
  | Event.HD_LoadSnapshot slot version path => ⟨35, [slot, version], [path], [], none, none⟩
  | Event.SetExpansionMemType type => ⟨36, [], [], [], none, some type⟩
  | Event.CreateLanguageCard => ⟨37, [], [], [], none, none⟩
  | Event.LanguageCard_LoadSnapshot slot version => ⟨38, [slot, version], [], [], none, none⟩
  | Event.SetLoadedSaveStateFlag flag => ⟨39, [], [], [flag], none, none⟩
  | Event.ApplyNewConfig => ⟨40, [], [], [], none, none⟩
  | Event.MemInitializeROM => ⟨41, [], [], [], none, none⟩
  | Event.MemInitializeCustomF8ROM => ⟨42, [], [], [], none, none⟩
  | Event.MemInitializeIO => ⟨43, [], [], [], none, none⟩
  | Event.MemInitializeCardExpansionRomFromSnapshot => ⟨44, [], [], [], none, none⟩
  | Event.MemUpdatePaging bInit => ⟨45, [], [], [bInit], none, none⟩
  | Event.MessageBox text caption => ⟨46, [], [text, caption], [], none, none⟩
  | Event.PostMessage_WM_USER_RESTART => ⟨47, [], [], [], none, none⟩
  | Event.YamlSaveHelper pathname => ⟨48, [], [pathname], [], none, none⟩
  | Event.FileHdr version => ⟨49, [version], [], [], none, none⟩
  | Event.UnitHdr type version => ⟨50, [version], [type], [], none, none⟩
  | Event.Label_State => ⟨51, [], [], [], none, none⟩
  | Event.Save_Model model => ⟨52, [], [model], [], none, none⟩
  | Event.CpuSaveSnapshot => ⟨53, [], [], [], none, none⟩
  | Event.JoySaveSnapshot => ⟨54, [], [], [], none, none⟩
  | Event.KeybSaveSnapshot => ⟨55, [], [], [], none, none⟩
  | Event.SpkrSaveSnapshot => ⟨56, [], [], [], none, none⟩
  | Event.VideoSaveSnapshot => ⟨57, [], [], [], none, none⟩
  | Event.MemSaveSnapshot => ⟨58, [], [], [], none, none⟩
  | Event.MemSaveSnapshotAux => ⟨59, [], [], [], none, none⟩
  | Event.LanguageCard_SaveSnapshot => ⟨60, [], [], [], none, none⟩
  | Event.Printer_SaveSnapshot => ⟨61, [], [], [], none, none⟩
  | Event.SSC_SaveSnapshot => ⟨62, [], [], [], none, none⟩
  | Event.Mouse_SaveSnapshot => ⟨63, [], [], [], none, none⟩
  | Event.Z80_SaveSnapshot slot => ⟨64, [slot], [], [], none, none⟩
  | Event.MB_SaveSnapshot slot => ⟨65, [slot], [], [], none, none⟩
  | Event.Phasor_SaveSnapshot slot => ⟨66, [slot], [], [], none, none⟩
  | Event.DiskSaveSnapshot => ⟨67, [], [], [], none, none⟩
  | Event.HD_SaveSnapshot => ⟨68, [], [], [], none, none⟩

/-- The call with a given code. -/
def Event.ofCode (c : EventCode) : Option Event :=
  match c.tag, c.nats, c.strs, c.bools, c.a2, c.card with
  | 0, [], [pathname], [], none, none => some (Event.InitParser pathname)
  | 1, [], [], [], none, none => some (Event.FinaliseParser)
  | 2, [], [activity], [], none, none => some (Event.RA_WarnDisableHardcore activity)
  | 3, [], [pathname], [], none, none => some (Event.RA_OnLoadState pathname)
  | 4, [], [pathname], [], none, none => some (Event.RA_OnSaveState pathname)
  | 5, [], [], [], none, none => some (Event.MemReset)
  | 6, [], [], [], none, none => some (Event.PravetsReset)
  | 7, [], [], [], none, none => some (Event.DiskReset)
  | 8, [], [], [], none, none => some (Event.HD_Reset)
  | 9, [], [], [], none, none => some (Event.KeybReset)
  | 10, [], [], [], none, none => some (Event.VideoResetState)
  | 11, [], [], [], none, none => some (Event.MB_InitializeForLoadingSnapshot)
  | 12, [], [], [], none, none => some (Event.SSC_CommReset)
  | 13, [], [], [], none, none => some (Event.Speech_Reset)
  | 14, [], [], [], none, none => some (Event.Mouse_Uninitialize)
  | 15, [], [], [], none, none => some (Event.Mouse_Reset)
  | 16, [], [], [enabled], none, none => some (Event.HD_SetEnabled enabled)
  | 17, [], [], [loading_state], none, none => some (Event.ParseUnit loading_state)
  | 18, [], [], [], some type, none => some (Event.SetApple2Type type)
  | 19, [], [], [], none, none => some (Event.CpuLoadSnapshot)
  | 20, [], [], [], none, none => some (Event.JoyLoadSnapshot)
  | 21, [version], [], [], none, none => some (Event.KeybLoadSnapshot version)
  | 22, [], [], [], none, none => some (Event.SpkrLoadSnapshot)
  | 23, [], [], [], none, none => some (Event.VideoLoadSnapshot)
  | 24, [version], [], [], none, none => some (Event.MemLoadSnapshot version)
  | 25, [], [], [], none, none => some (Event.VideoReinitialize)
  | 26, [], [], [], none, none => some (Event.FrameUpdateApple2Type)
  | 27, [version], [], [], none, none => some (Event.MemLoadSnapshotAux version)
  | 28, [slot, version], [], [], none, none => some (Event.Printer_LoadSnapshot slot version)
  | 29, [slot, version], [], [], none, none => some (Event.SSC_LoadSnapshot slot version)
  | 30, [slot, version], [], [], none, none => some (Event.Mouse_LoadSnapshot slot version)
  | 31, [slot, version], [], [], none, none => some (Event.Z80_LoadSnapshot slot version)
  | 32, [slot, version], [], [], none, none => some (Event.MB_LoadSnapshot slot version)
  | 33, [slot, version], [], [], none, none => some (Event.Phasor_LoadSnapshot slot version)
  | 34, [slot, version], [], [], none, none => some (Event.DiskLoadSnapshot slot version)
  | 35, [slot, version], [path], [], none, none => some (Event.HD_LoadSnapshot slot version path)
  | 36, [], [], [], none, some type => some (Event.SetExpansionMemType type)
  | 37, [], [], [], none, none => some (Event.CreateLanguageCard)
  | 38, [slot, version], [], [], none, none => some (Event.LanguageCard_LoadSnapshot slot version)
  | 39, [], [], [flag], none, none => some (Event.SetLoadedSaveStateFlag flag)
  | 40, [], [], [], none, none => some (Event.ApplyNewConfig)
  | 41, [], [], [], none, none => some (Event.MemInitializeROM)
  | 42, [], [], [], none, none => some (Event.MemInitializeCustomF8ROM)
  | 43, [], [], [], none, none => some (Event.MemInitializeIO)
  | 44, [], [], [], none, none => some (Event.MemInitializeCardExpansionRomFromSnapshot)
  | 45, [], [], [bInit], none, none => some (Event.MemUpdatePaging bInit)
  | 46, [], [text, caption], [], none, none => some (Event.MessageBox text caption)
  | 47, [], [], [], none, none => some (Event.PostMessage_WM_USER_RESTART)
  | 48, [], [pathname], [], none, none => some (Event.YamlSaveHelper pathname)
  | 49, [version], [], [], none, none => some (Event.FileHdr version)
  | 50, [version], [type], [], none, none => some (Event.UnitHdr type version)
  | 51, [], [], [], none, none => some (Event.Label_State)
  | 52, [], [model], [], none, none => some (Event.Save_Model model)
  | 53, [], [], [], none, none => some (Event.CpuSaveSnapshot)
  | 54, [], [], [], none, none => some (Event.JoySaveSnapshot)
  | 55, [], [], [], none, none => some (Event.KeybSaveSnapshot)
  | 56, [], [], [], none, none => some (Event.SpkrSaveSnapshot)
  | 57, [], [], [], none, none => some (Event.VideoSaveSnapshot)
  | 58, [], [], [], none, none => some (Event.MemSaveSnapshot)
  | 59, [], [], [], none, none => some (Event.MemSaveSnapshotAux)
  | 60, [], [], [], none, none => some (Event.LanguageCard_SaveSnapshot)
  | 61, [], [], [], none, none => some (Event.Printer_SaveSnapshot)
  | 62, [], [], [], none, none => some (Event.SSC_SaveSnapshot)
  | 63, [], [], [], none, none => some (Event.Mouse_SaveSnapshot)
  | 64, [slot], [], [], none, none => some (Event.Z80_SaveSnapshot slot)
  | 65, [slot], [], [], none, none => some (Event.MB_SaveSnapshot slot)
  | 66, [slot], [], [], none, none => some (Event.Phasor_SaveSnapshot slot)
  | 67, [], [], [], none, none => some (Event.DiskSaveSnapshot)
  | 68, [], [], [], none, none => some (Event.HD_SaveSnapshot)
  | _, _, _, _, _, _ => none

instance : DecidableEq Event := fun a b =>
  decidable_of_iff (a.code = b.code)
    ⟨fun h => by
      have ha : Event.ofCode a.code = some a := by cases a <;> rfl
      have hb : Event.ofCode b.code = some b := by cases b <;> rfl
      rw [h, hb] at ha
      exact (Option.some.inj ha).symm,
     fun h => congrArg Event.code h⟩

/-- The state the module works on: its own globals, the globals of other modules it reads or
writes, the local `restart` of `Snapshot_LoadState_v2` (which the `catch` handler reads after
the `try` block was left), and the record of the calls made. -/
structure Machine where
  /-- `g_Apple2Type`, behind `GetApple2Type` / `SetApple2Type`. -/
  g_Apple2Type : eApple2Type
  /-- The main CPU type, behind `GetMainCpu`. -/
  mainCpu : eCpuType
  g_Slot0 : SS_CARDTYPE
  g_Slot4 : SS_CARDTYPE
  g_Slot5 : SS_CARDTYPE
  g_strSaveStateFilename : String
  g_strSaveStatePathname : String
  g_strSaveStatePath : String
  m_ConfigNew : CConfigNeedingRestart
  /-- The process-wide flag behind `SetLoadedSaveStateFlag`. -/
  loadedSaveStateFlag : Bool
  /-- The arguments `(ConfigNew, ConfigOld)` of the last `ApplyNewConfig` call. -/
  applied : Option (CConfigNeedingRestart × CConfigNeedingRestart)
  /-- The local `restart` of `Snapshot_LoadState_v2`. -/
  restart : Bool
  /-- The calls made so far, oldest first. -/
  trace : List Event

/-- What is outside the translation unit and fixed during one load or save: build flags,
constants and names defined in headers of other modules, and how the collaborators answer. -/
structure Env where
  /-- The build flag `USE_RETROACHIEVEMENTS`. -/
  USE_RETROACHIEVEMENTS : Bool
  /-- The build flag `USE_SPEECH_API`. -/
  USE_SPEECH_API : Bool
  /-- The answer of `RA_WarnDisableHardcore("load a state")`. -/
  guardAnswer : Bool
  SS_YAML_KEY_FILEHDR : String
  SS_YAML_VALUE_AWSS : String
  SS_YAML_KEY_UNIT : String
  SS_YAML_KEY_STATE : String
  MemGetSnapshotUnitAuxSlotName : String
  Printer_GetSnapshotCardName : String
  SSC_GetSnapshotCardName : String
  Mouse_GetSnapshotCardName : String
  Z80_GetSnapshotCardName : String
  MB_GetSnapshotCardName : String
  Phasor_GetSnapshotCardName : String
  DiskGetSnapshotCardName : String
  HD_GetSnapshotCardName : String
  LanguageCardSlot0_GetSnapshotCardName : String
  Saturn128K_GetSnapshotCardName : String
  /-- The main CPU type that `SetApple2Type` selects for a machine variant. -/
  defaultCpu : eApple2Type → eCpuType
  /-- The macro `IsApple2PlusOrClone`. -/
  IsApple2PlusOrClone : eApple2Type → Bool
  /-- The value of a default-constructed `CConfigNeedingRestart` when the load begins. -/
  ConfigOld : CConfigNeedingRestart
  /-- The message a call into another module throws, if it throws. -/
  raises : Event → Option String

/-- The outcome of running a function that may throw. -/
inductive Res (α : Type) where
  | ok (a : α) (m : Machine)
  | throw (msg : String) (m : Machine)

/-- The machine a run ended in, however it ended. -/
def Res.machine {α : Type} : Res α → Machine
  | .ok _ m => m
  | .throw _ m => m

/-- The message a run threw, if it threw. -/
def Res.error {α : Type} : Res α → Option String
  | .ok _ _ => none
  | .throw msg _ => some msg

/-- The value a run returned, if it returned. -/
def Res.value {α : Type} : Res α → Option α
  | .ok a _ => some a
  | .throw _ _ => none

/-- A function of the module that may `throw std::string`. -/
def Exec (α : Type) : Type := Machine → Res α

/-- Sequencing: a `throw` skips what follows. -/
def Exec.bind {α β : Type} (x : Exec α) (f : α → Exec β) : Exec β :=
  fun m => match x m with
    | .ok a m1 => f a m1
    | .throw msg m1 => .throw msg m1

instance : Monad Exec where
  pure a := fun m => .ok a m
  bind := Exec.bind

/-- The statement `throw std::string(msg)`. -/
def raise {α : Type} (msg : String) : Exec α := fun m => .throw msg m

/-- Append a call to the record. -/
def log (e : Event) : Exec Unit := fun m => .ok () { m with trace := m.trace ++ [e] }

/-- A call of a `void` function of another module: it is recorded, and it may throw. -/
def call (env : Env) (e : Event) : Exec Unit := fun m =>
  match env.raises e with
  | none => .ok () { m with trace := m.trace ++ [e] }
  | some msg => .throw msg { m with trace := m.trace ++ [e] }

/-- A value the YAML reader yields for the current document, or the message it throws. -/
def readDoc {α : Type} (r : Except String α) : Exec α := fun m =>
  match r with
  | .ok a => .ok a m
  | .error msg => .throw msg m

/-- A call of a load routine of another module on the current block of the document: it is
recorded, and its outcome is the one the document determines. -/
def callLoad {α : Type} (e : Event) (r : Except String α) : Exec α := fun m =>
  match r with
  | .ok a => .ok a { m with trace := m.trace ++ [e] }
  | .error msg => .throw msg { m with trace := m.trace ++ [e] }

/-- An update of the machine. -/
def modify (f : Machine → Machine) : Exec Unit := fun m => .ok () (f m)

/-- The machine as it is now. -/
def getMachine : Exec Machine := fun m => .ok m m

/-! ## The document under the reader -/

deriving instance DecidableEq for Except

/-- One entry of the state map of the peripheral-slots unit, as the reader calls of
`ParseSlots` see it. -/
structure SlotDoc where
  /-- The key that `GetMapNextSlotNumber` returns for the entry. -/
  key : String
  /-- The outcome of `LoadString(SS_YAML_KEY_CARD)`. -/
  card : Except String String
  /-- The outcome of `LoadUint(SS_YAML_KEY_VERSION)`. -/
  cardVersion : Except String Nat
  /-- Whether `GetSubMap(SS_YAML_KEY_STATE)` finds the sub-map. -/
  hasState : Bool
  /-- The outcome of the load routine of the card handler on the state block of the entry. -/
  load : Except String Bool

/-- One unit map, as the reader calls of `ParseUnit` and of the routines it dispatches to see
it. The state block is opaque to the engine: the outcome of each load routine on it is a field. -/
structure UnitDoc where
  /-- The outcome of `LoadString(SS_YAML_KEY_TYPE)`. -/
  type : Except String String
  /-- The outcome of `LoadUint(SS_YAML_KEY_VERSION)`. -/
  version : Except String Nat
  /-- Whether `GetSubMap(SS_YAML_KEY_STATE)` finds the sub-map. -/
  hasState : Bool
  /-- The outcome of `LoadString(SS_YAML_KEY_MODEL)` in the state block. -/
  model : Except String String
  /-- The outcome of `CpuLoadSnapshot`: the main CPU type it leaves. -/
  cpu : Except String eCpuType
  joy : Except String Unit
  keyb : Except String Unit
  spkr : Except String Unit
  video : Except String Unit
  mem : Except String Unit
  /-- The outcome of `MemLoadSnapshotAux`. -/
  aux : Except String Bool
  /-- The entries of the state block in the order `GetMapNextSlotNumber` yields them. -/
  slots : List SlotDoc

/-- One top-level scalar of the document and the map that follows it. -/
structure TopEntry where
  scalar : String
  unit : UnitDoc

/-- The document behind `g_strSaveStatePathname`, as the reader calls of the load see it. -/
structure Document where
  /-- The result of `yamlHelper.InitParser`. -/
  initOk : Bool
  /-- The first scalar, `none` when `GetScalar` returns false. -/
  hdrScalar : Option String
  /-- The outcome of `LoadString(SS_YAML_KEY_TAG)` in the file header. -/
  tag : Except String String
  /-- The outcome of `LoadUint(SS_YAML_KEY_VERSION)` in the file header. -/
  version : Except String Nat
  /-- The top-level scalars after the file header, until `GetScalar` returns false. -/
  top : List TopEntry

/-! ## Library functions -/

/-- The C library's `isspace` in the "C" locale. -/
def isspace (c : Char) : Bool :=
  c = ' ' || c = '\t' || c = '\n' || c = '\x0b' || c = '\x0c' || c = '\r'

/-- The largest `unsigned long` of the Win32 target. -/
def ULONG_MAX : Nat := 2 ^ 32 - 1

/-- The value of a run of decimal digits. -/
def digitsValue (ds : List Char) : Nat :=
  ds.foldl (fun acc c => acc * 10 + (c.toNat - 48)) 0

/-- The C library's `strtoul(s, NULL, 10)`: white space is skipped, an optional sign is read,
then the longest run of decimal digits; no digits give 0, a value that does not fit gives
`ULONG_MAX`, and a minus sign negates in `unsigned long`. -/
def strtoul (s : String) : Nat :=
  let cs := s.toList.dropWhile isspace
  let neg := cs.head? = some '-'
  let cs1 := if cs.head? = some '-' ∨ cs.head? = some '+' then cs.tail else cs
  let v := digitsValue (cs1.takeWhile Char.isDigit)
  if v > ULONG_MAX then ULONG_MAX
  else if neg then (2 ^ 32 - v) % 2 ^ 32
  else v

/-- The conversion of an `unsigned long` to `int` on the Win32 target. -/
def toInt32 (v : Nat) : Int :=
  if v % 2 ^ 32 < 2 ^ 31 then ((v % 2 ^ 32 : Nat) : Int) else ((v % 2 ^ 32 : Nat) : Int) - 2 ^ 32

/-- The member `std::string::find(str, pos)`: the first position not before `pos` at which
`str` occurs, `none` for `npos`. -/
def string_find (s str : String) (pos : Nat) : Option Nat :=
  (List.range (s.length + 1)).find?
    (fun p => decide (pos ≤ p) && str.toList.isPrefixOf (s.toList.drop p))

/-! ## Machine variants -/

/-- The function `ParseApple2Type`. -/
def ParseApple2Type (type : String) : Except String eApple2Type :=
  if type = SS_YAML_VALUE_APPLE2 then .ok A2TYPE_APPLE2
  else if type = SS_YAML_VALUE_APPLE2PLUS then .ok A2TYPE_APPLE2PLUS
  else if type = SS_YAML_VALUE_APPLE2E then .ok A2TYPE_APPLE2E
  else if type = SS_YAML_VALUE_APPLE2EENHANCED then .ok A2TYPE_APPLE2EENHANCED
  else if type = SS_YAML_VALUE_APPLE2C then .ok A2TYPE_APPLE2C
  else if type = SS_YAML_VALUE_PRAVETS82 then .ok A2TYPE_PRAVETS82
  else if type = SS_YAML_VALUE_PRAVETS8M then .ok A2TYPE_PRAVETS8M
  else if type = SS_YAML_VALUE_PRAVETS8A then .ok A2TYPE_PRAVETS8A
  else if type = SS_YAML_VALUE_TK30002E then .ok A2TYPE_TK30002E
  else .error "Load: Unknown Apple2 type"

/-- The function `GetApple2TypeAsString`, on the value `GetApple2Type()` returns. -/
def GetApple2TypeAsString (type : eApple2Type) : Except String String :=
  match type with
  | A2TYPE_APPLE2 => .ok SS_YAML_VALUE_APPLE2
  | A2TYPE_APPLE2PLUS => .ok SS_YAML_VALUE_APPLE2PLUS
  | A2TYPE_APPLE2E => .ok SS_YAML_VALUE_APPLE2E
  | A2TYPE_APPLE2EENHANCED => .ok SS_YAML_VALUE_APPLE2EENHANCED
  | A2TYPE_APPLE2C => .ok SS_YAML_VALUE_APPLE2C
  | A2TYPE_PRAVETS82 => .ok SS_YAML_VALUE_PRAVETS82
  | A2TYPE_PRAVETS8M => .ok SS_YAML_VALUE_PRAVETS8M
  | A2TYPE_PRAVETS8A => .ok SS_YAML_VALUE_PRAVETS8A
  | A2TYPE_TK30002E => .ok SS_YAML_VALUE_TK30002E
  | A2TYPE_OTHER _ => .error "Save: Unknown Apple2 type"

/-- The function `SetApple2Type` of the main module: it sets the machine variant and the default
main CPU type of that variant. -/
def SetApple2Type (env : Env) (type : eApple2Type) : Exec Unit := do
  call env (.SetApple2Type type)
  modify (fun m => { m with g_Apple2Type := type, mainCpu := env.defaultCpu type })

/-! ## Loading -/

/-- The function `ParseFileHdr`. -/
def ParseFileHdr (env : Env) (doc : Document) : Exec Nat := do
  match doc.hdrScalar with
  | none => raise (env.SS_YAML_KEY_FILEHDR ++ ": Failed to find scalar")
  | some scalar =>
    if scalar ≠ env.SS_YAML_KEY_FILEHDR then
      raise "Failed to find file header"
    else do
      let value ← readDoc doc.tag
      if value ≠ env.SS_YAML_VALUE_AWSS then
        raise (env.SS_YAML_KEY_FILEHDR ++ ": Bad tag")
      else
        readDoc doc.version

/-- The function `ParseUnitApple2`. -/
def ParseUnitApple2 (env : Env) (u : UnitDoc) (version : Nat) : Exec Unit := do
  if version = 0 ∨ version > UNIT_APPLE2_VER then
    raise (env.SS_YAML_KEY_UNIT ++ ": Apple2: Version mismatch")
  else do
    let model ← readDoc u.model
    let type ← readDoc (ParseApple2Type model)
    SetApple2Type env type
    modify (fun m => { m with m_ConfigNew := { m.m_ConfigNew with m_Apple2Type := m.g_Apple2Type } })
    let cpu ← callLoad .CpuLoadSnapshot u.cpu
    modify (fun m => { m with mainCpu := cpu })
    modify (fun m => { m with m_ConfigNew := { m.m_ConfigNew with m_CpuType := m.mainCpu } })
    callLoad .JoyLoadSnapshot u.joy
    callLoad (.KeybLoadSnapshot version) u.keyb
    callLoad .SpkrLoadSnapshot u.spkr
    callLoad .VideoLoadSnapshot u.video
    callLoad (.MemLoadSnapshot version) u.mem
    call env Event.VideoReinitialize
    call env .FrameUpdateApple2Type

/-- The dispatch on the card name in `ParseSlots`: the chain of comparisons, each branch
with the calls it makes; the result is the pair of the locals `bRes` and `type`. -/
def ParseSlots_card (env : Env) (e : SlotDoc) (slot : Nat) (card : String) (cardVersion : Nat) :
    Exec (Bool × SS_CARDTYPE) := do
  if card = env.Printer_GetSnapshotCardName then do
    let bRes ← callLoad (.Printer_LoadSnapshot slot cardVersion) e.load
    pure (bRes, CT_GenericPrinter)
  else if card = env.SSC_GetSnapshotCardName then do
    let bRes ← callLoad (.SSC_LoadSnapshot slot cardVersion) e.load
    pure (bRes, CT_SSC)
  else if card = env.Mouse_GetSnapshotCardName then do
    let bRes ← callLoad (.Mouse_LoadSnapshot slot cardVersion) e.load
    pure (bRes, CT_MouseInterface)
  else if card = env.Z80_GetSnapshotCardName then do
    let bRes ← callLoad (.Z80_LoadSnapshot slot cardVersion) e.load
    pure (bRes, CT_Z80)
  else if card = env.MB_GetSnapshotCardName then do
    let bRes ← callLoad (.MB_LoadSnapshot slot cardVersion) e.load
    pure (bRes, CT_MockingboardC)
  else if card = env.Phasor_GetSnapshotCardName then do
    let bRes ← callLoad (.Phasor_LoadSnapshot slot cardVersion) e.load
    pure (bRes, CT_Phasor)
  else if card = env.DiskGetSnapshotCardName then do
    let bRes ← callLoad (.DiskLoadSnapshot slot cardVersion) e.load
    pure (bRes, CT_Disk2)
  else if card = env.HD_GetSnapshotCardName then do
    let m ← getMachine
    let bRes ← callLoad (.HD_LoadSnapshot slot cardVersion m.g_strSaveStatePath) e.load
    modify (fun m => { m with m_ConfigNew := { m.m_ConfigNew with m_bEnableHDD := true } })
    pure (bRes, CT_GenericHDD)
  else if card = env.LanguageCardSlot0_GetSnapshotCardName then do
    call env (.SetExpansionMemType CT_LanguageCard)
    call env .CreateLanguageCard
    let bRes ← callLoad (.LanguageCard_LoadSnapshot slot cardVersion) e.load
    pure (bRes, CT_LanguageCard)
  else if card = env.Saturn128K_GetSnapshotCardName then do
    call env (.SetExpansionMemType CT_Saturn128K)
    call env .CreateLanguageCard
    let bRes ← callLoad (.LanguageCard_LoadSnapshot slot cardVersion) e.load
    pure (bRes, CT_Saturn128K)
  else
    raise ("Slots: Unknown card: " ++ card)

/-- One iteration of the loop of `ParseSlots`, after the test for the end of the slots. -/
def ParseSlots_entry (env : Env) (e : SlotDoc) : Exec Unit := do
  let slot : Int := toInt32 (strtoul e.key)
  if slot < 0 ∨ slot > 7 then
    raise ("Slots: Invalid slot #: " ++ e.key)
  else do
    let card ← readDoc e.card
    let cardVersion ← readDoc e.cardVersion
    if e.hasState = false then
      raise (env.SS_YAML_KEY_UNIT ++ ": Expected sub-map name: " ++ env.SS_YAML_KEY_STATE)
    else do
      let r ← ParseSlots_card env e slot.toNat card cardVersion
      if r.1 = true then
        modify (fun m => { m with m_ConfigNew :=
          { m.m_ConfigNew with m_Slot := Function.update m.m_ConfigNew.m_Slot slot.toNat r.2 } })
      else
        pure ()

/-- The loop `while (1)` of `ParseSlots` over the entries the reader yields: it ends when the
reader has no further entry or yields an empty key. -/
def ParseSlots_loop (env : Env) : List SlotDoc → Exec Unit
  | [] => pure ()
  | e :: rest =>
    if e.key = "" then pure ()
    else do
      ParseSlots_entry env e
      ParseSlots_loop env rest

/-- The function `ParseSlots`. -/
def ParseSlots (env : Env) (u : UnitDoc) (unitVersion : Nat) : Exec Unit :=
  if unitVersion ≠ UNIT_SLOTS_VER then
    raise (env.SS_YAML_KEY_UNIT ++ ": Slots: Version mismatch")
  else
    ParseSlots_loop env u.slots

/-- The function `ParseUnit`. Under `USE_RETROACHIEVEMENTS` the call of `ParseSlots` is guarded
by `if (!loading_state)`. -/
def ParseUnit (env : Env) (u : UnitDoc) (loading_state : Bool) : Exec Unit := do
  log (.ParseUnit loading_state)
  let unit ← readDoc u.type
  let unitVersion ← readDoc u.version
  if u.hasState = false then
    raise (env.SS_YAML_KEY_UNIT ++ ": Expected sub-map name: " ++ env.SS_YAML_KEY_STATE)
  else if unit = GetSnapshotUnitApple2Name then
    ParseUnitApple2 env u unitVersion
  else if unit = env.MemGetSnapshotUnitAuxSlotName then do
    let _ ← callLoad (.MemLoadSnapshotAux unitVersion) u.aux
    pure ()
  else if unit = GetSnapshotUnitSlotsName then
    if env.USE_RETROACHIEVEMENTS = true then
      if loading_state = false then ParseSlots env u unitVersion else pure ()
    else
      ParseSlots env u unitVersion
  else
    raise (env.SS_YAML_KEY_UNIT ++ ": Unknown type: " ++ unit)

/-- The loop `while (yamlHelper.GetScalar(scalar))` of `Snapshot_LoadState_v2`. -/
def Snapshot_LoadState_v2_units (env : Env) : List TopEntry → Exec Unit
  | [] => pure ()
  | t :: rest => do
    (if t.scalar = env.SS_YAML_KEY_UNIT then
      ParseUnit env t.unit true
    else
      raise ("Unknown top-level scalar: " ++ t.scalar))
    Snapshot_LoadState_v2_units env rest

/-- The guard `RA_WarnDisableHardcore`: the call is recorded and the answer returned. -/
def RA_WarnDisableHardcore (env : Env) (activity : String) : Exec Bool := fun m =>
  .ok env.guardAnswer { m with trace := m.trace ++ [Event.RA_WarnDisableHardcore activity] }

/-- The local `ConfigOld` of `Snapshot_LoadState_v2` after the four assignments to its slots. -/
def ConfigOld (env : Env) : CConfigNeedingRestart :=
  let c0 := env.ConfigOld
  let c1 := { c0 with m_Slot := Function.update c0.m_Slot 1 CT_GenericPrinter }
  let c2 := { c1 with m_Slot := Function.update c1.m_Slot 2 CT_SSC }
  let c6 := { c2 with m_Slot := Function.update c2.m_Slot 6 CT_Disk2 }
  { c6 with m_Slot :=
      Function.update c6.m_Slot 7 (if c6.m_bEnableHDD = true then CT_GenericHDD else CT_Empty) }

/-- The loop `for (UINT i=0; i<NUM_SLOTS; i++) m_Slot[i] = CT_Empty`. -/
def clearSlots (slots : Nat → SS_CARDTYPE) : Nat → SS_CARDTYPE :=
  (List.range NUM_SLOTS).foldl (fun f i => Function.update f i CT_Empty) slots

/-- The first part of the `try` block of `Snapshot_LoadState_v2`, up to `restart = true`: the
parser is opened, the file header checked and the guard asked. The result tells how the part
was left without a `throw`: `false` by the `return` after the guard declined, `true` at its
end. -/
def Snapshot_LoadState_v2_begin (env : Env) (doc : Document) : Exec Bool := do
  let m ← getMachine
  log (.InitParser m.g_strSaveStatePathname)
  if doc.initOk = false then
    raise "Failed to initialize parser or open file"
  else do
    let version ← ParseFileHdr env doc
    if version ≠ SS_FILE_VER then
      raise "Version mismatch"
    else do
      let proceed ← (if env.USE_RETROACHIEVEMENTS = true
        then RA_WarnDisableHardcore env "load a state" else pure true)
      if proceed = false then
        pure false
      else do
        modify (fun m => { m with restart := true })
        pure true

/-- The second part of the `try` block of `Snapshot_LoadState_v2`, from the declaration of
`ConfigOld` to `HD_SetEnabled(false)`: the new configuration is cleared and the subsystems are
reset. -/
def Snapshot_LoadState_v2_reset (env : Env) : Exec Unit := do
  modify (fun m => { m with m_ConfigNew :=
    { m.m_ConfigNew with m_Slot := clearSlots m.m_ConfigNew.m_Slot,
                         m_SlotAux := CT_Empty, m_bEnableHDD := false } })
  call env .MemReset
  call env .PravetsReset
  call env .DiskReset
  call env .HD_Reset
  call env .KeybReset
  call env .VideoResetState
  call env .MB_InitializeForLoadingSnapshot
  call env .SSC_CommReset
  (if env.USE_SPEECH_API = true then call env .Speech_Reset else pure ())
  call env Event.Mouse_Uninitialize
  call env .Mouse_Reset
  call env (.HD_SetEnabled false)

/-- The last part of the `try` block of `Snapshot_LoadState_v2`, from
`SetLoadedSaveStateFlag(true)` on. -/
def Snapshot_LoadState_v2_end (env : Env) : Exec Unit := do
  call env (.SetLoadedSaveStateFlag true)
  modify (fun m => { m with loadedSaveStateFlag := true })
  modify (fun m => { m with applied := some (m.m_ConfigNew, ConfigOld env) })
  call env .ApplyNewConfig
  call env .MemInitializeROM
  call env .MemInitializeCustomF8ROM
  call env Event.MemInitializeIO
  call env .MemInitializeCardExpansionRomFromSnapshot
  call env (.MemUpdatePaging true)
  if env.USE_RETROACHIEVEMENTS = true then do
    let m ← getMachine
    call env (.RA_OnLoadState m.g_strSaveStatePathname)
  else pure ()

/-- The part of the `try` block of `Snapshot_LoadState_v2` after `restart = true`: the resets,
the loop over the units, the last part. -/
def Snapshot_LoadState_v2_armed (env : Env) (doc : Document) : Exec Bool := do
  Snapshot_LoadState_v2_reset env
  Snapshot_LoadState_v2_units env doc.top
  Snapshot_LoadState_v2_end env
  pure true

/-- The `try` block of `Snapshot_LoadState_v2`. The result tells how the block was left without
a `throw`: `false` by the `return` after the guard declined, `true` at its end. -/
def Snapshot_LoadState_v2_try (env : Env) (doc : Document) : Exec Bool := do
  let proceed ← Snapshot_LoadState_v2_begin env doc
  if proceed = false then
    pure false
  else
    Snapshot_LoadState_v2_armed env doc

/-- The `catch` handler of `Snapshot_LoadState_v2`. -/
def Snapshot_LoadState_v2_catch (szMessage : String) (m : Machine) : Machine :=
  let m1 := { m with trace := m.trace ++ [Event.MessageBox szMessage "Load State"] }
  if m1.restart = true then
    { m1 with trace := m1.trace ++ [Event.PostMessage_WM_USER_RESTART] }
  else m1

/-- The function `Snapshot_LoadState_v2`. A `return` inside the `try` block leaves the function
at once; otherwise the statement after the `try`/`catch`, `yamlHelper.FinaliseParser()`, runs. -/
def Snapshot_LoadState_v2 (env : Env) (doc : Document) (m : Machine) : Machine :=
  match Snapshot_LoadState_v2_try env doc { m with restart := false } with
  | .ok false m1 => m1
  | .ok true m1 => { m1 with trace := m1.trace ++ [Event.FinaliseParser] }
  | .throw szMessage m1 =>
    let m2 := Snapshot_LoadState_v2_catch szMessage m1
    { m2 with trace := m2.trace ++ [Event.FinaliseParser] }

/-- The width of `size_t` on the Win32 target. -/
def SIZE_BITS : Nat := 32

/-- The text of the message box of `Snapshot_LoadState`. -/
def MSG_V1_UNSUPPORTED : String :=
  "Save-state v1 no longer supported.\n" ++
  "Please load using AppleWin 1.27, and re-save as a v2 state file."

/-- The function `Snapshot_LoadState`. -/
def Snapshot_LoadState (env : Env) (doc : Document) (m : Machine) : Machine :=
  let ext_aws : String := ".aws"
  let pos : Nat :=
    (m.g_strSaveStatePathname.length + (2 ^ SIZE_BITS - ext_aws.length)) % 2 ^ SIZE_BITS
  if string_find m.g_strSaveStatePathname ext_aws pos ≠ none then
    { m with trace := m.trace ++ [Event.MessageBox MSG_V1_UNSUPPORTED "Load State"] }
  else
    Snapshot_LoadState_v2 env doc m

/-! ## Saving -/

/-- The `try` block of `Snapshot_SaveState`. -/
def Snapshot_SaveState_try (env : Env) : Exec Unit := do
  let m ← getMachine
  call env (.YamlSaveHelper m.g_strSaveStatePathname)
  call env (.FileHdr SS_FILE_VER)
  -- Unit: Apple2
  call env (.UnitHdr GetSnapshotUnitApple2Name UNIT_APPLE2_VER)
  call env .Label_State
  let model ← readDoc (GetApple2TypeAsString m.g_Apple2Type)
  call env (.Save_Model model)
  call env .CpuSaveSnapshot
  call env .JoySaveSnapshot
  call env .KeybSaveSnapshot
  call env .SpkrSaveSnapshot
  call env .VideoSaveSnapshot
  call env .MemSaveSnapshot
  -- Unit: Aux slot
  call env .MemSaveSnapshotAux
  -- Unit: Slots
  call env (.UnitHdr GetSnapshotUnitSlotsName UNIT_SLOTS_VER)
  call env .Label_State
  (if m.g_Slot0 ≠ CT_Empty ∧ env.IsApple2PlusOrClone m.g_Apple2Type = true then
    call env .LanguageCard_SaveSnapshot
  else pure ())
  call env .Printer_SaveSnapshot
  call env .SSC_SaveSnapshot
  call env .Mouse_SaveSnapshot
  (if m.g_Slot4 = CT_Z80 then call env (.Z80_SaveSnapshot 4) else pure ())
  (if m.g_Slot5 = CT_Z80 then call env (.Z80_SaveSnapshot 5) else pure ())
  (if m.g_Slot4 = CT_MockingboardC then call env (.MB_SaveSnapshot 4) else pure ())
  (if m.g_Slot5 = CT_MockingboardC then call env (.MB_SaveSnapshot 5) else pure ())
  (if m.g_Slot4 = CT_Phasor then call env (.Phasor_SaveSnapshot 4) else pure ())
  call env .DiskSaveSnapshot
  call env .HD_SaveSnapshot
  if env.USE_RETROACHIEVEMENTS = true then
    call env (.RA_OnSaveState m.g_strSaveStatePathname)
  else pure ()

/-- The function `Snapshot_SaveState`. -/
def Snapshot_SaveState (env : Env) (m : Machine) : Machine :=
  match Snapshot_SaveState_try env m with
  | .ok _ m1 => m1
  | .throw szMessage m1 =>
    { m1 with trace := m1.trace ++ [Event.MessageBox szMessage "Save State"] }

/-! ## Concrete inputs -/

/-- A configuration with every slot empty. -/
def emptyConfig : CConfigNeedingRestart :=
  { m_Apple2Type := A2TYPE_APPLE2EENHANCED, m_CpuType := 2, m_Slot := fun _ => CT_Empty,
    m_SlotAux := CT_Empty, m_bEnableHDD := false }

/-- An enhanced //e with a Mockingboard in slot 4, about to load `C:\\A2\\game.aws.yaml`. -/
def machine0 : Machine :=
  { g_Apple2Type := A2TYPE_APPLE2EENHANCED, mainCpu := 2,
    g_Slot0 := CT_Empty, g_Slot4 := CT_MockingboardC, g_Slot5 := CT_Empty,
    g_strSaveStateFilename := "game.aws.yaml",
    g_strSaveStatePathname := "C:\\A2\\game.aws.yaml",
    g_strSaveStatePath := "C:\\A2\\",
    m_ConfigNew := emptyConfig, loadedSaveStateFlag := false, applied := none,
    restart := false, trace := [] }

/-- A RetroAchievements build in which no collaborator throws and the guard lets the load
proceed; the keys and names are those the emulator uses. -/
def envRA : Env :=
  { USE_RETROACHIEVEMENTS := true, USE_SPEECH_API := false, guardAnswer := true,
    SS_YAML_KEY_FILEHDR := "File_hdr", SS_YAML_VALUE_AWSS := "AppleWin Save State",
    SS_YAML_KEY_UNIT := "Unit", SS_YAML_KEY_STATE := "State",
    MemGetSnapshotUnitAuxSlotName := "Auxiliary Slot",
    Printer_GetSnapshotCardName := "Generic Printer",
    SSC_GetSnapshotCardName := "Super Serial Card",
    Mouse_GetSnapshotCardName := "Mouse Card",
    Z80_GetSnapshotCardName := "Z80",
    MB_GetSnapshotCardName := "Mockingboard C",
    Phasor_GetSnapshotCardName := "Phasor",
    DiskGetSnapshotCardName := "Disk][",
    HD_GetSnapshotCardName := "Generic HDD",
    LanguageCardSlot0_GetSnapshotCardName := "Language Card",
    Saturn128K_GetSnapshotCardName := "Saturn 128",
    defaultCpu := fun _ => 2,
    IsApple2PlusOrClone := fun t => decide (t = A2TYPE_APPLE2 ∨ t = A2TYPE_APPLE2PLUS),
    ConfigOld := emptyConfig, raises := fun _ => none }

/-- The same build without the RetroAchievements integration. -/
def envPlain : Env := { envRA with USE_RETROACHIEVEMENTS := false }

/-- The RetroAchievements build with a user who declines at the guard. -/
def envDecline : Env := { envRA with guardAnswer := false }

/-- A well-formed core-machine unit for an enhanced //e. -/
def unitApple2 : UnitDoc :=
  { type := .ok "Apple2", version := .ok 2, hasState := true,
    model := .ok "Enhanced Apple//e", cpu := .ok 2,
    joy := .ok (), keyb := .ok (), spkr := .ok (), video := .ok (), mem := .ok (),
    aux := .error "Unit: no aux state", slots := [] }

/-- A unit map with the given type, version and slot entries and no core-machine state. -/
def unitOf (type : String) (version : Nat) (slots : List SlotDoc) : UnitDoc :=
  { type := .ok type, version := .ok version, hasState := true,
    model := .error "Unit: Model: missing key", cpu := .error "Unit: CPU: missing key",
    joy := .ok (), keyb := .ok (), spkr := .ok (), video := .ok (), mem := .ok (),
    aux := .ok true, slots := slots }

/-- A slot entry with the given key and card name, version 1, whose handler succeeds. -/
def slotOf (key : String) (card : String) : SlotDoc :=
  { key := key, card := .ok card, cardVersion := .ok 1, hasState := true, load := .ok true }

/-- A document with a good file header of the given version and the given units. -/
def docOf (version : Nat) (units : List UnitDoc) : Document :=
  { initOk := true, hdrScalar := some "File_hdr", tag := .ok "AppleWin Save State",
    version := .ok version, top := units.map (fun u => { scalar := "Unit", unit := u }) }

/-- A document with a core-machine unit, a unit of the unknown type "Clock" and a slots unit. -/
def docClock : Document :=
  docOf 2 [unitApple2, unitOf "Clock" 1 [], unitOf "Slots" 1 [slotOf "6" "Disk]["]]

/-- An Apple ][+ about to load a snapshot. -/
def machinePlus : Machine := { machine0 with g_Apple2Type := A2TYPE_APPLE2PLUS, mainCpu := 1 }

/-- A document whose slots unit declares version 5, after a core-machine unit and an
auxiliary-slot unit. -/
def docSlotsV5 : Document :=
  docOf 2 [unitApple2, unitOf "Auxiliary Slot" 1 [], unitOf "Slots" 5 [slotOf "6" "Disk]["]]

/-- A slots unit with a printer in slot 1, a card of the unknown name "Clock Card" in slot 4 and
a disk controller in slot 6. -/
def unitSlotsClock : UnitDoc :=
  unitOf "Slots" 1
    [slotOf "1" "Generic Printer", slotOf "4" "Clock Card", slotOf "6" "Disk]["]

/-! ## Framing: what a run leaves alone -/

/-- A call into a subsystem of the emulator, as opposed to opening or closing the reader,
asking the guard, showing a message box or posting the restart message. -/
def Event.isSubsystem : Event → Bool
  | .InitParser _ => false
  | .FinaliseParser => false
  | .RA_WarnDisableHardcore _ => false
  | .MessageBox _ _ => false
  | .PostMessage_WM_USER_RESTART => false
  | _ => true

/-- A relation between the machine before and after a run that every step of a run respects:
it holds of no step at all, of steps one after another, and of the recording of a subsystem
call. -/
structure Frame (R : Machine → Machine → Prop) : Prop where
  refl : ∀ m, R m m
  trans : ∀ a b c, R a b → R b c → R a c
  event : ∀ m e, Event.isSubsystem e = true → R m { m with trace := m.trace ++ [e] }

/-- Changes of the slot table, the auxiliary slot and the hard-disk flag of `m_ConfigNew`
respect `R`. -/
def SlotsFree (R : Machine → Machine → Prop) : Prop :=
  ∀ (m : Machine) (f : Nat → SS_CARDTYPE) (a : SS_CARDTYPE) (b : Bool),
    R m { m with m_ConfigNew := { m.m_ConfigNew with m_Slot := f, m_SlotAux := a, m_bEnableHDD := b } }

/-- Changes of the hard-disk flag of `m_ConfigNew` respect `R`. -/
def HddFree (R : Machine → Machine → Prop) : Prop :=
  ∀ (m : Machine) (b : Bool),
    R m { m with m_ConfigNew := { m.m_ConfigNew with m_bEnableHDD := b } }

/-- The slot number `ParseSlots` computes from the key of an entry (once it is known to lie in
0..7). -/
def slotNumber (e : SlotDoc) : Nat := (toInt32 (strtoul e.key)).toNat

/-- Writes to entry `s` of the slot table of `m_ConfigNew` respect `R`. -/
def SlotWritable (R : Machine → Machine → Prop) (s : Nat) : Prop :=
  ∀ (m : Machine) (t : SS_CARDTYPE),
    R m { m with m_ConfigNew :=
      { m.m_ConfigNew with m_Slot := Function.update m.m_ConfigNew.m_Slot s t } }

/-- Changes of the flag behind `SetLoadedSaveStateFlag` and of the recorded arguments of
`ApplyNewConfig` respect `R`. -/
def FlagFree (R : Machine → Machine → Prop) : Prop :=
  ∀ (m : Machine) (b : Bool) (a : Option (CConfigNeedingRestart × CConfigNeedingRestart)),
    R m { m with loadedSaveStateFlag := b, applied := a }

/-- Changes of the machine variant and main CPU type, live and in `m_ConfigNew`, respect `R`. -/
def ModelFree (R : Machine → Machine → Prop) : Prop :=
  ∀ (m : Machine) (t t1 : eApple2Type) (cpu cpu1 : eCpuType),
    R m { m with
      g_Apple2Type := t
      mainCpu := cpu
      m_ConfigNew := { m.m_ConfigNew with m_Apple2Type := t1, m_CpuType := cpu1 } }

/-- Every run of `x` respects `R`, whether it returns or throws. -/
def Keeps {α : Type} (R : Machine → Machine → Prop) (x : Exec α) : Prop :=
  ∀ m, R m (x m).machine

/-- The machine after a run keeps `restart` and has only subsystem calls added to the record. -/
def OnlySubsystemCalls (m m1 : Machine) : Prop :=
  m1.restart = m.restart ∧
    ∃ evs, m1.trace = m.trace ++ evs ∧ ∀ e ∈ evs, Event.isSubsystem e = true

/-- The load up to the end of the parsing of the units `pre`: the first part of the `try` block,
the resets, and the loop over `pre`. The result is `false` when the guard declined. -/
def loadUpTo (env : Env) (doc : Document) (pre : List TopEntry) : Exec Bool := do
  let proceed ← Snapshot_LoadState_v2_begin env doc
  if proceed = false then
    pure false
  else do
    Snapshot_LoadState_v2_reset env
    Snapshot_LoadState_v2_units env pre
    pure true

/-- The machine after a run has the machine variant and main CPU type, live and in
`m_ConfigNew`, that it had before. -/
def SameModel (m m1 : Machine) : Prop :=
  m1.g_Apple2Type = m.g_Apple2Type ∧ m1.mainCpu = m.mainCpu ∧
    m1.m_ConfigNew.m_Apple2Type = m.m_ConfigNew.m_Apple2Type ∧
    m1.m_ConfigNew.m_CpuType = m.m_ConfigNew.m_CpuType

/-- The ten card names that `ParseSlots` compares a card name with, in the order of the chain. -/
def knownCardNames (env : Env) : List String :=
  [env.Printer_GetSnapshotCardName, env.SSC_GetSnapshotCardName, env.Mouse_GetSnapshotCardName,
   env.Z80_GetSnapshotCardName, env.MB_GetSnapshotCardName, env.Phasor_GetSnapshotCardName,
   env.DiskGetSnapshotCardName, env.HD_GetSnapshotCardName,
   env.LanguageCardSlot0_GetSnapshotCardName, env.Saturn128K_GetSnapshotCardName]

/-- The card type that the chain of comparisons of `ParseSlots` assigns to a card name: the
type of the first name of the chain that the card name equals. -/
def cardTypeOfName (env : Env) (card : String) : Option SS_CARDTYPE :=
  if card = env.Printer_GetSnapshotCardName then some CT_GenericPrinter
  else if card = env.SSC_GetSnapshotCardName then some CT_SSC
  else if card = env.Mouse_GetSnapshotCardName then some CT_MouseInterface
  else if card = env.Z80_GetSnapshotCardName then some CT_Z80
  else if card = env.MB_GetSnapshotCardName then some CT_MockingboardC
  else if card = env.Phasor_GetSnapshotCardName then some CT_Phasor
  else if card = env.DiskGetSnapshotCardName then some CT_Disk2
  else if card = env.HD_GetSnapshotCardName then some CT_GenericHDD
  else if card = env.LanguageCardSlot0_GetSnapshotCardName then some CT_LanguageCard
  else if card = env.Saturn128K_GetSnapshotCardName then some CT_Saturn128K
  else none

/-- The slot table of `m_ConfigNew` after a run is the one before it. -/
def SameSlots (m m1 : Machine) : Prop := m1.m_ConfigNew.m_Slot = m.m_ConfigNew.m_Slot

/-- Entry `s` of the slot table of `m_ConfigNew` after a run is the one before it. -/
def SameSlot (s : Nat) (m m1 : Machine) : Prop :=
  m1.m_ConfigNew.m_Slot s = m.m_ConfigNew.m_Slot s

/-! ## Saving, and loading what was saved -/

/-- Modelled from the spec: the entry that the save routine of a card handler writes into the
state map of the peripheral-slots unit (the spec's PeripheralSlot: slot number, card type name,
card version, card state). The save routines are not in the sources. The entry is well formed:
the key is the slot number in decimal, the state sub-map is there, and the load routine of the
same card accepts it. -/
def savedSlotEntry (slot : Nat) (card : String) : SlotDoc :=
  { key := toString slot, card := .ok card, cardVersion := .ok 1, hasState := true,
    load := .ok true }

/-- Modelled from the spec: the entries that the routine behind each save call of the slots part
of `Snapshot_SaveState` writes, "conditioned on which card type currently occupies that slot".
`hd` is the answer of `HD_CardIsEnabled()` when the snapshot is saved. The slots of the calls
without a slot argument are those `Snapshot_LoadState_v2` assumes for `ConfigOld` (printer 1,
serial card 2, disk controller 6, hard disk 7) and those of the globals that name the card
(`g_Slot0` for the language card or Saturn card, `g_Slot4` for the mouse card). -/
def savedSlots (env : Env) (m : Machine) (hd : Bool) : Event → List SlotDoc
  | .LanguageCard_SaveSnapshot =>
    [savedSlotEntry 0 (if m.g_Slot0 = CT_Saturn128K then env.Saturn128K_GetSnapshotCardName
      else env.LanguageCardSlot0_GetSnapshotCardName)]
  | .Printer_SaveSnapshot => [savedSlotEntry 1 env.Printer_GetSnapshotCardName]
  | .SSC_SaveSnapshot => [savedSlotEntry 2 env.SSC_GetSnapshotCardName]
  | .Mouse_SaveSnapshot =>
    if m.g_Slot4 = CT_MouseInterface then [savedSlotEntry 4 env.Mouse_GetSnapshotCardName] else []
  | .Z80_SaveSnapshot slot => [savedSlotEntry slot env.Z80_GetSnapshotCardName]
  | .MB_SaveSnapshot slot => [savedSlotEntry slot env.MB_GetSnapshotCardName]
  | .Phasor_SaveSnapshot slot => [savedSlotEntry slot env.Phasor_GetSnapshotCardName]
  | .DiskSaveSnapshot => [savedSlotEntry 6 env.DiskGetSnapshotCardName]
  | .HD_SaveSnapshot => if hd = true then [savedSlotEntry 7 env.HD_GetSnapshotCardName] else []
  | _ => []

/-- A unit map with a header and nothing else. -/
def blankUnit (type : String) (version : Nat) : UnitDoc :=
  { type := .ok type, version := .ok version, hasState := false,
    model := .error "Type mismatch or missing key", cpu := .error "Type mismatch or missing key",
    joy := .error "Type mismatch or missing key", keyb := .error "Type mismatch or missing key",
    spkr := .error "Type mismatch or missing key", video := .error "Type mismatch or missing key",
    mem := .error "Type mismatch or missing key", aux := .error "Type mismatch or missing key",
    slots := [] }

/-- Change the unit written last; the units are kept newest first while the document is
written. -/
def updateUnit (f : UnitDoc → UnitDoc) : List TopEntry → List TopEntry
  | [] => []
  | t :: rest => { t with unit := f t.unit } :: rest

/-- Modelled from the spec: what one call of the save adds to the document being written (its
units newest first). The YAML writer and the save routines of the subsystems are not in the
sources; each subsystem writes its own block into the unit that is open, the block is one its
load routine accepts, and the auxiliary-memory routine writes a unit of its own. -/
def written (env : Env) (m : Machine) (hd : Bool) (d : Document) (e : Event) : Document :=
  match e with
  | .YamlSaveHelper _ => { d with initOk := true }
  | .FileHdr version =>
    { d with hdrScalar := some env.SS_YAML_KEY_FILEHDR, tag := .ok env.SS_YAML_VALUE_AWSS,
             version := .ok version }
  | .UnitHdr type version =>
    { d with top := { scalar := env.SS_YAML_KEY_UNIT, unit := blankUnit type version } :: d.top }
  | .Label_State => { d with top := updateUnit (fun u => { u with hasState := true }) d.top }
  | .Save_Model model => { d with top := updateUnit (fun u => { u with model := .ok model }) d.top }
  | .CpuSaveSnapshot => { d with top := updateUnit (fun u => { u with cpu := .ok m.mainCpu }) d.top }
  | .JoySaveSnapshot => { d with top := updateUnit (fun u => { u with joy := .ok () }) d.top }
  | .KeybSaveSnapshot => { d with top := updateUnit (fun u => { u with keyb := .ok () }) d.top }
  | .SpkrSaveSnapshot => { d with top := updateUnit (fun u => { u with spkr := .ok () }) d.top }
  | .VideoSaveSnapshot => { d with top := updateUnit (fun u => { u with video := .ok () }) d.top }
  | .MemSaveSnapshot => { d with top := updateUnit (fun u => { u with mem := .ok () }) d.top }
  | .MemSaveSnapshotAux =>
    { d with top := { scalar := env.SS_YAML_KEY_UNIT,
                      unit := { blankUnit env.MemGetSnapshotUnitAuxSlotName 1 with
                                hasState := true, aux := .ok true } } :: d.top }
  | e =>
    { d with top := updateUnit (fun u => { u with slots := u.slots ++ savedSlots env m hd e }) d.top }

/-- Modelled from the spec: the document that a later load reads after the calls `events` of a
save on the machine `m`. -/
def writtenDocument (env : Env) (m : Machine) (hd : Bool) (events : List Event) : Document :=
  let d := events.foldl (written env m hd)
    { initOk := false, hdrScalar := none, tag := .error "no document",
      version := .error "no document", top := [] }
  { d with top := d.top.reverse }

/-- The document that `Snapshot_SaveState` on `m` leaves for a later load. -/
def savedDocument (env : Env) (m : Machine) (hd : Bool) : Document :=
  writtenDocument env m hd ((Snapshot_SaveState env m).trace.drop m.trace.length)

/-- The card in each slot of the live machine when it is saved: slots 0, 4 and 5 hold what the
globals `g_Slot0`, `g_Slot4` and `g_Slot5` name; slots 1, 2, 6 and 7 hold what
`Snapshot_LoadState_v2` assigns to `ConfigOld` for the machine before a load (printer, serial
card, disk controller, and the hard disk when `hd`, the answer of `HD_CardIsEnabled()`, is
true); slot 3 is empty. -/
def liveSlot (m : Machine) (hd : Bool) (slot : Nat) : SS_CARDTYPE :=
  if slot = 0 then m.g_Slot0
  else if slot = 1 then CT_GenericPrinter
  else if slot = 2 then CT_SSC
  else if slot = 4 then m.g_Slot4
  else if slot = 5 then m.g_Slot5
  else if slot = 6 then CT_Disk2
  else if slot = 7 then (if hd = true then CT_GenericHDD else CT_Empty)
  else CT_Empty

/-- A save call of the slots part (or the notification after it): in the document it only
adds entries to the slots of the unit that is open. -/
def Event.isCardSave : Event → Bool
  | .LanguageCard_SaveSnapshot => true
  | .Printer_SaveSnapshot => true
  | .SSC_SaveSnapshot => true
  | .Mouse_SaveSnapshot => true
  | .Z80_SaveSnapshot _ => true
  | .MB_SaveSnapshot _ => true
  | .Phasor_SaveSnapshot _ => true
  | .DiskSaveSnapshot => true
  | .HD_SaveSnapshot => true
  | .RA_OnSaveState _ => true
  | _ => false

/-- The core-machine unit that a save writes for a machine variant with the name `model` and
the main CPU type `cpu`. -/
def savedCoreUnit (model : String) (cpu : eCpuType) : UnitDoc :=
  { type := .ok GetSnapshotUnitApple2Name, version := .ok UNIT_APPLE2_VER, hasState := true,
    model := .ok model, cpu := .ok cpu, joy := .ok (), keyb := .ok (), spkr := .ok (),
    video := .ok (), mem := .ok (), aux := .error "Type mismatch or missing key", slots := [] }

/-- The auxiliary-slot unit that a save writes. -/
def savedAuxUnit (env : Env) : UnitDoc :=
  { blankUnit env.MemGetSnapshotUnitAuxSlotName 1 with hasState := true, aux := .ok true }

/-- The slots unit that a save writes with the entries `slots`. -/
def savedSlotsUnit (slots : List SlotDoc) : UnitDoc :=
  { blankUnit GetSnapshotUnitSlotsName UNIT_SLOTS_VER with hasState := true, slots := slots }

/-- The document with a good file header and the three units of a save, in the order of the
save: core machine, auxiliary slot, slots. -/
def savedDocumentOf (env : Env) (model : String) (cpu : eCpuType) (slots : List SlotDoc) :
    Document :=
  { initOk := true, hdrScalar := some env.SS_YAML_KEY_FILEHDR,
    tag := .ok env.SS_YAML_VALUE_AWSS, version := .ok SS_FILE_VER,
    top := [{ scalar := env.SS_YAML_KEY_UNIT, unit := savedCoreUnit model cpu },
            { scalar := env.SS_YAML_KEY_UNIT, unit := savedAuxUnit env },
            { scalar := env.SS_YAML_KEY_UNIT, unit := savedSlotsUnit slots }] }

/-- An entry of the slots map that `ParseSlots` parses without error when no call throws: the
key is not empty and gives a slot number in 0..7, the card name is one of the chain, the version
and the state sub-map are there, and the load routine returns true. -/
def GoodSlot (env : Env) (e : SlotDoc) : Prop :=
  e.key ≠ "" ∧ 0 ≤ toInt32 (strtoul e.key) ∧ toInt32 (strtoul e.key) ≤ 7 ∧
    (∃ card t, e.card = .ok card ∧ cardTypeOfName env card = some t) ∧
    (∃ v, e.cardVersion = .ok v) ∧ e.hasState = true ∧ e.load = .ok true

/-- The card type that `ParseSlots` records for an entry, if the card name is one of the chain. -/
def cardTypeOf (env : Env) (e : SlotDoc) : Option SS_CARDTYPE :=
  match e.card with
  | .ok card => cardTypeOfName env card
  | .error _ => none

/-- The slot table after the entries `l` were recorded one after the other. -/
def recorded (env : Env) (l : List SlotDoc) (init : Nat → SS_CARDTYPE) : Nat → SS_CARDTYPE :=
  l.foldl (fun f e => match cardTypeOf env e with
    | some t => Function.update f (slotNumber e) t
    | none => f) init

/-- The live configuration is one the save covers: the machine variant has a name, slot 0 is
empty or holds a language card or Saturn card in a machine of the ][ or ][+ kind, slot 4 is empty
or holds a mouse card, Z80 card, Mockingboard or Phasor, slot 5 is empty or holds a Z80 card or
Mockingboard. -/
def ValidLive (env : Env) (m : Machine) : Prop :=
  (∃ model, GetApple2TypeAsString m.g_Apple2Type = .ok model) ∧
  (m.g_Slot0 = CT_Empty ∨ ((m.g_Slot0 = CT_LanguageCard ∨ m.g_Slot0 = CT_Saturn128K) ∧
    env.IsApple2PlusOrClone m.g_Apple2Type = true)) ∧
  (m.g_Slot4 = CT_Empty ∨ m.g_Slot4 = CT_MouseInterface ∨ m.g_Slot4 = CT_Z80 ∨
    m.g_Slot4 = CT_MockingboardC ∨ m.g_Slot4 = CT_Phasor) ∧
  (m.g_Slot5 = CT_Empty ∨ m.g_Slot5 = CT_Z80 ∨ m.g_Slot5 = CT_MockingboardC)

/-- The names that the dispatches of the load compare are pairwise different: the ten card
names among themselves, and the name of the auxiliary-slot unit from "Apple2" and "Slots". -/
def NamesDistinct (env : Env) : Prop :=
  (knownCardNames env).Nodup ∧
    env.MemGetSnapshotUnitAuxSlotName ≠ GetSnapshotUnitApple2Name ∧
    env.MemGetSnapshotUnitAuxSlotName ≠ GetSnapshotUnitSlotsName

instance (env : Env) : Decidable (NamesDistinct env) :=
  inferInstanceAs (Decidable (_ ∧ _ ∧ _))

/-- Every run of `x` returns and adds exactly the calls `l` to the record, changing nothing
else. -/
def Emits (x : Exec Unit) (l : List Event) : Prop :=
  ∀ m, x m = .ok () { m with trace := m.trace ++ l }

/-- The calls of the slots part of a save: which save routines of cards run. -/
def slotCalls (env : Env) (m : Machine) : List Event :=
  (if m.g_Slot0 ≠ CT_Empty ∧ env.IsApple2PlusOrClone m.g_Apple2Type = true
    then [Event.LanguageCard_SaveSnapshot] else []) ++
  [Event.Printer_SaveSnapshot, Event.SSC_SaveSnapshot, Event.Mouse_SaveSnapshot] ++
  (if m.g_Slot4 = CT_Z80 then [Event.Z80_SaveSnapshot 4] else []) ++
  (if m.g_Slot5 = CT_Z80 then [Event.Z80_SaveSnapshot 5] else []) ++
  (if m.g_Slot4 = CT_MockingboardC then [Event.MB_SaveSnapshot 4] else []) ++
  (if m.g_Slot5 = CT_MockingboardC then [Event.MB_SaveSnapshot 5] else []) ++
  (if m.g_Slot4 = CT_Phasor then [Event.Phasor_SaveSnapshot 4] else []) ++
  [Event.DiskSaveSnapshot, Event.HD_SaveSnapshot]

/-- The calls of a save in which nothing throws, for a machine variant with the name `model`. -/
def saveCalls (env : Env) (m : Machine) (model : String) : List Event :=
  [Event.YamlSaveHelper m.g_strSaveStatePathname, Event.FileHdr SS_FILE_VER,
   Event.UnitHdr GetSnapshotUnitApple2Name UNIT_APPLE2_VER, Event.Label_State,
   Event.Save_Model model, Event.CpuSaveSnapshot, Event.JoySaveSnapshot,
   Event.KeybSaveSnapshot, Event.SpkrSaveSnapshot, Event.VideoSaveSnapshot,
   Event.MemSaveSnapshot, Event.MemSaveSnapshotAux,
   Event.UnitHdr GetSnapshotUnitSlotsName UNIT_SLOTS_VER, Event.Label_State] ++
  slotCalls env m ++
  (if env.USE_RETROACHIEVEMENTS = true then [Event.RA_OnSaveState m.g_strSaveStatePathname]
    else [])

/-! ## Model names and a stray top-level scalar -/

/-- The nine machine variants that have a model name. -/
def namedApple2Types : List eApple2Type :=
  [A2TYPE_APPLE2, A2TYPE_APPLE2PLUS, A2TYPE_APPLE2E, A2TYPE_APPLE2EENHANCED, A2TYPE_APPLE2C,
   A2TYPE_PRAVETS82, A2TYPE_PRAVETS8M, A2TYPE_PRAVETS8A, A2TYPE_TK30002E]

/-- The nine model names, in the order of the chain of `ParseApple2Type`. -/
def apple2TypeNames : List String :=
  [SS_YAML_VALUE_APPLE2, SS_YAML_VALUE_APPLE2PLUS, SS_YAML_VALUE_APPLE2E,
   SS_YAML_VALUE_APPLE2EENHANCED, SS_YAML_VALUE_APPLE2C, SS_YAML_VALUE_PRAVETS82,
   SS_YAML_VALUE_PRAVETS8M, SS_YAML_VALUE_PRAVETS8A, SS_YAML_VALUE_TK30002E]

/-- A document with a core-machine unit followed by a top-level scalar "Comment" and a slots
unit. -/
def docStray : Document :=
  { docOf 2 [] with
    top := [{ scalar := "Unit", unit := unitApple2 },
            { scalar := "Comment", unit := unitOf "Slots" 1 [] },
            { scalar := "Unit", unit := unitOf "Slots" 1 [slotOf "6" "Disk]["] }] }

/-! ## Slot keys and the dispatch on the card name -/

/-- The calls that the branch of the dispatch of `ParseSlots` for the card type `t` makes, for
the slot number `slot`, the card version `cardVersion` and the directory `path` of the snapshot:
the load routine of the card, after the two calls that create the card for a language card or
Saturn card. -/
def cardLoadCalls (t : SS_CARDTYPE) (slot cardVersion : Nat) (path : String) : List Event :=
  match t with
  | CT_GenericPrinter => [Event.Printer_LoadSnapshot slot cardVersion]
  | CT_SSC => [Event.SSC_LoadSnapshot slot cardVersion]
  | CT_MouseInterface => [Event.Mouse_LoadSnapshot slot cardVersion]
  | CT_Z80 => [Event.Z80_LoadSnapshot slot cardVersion]
  | CT_MockingboardC => [Event.MB_LoadSnapshot slot cardVersion]
  | CT_Phasor => [Event.Phasor_LoadSnapshot slot cardVersion]
  | CT_Disk2 => [Event.DiskLoadSnapshot slot cardVersion]
  | CT_GenericHDD => [Event.HD_LoadSnapshot slot cardVersion path]
  | CT_LanguageCard =>
    [Event.SetExpansionMemType CT_LanguageCard, Event.CreateLanguageCard,
     Event.LanguageCard_LoadSnapshot slot cardVersion]
  | CT_Saturn128K =>
    [Event.SetExpansionMemType CT_Saturn128K, Event.CreateLanguageCard,
     Event.LanguageCard_LoadSnapshot slot cardVersion]
  | _ => []

instance (env : Env) (e : SlotDoc) : Decidable (GoodSlot env e) :=
  decidable_of_iff
    (e.key ≠ "" ∧ 0 ≤ toInt32 (strtoul e.key) ∧ toInt32 (strtoul e.key) ≤ 7 ∧
      (cardTypeOf env e).isSome = true ∧ (e.cardVersion.toOption).isSome = true ∧
      e.hasState = true ∧ e.load = .ok true)
    (by
      unfold GoodSlot cardTypeOf
      constructor
      · rintro ⟨h1, h2, h3, h4, h5, h6, h7⟩
        refine ⟨h1, h2, h3, ?_, ?_, h6, h7⟩
        · cases hc : e.card with
          | error msg => rw [hc] at h4; simp at h4
          | ok card =>
            rw [hc] at h4
            obtain ⟨t, ht⟩ := Option.isSome_iff_exists.1 h4
            exact ⟨card, t, rfl, ht⟩
        · cases hv : e.cardVersion with
          | error msg => rw [hv] at h5; simp [Except.toOption] at h5
          | ok v => exact ⟨v, rfl⟩
      · rintro ⟨h1, h2, h3, ⟨card, t, hc, ht⟩, ⟨v, hv⟩, h6, h7⟩
        refine ⟨h1, h2, h3, ?_, ?_, h6, h7⟩
        · rw [hc]; simp [ht]
        · rw [hv]; simp [Except.toOption])

/-- A slots unit with a disk controller in slot 6 and then an entry with the key "8". -/
def unitSlotsEight : UnitDoc :=
  unitOf "Slots" 1 [slotOf "6" "Disk][", slotOf "8" "Z80", slotOf "1" "Generic Printer"]

/-- A slots unit whose keys are not unsigned decimal text: "abc", "3x" and "+5". -/
def unitSlotsText : UnitDoc :=
  unitOf "Slots" 1 [slotOf "abc" "Generic Printer", slotOf "3x" "Z80", slotOf "+5" "Mockingboard C"]

/-! ## The hard disk in a loaded configuration -/

/-- Whether one of the entries is an entry of the hard disk card. -/
def hddListed (env : Env) (l : List SlotDoc) : Bool :=
  l.any (fun e => decide (cardTypeOf env e = some CT_GenericHDD))

/-- The slot entries of the scenario: a disk controller in slot 6 and a hard disk in slot 7. -/
def slotsDiskHdd : List SlotDoc := [slotOf "6" "Disk][", slotOf "7" "Generic HDD"]

/-! ## The order of the blocks -/

/-- The blocks of the core-machine unit. -/
inductive CoreBlock where
  | model
  | cpu
  | joystick
  | keyboard
  | speaker
  | video
  | memory
  deriving DecidableEq, Repr

/-- The block of the core-machine unit that a call of the save writes. -/
def Event.savedBlock : Event → Option CoreBlock
  | .Save_Model _ => some .model
  | .CpuSaveSnapshot => some .cpu
  | .JoySaveSnapshot => some .joystick
  | .KeybSaveSnapshot => some .keyboard
  | .SpkrSaveSnapshot => some .speaker
  | .VideoSaveSnapshot => some .video
  | .MemSaveSnapshot => some .memory
  | _ => none

/-- The block of the core-machine unit that a call of `ParseUnitApple2` follows: the load
routines read their own block, and `SetApple2Type` is called with the model that was read in the
same statement. -/
def Event.loadedBlock : Event → Option CoreBlock
  | .SetApple2Type _ => some .model
  | .CpuLoadSnapshot => some .cpu
  | .JoyLoadSnapshot => some .joystick
  | .KeybLoadSnapshot _ => some .keyboard
  | .SpkrLoadSnapshot => some .speaker
  | .VideoLoadSnapshot => some .video
  | .MemLoadSnapshot _ => some .memory
  | _ => none

/-- Every run of `x` that returns has added exactly the calls `l` to the record. -/
def TraceOk {α : Type} (x : Exec α) (l : List Event) : Prop :=
  ∀ m a m1, x m = .ok a m1 → m1.trace = m.trace ++ l

/-! ## The path name of the snapshot -/

/-- The last position of the character `c` in a list of characters, if it occurs. -/
def lastIndexOf (c : Char) : List Char → Option Nat
  | [] => none
  | x :: xs =>
    match lastIndexOf c xs with
    | some i => some (i + 1)
    | none => if x = c then some 0 else none

/-- The member `std::string::find_last_of(char)` as a `size_t` of the Win32 target: the last
position of the character, `npos` (all bits set) when it does not occur. -/
def find_last_of (s : String) (c : Char) : Nat :=
  match lastIndexOf c s.toList with
  | some i => i
  | none => 2 ^ SIZE_BITS - 1

/-- The `std::string` made from a `const char*` that points at the characters `cs` of a buffer
ending in a NUL: the characters before the first NUL. -/
def fromCString (cs : List Char) : String :=
  String.mk (cs.takeWhile (fun c => c ≠ '\x00'))

/-- The function `Snapshot_SetFilename`. `g_sCurrentDir` is a global of another module. The
index `nIdx` is an `int`: the `size_t` that `find_last_of` returns is converted, so `npos`
becomes -1; the sum `nIdx+1` is within `int` for every string shorter than 2^31 characters. The
file name is assigned from the pointer `&strPathname[nIdx+1]`, that is as a C string. -/
def Snapshot_SetFilename (g_sCurrentDir : String) (strPathname : String) (m : Machine) :
    Machine :=
  if strPathname = "" then
    let pathname := g_sCurrentDir
    let pathname1 :=
      if pathname.length ≠ 0 ∧ pathname.toList.getLast? ≠ some '\\' then pathname ++ "\\"
      else pathname
    { m with g_strSaveStateFilename := DEFAULT_SNAPSHOT_NAME
             g_strSaveStatePathname := pathname1 ++ DEFAULT_SNAPSHOT_NAME
             g_strSaveStatePath := g_sCurrentDir }
  else
    let nIdx : Int := toInt32 (find_last_of strPathname '\\')
    if nIdx ≥ 0 ∧ nIdx + 1 < toInt32 strPathname.length then
      { m with g_strSaveStateFilename := fromCString (strPathname.toList.drop (nIdx + 1).toNat)
               g_strSaveStatePath := String.mk (strPathname.toList.take (nIdx + 1).toNat)
               g_strSaveStatePathname := strPathname }
    else
      { m with g_strSaveStateFilename := strPathname
               g_strSaveStatePath := ""
               g_strSaveStatePathname := strPathname }

/-! ## Loading at startup -/

/-- The state that `Snapshot_Startup` works on: the machine, the function-static `bDone`, and a
count of the calls of `Snapshot_LoadState` made so far (kept for the statements only). -/
structure StartupState where
  machine : Machine
  bDone : Bool
  loads : Nat

/-- The function `Snapshot_Startup`, called while the global `g_bSaveStateOnExit` has the given
value and the snapshot file holds `doc`. -/
def Snapshot_Startup (env : Env) (doc : Document) (g_bSaveStateOnExit : Bool)
    (s : StartupState) : StartupState :=
  if g_bSaveStateOnExit = false ∨ s.bDone = true then s
  else
    { machine := Snapshot_LoadState env doc s.machine, bDone := true, loads := s.loads + 1 }

/-- What happens between and at the calls of `Snapshot_Startup`: a call, with the value of
`g_bSaveStateOnExit` and the document at that time, or anything else the emulator does to the
machine (a restart, for instance), which cannot reach the function-static `bDone`. -/
inductive StartupStep where
  | call (g_bSaveStateOnExit : Bool) (doc : Document)
  | other (f : Machine → Machine)

/-- One step of a run of the emulator. -/
def startupStep (env : Env) (s : StartupState) : StartupStep → StartupState
  | .call flag doc => Snapshot_Startup env doc flag s
  | .other f => { s with machine := f s.machine }

/-- A sequence of steps, from the first to the last. -/
def startupRun (env : Env) (steps : List StartupStep) (s : StartupState) : StartupState :=
  steps.foldl (startupStep env) s

/-- Whether a step is a call of `Snapshot_Startup` made while `g_bSaveStateOnExit` is true. -/
def StartupStep.isArmedCall : StartupStep → Bool
  | .call flag _ => flag
  | .other _ => false

/-! ## Runs that make only some calls -/

/-- A relation between the machine before and after a run that holds across every call whose
event satisfies `P`, whatever the call returns. -/
structure Steps (P : Event → Bool) (R : Machine → Machine → Prop) : Prop where
  refl : ∀ m, R m m
  trans : ∀ a b c, R a b → R b c → R a c
  event : ∀ m e, P e = true → R m { m with trace := m.trace ++ [e] }

/-- The calls of the load routines of the card handlers, and the two calls that prepare the
language card. -/
def Event.isCardLoad : Event → Bool
  | .Printer_LoadSnapshot _ _ => true
  | .SSC_LoadSnapshot _ _ => true
  | .Mouse_LoadSnapshot _ _ => true
  | .Z80_LoadSnapshot _ _ => true
  | .MB_LoadSnapshot _ _ => true
  | .Phasor_LoadSnapshot _ _ => true
  | .DiskLoadSnapshot _ _ => true
  | .HD_LoadSnapshot _ _ _ => true
  | .SetExpansionMemType _ => true
  | .CreateLanguageCard => true
  | .LanguageCard_LoadSnapshot _ _ => true
  | _ => false

/-- The machine after a run has the slot table, auxiliary slot and hard-disk flag of
`m_ConfigNew` that it had before, and no call of a card handler was added to the record. -/
def SlotsUntouched (m m1 : Machine) : Prop :=
  m1.m_ConfigNew.m_Slot = m.m_ConfigNew.m_Slot ∧
    m1.m_ConfigNew.m_SlotAux = m.m_ConfigNew.m_SlotAux ∧
    m1.m_ConfigNew.m_bEnableHDD = m.m_ConfigNew.m_bEnableHDD ∧
    ∃ evs, m1.trace = m.trace ++ evs ∧ ∀ e ∈ evs, Event.isCardLoad e = false

/-! ## The hard-disk flag and the slot table -/

/-- The entries of the state block of a slots unit that the loop of `ParseSlots` reaches: those
before the first empty key. -/
def reachedSlots (u : UnitDoc) : List SlotDoc :=
  u.slots.takeWhile (fun e => decide (e.key ≠ ""))

/-- A hard disk entry for slot 7 whose load routine returns false. -/
def slotHddRefused : SlotDoc :=
  { key := "7", card := .ok "Generic HDD", cardVersion := .ok 1, hasState := true,
    load := .ok false }

/-- A slots unit whose only entry is a hard disk entry that the load routine refuses. -/
def unitHddRefused : UnitDoc := unitOf "Slots" 1 [slotHddRefused]

/-- A slots unit with a hard disk entry under the key "07" and a Z80 card entry under the key
"7": both keys give slot 7. -/
def unitHddReplaced : UnitDoc := unitOf "Slots" 1 [slotOf "07" "Generic HDD", slotOf "7" "Z80"]

/-! ## The last part of the load -/

/-- The calls of the last part of the `try` block of `Snapshot_LoadState_v2`. -/
def Event.isEndStep : Event → Bool
  | .SetLoadedSaveStateFlag _ => true
  | .ApplyNewConfig => true
  | .MemInitializeROM => true
  | .MemInitializeCustomF8ROM => true
  | Event.MemInitializeIO => true
  | .MemInitializeCardExpansionRomFromSnapshot => true
  | .MemUpdatePaging _ => true
  | .RA_OnLoadState _ => true
  | _ => false

/-- The calls of the last part of the `try` block of `Snapshot_LoadState_v2` in the order of
the source; the last one is there in a RetroAchievements build only. -/
def endSteps (env : Env) (pathname : String) : List Event :=
  [Event.SetLoadedSaveStateFlag true, Event.ApplyNewConfig, Event.MemInitializeROM,
   Event.MemInitializeCustomF8ROM, Event.MemInitializeIO,
   Event.MemInitializeCardExpansionRomFromSnapshot, Event.MemUpdatePaging true] ++
  (if env.USE_RETROACHIEVEMENTS = true then [Event.RA_OnLoadState pathname] else [])

/-- The calls of a sequence that are made when each is made only if none before it threw. -/
def callsMade (env : Env) : List Event → List Event
  | [] => []
  | e :: rest => e :: (if env.raises e = none then callsMade env rest else [])

/-- The machine after a run has the flag behind `SetLoadedSaveStateFlag` and the recorded
arguments of `ApplyNewConfig` that it had before, and none of the calls of the last part of the
load was added to the record. -/
def BeforeEnd (m m1 : Machine) : Prop :=
  m1.loadedSaveStateFlag = m.loadedSaveStateFlag ∧ m1.applied = m.applied ∧
    ∃ evs, m1.trace = m.trace ++ evs ∧ ∀ e ∈ evs, Event.isEndStep e = false

end SaveState

namespace Rc

/-! ## The option parser `rc.c` -/

/-- Modelled from the spec: the option types of `rc.h`, a header that is not among the sources.
The enumerators are those `rc.c` names, in the order its tables `rc_requires_arg` and
`type_name` are indexed by, with `rc_ignore` below `rc_end`. -/
inductive rc_type where
  | rc_ignore
  | rc_end
  | rc_bool
  | rc_string
  | rc_int
  | rc_float
  | rc_set_int
  | rc_seperator
  | rc_file
  | rc_use_function
  | rc_use_function_no_arg
  | rc_link
  deriving DecidableEq

open rc_type

/-- Modelled from the spec: the values of the enumerators of `rc.h`: `rc_ignore` is -1 and
`rc_end` is 0, so that a zeroed entry ends an option array. -/
def rc_type.toInt : rc_type → Int
  | rc_ignore => -1
  | rc_end => 0
  | rc_bool => 1
  | rc_string => 2
  | rc_int => 3
  | rc_float => 4
  | rc_set_int => 5
  | rc_seperator => 6
  | rc_file => 7
  | rc_use_function => 8
  | rc_use_function_no_arg => 9
  | rc_link => 10

/-- The table `rc_requires_arg`. -/
def rc_requires_arg : List Int := [0, 1, 1, 1, 1, 0, 0, 1, 1, 0, 0]

/-- The element `rc_requires_arg[type]`, `none` when the index is outside the table. -/
def rc_requires_arg_at (type : rc_type) : Option Int :=
  if type.toInt < 0 then none else rc_requires_arg.get? type.toInt.toNat

/-- What the sources leave to the C library, the compiler and the missing header
`rc_priv.h`. `F` is the type `float`. -/
structure Target (F : Type) where
  /-- The comparison `x == 0.0`. -/
  isZero : F → Bool
  /-- The comparison `x < y`. -/
  lt : F → F → Bool
  /-- The conversion of an `int` to `float`. -/
  ofInt : Int → F
  /-- The conversion of a `float` to `int`. -/
  toInt : F → Int
  /-- The call `strtod(arg, &end)` converted to `float`: the value and the text at `end`. -/
  strtod : String → F × String
  /-- Whether `malloc` of the given size returns a block. -/
  malloc : Nat → Bool
  /-- Whether `realloc` to the given number of elements returns a block. -/
  realloc : Nat → Bool
  /-- The stream `fopen(name, mode)` returns, `none` for `NULL`. -/
  fopen : String → String → Option Nat
  /-- The width of `long`. -/
  LONG_BITS : Nat
  /-- The macro `BUF_SIZE` of `rc_priv.h`. -/
  BUF_SIZE : Nat
  /-- The `float` whose bytes are all zero. -/
  zero : F

/-- An option as a pointer `struct rc_option *` sees it: the address of the struct and the
fields that no function of `rc.c` writes. The field `priority`, which `rc_set_option3` and the
callbacks write, is in the memory under the address of the struct. `dest` is the address of the
variable of the option, `func` the address of its callback (`none` for `NULL`). -/
structure rc_option (F : Type) where
  addr : Nat
  name : String
  shortname : Option String
  type : rc_type
  dest : Nat
  deflt : Option String
  min : F
  max : F
  func : Option Nat
  help : Option String
  deriving DecidableEq

/-- An option array: `cons o sub rest` is the entry `option[i]` with the entries after it, and
`sub` is the option array that `dest` points to when the type of the entry is `rc_link`; `nil`
is the zeroed entry that ends the array. -/
inductive rc_options (F : Type) where
  | nil : rc_options F
  | cons (o : rc_option F) (sub : rc_options F) (rest : rc_options F) : rc_options F

/-- The memory the functions of `rc.c` read and write: the variables behind `dest` by address
and type, the field `priority` of each option by the address of the option, the lines written to
`stderr`, the streams closed with `fclose`, and the calls made of callbacks (the address of the
callback, the address of the option, the argument and the priority). -/
structure Mem (F : Type) where
  ints : Nat → Int
  floats : Nat → F
  strs : Nat → Option String
  files : Nat → Option Nat
  priority : Nat → Int
  err : List String
  closed : List Nat
  calls : List (Nat × Nat × Option String × Int)

/-- The code behind the addresses of callbacks: a function of type `rc_func`, applied to the
option, the argument (`none` for `NULL`) and the priority, returns an `int` and may write the
memory. -/
abbrev Funcs (F : Type) : Type :=
  Nat → rc_option F → Option String → Int → Mem F → Int × Mem F

/-- The struct `rc_struct`: the option array (`none` for `NULL`) with its size, and the
non-option arguments registered so far with the size of the array that holds them. -/
structure rc_struct (F : Type) where
  option : Option (rc_options F)
  option_size : Nat
  arg : List String
  arg_size : Nat

/-- The conversion of an integer value to `int`, of 32 bits. -/
def toInt32 (v : Int) : Int := (v + 2 ^ 31) % 2 ^ 32 - 2 ^ 31

/-- The value of a character as a digit, whatever the base. -/
def digitOf (c : Char) : Option Nat :=
  if '0' ≤ c ∧ c ≤ '9' then some (c.toNat - '0'.toNat)
  else if 'a' ≤ c ∧ c ≤ 'z' then some (c.toNat - 'a'.toNat + 10)
  else if 'A' ≤ c ∧ c ≤ 'Z' then some (c.toNat - 'A'.toNat + 10)
  else none

/-- Whether a character is a digit of the base. -/
def isDigitOf (base : Nat) (c : Char) : Bool :=
  match digitOf c with
  | some d => decide (d < base)
  | none => false

/-- The value of a run of digits of the base. -/
def valueOf (base : Nat) (ds : List Char) : Nat :=
  ds.foldl (fun acc c => acc * base + (digitOf c).getD 0) 0

/-- The C library's `strtol(s, &end, 0)` for a `long` of `bits` bits: white space is skipped,
an optional sign is read, a prefix `0x` before a hexadecimal digit selects base 16, a leading
`0` base 8, anything else base 10, and the longest run of digits of the base is converted; a
value that does not fit gives the nearest `long`. The result is the value and the text at
`end`, which is all of `s` when there is no digit. -/
def strtol (bits : Nat) (s : String) : Int × String :=
  let ws := s.toList.dropWhile SaveState.isspace
  let neg := ws.head? = some '-'
  let r1 := if ws.head? = some '-' ∨ ws.head? = some '+' then ws.tail else ws
  let hex : Bool :=
    match r1 with
    | '0' :: x :: h :: _ => (x = 'x' || x = 'X') && isDigitOf 16 h
    | _ => false
  let base : Nat := if hex then 16 else if r1.head? = some '0' then 8 else 10
  let r2 := if hex then r1.drop 2 else r1
  let ds := r2.takeWhile (isDigitOf base)
  if ds = [] then ((0 : Int), s)
  else
    let v : Int := valueOf base ds
    let signed : Int := if neg then -v else v
    let clamped : Int :=
      if signed > 2 ^ (bits - 1) - 1 then 2 ^ (bits - 1) - 1
      else if signed < -(2 ^ (bits - 1)) then -(2 ^ (bits - 1))
      else signed
    (clamped, String.mk (r2.drop ds.length))

/-- The function `rc_verify`. -/
def rc_verify {F : Type} (T : Target F) (option : rc_option F) (value : F) : Int :=
  if T.isZero option.min = true ∧ T.isZero option.max = true then 0
  else if T.lt value option.min = true ∨ T.lt option.max value = true then -1
  else 0

/-- A line written to `stderr`. -/
def Mem.fprintf_stderr {F : Type} (m : Mem F) (line : String) : Mem F :=
  { m with err := m.err ++ [line] }

/-- The `switch` of `rc_set_option3`. The result is `none` when the run is undefined (a null
argument is read); otherwise it is the memory together with the value of a `return` inside the
`switch`, or with `none` when the `switch` is left by `break`. -/
def rc_set_option3_switch {F : Type} (T : Target F) (option : rc_option F)
    (arg : Option String) (m : Mem F) : Option (Option Int × Mem F) :=
  match option.type with
  | rc_string =>
    match arg with
    | none => none
    | some a =>
      if T.malloc (a.length + 1) = false then
        some (some (-1), m.fprintf_stderr ("error: malloc failed for " ++ option.name ++ "\n"))
      else
        some (none, { m with strs := Function.update m.strs option.dest (some a) })
  | rc_int | rc_bool =>
    match arg with
    | none => none
    | some a =>
      let x : Int := toInt32 (strtol T.LONG_BITS a).1
      if (strtol T.LONG_BITS a).2 ≠ "" ∨ rc_verify T option (T.ofInt x) ≠ 0 then
        some (some (-1), m.fprintf_stderr
          ("error: invalid value for " ++ option.name ++ ": " ++ a ++ "\n"))
      else
        some (none, { m with ints := Function.update m.ints option.dest x })
  | rc_float =>
    match arg with
    | none => none
    | some a =>
      let x : F := (T.strtod a).1
      if (T.strtod a).2 ≠ "" ∨ rc_verify T option x ≠ 0 then
        some (some (-1), m.fprintf_stderr
          ("error: invalid value for " ++ option.name ++ ": " ++ a ++ "\n"))
      else
        some (none, { m with floats := Function.update m.floats option.dest x })
  | rc_set_int =>
    some (none, { m with ints := Function.update m.ints option.dest (T.toInt option.min) })
  | rc_file =>
    match arg with
    | none => none
    | some a =>
      match T.fopen a (if T.isZero option.min = true then "r" else "w") with
      | none =>
        some (some (-1), m.fprintf_stderr ("error: couldn't open file: " ++ a ++ "\n"))
      | some f =>
        some (none,
          { m with
            closed := m.closed ++ (match m.files option.dest with
              | some old => [old]
              | none => [])
            files := Function.update m.files option.dest (some f) })
  | rc_use_function | rc_use_function_no_arg => some (none, m)
  | _ =>
    some (some (-1), m.fprintf_stderr
      ("error: unknown option type: " ++ toString option.type.toInt ++
        ", this should not happen!\n"))

/-- The function `rc_set_option3`. The result is `none` when the run is undefined; otherwise
it is the value returned and the memory. -/
def rc_set_option3 {F : Type} (T : Target F) (funcs : Funcs F) (option : rc_option F)
    (arg : Option String) (priority : Int) (m : Mem F) : Option (Int × Mem F) :=
  if priority < m.priority option.addr then some (0, m)
  else
    match rc_set_option3_switch T option arg m with
    | none => none
    | some (some r, m1) => some (r, m1)
    | some (none, m1) =>
      match option.func with
      | some f =>
        some (funcs f option arg priority
          { m1 with calls := m1.calls ++ [(f, option.addr, arg, priority)] })
      | none =>
        some (0, { m1 with priority := Function.update m1.priority option.addr priority })

/-- The value of `(int)0x01 << i`, with the bit that leaves an `int` of 32 bits wrapping into
the sign. -/
def shl1 (i : Nat) : Int := toInt32 (2 ^ i)

/-- The function `rc_verify_power_of_2`; `sizeof(int)*8` is 32. A null argument is printed as
`(null)`. -/
def rc_verify_power_of_2 {F : Type} (option : rc_option F) (arg : Option String)
    (priority : Int) (m : Mem F) : Int × Mem F :=
  let value := m.ints option.dest
  let i := ((List.range 32).find? (fun i => decide (shl1 i = value))).getD 32
  if value ≠ 0 ∧ i = 32 then
    (-1, m.fprintf_stderr
      ("error invalid value for " ++ option.name ++ ": " ++ arg.getD "(null)" ++ "\n"))
  else
    (0, { m with priority := Function.update m.priority option.addr priority })

/-- The function `rc_get_option2`: the first option of the array, the arrays it links to
included, whose name or short name is `name`. -/
def rc_get_option2 {F : Type} : rc_options F → String → Option (rc_option F)
  | .nil, _ => none
  | .cons o sub rest, name =>
    match o.type with
    | rc_end => none
    | rc_ignore => rc_get_option2 rest name
    | rc_seperator => rc_get_option2 rest name
    | rc_link =>
      match rc_get_option2 sub name with
      | some result => some result
      | none => rc_get_option2 rest name
    | _ =>
      if name = o.name ∨ o.shortname = some name then some o
      else rc_get_option2 rest name

/-- The name that `rc_parse_commandline` and `rc_quasi88` look up for an argument that starts
with `-`: the text after the first character, or after the first two when the second is `-`
too. -/
def optionName (a : String) : String :=
  String.mk (a.toList.drop (if a.toList.get? 1 = some '-' then 2 else 1))

/-- The option and the argument that `rc_parse_commandline` and `rc_quasi88` choose for an
argument of the command line that starts with `-`, from the lookup of its name to the test of
the prefix `no`, and whether the option takes the next argument of the command line; `none` for
an unknown option. The lookup `rc_requires_arg[option->type]` is 0 outside the table. -/
def chooseOption {F : Type} (options : rc_options F) (a : String) :
    Option (rc_option F × Option String × Bool) :=
  match rc_get_option2 options (optionName a) with
  | some option =>
    if option.type = rc_bool then some (option, some "1", false)
    else if (rc_requires_arg_at option.type).getD 0 ≠ 0 then some (option, none, true)
    else some (option, none, false)
  | none =>
    if (optionName a).toList.take 2 = ['n', 'o'] then
      match rc_get_option2 options (String.mk ((optionName a).toList.drop 2)) with
      | some option => if option.type = rc_bool then some (option, some "0", false) else none
      | none => none
    else none

/-- The loop of `rc_parse_commandline` over the arguments from `argv[i]` on. The result is
`none` when the run is undefined (an argument that starts with `-` is looked up in a null option
array, or a null argument is read); otherwise it is the value returned, the struct and the
memory. A callback for the non-option arguments returns an `int` and may write the memory. -/
def rc_parse_commandline_loop {F : Type} (T : Target F) (funcs : Funcs F) (priority : Int)
    (arg_callback : Option (String → Mem F → Int × Mem F)) :
    List String → rc_struct F → Mem F → Option (Int × rc_struct F × Mem F)
  | [], rc, m => some (0, rc, m)
  | a :: rest, rc, m =>
    if a.toList.head? = some '-' then
      match rc.option with
      | none => none
      | some options =>
        match chooseOption options a with
        | none => some (-1, rc, m.fprintf_stderr ("error: unknown option " ++ a ++ "\n"))
        | some (option, _, true) =>
          match rest with
          | [] =>
            some (-1, rc, m.fprintf_stderr ("error: " ++ a ++ " requires an argument\n"))
          | v :: rest1 =>
            match rc_set_option3 T funcs option (some v) priority m with
            | none => none
            | some (r, m1) =>
              if r ≠ 0 then some (-1, rc, m1)
              else rc_parse_commandline_loop T funcs priority arg_callback rest1 rc m1
        | some (option, arg, false) =>
          match rc_set_option3 T funcs option arg priority m with
          | none => none
          | some (r, m1) =>
            if r ≠ 0 then some (-1, rc, m1)
            else rc_parse_commandline_loop T funcs priority arg_callback rest rc m1
    else
      if rc.arg.length ≥ rc.arg_size ∧ T.realloc (rc.arg_size + T.BUF_SIZE) = false then
        some (-1, rc, m.fprintf_stderr "error: malloc failed in rc_parse_commadline\n")
      else
        let rc1 : rc_struct F :=
          { rc with
            arg := rc.arg ++ [a]
            arg_size := if rc.arg.length ≥ rc.arg_size then rc.arg_size + T.BUF_SIZE
                        else rc.arg_size }
        match arg_callback with
        | some cb =>
          if (cb a m).1 ≠ 0 then some (-1, rc1, (cb a m).2)
          else rc_parse_commandline_loop T funcs priority arg_callback rest rc1 (cb a m).2
        | none => rc_parse_commandline_loop T funcs priority arg_callback rest rc1 m

/-- The function `rc_parse_commandline`: the loop starts at `argv[1]`. -/
def rc_parse_commandline {F : Type} (T : Target F) (funcs : Funcs F) (rc : rc_struct F)
    (argv : List String) (priority : Int)
    (arg_callback : Option (String → Mem F → Int × Mem F)) (m : Mem F) :
    Option (Int × rc_struct F × Mem F) :=
  rc_parse_commandline_loop T funcs priority arg_callback argv.tail rc m

/-- The function `rc_quasi88`. The result is `none` when the run is undefined; otherwise it is
the value returned and the memory. -/
def rc_quasi88 {F : Type} (T : Target F) (funcs : Funcs F) (rc : rc_struct F)
    (arg1 : String) (arg2 : Option String) (priority : Int) (m : Mem F) :
    Option (Int × Mem F) :=
  if arg1.toList.head? = some '-' then
    match rc.option with
    | none => none
    | some options =>
      match chooseOption options arg1 with
      | none => some (0, m)
      | some (option, _, true) =>
        match arg2 with
        | none => some (-1, m.fprintf_stderr ("error: " ++ arg1 ++ " requires an argument\n"))
        | some v =>
          match rc_set_option3 T funcs option (some v) priority m with
          | none => none
          | some (r, m1) => if r ≠ 0 then some (-1, m1) else some (2, m1)
      | some (option, arg, false) =>
        match rc_set_option3 T funcs option arg priority m with
        | none => none
        | some (r, m1) => if r ≠ 0 then some (-1, m1) else some (1, m1)
  else some (0, m)

/-! ## Concrete inputs for the option parser -/

/-- A target whose `float` holds whole numbers only, whose allocations succeed, and whose
`long` has 64 bits. -/
def intTarget : Target Int :=
  { isZero := fun x => decide (x = 0), lt := fun x y => decide (x < y), ofInt := fun x => x,
    toInt := fun x => x, strtod := fun s => strtol 64 s, malloc := fun _ => true,
    realloc := fun _ => true, fopen := fun _ _ => some 3, LONG_BITS := 64, BUF_SIZE := 512,
    zero := 0 }

/-- The boolean option `sound` (short name `snd`), at address 100 with its variable at 0. -/
def optSound : rc_option Int :=
  { addr := 100, name := "sound", shortname := some "snd", type := rc_bool, dest := 0,
    deflt := some "1", min := 0, max := 0, func := none, help := none }

/-- The integer option `bufsize`, at address 101 with its variable at 1, checked by the
callback at address 0. -/
def optBufsize : rc_option Int :=
  { addr := 101, name := "bufsize", shortname := none, type := rc_int, dest := 1,
    deflt := none, min := 0, max := 0, func := some 0, help := none }

/-- The integer option `volume` with the range -32..0, at address 102 with its variable at
2. -/
def optVolume : rc_option Int :=
  { addr := 102, name := "volume", shortname := some "v", type := rc_int, dest := 2,
    deflt := none, min := -32, max := 0, func := none, help := none }

/-- The code at address 0 is `rc_verify_power_of_2`; any other callback returns 0. -/
def funcs0 : Funcs Int :=
  fun f => if f = 0 then rc_verify_power_of_2 else fun _ _ _ m => (0, m)

/-- An entry of type `rc_link`. -/
def linkEntry (addr dest : Nat) : rc_option Int :=
  { addr := addr, name := "", shortname := none, type := rc_link, dest := dest,
    deflt := none, min := 0, max := 0, func := none, help := none }

/-- The option array at address 100: `sound`, `bufsize`, `volume`. -/
def soundOptions : rc_options Int :=
  .cons optSound .nil (.cons optBufsize .nil (.cons optVolume .nil .nil))

/-- A struct whose option array links to `soundOptions`, with no arguments registered. -/
def rc0 : rc_struct Int :=
  { option := some (.cons (linkEntry 10 100) soundOptions .nil), option_size := 512, arg := [],
    arg_size := 0 }

/-- A boolean option whose name starts with `-`. -/
def optDashV : rc_option Int :=
  { addr := 103, name := "-v", shortname := none, type := rc_bool, dest := 3,
    deflt := none, min := 0, max := 0, func := none, help := none }

/-- A struct whose option array holds `optDashV` only. -/
def rcDash : rc_struct Int :=
  { option := some (.cons optDashV .nil .nil), option_size := 512, arg := [], arg_size := 0 }

/-- A memory of zeros. -/
def mem0 : Mem Int :=
  { ints := fun _ => 0, floats := fun _ => 0, strs := fun _ => none, files := fun _ => none,
    priority := fun _ => 0, err := [], closed := [], calls := [] }

/-- A memory of zeros in which every option has priority 5. -/
def memSet : Mem Int := { mem0 with priority := fun _ => 5 }

/-! ## Registering and unregistering option arrays -/

/-- An entry of an option array whose bytes are all zero, as `calloc`, `memset` and the new part
of a grown array hold it: the type is `rc_end`, the pointers are null (the address 0, `none`, and
the empty text for the name). -/
def zeroEntry {F : Type} (T : Target F) : rc_option F :=
  { addr := 0, name := "", shortname := none, type := rc_end, dest := 0, deflt := none,
    min := T.zero, max := T.zero, func := none, help := none }

/-- The entries of an option array before the zeroed entries that end it, each with the option
array behind its `dest`. -/
def rc_options.toList {F : Type} : rc_options F → List (rc_option F × rc_options F)
  | .nil => []
  | .cons o sub rest => (o, sub) :: rest.toList

/-- The entry `option[i]` of an option array: past the entries written so far it is zeroed. -/
def rc_options.entryAt {F : Type} (T : Target F) (l : rc_options F) (i : Nat) :
    rc_option F × rc_options F :=
  (l.toList.get? i).getD (zeroEntry T, .nil)

/-- The option array after a write of the entry `option[i]`. -/
def rc_options.setAt {F : Type} (T : Target F) :
    rc_options F → Nat → rc_option F × rc_options F → rc_options F
  | .nil, 0, e => .cons e.1 e.2 .nil
  | .nil, i + 1, e => .cons (zeroEntry T) .nil (rc_options.setAt T .nil i e)
  | .cons _ _ rest, 0, e => .cons e.1 e.2 rest
  | .cons o sub rest, i + 1, e => .cons o sub (rc_options.setAt T rest i e)

/-- The function `rc_set_defaults`; the priority passed is the one of the option. The result is
`none` when the run is undefined. -/
def rc_set_defaults {F : Type} (T : Target F) (funcs : Funcs F) :
    rc_options F → Mem F → Option (Int × Mem F)
  | .nil, m => some (0, m)
  | .cons o sub rest, m =>
    if o.type = rc_end then some (0, m)
    else if o.type = rc_link then
      match rc_set_defaults T funcs sub m with
      | none => none
      | some (r, m1) => if r ≠ 0 then some (-1, m1) else rc_set_defaults T funcs rest m1
    else
      match o.deflt with
      | none => rc_set_defaults T funcs rest m
      | some deflt =>
        match rc_set_option3 T funcs o (some deflt) (m.priority o.addr) m with
        | none => none
        | some (r, m1) => if r ≠ 0 then some (-1, m1) else rc_set_defaults T funcs rest m1

/-- The index at which the first loop of `rc_register` stops: the first `i` below
`option_size` with `option[i].type <= 0`, or `option_size`. -/
def firstFree {F : Type} (T : Target F) (table : rc_options F) (option_size : Nat) : Nat :=
  ((List.range option_size).find?
    (fun i => decide ((table.entryAt T i).1.type.toInt ≤ 0))).getD option_size

/-- The function `rc_register` for the option array `option` at the address `dest`. The result
is `none` when the run is undefined (a null array of a size other than 0 is read, or the entry
written lies past the array); otherwise it is the value returned, the struct and the memory. -/
def rc_register {F : Type} (T : Target F) (funcs : Funcs F) (rc : rc_struct F) (dest : Nat)
    (option : rc_options F) (m : Mem F) : Option (Int × rc_struct F × Mem F) :=
  if rc.option.isNone = true ∧ rc.option_size ≠ 0 then none
  else
    let table := rc.option.getD .nil
    let i := firstFree T table rc.option_size
    if (i : Int) ≥ (rc.option_size : Int) - 1 ∧
        T.realloc (rc.option_size + T.BUF_SIZE) = false then
      some (-1, rc, m.fprintf_stderr "error: malloc failed in rc_register_option\n")
    else
      let rc1 : rc_struct F :=
        if (i : Int) ≥ (rc.option_size : Int) - 1 then
          { rc with option := some table, option_size := rc.option_size + T.BUF_SIZE }
        else rc
      match rc_set_defaults T funcs option m with
      | none => none
      | some (r, m1) =>
        if r ≠ 0 then some (-1, rc1, m1)
        else if i ≥ rc1.option_size then none
        else
          some (0,
            { rc1 with option := some (table.setAt T i
                ({ (table.entryAt T i).1 with type := rc_link, dest := dest }, option)) },
            m1)

/-- The index at which the loop of `rc_unregister` stops: the last `i` below `option_size` with
`option[i].dest == option`, if there is one. -/
def lastWith {F : Type} (T : Target F) (table : rc_options F) (option_size : Nat)
    (dest : Nat) : Option Nat :=
  (List.range option_size).reverse.find? (fun i => decide ((table.entryAt T i).1.dest = dest))

/-- The function `rc_unregister` for the option array at the address `dest`. The result is
`none` when the run is undefined (a null array of a size other than 0 is read); otherwise it is
the value returned and the struct. The field `priority` of the entries of this array, which no
function reads, is not modelled. -/
def rc_unregister {F : Type} (T : Target F) (rc : rc_struct F) (dest : Nat) :
    Option (Int × rc_struct F) :=
  match rc.option with
  | none => if rc.option_size = 0 then some (-1, rc) else none
  | some table =>
    match lastWith T table rc.option_size dest with
    | some i =>
      some (0,
        { rc with option := some (table.setAt T i
            ({ zeroEntry T with addr := (table.entryAt T i).1.addr, type := rc_ignore },
              .nil)) })
    | none => some (-1, rc)

/-- A call of `rc_register` or of `rc_unregister` for the option array at an address. -/
inductive RcCall (F : Type) where
  | register (dest : Nat) (option : rc_options F) : RcCall F
  | unregister (dest : Nat) : RcCall F

/-- A sequence of calls of `rc_register` and `rc_unregister` on one struct: the values
returned, the struct and the memory at the end; `none` when a run is undefined. -/
def rc_run {F : Type} (T : Target F) (funcs : Funcs F) :
    List (RcCall F) → rc_struct F → Mem F → Option (List Int × rc_struct F × Mem F)
  | [], rc, m => some ([], rc, m)
  | .register dest option :: rest, rc, m =>
    match rc_register T funcs rc dest option m with
    | none => none
    | some (r, rc1, m1) =>
      match rc_run T funcs rest rc1 m1 with
      | none => none
      | some (rs, rc2, m2) => some (r :: rs, rc2, m2)
  | .unregister dest :: rest, rc, m =>
    match rc_unregister T rc dest with
    | none => none
    | some (r, rc1) =>
      match rc_run T funcs rest rc1 m with
      | none => none
      | some (rs, rc2, m2) => some (r :: rs, rc2, m2)

/-- The types and the `dest` pointers of the entries of the option array of a struct, before
the zeroed entries that end it. -/
def rc_struct.links {F : Type} (rc : rc_struct F) : List (rc_type × Nat) :=
  (rc.option.getD .nil).toList.map (fun e => (e.1.type, e.1.dest))

/-- The struct as `rc_create` returns it. -/
def rcFresh : rc_struct Int := { option := none, option_size := 0, arg := [], arg_size := 0 }

/-- The integer option `gamma`, at address 210 with its variable at 10. -/
def optGamma : rc_option Int :=
  { addr := 210, name := "gamma", shortname := none, type := rc_int, dest := 10,
    deflt := none, min := 0, max := 0, func := none, help := none }

/-- The option array at address 200: `gamma`. -/
def videoOptions : rc_options Int := .cons optGamma .nil .nil

/-- Another integer option `volume`, at address 310 with its variable at 11. -/
def optFxVolume : rc_option Int :=
  { addr := 310, name := "volume", shortname := none, type := rc_int, dest := 11,
    deflt := none, min := 0, max := 0, func := none, help := none }

/-- The option array at address 300: the other `volume`. -/
def fxOptions : rc_options Int := .cons optFxVolume .nil .nil

/-- The calls that register the arrays at 200, 300 and 100, then unregister the one at 200. -/
def callsBefore : List (RcCall Int) :=
  [.register 200 videoOptions, .register 300 fxOptions, .register 100 soundOptions,
   .unregister 200]

/-- The option array that would be left if the last call of `rc_unregister` had zeroed the
entry written by the second registration of the array at 100, the one at index 0. -/
def newestRemoved : rc_options Int :=
  .cons { zeroEntry intTarget with type := rc_ignore } .nil
    (.cons (linkEntry 0 300) fxOptions (.cons (linkEntry 0 100) soundOptions .nil))

end Rc

namespace SaveState
open eApple2Type SS_CARDTYPE

/-! ## Further documents and slot units -/

/-- A document with a core-machine unit and a unit of the unknown type "Clock" that has no
State sub-map. -/
def docClockNoState : Document :=
  docOf 2 [unitApple2, { unitOf "Clock" 1 [] with hasState := false }]

/-- A document with a core-machine unit and a unit of the unknown type "Clock" whose version
the reader does not find. -/
def docClockNoVersion : Document :=
  docOf 2 [unitApple2, { unitOf "Clock" 1 [] with version := .error "Unit: Missing: Version" }]

/-- A slots unit with a printer under the key "1", a Z80 card under the key "01" (slot 1 again)
and a card of the unknown name "Clock Card" in slot 4. -/
def unitSlotsReplaced : UnitDoc :=
  unitOf "Slots" 1
    [slotOf "1" "Generic Printer", slotOf "01" "Z80", slotOf "4" "Clock Card"]

/-- A slots unit whose only entry has the key "9" and the unknown card name "Clock Card". -/
def unitSlotsNine : UnitDoc := unitOf "Slots" 1 [slotOf "9" "Clock Card"]

/-- A slots unit whose only entry, of the unknown card name "Clock Card", has no State
sub-map. -/
def unitSlotsNoState : UnitDoc :=
  unitOf "Slots" 1 [{ slotOf "4" "Clock Card" with hasState := false }]

/-- A slots unit whose only entry, of the unknown card name "Clock Card", has no version the
reader finds. -/
def unitSlotsNoVersion : UnitDoc :=
  unitOf "Slots" 1 [{ slotOf "4" "Clock Card" with cardVersion := .error "4: Missing: Version" }]

/-- A slots unit whose only entry has the key "-4294967295" and is a printer. -/
def unitSlotsSigned : UnitDoc := unitOf "Slots" 1 [slotOf "-4294967295" "Generic Printer"]

/-! # Theorems -/

/-! ## Running a function: how each step acts on the machine -/

@[simp] theorem run_pure {α : Type} (a : α) (m : Machine) :
    (pure a : Exec α) m = .ok a m := rfl

@[simp] theorem run_bind {α β : Type} (x : Exec α) (f : α → Exec β) (m : Machine) :
    (x >>= f) m = match x m with
      | .ok a m1 => f a m1
      | .throw msg m1 => .throw msg m1 := rfl

@[simp] theorem run_raise {α : Type} (msg : String) (m : Machine) :
    (raise msg : Exec α) m = .throw msg m := rfl

@[simp] theorem run_log (e : Event) (m : Machine) :
    log e m = .ok () { m with trace := m.trace ++ [e] } := rfl

@[simp] theorem run_modify (f : Machine → Machine) (m : Machine) :
    modify f m = .ok () (f m) := rfl

@[simp] theorem run_getMachine (m : Machine) : getMachine m = .ok m m := rfl

@[simp] theorem run_readDoc_ok {α : Type} (a : α) (m : Machine) :
    readDoc (.ok a) m = .ok a m := rfl

@[simp] theorem run_readDoc_error {α : Type} (msg : String) (m : Machine) :
    (readDoc (.error msg) : Exec α) m = .throw msg m := rfl

@[simp] theorem run_callLoad_ok {α : Type} (e : Event) (a : α) (m : Machine) :
    callLoad e (.ok a) m = .ok a { m with trace := m.trace ++ [e] } := rfl

@[simp] theorem run_callLoad_error {α : Type} (e : Event) (msg : String) (m : Machine) :
    (callLoad e (.error msg) : Exec α) m = .throw msg { m with trace := m.trace ++ [e] } := rfl

/-! ## Framing lemmas -/

theorem keeps_pure {α : Type} {R : Machine → Machine → Prop} (hR : Frame R) (a : α) :
    Keeps R (pure a : Exec α) := fun m => hR.refl m

theorem keeps_raise {α : Type} {R : Machine → Machine → Prop} (hR : Frame R) (msg : String) :
    Keeps R (raise msg : Exec α) := fun m => hR.refl m

theorem keeps_getMachine {R : Machine → Machine → Prop} (hR : Frame R) :
    Keeps R getMachine := fun m => hR.refl m

theorem keeps_readDoc {α : Type} {R : Machine → Machine → Prop} (hR : Frame R)
    (r : Except String α) : Keeps R (readDoc r) := by
  intro m; cases r <;> exact hR.refl m

theorem keeps_log {R : Machine → Machine → Prop} (hR : Frame R) (e : Event)
    (he : Event.isSubsystem e = true) : Keeps R (log e) := fun m => hR.event m e he

theorem keeps_call {R : Machine → Machine → Prop} (hR : Frame R) (env : Env) (e : Event)
    (he : Event.isSubsystem e = true) : Keeps R (call env e) := by
  intro m
  unfold SaveState.call
  cases env.raises e <;> exact hR.event m e he

theorem keeps_callLoad {α : Type} {R : Machine → Machine → Prop} (hR : Frame R) (e : Event)
    (r : Except String α) (he : Event.isSubsystem e = true) : Keeps R (callLoad e r) := by
  intro m; cases r <;> exact hR.event m e he

theorem keeps_modify {R : Machine → Machine → Prop} (f : Machine → Machine)
    (hf : ∀ m, R m (f m)) : Keeps R (modify f) := fun m => hf m

theorem keeps_bind {α β : Type} {R : Machine → Machine → Prop} (hR : Frame R)
    {x : Exec α} {f : α → Exec β} (hx : Keeps R x) (hf : ∀ a, Keeps R (f a)) :
    Keeps R (x >>= f) := by
  intro m
  have h1 := hx m
  simp only [run_bind]
  cases h : x m with
  | ok a m1 =>
    rw [h] at h1
    exact hR.trans _ _ _ h1 (hf a m1)
  | throw msg m1 =>
    rw [h] at h1
    exact h1

theorem keeps_ite {α : Type} {R : Machine → Machine → Prop} (c : Prop) [Decidable c]
    {x y : Exec α} (hx : c → Keeps R x) (hy : ¬c → Keeps R y) :
    Keeps R (if c then x else y) := by
  split
  · exact hx ‹_›
  · exact hy ‹_›

theorem slotsFree_hddFree {R : Machine → Machine → Prop} (hS : SlotsFree R) : HddFree R :=
  fun m b => hS m _ _ b

theorem slotsFree_slotWritable {R : Machine → Machine → Prop} (hS : SlotsFree R) (s : Nat) :
    SlotWritable R s :=
  fun m _ => hS m _ _ _

theorem ParseSlots_card_keeps {R : Machine → Machine → Prop} (hR : Frame R) (hH : HddFree R)
    (env : Env) (e : SlotDoc) (slot : Nat) (card : String) (cardVersion : Nat) :
    Keeps R (ParseSlots_card env e slot card cardVersion) := by
  unfold ParseSlots_card
  repeat' first
    | exact keeps_pure hR _
    | exact keeps_raise hR _
    | exact keeps_getMachine hR
    | exact keeps_callLoad hR _ _ rfl
    | exact keeps_call hR _ _ rfl
    | exact keeps_modify _ (fun m => hH m _)
    | apply keeps_ite
    | apply keeps_bind hR
    | intro _

theorem ParseSlots_entry_keeps {R : Machine → Machine → Prop} (hR : Frame R) (hH : HddFree R)
    (env : Env) (e : SlotDoc) (hW : SlotWritable R (slotNumber e)) :
    Keeps R (ParseSlots_entry env e) := by
  unfold ParseSlots_entry
  repeat' first
    | exact keeps_pure hR _
    | exact keeps_raise hR _
    | exact keeps_readDoc hR _
    | exact ParseSlots_card_keeps hR hH _ _ _ _ _
    | exact keeps_modify _ (fun m => hW m _)
    | apply keeps_ite
    | apply keeps_bind hR
    | intro _

theorem ParseSlots_loop_keeps {R : Machine → Machine → Prop} (hR : Frame R) (hH : HddFree R)
    (env : Env) (l : List SlotDoc) (hW : ∀ e ∈ l, SlotWritable R (slotNumber e)) :
    Keeps R (ParseSlots_loop env l) := by
  induction l with
  | nil => exact keeps_pure hR _
  | cons e rest ih =>
    unfold ParseSlots_loop
    apply keeps_ite
    · exact fun _ => keeps_pure hR _
    · exact fun _ => keeps_bind hR
        (ParseSlots_entry_keeps hR hH env e (hW e (List.mem_cons_self e rest)))
        (fun _ => ih (fun x hx => hW x (List.mem_cons_of_mem e hx)))

theorem ParseSlots_keeps {R : Machine → Machine → Prop} (hR : Frame R) (hS : SlotsFree R)
    (env : Env) (u : UnitDoc) (unitVersion : Nat) : Keeps R (ParseSlots env u unitVersion) := by
  unfold ParseSlots
  apply keeps_ite
  · exact fun _ => keeps_raise hR _
  · exact fun _ => ParseSlots_loop_keeps hR (slotsFree_hddFree hS) env _
      (fun e _ => slotsFree_slotWritable hS _)

theorem ParseUnitApple2_keeps {R : Machine → Machine → Prop} (hR : Frame R) (hM : ModelFree R)
    (env : Env) (u : UnitDoc) (version : Nat) : Keeps R (ParseUnitApple2 env u version) := by
  unfold ParseUnitApple2 SetApple2Type
  repeat' first
    | exact keeps_pure hR _
    | exact keeps_raise hR _
    | exact keeps_readDoc hR _
    | exact keeps_callLoad hR _ _ rfl
    | exact keeps_call hR _ _ rfl
    | exact keeps_modify _ (fun m => hM m _ _ _ _)
    | apply keeps_ite
    | apply keeps_bind hR
    | intro _

theorem ParseUnit_keeps {R : Machine → Machine → Prop} (hR : Frame R) (hS : SlotsFree R)
    (hM : ModelFree R) (env : Env) (u : UnitDoc) (loading_state : Bool) :
    Keeps R (ParseUnit env u loading_state) := by
  unfold ParseUnit
  repeat' first
    | exact keeps_pure hR _
    | exact keeps_raise hR _
    | exact keeps_readDoc hR _
    | exact keeps_log hR _ rfl
    | exact keeps_callLoad hR _ _ rfl
    | exact ParseUnitApple2_keeps hR hM _ _ _
    | exact ParseSlots_keeps hR hS _ _ _
    | apply keeps_ite
    | apply keeps_bind hR
    | intro _

theorem units_keeps {R : Machine → Machine → Prop} (hR : Frame R) (hS : SlotsFree R)
    (hM : ModelFree R) (env : Env) (l : List TopEntry) :
    Keeps R (Snapshot_LoadState_v2_units env l) := by
  induction l with
  | nil => exact keeps_pure hR _
  | cons t rest ih =>
    unfold Snapshot_LoadState_v2_units
    apply keeps_bind hR
    · apply keeps_ite
      · exact fun _ => ParseUnit_keeps hR hS hM _ _ _
      · exact fun _ => keeps_raise hR _
    · exact fun _ => ih

theorem reset_keeps {R : Machine → Machine → Prop} (hR : Frame R) (hS : SlotsFree R)
    (env : Env) : Keeps R (Snapshot_LoadState_v2_reset env) := by
  unfold Snapshot_LoadState_v2_reset
  repeat' first
    | exact keeps_pure hR _
    | exact keeps_call hR _ _ rfl
    | exact keeps_modify _ (fun m => hS m _ _ _)
    | apply keeps_ite
    | apply keeps_bind hR
    | intro _

theorem end_keeps {R : Machine → Machine → Prop} (hR : Frame R) (hF : FlagFree R)
    (env : Env) : Keeps R (Snapshot_LoadState_v2_end env) := by
  unfold Snapshot_LoadState_v2_end
  repeat' first
    | exact keeps_pure hR _
    | exact keeps_getMachine hR
    | exact keeps_call hR _ _ rfl
    | exact keeps_modify _ (fun m => hF m _ _)
    | apply keeps_ite
    | apply keeps_bind hR
    | intro _

theorem armed_keeps {R : Machine → Machine → Prop} (hR : Frame R) (hS : SlotsFree R)
    (hM : ModelFree R) (hF : FlagFree R) (env : Env) (doc : Document) :
    Keeps R (Snapshot_LoadState_v2_armed env doc) := by
  unfold Snapshot_LoadState_v2_armed
  repeat' first
    | exact keeps_pure hR _
    | exact reset_keeps hR hS _
    | exact units_keeps hR hS hM _ _
    | exact end_keeps hR hF _
    | apply keeps_bind hR
    | intro _

/-- The file header parses the same way whatever the machine, and leaves it alone. -/
theorem ParseFileHdr_cases (env : Env) (doc : Document) :
    (∃ v, ∀ m, ParseFileHdr env doc m = .ok v m) ∨
    (∃ msg, ∀ m, ParseFileHdr env doc m = .throw msg m) := by
  unfold ParseFileHdr
  cases doc.hdrScalar with
  | none => exact Or.inr ⟨_, fun m => rfl⟩
  | some scalar =>
    by_cases h1 : scalar = env.SS_YAML_KEY_FILEHDR
    · cases ht : doc.tag with
      | error msg => exact Or.inr ⟨msg, fun m => by simp [h1]⟩
      | ok value =>
        by_cases h2 : value = env.SS_YAML_VALUE_AWSS
        · cases hv : doc.version with
          | error msg => exact Or.inr ⟨msg, fun m => by simp [h1, h2]⟩
          | ok v => exact Or.inl ⟨v, fun m => by simp [h1, h2]⟩
        · exact Or.inr ⟨env.SS_YAML_KEY_FILEHDR ++ ": Bad tag", fun m => by simp [h1, h2]⟩
    · exact Or.inr ⟨"Failed to find file header", fun m => by simp [h1]⟩

theorem onlySubsystemCalls_frame : Frame OnlySubsystemCalls where
  refl m := ⟨rfl, [], by simp, by simp⟩
  trans a b c := by
    rintro ⟨h1, e1, h2, h3⟩ ⟨h4, e2, h5, h6⟩
    refine ⟨h4.trans h1, e1 ++ e2, by rw [h5, h2, List.append_assoc], ?_⟩
    intro e he
    rcases List.mem_append.1 he with h | h
    · exact h3 e h
    · exact h6 e h
  event m e he := ⟨rfl, [e], rfl, by simpa using he⟩

theorem onlySubsystemCalls_slotsFree : SlotsFree OnlySubsystemCalls :=
  fun _ _ _ _ => ⟨rfl, [], by simp, by simp⟩

theorem onlySubsystemCalls_modelFree : ModelFree OnlySubsystemCalls :=
  fun _ _ _ _ _ => ⟨rfl, [], by simp, by simp⟩

theorem onlySubsystemCalls_flagFree : FlagFree OnlySubsystemCalls :=
  fun _ _ _ => ⟨rfl, [], by simp, by simp⟩

theorem count_restart_of_subsystem (evs : List Event)
    (h : ∀ e ∈ evs, Event.isSubsystem e = true) :
    evs.count Event.PostMessage_WM_USER_RESTART = 0 := by
  rw [List.count_eq_zero]
  intro hmem
  have := h _ hmem
  simp [Event.isSubsystem] at this

theorem units_append (env : Env) (pre rest : List TopEntry) (m : Machine) :
    Snapshot_LoadState_v2_units env (pre ++ rest) m =
      match Snapshot_LoadState_v2_units env pre m with
      | .ok _ m1 => Snapshot_LoadState_v2_units env rest m1
      | .throw msg m1 => .throw msg m1 := by
  induction pre generalizing m with
  | nil => rfl
  | cons t pre ih =>
    simp only [List.cons_append, Snapshot_LoadState_v2_units, run_bind]
    cases (if t.scalar = env.SS_YAML_KEY_UNIT then ParseUnit env t.unit true
      else raise ("Unknown top-level scalar: " ++ t.scalar)) m with
    | ok a m1 => exact ih m1
    | throw msg m1 => rfl

theorem ParseUnit_unknown (env : Env) (u : UnitDoc) (loading_state : Bool) (m : Machine)
    (name : String) (v : Nat)
    (htype : u.type = .ok name) (hver : u.version = .ok v) (hstate : u.hasState = true)
    (h1 : name ≠ GetSnapshotUnitApple2Name) (h2 : name ≠ env.MemGetSnapshotUnitAuxSlotName)
    (h3 : name ≠ GetSnapshotUnitSlotsName) :
    ParseUnit env u loading_state m =
      .throw (env.SS_YAML_KEY_UNIT ++ ": Unknown type: " ++ name)
        { m with trace := m.trace ++ [Event.ParseUnit loading_state] } := by
  simp [ParseUnit, htype, hver, hstate, h1, h2, h3]

theorem begin_restart (env : Env) (doc : Document) (m m1 : Machine)
    (h : Snapshot_LoadState_v2_begin env doc m = .ok true m1) : m1.restart = true := by
  unfold Snapshot_LoadState_v2_begin at h
  by_cases hi : doc.initOk = true
  · rcases ParseFileHdr_cases env doc with ⟨v, hv⟩ | ⟨msg, hmsg⟩
    · by_cases hver : v = SS_FILE_VER
      · by_cases hra : env.USE_RETROACHIEVEMENTS = true
        · cases hga : env.guardAnswer <;>
            simp [hi, hv, hver, hra, hga, RA_WarnDisableHardcore] at h
          rw [← h]
        · simp [hi, hv, hver, hra] at h
          rw [← h]
      · simp [hi, hv, hver] at h
    · simp [hi, hmsg] at h
  · simp [hi] at h

theorem loadUpTo_true (env : Env) (doc : Document) (pre : List TopEntry) (m : Machine)
    (h : (loadUpTo env doc pre m).value = some true) :
    ∃ m1 m2, Snapshot_LoadState_v2_begin env doc m = .ok true m1 ∧
      Snapshot_LoadState_v2_reset env m1 = .ok () m2 ∧
      Snapshot_LoadState_v2_units env pre m2 = .ok () (loadUpTo env doc pre m).machine ∧
      (loadUpTo env doc pre m).machine.restart = true := by
  unfold loadUpTo at h ⊢
  simp only [run_bind] at h ⊢
  cases hb : Snapshot_LoadState_v2_begin env doc m with
  | throw msg m1 => rw [hb] at h; simp [Res.value] at h
  | ok b m1 =>
    cases b with
    | false => rw [hb] at h; simp [Res.value] at h
    | true =>
      have hr1 := begin_restart env doc m m1 hb
      rw [hb] at h
      simp only [Bool.true_eq_false, if_false, run_bind] at h ⊢
      cases hr : Snapshot_LoadState_v2_reset env m1 with
      | throw msg m2 => rw [hr] at h; simp [Res.value] at h
      | ok u m2 =>
        have hk2 := (reset_keeps onlySubsystemCalls_frame onlySubsystemCalls_slotsFree env m1).1
        rw [hr] at hk2
        rw [hr] at h
        simp only at h ⊢
        cases hu : Snapshot_LoadState_v2_units env pre m2 with
        | throw msg m3 => rw [hu] at h; simp [Res.value] at h
        | ok u3 m3 =>
          have hk3 := (units_keeps onlySubsystemCalls_frame onlySubsystemCalls_slotsFree
            onlySubsystemCalls_modelFree env pre m2).1
          rw [hu] at hk3
          refine ⟨m1, m2, rfl, hr, ?_, ?_⟩
          · simpa [Res.machine] using hu
          · simp only [run_pure, Res.machine] at hk2 hk3 ⊢
            rw [hk3, hk2, hr1]

/-- When the load reaches the top-level entry `t` after the entries `pre`, and the step of the
unit loop on `t` throws, the load ends there: message box, restart, `FinaliseParser`. -/
theorem load_fails_at_entry (env : Env) (doc : Document) (m : Machine)
    (pre post : List TopEntry) (t : TopEntry) (msg : String) (m4 : Machine)
    (hdoc : doc.top = pre ++ t :: post)
    (hreach : (loadUpTo env doc pre { m with restart := false }).value = some true)
    (hthrow : (if t.scalar = env.SS_YAML_KEY_UNIT then ParseUnit env t.unit true
        else raise ("Unknown top-level scalar: " ++ t.scalar))
        (loadUpTo env doc pre { m with restart := false }).machine = .throw msg m4)
    (hrestart : m4.restart = true) :
    Snapshot_LoadState_v2 env doc m =
      { m4 with trace := m4.trace ++ [Event.MessageBox msg "Load State",
                                      Event.PostMessage_WM_USER_RESTART,
                                      Event.FinaliseParser] } := by
  obtain ⟨m1, m2, hb, hr, hu, -⟩ := loadUpTo_true env doc pre _ hreach
  have htry : Snapshot_LoadState_v2_try env doc { m with restart := false } = .throw msg m4 := by
    simp only [Snapshot_LoadState_v2_try, Snapshot_LoadState_v2_armed, run_bind, hb,
      Bool.true_eq_false, if_false, hr, hdoc, units_append, hu]
    simp only [Snapshot_LoadState_v2_units, run_bind, hthrow]
  simp [Snapshot_LoadState_v2, htry, Snapshot_LoadState_v2_catch, hrestart]

theorem sameModel_frame : Frame SameModel where
  refl _ := ⟨rfl, rfl, rfl, rfl⟩
  trans a b c := by
    rintro ⟨h1, h2, h3, h4⟩ ⟨h5, h6, h7, h8⟩
    exact ⟨h5.trans h1, h6.trans h2, h7.trans h3, h8.trans h4⟩
  event _ _ _ := ⟨rfl, rfl, rfl, rfl⟩

theorem sameModel_slotsFree : SlotsFree SameModel :=
  fun _ _ _ _ => ⟨rfl, rfl, rfl, rfl⟩

theorem keeps_bind_readDoc {α β : Type} {R : Machine → Machine → Prop} (hR : Frame R)
    {r : Except String α} {f : α → Exec β} (hf : ∀ a, r = .ok a → Keeps R (f a)) :
    Keeps R (readDoc r >>= f) := by
  cases r with
  | error msg => exact fun m => hR.refl m
  | ok a => exact fun m => hf a rfl m

theorem ParseUnit_keeps_of_not_core {R : Machine → Machine → Prop} (hR : Frame R)
    (hS : SlotsFree R) (env : Env) (u : UnitDoc) (loading_state : Bool)
    (hu : u.type ≠ .ok GetSnapshotUnitApple2Name) :
    Keeps R (ParseUnit env u loading_state) := by
  unfold ParseUnit
  refine keeps_bind hR (keeps_log hR (Event.ParseUnit loading_state) rfl) ?_
  intro _
  apply keeps_bind_readDoc hR
  intro unit hunit
  apply keeps_bind hR (keeps_readDoc hR _)
  intro unitVersion
  apply keeps_ite
  · exact fun _ => keeps_raise hR _
  intro _
  apply keeps_ite
  · intro h
    exact absurd (by rw [hunit, h]) hu
  intro _
  repeat' first
    | exact keeps_pure hR _
    | exact keeps_raise hR _
    | exact keeps_callLoad hR _ _ rfl
    | exact ParseSlots_keeps hR hS _ _ _
    | apply keeps_ite
    | apply keeps_bind hR
    | intro _

theorem sameSlots_frame : Frame SameSlots where
  refl _ := rfl
  trans _ _ _ h1 h2 := Eq.trans h2 h1
  event _ _ _ := rfl

theorem sameSlots_hddFree : HddFree SameSlots := fun _ _ => rfl

theorem sameSlot_frame (s : Nat) : Frame (SameSlot s) where
  refl _ := rfl
  trans _ _ _ h1 h2 := Eq.trans h2 h1
  event _ _ _ := rfl

theorem sameSlot_hddFree (s : Nat) : HddFree (SameSlot s) := fun _ _ => rfl

theorem sameSlot_slotWritable (s s1 : Nat) (h : s1 ≠ s) : SlotWritable (SameSlot s) s1 :=
  fun m t => by
    show Function.update m.m_ConfigNew.m_Slot s1 t s = m.m_ConfigNew.m_Slot s
    exact Function.update_noteq (Ne.symm h) _ _

theorem ParseSlots_card_unknown (env : Env) (e : SlotDoc) (slot : Nat) (card : String)
    (cardVersion : Nat) (m : Machine) (h : card ∉ knownCardNames env) :
    ParseSlots_card env e slot card cardVersion m =
      .throw ("Slots: Unknown card: " ++ card) m := by
  simp only [knownCardNames, List.mem_cons, List.mem_singleton, not_or, List.mem_nil_iff,
    or_false] at h
  obtain ⟨h1, h2, h3, h4, h5, h6, h7, h8, h9, h10⟩ := h
  simp [ParseSlots_card, h1, h2, h3, h4, h5, h6, h7, h8, h9, h10]

/-- When the dispatch returns, the type it returns is the one of the card name, and the flag it
returns is the result of the load routine. -/
theorem ParseSlots_card_ok (env : Env) (e : SlotDoc) (slot : Nat) (card : String)
    (cardVersion : Nat) (m m1 : Machine) (b : Bool) (t : SS_CARDTYPE)
    (h : ParseSlots_card env e slot card cardVersion m = .ok (b, t) m1) :
    cardTypeOfName env card = some t ∧ e.load = .ok b := by
  unfold ParseSlots_card at h
  unfold cardTypeOfName
  by_cases h0 : card = env.Printer_GetSnapshotCardName
  · rw [if_pos h0] at h ⊢
    cases hl : e.load <;> simp [hl] at h ⊢
    exact ⟨h.1.2, h.1.1⟩
  rw [if_neg h0] at h ⊢
  by_cases h1 : card = env.SSC_GetSnapshotCardName
  · rw [if_pos h1] at h ⊢
    cases hl : e.load <;> simp [hl] at h ⊢
    exact ⟨h.1.2, h.1.1⟩
  rw [if_neg h1] at h ⊢
  by_cases h2 : card = env.Mouse_GetSnapshotCardName
  · rw [if_pos h2] at h ⊢
    cases hl : e.load <;> simp [hl] at h ⊢
    exact ⟨h.1.2, h.1.1⟩
  rw [if_neg h2] at h ⊢
  by_cases h3 : card = env.Z80_GetSnapshotCardName
  · rw [if_pos h3] at h ⊢
    cases hl : e.load <;> simp [hl] at h ⊢
    exact ⟨h.1.2, h.1.1⟩
  rw [if_neg h3] at h ⊢
  by_cases h4 : card = env.MB_GetSnapshotCardName
  · rw [if_pos h4] at h ⊢
    cases hl : e.load <;> simp [hl] at h ⊢
    exact ⟨h.1.2, h.1.1⟩
  rw [if_neg h4] at h ⊢
  by_cases h5 : card = env.Phasor_GetSnapshotCardName
  · rw [if_pos h5] at h ⊢
    cases hl : e.load <;> simp [hl] at h ⊢
    exact ⟨h.1.2, h.1.1⟩
  rw [if_neg h5] at h ⊢
  by_cases h6 : card = env.DiskGetSnapshotCardName
  · rw [if_pos h6] at h ⊢
    cases hl : e.load <;> simp [hl] at h ⊢
    exact ⟨h.1.2, h.1.1⟩
  rw [if_neg h6] at h ⊢
  by_cases h7 : card = env.HD_GetSnapshotCardName
  · rw [if_pos h7] at h ⊢
    cases hl : e.load <;> simp [hl] at h ⊢
    exact ⟨h.1.2, h.1.1⟩
  rw [if_neg h7] at h ⊢
  by_cases g0 : card = env.LanguageCardSlot0_GetSnapshotCardName
  · rw [if_pos g0] at h ⊢
    cases hr1 : env.raises (Event.SetExpansionMemType CT_LanguageCard) <;>
      cases hr2 : env.raises Event.CreateLanguageCard <;>
      cases hl : e.load <;> simp [hl, call, hr1, hr2] at h ⊢
    exact ⟨h.1.2, h.1.1⟩
  rw [if_neg g0] at h ⊢
  by_cases g1 : card = env.Saturn128K_GetSnapshotCardName
  · rw [if_pos g1] at h ⊢
    cases hr1 : env.raises (Event.SetExpansionMemType CT_Saturn128K) <;>
      cases hr2 : env.raises Event.CreateLanguageCard <;>
      cases hl : e.load <;> simp [hl, call, hr1, hr2] at h ⊢
    exact ⟨h.1.2, h.1.1⟩
  rw [if_neg g1] at h ⊢
  simp at h

theorem ParseSlots_entry_unknown (env : Env) (e : SlotDoc) (m : Machine) (card : String)
    (v : Nat) (hlo : 0 ≤ toInt32 (strtoul e.key)) (hhi : toInt32 (strtoul e.key) ≤ 7)
    (hcard : e.card = .ok card) (hver : e.cardVersion = .ok v) (hstate : e.hasState = true)
    (hunknown : card ∉ knownCardNames env) :
    ParseSlots_entry env e m = .throw ("Slots: Unknown card: " ++ card) m := by
  have hr : ¬(toInt32 (strtoul e.key) < 0 ∨ toInt32 (strtoul e.key) > 7) := by omega
  simp [ParseSlots_entry, hr, hcard, hver, hstate, ParseSlots_card_unknown env e _ card v _ hunknown]

/-- An entry that was parsed without error and whose load routine returned true is recorded:
the entry of the slot table for its slot number holds the type of its card name. -/
theorem ParseSlots_entry_records (env : Env) (e : SlotDoc) (m m1 : Machine)
    (h : ParseSlots_entry env e m = .ok () m1) (hl : e.load = .ok true) :
    ∃ card t, e.card = .ok card ∧ cardTypeOfName env card = some t ∧
      m1.m_ConfigNew.m_Slot (slotNumber e) = t := by
  unfold ParseSlots_entry at h
  by_cases hr : toInt32 (strtoul e.key) < 0 ∨ toInt32 (strtoul e.key) > 7
  · simp [hr] at h
  · cases hc : e.card with
    | error msg => simp [hr, hc] at h
    | ok card =>
      cases hv : e.cardVersion with
      | error msg => simp [hr, hc, hv] at h
      | ok v =>
        by_cases hs : e.hasState = false
        · simp [hr, hc, hv, hs] at h
        · have hs1 : e.hasState = true := by
            cases h1 : e.hasState
            · exact absurd h1 hs
            · rfl
          simp only [hr, hc, hv, hs1, Bool.true_eq_false, if_false, run_bind,
            run_readDoc_ok] at h
          cases hd : ParseSlots_card env e (toInt32 (strtoul e.key)).toNat card v m with
          | throw msg m2 => rw [hd] at h; simp at h
          | ok r m2 =>
            obtain ⟨b, t⟩ := r
            obtain ⟨ht, hb⟩ := ParseSlots_card_ok env e _ card v m m2 b t hd
            rw [hl] at hb
            have hb1 : b = true := by injection hb with hb; exact hb.symm
            subst hb1
            rw [hd] at h
            simp only [if_true, run_modify, Res.ok.injEq, true_and] at h
            subst h
            exact ⟨card, t, rfl, ht, by simp [slotNumber]⟩

theorem ParseSlots_loop_cons (env : Env) (e : SlotDoc) (rest : List SlotDoc) (m : Machine)
    (hk : e.key ≠ "") :
    ParseSlots_loop env (e :: rest) m =
      match ParseSlots_entry env e m with
      | .ok _ m1 => ParseSlots_loop env rest m1
      | .throw msg m1 => .throw msg m1 := by
  conv_lhs => unfold ParseSlots_loop
  rw [if_neg hk, run_bind]
  cases ParseSlots_entry env e m <;> rfl

theorem ParseSlots_loop_append (env : Env) (pre rest : List SlotDoc) (m : Machine)
    (hk : ∀ x ∈ pre, x.key ≠ "") :
    ParseSlots_loop env (pre ++ rest) m =
      match ParseSlots_loop env pre m with
      | .ok _ m1 => ParseSlots_loop env rest m1
      | .throw msg m1 => .throw msg m1 := by
  induction pre generalizing m with
  | nil => rfl
  | cons e pre ih =>
    have he : e.key ≠ "" := hk e (List.mem_cons_self e pre)
    have hp : ∀ x ∈ pre, x.key ≠ "" := fun x hx => hk x (List.mem_cons_of_mem e hx)
    rw [List.cons_append, ParseSlots_loop_cons env e _ m he, ParseSlots_loop_cons env e _ m he]
    cases ParseSlots_entry env e m with
    | ok a m1 => exact ih m1 hp
    | throw msg m1 => rfl

/-! ## The file header version gate -/

/-- C2: when the parser opens the document and the file header parses with a version `v` other
than `SS_FILE_VER`, `Snapshot_LoadState_v2` shows the message "Version mismatch" and does
nothing else to the machine: the only calls are `InitParser`, the message box and
`FinaliseParser`, so no subsystem is reset and no unit is parsed. -/
theorem load_v2_version_mismatch (env : Env) (doc : Document) (m : Machine) (v : Nat)
    (hopen : doc.initOk = true)
    (hhdr : ∀ m1, ParseFileHdr env doc m1 = .ok v m1)
    (hv : v ≠ SS_FILE_VER) :
    Snapshot_LoadState_v2 env doc m =
      { m with restart := false,
               trace := m.trace ++ [Event.InitParser m.g_strSaveStatePathname,
                                    Event.MessageBox "Version mismatch" "Load State",
                                    Event.FinaliseParser] } := by
  simp [Snapshot_LoadState_v2, Snapshot_LoadState_v2_try, Snapshot_LoadState_v2_begin, hopen,
    hhdr, hv, Snapshot_LoadState_v2_catch]

/-- A version 3 document is turned away with the message box only. -/
theorem load_v2_version_mismatch_witness :
    Snapshot_LoadState_v2 envRA (docOf 3 [unitApple2]) machine0 =
      { machine0 with restart := false,
                      trace := [Event.InitParser "C:\\A2\\game.aws.yaml",
                                Event.MessageBox "Version mismatch" "Load State",
                                Event.FinaliseParser] } :=
  load_v2_version_mismatch envRA (docOf 3 [unitApple2]) machine0 3 rfl (fun _ => rfl)
    (by decide)

/-! ## The restart request -/

/-- C3: `Snapshot_LoadState_v2` posts `WM_USER_RESTART` exactly once when an error is raised
after the point where `restart` is set (the parser opened, the file header parsed with version
`SS_FILE_VER`, and the guard, if the build has one, let the load proceed), and not at all
otherwise: not for an error raised before that point, not when the guard declines, and not for
a load without error. -/
theorem restart_iff_error_after_guard (env : Env) (doc : Document) (m : Machine) :
    (Snapshot_LoadState_v2 env doc m).trace.count Event.PostMessage_WM_USER_RESTART =
      m.trace.count Event.PostMessage_WM_USER_RESTART +
        (if (doc.initOk = true ∧ (ParseFileHdr env doc m).value = some SS_FILE_VER ∧
              (env.USE_RETROACHIEVEMENTS = true → env.guardAnswer = true)) ∧
            (Snapshot_LoadState_v2_try env doc { m with restart := false }).error ≠ none
         then 1 else 0) := by
  by_cases hi : doc.initOk = true
  · rcases ParseFileHdr_cases env doc with ⟨v, hv⟩ | ⟨msg, hmsg⟩
    · by_cases hver : v = SS_FILE_VER
      · by_cases hg : env.USE_RETROACHIEVEMENTS = true → env.guardAnswer = true
        · have hbegin : ∃ g, Snapshot_LoadState_v2_begin env doc { m with restart := false } =
              .ok true { m with restart := true, trace := m.trace ++ g } ∧
              g.count Event.PostMessage_WM_USER_RESTART = 0 := by
            by_cases hra : env.USE_RETROACHIEVEMENTS = true
            · refine ⟨[Event.InitParser m.g_strSaveStatePathname,
                Event.RA_WarnDisableHardcore "load a state"], ?_, by simp⟩
              simp [Snapshot_LoadState_v2_begin, hi, hv, hver, hra, hg hra, RA_WarnDisableHardcore]
            · refine ⟨[Event.InitParser m.g_strSaveStatePathname], ?_, by simp⟩
              simp [Snapshot_LoadState_v2_begin, hi, hv, hver, hra]
          obtain ⟨g, hb, hg0⟩ := hbegin
          obtain ⟨hres, evs, htr, hsub⟩ := armed_keeps onlySubsystemCalls_frame
            onlySubsystemCalls_slotsFree onlySubsystemCalls_modelFree onlySubsystemCalls_flagFree
            env doc { m with restart := true, trace := m.trace ++ g }
          have hev := count_restart_of_subsystem evs hsub
          have htry : Snapshot_LoadState_v2_try env doc { m with restart := false } =
              Snapshot_LoadState_v2_armed env doc
                { m with restart := true, trace := m.trace ++ g } := by
            simp [Snapshot_LoadState_v2_try, hb]
          cases harm : Snapshot_LoadState_v2_armed env doc
              { m with restart := true, trace := m.trace ++ g } with
          | ok b m2 =>
            rw [harm] at hres htr htry
            simp only [Res.machine] at hres htr
            cases b <;>
              simp [Snapshot_LoadState_v2, htry, htr, hev, hg0, Res.error, List.count_append]
          | throw msg m2 =>
            rw [harm] at hres htr htry
            simp only [Res.machine] at hres htr
            simp [Snapshot_LoadState_v2, htry, htr, hev, hg0, Res.error, List.count_append,
              Snapshot_LoadState_v2_catch, hres, hi, hv, hver, Res.value]
            rw [if_pos hg]
        · have hra : env.USE_RETROACHIEVEMENTS = true := by
            by_contra h
            exact hg (fun h1 => absurd h1 h)
          have hga : env.guardAnswer = false := by
            cases hx : env.guardAnswer
            · rfl
            · exact absurd (fun _ => hx) hg
          simp [Snapshot_LoadState_v2, Snapshot_LoadState_v2_try, Snapshot_LoadState_v2_begin, hi,
            hv, hver, hra, hga, RA_WarnDisableHardcore, Res.value, Res.error]
      · simp [Snapshot_LoadState_v2, Snapshot_LoadState_v2_try, Snapshot_LoadState_v2_begin, hi,
          hv, hver, Snapshot_LoadState_v2_catch, Res.value, Res.error]
    · simp [Snapshot_LoadState_v2, Snapshot_LoadState_v2_try, Snapshot_LoadState_v2_begin, hi,
        hmsg, Snapshot_LoadState_v2_catch, Res.value, Res.error]
  · simp [Snapshot_LoadState_v2, Snapshot_LoadState_v2_try, Snapshot_LoadState_v2_begin, hi,
      Snapshot_LoadState_v2_catch, Res.value, Res.error]

/-! ## The deprecated file name -/

theorem string_find_suffix (stem ext : String) (pos : Nat) (hpos : pos ≤ stem.length) :
    string_find (stem ++ ext) ext pos ≠ none := by
  unfold string_find
  intro h
  rw [List.find?_eq_none] at h
  have hmem : stem.length ∈ List.range ((stem ++ ext).length + 1) := by
    rw [List.mem_range, String.length_append]; omega
  have hdrop : (stem ++ ext).toList.drop stem.length = ext.toList := by
    show List.drop stem.data.length (stem ++ ext).data = ext.data
    rw [String.data_append, List.drop_left]
  have hpre : ext.toList.isPrefixOf ((stem ++ ext).toList.drop stem.length) = true := by
    rw [hdrop, List.isPrefixOf_iff_prefix]
  have := h stem.length hmem
  rw [hpre, decide_eq_true hpos] at this
  exact this rfl

/-- C4: for every path name that ends in ".aws", `Snapshot_LoadState` shows the fixed message
"Save-state v1 no longer supported..." and does nothing else: `Snapshot_LoadState_v2` is not
entered, so `InitParser` is not called, nothing is reset or parsed and no restart is posted. -/
theorem load_rejects_aws (env : Env) (doc : Document) (m : Machine) (stem : String)
    (h : m.g_strSaveStatePathname = stem ++ ".aws") :
    Snapshot_LoadState env doc m =
      { m with trace := m.trace ++ [Event.MessageBox MSG_V1_UNSUPPORTED "Load State"] } := by
  unfold Snapshot_LoadState
  have h32 : 2 ^ SIZE_BITS = 4294967296 := by norm_num [SIZE_BITS]
  have h4 : (".aws" : String).length = 4 := by decide
  have hpos : (m.g_strSaveStatePathname.length + (2 ^ SIZE_BITS - (".aws" : String).length))
      % 2 ^ SIZE_BITS ≤ stem.length := by
    rw [h, String.length_append, h4, h32]
    omega
  have hf := string_find_suffix stem ".aws" _ hpos
  rw [← h] at hf
  rw [if_pos hf]

/-- A path name with the old extension gets the message box and nothing else. -/
theorem load_rejects_aws_witness :
    Snapshot_LoadState envRA (docOf 2 [unitApple2])
        { machine0 with g_strSaveStatePathname := "C:\\A2\\game.aws" } =
      { machine0 with g_strSaveStatePathname := "C:\\A2\\game.aws",
                      trace := [Event.MessageBox MSG_V1_UNSUPPORTED "Load State"] } :=
  load_rejects_aws envRA (docOf 2 [unitApple2])
    { machine0 with g_strSaveStatePathname := "C:\\A2\\game.aws" } "C:\\A2\\game" (by decide)

/-! ## The guard -/

/-- C5, the code at the failing input: in a RetroAchievements build, on a well-formed version
2 document, a user who declines at the guard leaves `Snapshot_LoadState_v2` by the `return`
inside the `try` block: the calls are `InitParser` and the guard, and `FinaliseParser` is not
among them. -/
theorem guard_declined_skips_FinaliseParser :
    (Snapshot_LoadState_v2 envDecline (docOf 2 [unitApple2]) machine0).trace =
        [Event.InitParser "C:\\A2\\game.aws.yaml", Event.RA_WarnDisableHardcore "load a state"] ∧
      Event.FinaliseParser ∉
        (Snapshot_LoadState_v2 envDecline (docOf 2 [unitApple2]) machine0).trace := by
  decide!

/-- C6: when the parser opened, the file header parsed with version `SS_FILE_VER` and the
guard `RA_WarnDisableHardcore` declines, `Snapshot_LoadState_v2` leaves the machine as it was
but for the record of the two calls `InitParser` and `RA_WarnDisableHardcore` (and its own local
`restart`, which stays false): no reset, no change of `m_ConfigNew`, no unit parsed, the
loaded-save-state flag untouched, no message box, no restart. -/
theorem guard_declined_no_change (env : Env) (doc : Document) (m : Machine)
    (hra : env.USE_RETROACHIEVEMENTS = true) (hga : env.guardAnswer = false)
    (hopen : doc.initOk = true)
    (hhdr : ∀ m1, ParseFileHdr env doc m1 = .ok SS_FILE_VER m1) :
    Snapshot_LoadState_v2 env doc m =
      { m with restart := false,
               trace := m.trace ++ [Event.InitParser m.g_strSaveStatePathname,
                                    Event.RA_WarnDisableHardcore "load a state"] } := by
  simp [Snapshot_LoadState_v2, Snapshot_LoadState_v2_try, Snapshot_LoadState_v2_begin, hopen,
    hhdr, hra, hga, RA_WarnDisableHardcore]

/-- A declined load of a well-formed document changes nothing but the record. -/
theorem guard_declined_no_change_witness :
    Snapshot_LoadState_v2 envDecline (docOf 2 [unitApple2]) machine0 =
      { machine0 with restart := false,
                      trace := [Event.InitParser "C:\\A2\\game.aws.yaml",
                                Event.RA_WarnDisableHardcore "load a state"] } :=
  guard_declined_no_change envDecline (docOf 2 [unitApple2]) machine0 rfl rfl rfl (fun _ => rfl)

/-! ## Unknown units -/

/-- C7, amended: when the load reaches, after the units `pre` parsed without error, a unit that
has a version and a State sub-map and whose type name is none of "Apple2", the auxiliary-slot
unit name and "Slots", it shows the message
"Unit: Unknown type: " followed by that name, posts the restart and finalises the parser; the
machine is the one the units `pre` left (they remain applied), and nothing of the entries
`post` after the offending unit is parsed: the only calls added are the entry of `ParseUnit`
for the offending unit, the message box, the restart and `FinaliseParser`. -/
theorem unknown_unit_stops_load (env : Env) (doc : Document) (m : Machine)
    (pre post : List TopEntry) (u : UnitDoc) (name : String) (v : Nat)
    (hdoc : doc.top = pre ++ { scalar := env.SS_YAML_KEY_UNIT, unit := u } :: post)
    (htype : u.type = .ok name) (hver : u.version = .ok v) (hstate : u.hasState = true)
    (h1 : name ≠ GetSnapshotUnitApple2Name) (h2 : name ≠ env.MemGetSnapshotUnitAuxSlotName)
    (h3 : name ≠ GetSnapshotUnitSlotsName)
    (hreach : (loadUpTo env doc pre { m with restart := false }).value = some true) :
    Snapshot_LoadState_v2 env doc m =
      { (loadUpTo env doc pre { m with restart := false }).machine with
        trace := (loadUpTo env doc pre { m with restart := false }).machine.trace ++
          [Event.ParseUnit true,
           Event.MessageBox (env.SS_YAML_KEY_UNIT ++ ": Unknown type: " ++ name) "Load State",
           Event.PostMessage_WM_USER_RESTART,
           Event.FinaliseParser] } := by
  obtain ⟨m1, m2, -, -, -, hres⟩ := loadUpTo_true env doc pre _ hreach
  rw [load_fails_at_entry env doc m pre post _ _ _ hdoc hreach
    (by simp only [if_true]
        exact ParseUnit_unknown env u true _ name v htype hver hstate h1 h2 h3)
    (by simpa using hres)]
  simp

/-- The load of `docClock` stops at the unit "Clock" with the core-machine unit applied. -/
theorem unknown_unit_stops_load_witness :
    Snapshot_LoadState_v2 envRA docClock machine0 =
      { (loadUpTo envRA docClock [{ scalar := "Unit", unit := unitApple2 }]
          { machine0 with restart := false }).machine with
        trace := (loadUpTo envRA docClock [{ scalar := "Unit", unit := unitApple2 }]
            { machine0 with restart := false }).machine.trace ++
          [Event.ParseUnit true,
           Event.MessageBox (envRA.SS_YAML_KEY_UNIT ++ ": Unknown type: " ++ "Clock") "Load State",
           Event.PostMessage_WM_USER_RESTART,
           Event.FinaliseParser] } :=
  unknown_unit_stops_load envRA docClock machine0 [{ scalar := "Unit", unit := unitApple2 }]
    [{ scalar := "Unit", unit := unitOf "Slots" 1 [slotOf "6" "Disk]["] }]
    (unitOf "Clock" 1 []) "Clock" 1 rfl rfl rfl rfl (by decide) (by decide) (by decide)
    (by decide!)

/-! ## Unknown cards -/

/-- C8, amended: in `ParseSlots` (unit version `UNIT_SLOTS_VER`), when the entries `pre` parsed
without error and the next entry has a slot number in 0..7, a card version, a State sub-map and
a card name that is none of the ten known names, the error "Slots: Unknown card: " followed by that name is thrown and the machine
is the one the entries `pre` left: the offending entry and the entries after it leave no mark.
Every entry `x` of `pre` whose load routine returned true was recorded when it was parsed
(the slot table held the type of its card at its slot number), and it is still recorded when
the error is thrown unless a later entry of `pre` has the same slot number. -/
theorem unknown_card_stops_slots (env : Env) (u : UnitDoc) (m : Machine)
    (pre post : List SlotDoc) (e : SlotDoc) (card : String) (v : Nat)
    (hslots : u.slots = pre ++ e :: post)
    (hkeys : ∀ x ∈ pre, x.key ≠ "")
    (hpre : (ParseSlots_loop env pre m).error = none)
    (hkey : e.key ≠ "")
    (hlo : 0 ≤ toInt32 (strtoul e.key)) (hhi : toInt32 (strtoul e.key) ≤ 7)
    (hcard : e.card = .ok card) (hver : e.cardVersion = .ok v) (hstate : e.hasState = true)
    (hunknown : card ∉ knownCardNames env) :
    ParseSlots env u UNIT_SLOTS_VER m =
        .throw ("Slots: Unknown card: " ++ card) (ParseSlots_loop env pre m).machine ∧
      ∀ a x b, pre = a ++ x :: b → x.load = .ok true →
        ∃ c t, x.card = .ok c ∧ cardTypeOfName env c = some t ∧
          (ParseSlots_loop env (a ++ [x]) m).machine.m_ConfigNew.m_Slot (slotNumber x) = t ∧
          ((∀ y ∈ b, slotNumber y ≠ slotNumber x) →
            (ParseSlots_loop env pre m).machine.m_ConfigNew.m_Slot (slotNumber x) = t) := by
  cases hM : ParseSlots_loop env pre m with
  | throw msg M => rw [hM] at hpre; simp [Res.error] at hpre
  | ok _ M =>
    refine ⟨?_, ?_⟩
    · unfold ParseSlots
      rw [if_neg (by simp), hslots, ParseSlots_loop_append env pre _ m hkeys, hM]
      simp only
      rw [ParseSlots_loop_cons env e post _ hkey,
        ParseSlots_entry_unknown env e _ card v hlo hhi hcard hver hstate hunknown]
      rfl
    · intro a x b hab hl
      subst hab
      have hka : ∀ y ∈ a, y.key ≠ "" := fun y hy => hkeys y (List.mem_append_left _ hy)
      have hkx : x.key ≠ "" := hkeys x (List.mem_append_right _ (List.mem_cons_self x b))
      rw [ParseSlots_loop_append env a _ m hka] at hM
      cases ha : ParseSlots_loop env a m with
      | throw msg m1 => rw [ha] at hM; simp at hM
      | ok _ m1 =>
        rw [ha] at hM
        simp only at hM
        rw [ParseSlots_loop_cons env x b m1 hkx] at hM
        cases hx : ParseSlots_entry env x m1 with
        | throw msg m2 => rw [hx] at hM; simp at hM
        | ok _ m2 =>
          rw [hx] at hM
          simp only at hM
          obtain ⟨c, t, hc, ht, hrec⟩ := ParseSlots_entry_records env x m1 m2 hx hl
          refine ⟨c, t, hc, ht, ?_, ?_⟩
          · rw [ParseSlots_loop_append env a [x] m hka, ha]
            simp only
            rw [ParseSlots_loop_cons env x [] m1 hkx, hx]
            simpa [ParseSlots_loop, Res.machine] using hrec
          · intro hb
            have hk := ParseSlots_loop_keeps (sameSlot_frame (slotNumber x))
              (sameSlot_hddFree (slotNumber x)) env b
              (fun y hy => sameSlot_slotWritable _ _ (hb y hy)) m2
            rw [hM] at hk
            exact hk.trans hrec

/-- The slots unit `unitSlotsClock` stops at the card "Clock Card" with the printer of slot 1
recorded. -/
theorem unknown_card_stops_slots_witness :
    ParseSlots envPlain unitSlotsClock UNIT_SLOTS_VER machine0 =
        .throw ("Slots: Unknown card: " ++ "Clock Card")
          (ParseSlots_loop envPlain [slotOf "1" "Generic Printer"] machine0).machine ∧
      (ParseSlots_loop envPlain [slotOf "1" "Generic Printer"] machine0).machine.m_ConfigNew.m_Slot 1
        = CT_GenericPrinter :=
  ⟨(unknown_card_stops_slots envPlain unitSlotsClock machine0
      [slotOf "1" "Generic Printer"] [slotOf "6" "Disk]["] (slotOf "4" "Clock Card")
      "Clock Card" 1 rfl (by decide) (by decide!) (by decide) (by decide!) (by decide!) rfl rfl
      rfl (by decide)).1,
   by decide!⟩

/-! ## The version of the slots unit -/

/-- C10: `ParseUnitApple2` throws "Unit: Apple2: Version mismatch" with the machine untouched
and no call made, whatever the unit holds, when the version is 0 or greater than
`UNIT_APPLE2_VER`; for versions 1 and 2 it goes on to read the model (a reader error on the
model is the error thrown), and when every step succeeds the keyboard and memory loaders are
called with that same version. -/
theorem ParseUnitApple2_version_gate (env : Env) (u : UnitDoc) (version : Nat) (m : Machine) :
    ((version = 0 ∨ version > UNIT_APPLE2_VER) →
      ParseUnitApple2 env u version m =
        .throw (env.SS_YAML_KEY_UNIT ++ ": Apple2: Version mismatch") m) ∧
    ((version = 1 ∨ version = 2) →
      (∀ msg, u.model = .error msg → ParseUnitApple2 env u version m = .throw msg m) ∧
      (∀ model type cpu, u.model = .ok model → ParseApple2Type model = .ok type →
        u.cpu = .ok cpu → u.joy = .ok () → u.keyb = .ok () → u.spkr = .ok () →
        u.video = .ok () → u.mem = .ok () → (∀ e, env.raises e = none) →
        ParseUnitApple2 env u version m =
          .ok () { m with
            g_Apple2Type := type
            mainCpu := cpu
            m_ConfigNew := { m.m_ConfigNew with m_Apple2Type := type, m_CpuType := cpu }
            trace := m.trace ++
              [Event.SetApple2Type type, Event.CpuLoadSnapshot, Event.JoyLoadSnapshot,
               Event.KeybLoadSnapshot version, Event.SpkrLoadSnapshot, Event.VideoLoadSnapshot,
               Event.MemLoadSnapshot version, Event.VideoReinitialize,
               Event.FrameUpdateApple2Type] })) := by
  refine ⟨fun h => ?_, fun h => ⟨fun msg hm => ?_, ?_⟩⟩
  · simp [ParseUnitApple2, h]
  · have hv : ¬(version = 0 ∨ version > UNIT_APPLE2_VER) := by
      unfold UNIT_APPLE2_VER; omega
    simp [ParseUnitApple2, hv, hm]
  · intro model type cpu hm ht hc hj hk hs hvi hme hr
    have hv : ¬(version = 0 ∨ version > UNIT_APPLE2_VER) := by
      unfold UNIT_APPLE2_VER; omega
    simp [ParseUnitApple2, hv, hm, ht, hc, hj, hk, hs, hvi, hme, SetApple2Type, call, hr]

/-- Versions 0 and 3 are turned away, version 1 is loaded. -/
theorem ParseUnitApple2_version_gate_witness :
    ParseUnitApple2 envRA unitApple2 0 machine0 =
        .throw "Unit: Apple2: Version mismatch" machine0 ∧
      ParseUnitApple2 envRA unitApple2 3 machine0 =
        .throw "Unit: Apple2: Version mismatch" machine0 ∧
      ParseUnitApple2 envRA unitApple2 1 machine0 =
        .ok () { machine0 with
          trace := [Event.SetApple2Type A2TYPE_APPLE2EENHANCED, Event.CpuLoadSnapshot,
               Event.JoyLoadSnapshot, Event.KeybLoadSnapshot 1, Event.SpkrLoadSnapshot,
               Event.VideoLoadSnapshot, Event.MemLoadSnapshot 1, Event.VideoReinitialize,
               Event.FrameUpdateApple2Type] } :=
  ⟨(ParseUnitApple2_version_gate envRA unitApple2 0 machine0).1 (Or.inl rfl),
   (ParseUnitApple2_version_gate envRA unitApple2 3 machine0).1 (Or.inr (by decide)),
   ((ParseUnitApple2_version_gate envRA unitApple2 1 machine0).2 (Or.inl rfl)).2
     "Enhanced Apple//e" A2TYPE_APPLE2EENHANCED 2 rfl (by decide) rfl rfl rfl rfl rfl rfl
     (fun _ => rfl)⟩

/-! ## The round trip of a save and a load -/

theorem run_call_quiet (env : Env) (e : Event) (m : Machine) (h : ∀ e, env.raises e = none) :
    call env e m = .ok () { m with trace := m.trace ++ [e] } := by
  simp [call, h]

theorem emits_pure : Emits (pure ()) [] := fun m => by simp

theorem emits_call (env : Env) (e : Event) (hquiet : ∀ e, env.raises e = none) :
    Emits (call env e) [e] := fun m => by simp [call, hquiet]

theorem emits_seq {x y : Exec Unit} {l1 l2 : List Event} (hx : Emits x l1) (hy : Emits y l2) :
    Emits (x >>= fun _ => y) (l1 ++ l2) := fun m => by
  simp [hx m, hy _]

theorem emits_ite (c : Prop) [Decidable c] {x y : Exec Unit} {l1 l2 : List Event}
    (hx : Emits x l1) (hy : Emits y l2) :
    Emits (if c then x else y) (if c then l1 else l2) := by
  split
  · exact hx
  · exact hy

theorem emits_readDoc_ok {α : Type} (a : α) {f : α → Exec Unit} {l : List Event}
    (hf : Emits (f a) l) : Emits (readDoc (.ok a) >>= f) l := fun m => by
  simpa using hf m

theorem save_try_run (env : Env) (m : Machine) (model : String)
    (hquiet : ∀ e, env.raises e = none)
    (hmodel : GetApple2TypeAsString m.g_Apple2Type = .ok model) :
    Snapshot_SaveState_try env m = .ok () { m with trace := m.trace ++ saveCalls env m model } := by
  unfold Snapshot_SaveState_try
  rw [run_bind, run_getMachine]
  simp only [hmodel]
  have key : ∀ (x : Exec Unit) (l : List Event), Emits x l → l = saveCalls env m model →
      x m = .ok () { m with trace := m.trace ++ saveCalls env m model } :=
    fun x l hx hl => by rw [hx m, hl]
  apply key (call env _ >>= _)
  · repeat' first
      | exact emits_pure
      | exact emits_call env _ hquiet
      | apply emits_ite
      | apply emits_readDoc_ok
      | apply emits_seq
  · simp [saveCalls, slotCalls]

theorem save_trace (env : Env) (m : Machine) (model : String)
    (hquiet : ∀ e, env.raises e = none)
    (hmodel : GetApple2TypeAsString m.g_Apple2Type = .ok model) :
    (Snapshot_SaveState env m).trace = m.trace ++ saveCalls env m model := by
  simp [Snapshot_SaveState, save_try_run env m model hquiet hmodel]

theorem slotNumber_savedSlotEntry (k : Nat) (hk : k < 8) (card : String) :
    (savedSlotEntry k card).key ≠ "" ∧ toInt32 (strtoul (savedSlotEntry k card).key) = k := by
  unfold savedSlotEntry
  simp only
  interval_cases k <;> decide!

theorem cardTypeOfName_known (env : Env) (hnames : NamesDistinct env) :
    cardTypeOfName env env.Printer_GetSnapshotCardName = some CT_GenericPrinter ∧
    cardTypeOfName env env.SSC_GetSnapshotCardName = some CT_SSC ∧
    cardTypeOfName env env.Mouse_GetSnapshotCardName = some CT_MouseInterface ∧
    cardTypeOfName env env.Z80_GetSnapshotCardName = some CT_Z80 ∧
    cardTypeOfName env env.MB_GetSnapshotCardName = some CT_MockingboardC ∧
    cardTypeOfName env env.Phasor_GetSnapshotCardName = some CT_Phasor ∧
    cardTypeOfName env env.DiskGetSnapshotCardName = some CT_Disk2 ∧
    cardTypeOfName env env.HD_GetSnapshotCardName = some CT_GenericHDD ∧
    cardTypeOfName env env.LanguageCardSlot0_GetSnapshotCardName = some CT_LanguageCard ∧
    cardTypeOfName env env.Saturn128K_GetSnapshotCardName = some CT_Saturn128K := by
  obtain ⟨hn, -, -⟩ := hnames
  simp only [knownCardNames, List.nodup_cons, List.mem_cons, List.mem_singleton, not_or,
    List.not_mem_nil, not_false_eq_true, List.nodup_nil, and_true] at hn
  obtain ⟨⟨p1, p2, p3, p4, p5, p6, p7, p8, p9⟩, ⟨q1, q2, q3, q4, q5, q6, q7, q8⟩,
    ⟨r1, r2, r3, r4, r5, r6, r7⟩, ⟨s1, s2, s3, s4, s5, s6⟩, ⟨t1, t2, t3, t4, t5⟩,
    ⟨u1, u2, u3, u4⟩, ⟨v1, v2, v3⟩, ⟨w1, w2⟩, x1⟩ := hn
  unfold cardTypeOfName
  refine ⟨?_, ?_, ?_, ?_, ?_, ?_, ?_, ?_, ?_, ?_⟩ <;>
    simp [Ne.symm, *, Ne.symm p1, Ne.symm p2, Ne.symm p3, Ne.symm p4, Ne.symm p5, Ne.symm p6,
      Ne.symm p7, Ne.symm p8, Ne.symm p9, Ne.symm q1, Ne.symm q2, Ne.symm q3, Ne.symm q4,
      Ne.symm q5, Ne.symm q6, Ne.symm q7, Ne.symm q8, Ne.symm r1, Ne.symm r2, Ne.symm r3,
      Ne.symm r4, Ne.symm r5, Ne.symm r6, Ne.symm r7, Ne.symm s1, Ne.symm s2, Ne.symm s3,
      Ne.symm s4, Ne.symm s5, Ne.symm s6, Ne.symm t1, Ne.symm t2, Ne.symm t3, Ne.symm t4,
      Ne.symm t5, Ne.symm u1, Ne.symm u2, Ne.symm u3, Ne.symm u4, Ne.symm v1, Ne.symm v2,
      Ne.symm v3, Ne.symm w1, Ne.symm w2, Ne.symm x1]

theorem slotNumber_saved (k : Nat) (hk : k < 8) (card : String) :
    slotNumber (savedSlotEntry k card) = k := by
  unfold slotNumber
  rw [(slotNumber_savedSlotEntry k hk card).2]
  rfl

theorem recorded_nil (env : Env) (f : Nat → SS_CARDTYPE) : recorded env [] f = f := rfl

theorem recorded_append (env : Env) (l1 l2 : List SlotDoc) (f : Nat → SS_CARDTYPE) :
    recorded env (l1 ++ l2) f = recorded env l2 (recorded env l1 f) := by
  simp [recorded, List.foldl_append]

theorem recorded_saved_cons (env : Env) (k : Nat) (hk : k < 8) (card : String)
    (t : SS_CARDTYPE) (ht : cardTypeOfName env card = some t) (l : List SlotDoc)
    (f : Nat → SS_CARDTYPE) :
    recorded env (savedSlotEntry k card :: l) f = recorded env l (Function.update f k t) := by
  have hc : cardTypeOf env (savedSlotEntry k card) = some t := ht
  simp [recorded, hc, slotNumber_saved k hk]

theorem recorded_ite (env : Env) (c : Prop) [Decidable c] (l1 l2 : List SlotDoc)
    (f : Nat → SS_CARDTYPE) :
    recorded env (if c then l1 else l2) f = if c then recorded env l1 f else recorded env l2 f := by
  split <;> rfl

theorem flatMap_ite_singleton {α β : Type} (c : Prop) [Decidable c] (e : α) (f : α → List β) :
    (if c then [e] else []).flatMap f = if c then f e else [] := by
  split <;> simp

theorem recorded_saved (env : Env) (m : Machine) (hd : Bool) (s : Nat) (hs : s < NUM_SLOTS)
    (hvalid : ValidLive env m) (hnames : NamesDistinct env) :
    recorded env ((slotCalls env m).flatMap (savedSlots env m hd)) (fun _ => CT_Empty) s =
      liveSlot m hd s := by
  obtain ⟨-, h0, h4, h5⟩ := hvalid
  obtain ⟨c1, c2, c3, c4, c5, c6, c7, c8, c9, c10⟩ := cardTypeOfName_known env hnames
  have r0 := fun c t h f => recorded_saved_cons env 0 (by decide) c t h [] f
  have r1 := fun f => recorded_saved_cons env 1 (by decide) _ _ c1 [] f
  have r2 := fun f => recorded_saved_cons env 2 (by decide) _ _ c2 [] f
  have r4a := fun f => recorded_saved_cons env 4 (by decide) _ _ c3 [] f
  have r4b := fun f => recorded_saved_cons env 4 (by decide) _ _ c4 [] f
  have r5b := fun f => recorded_saved_cons env 5 (by decide) _ _ c4 [] f
  have r4c := fun f => recorded_saved_cons env 4 (by decide) _ _ c5 [] f
  have r5c := fun f => recorded_saved_cons env 5 (by decide) _ _ c5 [] f
  have r4d := fun f => recorded_saved_cons env 4 (by decide) _ _ c6 [] f
  have r6 := fun f => recorded_saved_cons env 6 (by decide) _ _ c7 [] f
  have r7 := fun f => recorded_saved_cons env 7 (by decide) _ _ c8 [] f
  simp only [slotCalls, List.flatMap_append, List.flatMap_cons, List.flatMap_nil,
    flatMap_ite_singleton, savedSlots, List.append_nil, recorded_append, recorded_ite,
    recorded_nil, r1, r2, r4a, r4b, r5b, r4c, r5c, r4d, r6, r7]
  unfold NUM_SLOTS at hs
  have hp : (m.g_Slot0 ≠ CT_Empty ∧ env.IsApple2PlusOrClone m.g_Apple2Type = true) ↔
      m.g_Slot0 ≠ CT_Empty := by
    rcases h0 with h0 | ⟨-, hp⟩
    · simp [h0]
    · simp [hp]
  have h0a : m.g_Slot0 = CT_Empty ∨ m.g_Slot0 = CT_LanguageCard ∨ m.g_Slot0 = CT_Saturn128K := by
    rcases h0 with h0 | ⟨h0 | h0, -⟩ <;> simp [h0]
  simp only [hp]
  rcases h0a with h0 | h0 | h0 <;>
    rcases h4 with h4 | h4 | h4 | h4 | h4 <;>
    rcases h5 with h5 | h5 | h5 <;>
    cases hd <;>
    simp [h0, h4, h5, r0 _ _ c9, r0 _ _ c10, liveSlot, Function.update_apply,
      recorded_nil] <;>
    interval_cases s <;> simp

theorem written_cardSave (env : Env) (m : Machine) (hd : Bool) (d : Document) (e : Event)
    (he : Event.isCardSave e = true) :
    written env m hd d e =
      { d with
        top := (updateUnit (fun u => { u with slots := u.slots ++ savedSlots env m hd e })
          d.top) } := by
  cases e <;> first | rfl | simp [Event.isCardSave] at he

theorem foldl_written_cardSave (env : Env) (m : Machine) (hd : Bool) (l : List Event)
    (hl : ∀ e ∈ l, Event.isCardSave e = true) (d : Document) (t : TopEntry)
    (rest : List TopEntry) (ht : d.top = t :: rest) :
    l.foldl (written env m hd) d =
      { d with top := { t with unit :=
          { t.unit with slots := t.unit.slots ++ l.flatMap (savedSlots env m hd) } } :: rest } := by
  induction l generalizing d t with
  | nil =>
    cases d
    simp only at ht
    simp [ht]
  | cons e l ih =>
    rw [List.foldl_cons, written_cardSave env m hd d e (hl e (List.mem_cons_self e l))]
    rw [ih (fun x hx => hl x (List.mem_cons_of_mem e hx)) _
      { t with unit := { t.unit with slots := t.unit.slots ++ savedSlots env m hd e } } (by
        simp [ht, updateUnit])]
    simp [List.flatMap_cons, List.append_assoc]

theorem slotCalls_cardSave (env : Env) (m : Machine) :
    ∀ e ∈ slotCalls env m, Event.isCardSave e = true := by
  intro e he
  simp only [slotCalls, List.mem_append, List.mem_cons, List.mem_singleton] at he
  rcases he with ((((((he | he) | he) | he) | he) | he) | he) | he
  all_goals first
    | (split at he <;> simp at he <;> subst he <;> rfl)
    | (simp at he; rcases he with he | he | he <;> subst he <;> rfl)
    | (simp at he; rcases he with he | he <;> subst he <;> rfl)

theorem writtenDocument_saveCalls (env : Env) (m : Machine) (hd : Bool) (model : String) :
    writtenDocument env m hd (saveCalls env m model) =
      { initOk := true, hdrScalar := some env.SS_YAML_KEY_FILEHDR,
        tag := .ok env.SS_YAML_VALUE_AWSS, version := .ok SS_FILE_VER,
        top := [{ scalar := env.SS_YAML_KEY_UNIT, unit := savedCoreUnit model m.mainCpu },
                { scalar := env.SS_YAML_KEY_UNIT, unit := savedAuxUnit env },
                { scalar := env.SS_YAML_KEY_UNIT,
                  unit := savedSlotsUnit ((slotCalls env m).flatMap (savedSlots env m hd)) }] } := by
  have hra : ∀ e ∈ (if env.USE_RETROACHIEVEMENTS = true
      then [Event.RA_OnSaveState m.g_strSaveStatePathname] else []),
      Event.isCardSave e = true := by
    intro e he
    split at he <;> simp at he
    subst he; rfl
  have hra0 : (if env.USE_RETROACHIEVEMENTS = true
      then [Event.RA_OnSaveState m.g_strSaveStatePathname] else []).flatMap
        (savedSlots env m hd) = [] := by
    split <;> simp [savedSlots]
  unfold writtenDocument saveCalls
  rw [List.foldl_append, List.foldl_append]
  simp only [List.foldl_cons, List.foldl_nil, written, updateUnit]
  rw [foldl_written_cardSave env m hd _ (slotCalls_cardSave env m) _ _ _ rfl]
  rw [foldl_written_cardSave env m hd _ hra _ _ _ rfl]
  simp [hra0, savedCoreUnit, savedAuxUnit, savedSlotsUnit, blankUnit]

theorem begin_good (env : Env) (doc : Document) (m : Machine)
    (hinit : doc.initOk = true) (hscalar : doc.hdrScalar = some env.SS_YAML_KEY_FILEHDR)
    (htag : doc.tag = .ok env.SS_YAML_VALUE_AWSS) (hver : doc.version = .ok SS_FILE_VER)
    (hguard : env.USE_RETROACHIEVEMENTS = true → env.guardAnswer = true) :
    ∃ m1, Snapshot_LoadState_v2_begin env doc m = .ok true m1 ∧
      m1.m_ConfigNew = m.m_ConfigNew := by
  unfold Snapshot_LoadState_v2_begin ParseFileHdr
  by_cases hra : env.USE_RETROACHIEVEMENTS = true
  · simp [hinit, hscalar, htag, hver, hra, hguard hra, RA_WarnDisableHardcore, getMachine, log,
      modify]
  · simp [hinit, hscalar, htag, hver, hra, getMachine, log, modify]

theorem reset_good (env : Env) (m : Machine) (hquiet : ∀ e, env.raises e = none) :
    ∃ m1, Snapshot_LoadState_v2_reset env m = .ok () m1 ∧
      m1.m_ConfigNew.m_Slot = clearSlots m.m_ConfigNew.m_Slot := by
  unfold Snapshot_LoadState_v2_reset
  by_cases hs : env.USE_SPEECH_API = true <;> simp [hs, call, hquiet, modify]

theorem end_good (env : Env) (m : Machine) (hquiet : ∀ e, env.raises e = none) :
    ∃ m1, Snapshot_LoadState_v2_end env m = .ok () m1 ∧
      m1.m_ConfigNew = m.m_ConfigNew ∧ m1.g_Apple2Type = m.g_Apple2Type ∧
      m1.mainCpu = m.mainCpu ∧ m1.loadedSaveStateFlag = true := by
  unfold Snapshot_LoadState_v2_end
  by_cases hra : env.USE_RETROACHIEVEMENTS = true <;>
    simp [hra, call, hquiet, modify, getMachine]

theorem ParseUnit_core_good (env : Env) (u : UnitDoc) (m : Machine) (v : Nat) (model : String)
    (type : eApple2Type) (cpu : eCpuType) (hquiet : ∀ e, env.raises e = none)
    (hu : u.type = .ok GetSnapshotUnitApple2Name) (hver : u.version = .ok v)
    (hv : ¬(v = 0 ∨ v > UNIT_APPLE2_VER)) (hstate : u.hasState = true)
    (hmodel : u.model = .ok model) (htype : ParseApple2Type model = .ok type)
    (hcpu : u.cpu = .ok cpu) (hjoy : u.joy = .ok ()) (hkeyb : u.keyb = .ok ())
    (hspkr : u.spkr = .ok ()) (hvideo : u.video = .ok ()) (hmem : u.mem = .ok ()) :
    ∃ m1, ParseUnit env u true m = .ok () m1 ∧
      m1.m_ConfigNew.m_Slot = m.m_ConfigNew.m_Slot ∧
      m1.g_Apple2Type = type ∧ m1.mainCpu = cpu ∧
      m1.m_ConfigNew.m_Apple2Type = type ∧ m1.m_ConfigNew.m_CpuType = cpu := by
  unfold ParseUnit ParseUnitApple2 SetApple2Type
  simp [hu, hver, hv, hstate, hmodel, htype, hcpu, hjoy, hkeyb, hspkr, hvideo, hmem, call,
    hquiet, modify, callLoad, log]

theorem ParseUnit_aux_good (env : Env) (u : UnitDoc) (m : Machine) (v : Nat) (b : Bool)
    (hu : u.type = .ok env.MemGetSnapshotUnitAuxSlotName) (hver : u.version = .ok v)
    (hstate : u.hasState = true) (haux : u.aux = .ok b)
    (hname : env.MemGetSnapshotUnitAuxSlotName ≠ GetSnapshotUnitApple2Name) :
    ∃ m1, ParseUnit env u true m = .ok () m1 ∧
      m1.m_ConfigNew = m.m_ConfigNew ∧ m1.g_Apple2Type = m.g_Apple2Type ∧
      m1.mainCpu = m.mainCpu := by
  unfold ParseUnit
  simp [hu, hver, hstate, haux, hname, callLoad, log]

theorem ParseUnit_slots_skipped (env : Env) (u : UnitDoc) (m : Machine) (v : Nat)
    (hra : env.USE_RETROACHIEVEMENTS = true)
    (hu : u.type = .ok GetSnapshotUnitSlotsName) (hver : u.version = .ok v)
    (hstate : u.hasState = true)
    (hname : env.MemGetSnapshotUnitAuxSlotName ≠ GetSnapshotUnitSlotsName) :
    ParseUnit env u true m = .ok () { m with trace := m.trace ++ [Event.ParseUnit true] } := by
  unfold ParseUnit
  have h1 : GetSnapshotUnitSlotsName ≠ GetSnapshotUnitApple2Name := by decide
  simp [hu, hver, hstate, hra, h1, Ne.symm hname, log]

theorem ParseUnit_slots_run (env : Env) (u : UnitDoc) (m : Machine)
    (hra : env.USE_RETROACHIEVEMENTS = false)
    (hu : u.type = .ok GetSnapshotUnitSlotsName) (hver : u.version = .ok UNIT_SLOTS_VER)
    (hstate : u.hasState = true)
    (hname : env.MemGetSnapshotUnitAuxSlotName ≠ GetSnapshotUnitSlotsName) :
    ParseUnit env u true m =
      ParseSlots_loop env u.slots { m with trace := m.trace ++ [Event.ParseUnit true] } := by
  unfold ParseUnit ParseSlots
  have h1 : GetSnapshotUnitSlotsName ≠ GetSnapshotUnitApple2Name := by decide
  simp [hu, hver, hstate, hra, h1, Ne.symm hname, log]

theorem ParseSlots_card_good (env : Env) (e : SlotDoc) (slot : Nat) (card : String)
    (cardVersion : Nat) (m : Machine) (t : SS_CARDTYPE) (hquiet : ∀ e, env.raises e = none)
    (ht : cardTypeOfName env card = some t) (hl : e.load = .ok true) :
    ∃ m1, ParseSlots_card env e slot card cardVersion m = .ok (true, t) m1 := by
  unfold ParseSlots_card
  unfold cardTypeOfName at ht
  by_cases h0 : card = env.Printer_GetSnapshotCardName
  · rw [if_pos h0] at ht ⊢
    simp only [Option.some.injEq] at ht
    subst ht
    simp [callLoad, hl, call, hquiet, getMachine, modify]
  rw [if_neg h0] at ht ⊢
  by_cases h1 : card = env.SSC_GetSnapshotCardName
  · rw [if_pos h1] at ht ⊢
    simp only [Option.some.injEq] at ht
    subst ht
    simp [callLoad, hl, call, hquiet, getMachine, modify]
  rw [if_neg h1] at ht ⊢
  by_cases h2 : card = env.Mouse_GetSnapshotCardName
  · rw [if_pos h2] at ht ⊢
    simp only [Option.some.injEq] at ht
    subst ht
    simp [callLoad, hl, call, hquiet, getMachine, modify]
  rw [if_neg h2] at ht ⊢
  by_cases h3 : card = env.Z80_GetSnapshotCardName
  · rw [if_pos h3] at ht ⊢
    simp only [Option.some.injEq] at ht
    subst ht
    simp [callLoad, hl, call, hquiet, getMachine, modify]
  rw [if_neg h3] at ht ⊢
  by_cases h4 : card = env.MB_GetSnapshotCardName
  · rw [if_pos h4] at ht ⊢
    simp only [Option.some.injEq] at ht
    subst ht
    simp [callLoad, hl, call, hquiet, getMachine, modify]
  rw [if_neg h4] at ht ⊢
  by_cases h5 : card = env.Phasor_GetSnapshotCardName
  · rw [if_pos h5] at ht ⊢
    simp only [Option.some.injEq] at ht
    subst ht
    simp [callLoad, hl, call, hquiet, getMachine, modify]
  rw [if_neg h5] at ht ⊢
  by_cases h6 : card = env.DiskGetSnapshotCardName
  · rw [if_pos h6] at ht ⊢
    simp only [Option.some.injEq] at ht
    subst ht
    simp [callLoad, hl, call, hquiet, getMachine, modify]
  rw [if_neg h6] at ht ⊢
  by_cases h7 : card = env.HD_GetSnapshotCardName
  · rw [if_pos h7] at ht ⊢
    simp only [Option.some.injEq] at ht
    subst ht
    simp [callLoad, hl, call, hquiet, getMachine, modify]
  rw [if_neg h7] at ht ⊢
  by_cases h8 : card = env.LanguageCardSlot0_GetSnapshotCardName
  · rw [if_pos h8] at ht ⊢
    simp only [Option.some.injEq] at ht
    subst ht
    simp [callLoad, hl, call, hquiet, getMachine, modify]
  rw [if_neg h8] at ht ⊢
  by_cases h9 : card = env.Saturn128K_GetSnapshotCardName
  · rw [if_pos h9] at ht ⊢
    simp only [Option.some.injEq] at ht
    subst ht
    simp [callLoad, hl, call, hquiet, getMachine, modify]
  rw [if_neg h9] at ht ⊢
  simp at ht

theorem ParseSlots_entry_good (env : Env) (e : SlotDoc) (m : Machine)
    (hquiet : ∀ e, env.raises e = none) (hg : GoodSlot env e) :
    ∃ m1 t, ParseSlots_entry env e m = .ok () m1 ∧ cardTypeOf env e = some t ∧
      m1.m_ConfigNew.m_Slot = Function.update m.m_ConfigNew.m_Slot (slotNumber e) t := by
  obtain ⟨_, hlo, hhi, ⟨card, t, hcard, ht⟩, ⟨v, hv⟩, hstate, hload⟩ := hg
  obtain ⟨mc, hc⟩ :=
    ParseSlots_card_good env e (toInt32 (strtoul e.key)).toNat card v m t hquiet ht hload
  have hk := ParseSlots_card_keeps sameSlots_frame sameSlots_hddFree env e
    (toInt32 (strtoul e.key)).toNat card v m
  rw [hc] at hk
  have hr : ¬(toInt32 (strtoul e.key) < 0 ∨ toInt32 (strtoul e.key) > 7) := by omega
  refine ⟨{ mc with m_ConfigNew := { mc.m_ConfigNew with
      m_Slot := Function.update mc.m_ConfigNew.m_Slot (slotNumber e) t } }, t, ?_,
    by simp [cardTypeOf, hcard, ht], ?_⟩
  · unfold ParseSlots_entry
    simp only [hr, if_false, run_bind, hcard, hv, run_readDoc_ok, hstate, Bool.true_eq_false, hc,
      if_true, modify]
    rfl
  · show Function.update mc.m_ConfigNew.m_Slot _ _ = _
    rw [show mc.m_ConfigNew.m_Slot = m.m_ConfigNew.m_Slot from hk]

theorem recorded_cons (env : Env) (e : SlotDoc) (l : List SlotDoc) (f : Nat → SS_CARDTYPE)
    (t : SS_CARDTYPE) (ht : cardTypeOf env e = some t) :
    recorded env (e :: l) f = recorded env l (Function.update f (slotNumber e) t) := by
  unfold recorded
  rw [List.foldl_cons, ht]

theorem ParseSlots_loop_good (env : Env) (l : List SlotDoc) (m : Machine)
    (hquiet : ∀ e, env.raises e = none) (hl : ∀ e ∈ l, GoodSlot env e) :
    ∃ m1, ParseSlots_loop env l m = .ok () m1 ∧
      m1.m_ConfigNew.m_Slot = recorded env l m.m_ConfigNew.m_Slot := by
  induction l generalizing m with
  | nil => exact ⟨m, rfl, rfl⟩
  | cons e l ih =>
    have he := hl e (List.mem_cons_self e l)
    obtain ⟨m1, t, h1, ht, hs⟩ := ParseSlots_entry_good env e m hquiet he
    obtain ⟨m2, h2, hs2⟩ := ih m1 (fun x hx => hl x (List.mem_cons_of_mem e hx))
    refine ⟨m2, ?_, ?_⟩
    · rw [ParseSlots_loop_cons env e l m he.1, h1]
      exact h2
    · rw [hs2, hs, recorded_cons env e l _ t ht]

theorem savedDocument_eq (env : Env) (m : Machine) (hd : Bool) (model : String)
    (hquiet : ∀ e, env.raises e = none)
    (hmodel : GetApple2TypeAsString m.g_Apple2Type = .ok model) :
    savedDocument env m hd =
      savedDocumentOf env model m.mainCpu ((slotCalls env m).flatMap (savedSlots env m hd)) := by
  unfold savedDocument
  rw [save_trace env m model hquiet hmodel, List.drop_left]
  exact writtenDocument_saveCalls env m hd model

theorem cardTypeOfName_isSome (env : Env) (card : String) (h : card ∈ knownCardNames env) :
    ∃ t, cardTypeOfName env card = some t := by
  unfold cardTypeOfName
  by_cases h0 : card = env.Printer_GetSnapshotCardName
  · rw [if_pos h0]
    exact ⟨_, rfl⟩
  rw [if_neg h0]
  by_cases h1 : card = env.SSC_GetSnapshotCardName
  · rw [if_pos h1]
    exact ⟨_, rfl⟩
  rw [if_neg h1]
  by_cases h2 : card = env.Mouse_GetSnapshotCardName
  · rw [if_pos h2]
    exact ⟨_, rfl⟩
  rw [if_neg h2]
  by_cases h3 : card = env.Z80_GetSnapshotCardName
  · rw [if_pos h3]
    exact ⟨_, rfl⟩
  rw [if_neg h3]
  by_cases h4 : card = env.MB_GetSnapshotCardName
  · rw [if_pos h4]
    exact ⟨_, rfl⟩
  rw [if_neg h4]
  by_cases h5 : card = env.Phasor_GetSnapshotCardName
  · rw [if_pos h5]
    exact ⟨_, rfl⟩
  rw [if_neg h5]
  by_cases h6 : card = env.DiskGetSnapshotCardName
  · rw [if_pos h6]
    exact ⟨_, rfl⟩
  rw [if_neg h6]
  by_cases h7 : card = env.HD_GetSnapshotCardName
  · rw [if_pos h7]
    exact ⟨_, rfl⟩
  rw [if_neg h7]
  by_cases h8 : card = env.LanguageCardSlot0_GetSnapshotCardName
  · rw [if_pos h8]
    exact ⟨_, rfl⟩
  rw [if_neg h8]
  by_cases h9 : card = env.Saturn128K_GetSnapshotCardName
  · rw [if_pos h9]
    exact ⟨_, rfl⟩
  rw [if_neg h9]
  simp [knownCardNames, h0, h1, h2, h3, h4, h5, h6, h7, h8, h9] at h

theorem savedSlotEntry_good (env : Env) (k : Nat) (card : String) (hk : k < 8)
    (hc : card ∈ knownCardNames env) : GoodSlot env (savedSlotEntry k card) := by
  obtain ⟨t, ht⟩ := cardTypeOfName_isSome env card hc
  obtain ⟨h1, h2⟩ := slotNumber_savedSlotEntry k hk card
  refine ⟨h1, ?_, ?_, ⟨card, t, rfl, ht⟩, ⟨1, rfl⟩, rfl, rfl⟩
  · rw [h2]; omega
  · rw [h2]; omega

theorem saved_slots_good (env : Env) (m : Machine) (hd : Bool) :
    ∀ e ∈ (slotCalls env m).flatMap (savedSlots env m hd), GoodSlot env e := by
  intro e he
  rw [List.mem_flatMap] at he
  obtain ⟨ev, hev, he⟩ := he
  simp only [slotCalls, List.mem_append] at hev
  rcases hev with ((((((hev | hev) | hev) | hev) | hev) | hev) | hev) | hev
  all_goals first
    | (split at hev <;> simp at hev <;> subst hev)
    | (simp at hev; rcases hev with hev | hev | hev <;> subst hev)
    | (simp at hev; rcases hev with hev | hev <;> subst hev)
  all_goals simp only [savedSlots] at he
  all_goals try split at he
  all_goals simp at he
  all_goals subst he
  all_goals exact savedSlotEntry_good env _ _ (by decide) (by simp [knownCardNames])

theorem ParseApple2Type_GetApple2TypeAsString (type : eApple2Type) (model : String)
    (h : GetApple2TypeAsString type = .ok model) : ParseApple2Type model = .ok type := by
  cases type <;> simp [GetApple2TypeAsString] at h <;> subst h <;> decide

theorem clearSlots_apply (f : Nat → SS_CARDTYPE) (s : Nat) (hs : s < NUM_SLOTS) :
    clearSlots f s = CT_Empty := by
  unfold NUM_SLOTS at hs
  unfold clearSlots
  interval_cases s <;> simp [NUM_SLOTS, List.range_succ, Function.update_apply]

theorem recorded_congr (env : Env) (l : List SlotDoc) (f g : Nat → SS_CARDTYPE) (s : Nat)
    (h : f s = g s) : recorded env l f s = recorded env l g s := by
  induction l generalizing f g with
  | nil => exact h
  | cons e l ih =>
    unfold recorded
    rw [List.foldl_cons, List.foldl_cons]
    apply ih
    cases cardTypeOf env e with
    | none => exact h
    | some t => simp only [Function.update_apply, h]

theorem units_cons_run (env : Env) (t : TopEntry) (rest : List TopEntry) (m m1 : Machine)
    (hs : t.scalar = env.SS_YAML_KEY_UNIT) (h : ParseUnit env t.unit true m = .ok () m1) :
    Snapshot_LoadState_v2_units env (t :: rest) m = Snapshot_LoadState_v2_units env rest m1 := by
  conv_lhs => unfold Snapshot_LoadState_v2_units
  simp only [run_bind, hs, if_true, h]

theorem ParseUnit_slots_good (env : Env) (S : List SlotDoc) (m : Machine)
    (hquiet : ∀ e, env.raises e = none)
    (hn2 : env.MemGetSnapshotUnitAuxSlotName ≠ GetSnapshotUnitSlotsName)
    (hS : ∀ e ∈ S, GoodSlot env e) :
    ∃ m1, ParseUnit env (savedSlotsUnit S) true m = .ok () m1 ∧
      m1.m_ConfigNew.m_Slot =
        (if env.USE_RETROACHIEVEMENTS = true then m.m_ConfigNew.m_Slot
          else recorded env S m.m_ConfigNew.m_Slot) ∧
      SameModel m m1 := by
  have hk := ParseUnit_keeps_of_not_core sameModel_frame sameModel_slotsFree env
    (savedSlotsUnit S) true (by simp [savedSlotsUnit, blankUnit]; decide) m
  by_cases hra : env.USE_RETROACHIEVEMENTS = true
  · have h := ParseUnit_slots_skipped env (savedSlotsUnit S) m UNIT_SLOTS_VER hra rfl rfl rfl hn2
    rw [h] at hk
    exact ⟨_, h, by simp [hra], hk⟩
  · have hra1 : env.USE_RETROACHIEVEMENTS = false := by
      cases h : env.USE_RETROACHIEVEMENTS
      · rfl
      · exact absurd h hra
    have h := ParseUnit_slots_run env (savedSlotsUnit S) m hra1 rfl rfl rfl hn2
    obtain ⟨m1, h1, hs1⟩ := ParseSlots_loop_good env S
      { m with trace := m.trace ++ [Event.ParseUnit true] } hquiet hS
    have h2 : ParseUnit env (savedSlotsUnit S) true m = .ok () m1 := h.trans h1
    rw [h2] at hk
    exact ⟨m1, h2, by simp [hra, hs1], hk⟩

theorem load_savedDocumentOf (env : Env) (m : Machine) (model : String) (type : eApple2Type)
    (cpu : eCpuType) (S : List SlotDoc)
    (hquiet : ∀ e, env.raises e = none)
    (hguard : env.USE_RETROACHIEVEMENTS = true → env.guardAnswer = true)
    (hn1 : env.MemGetSnapshotUnitAuxSlotName ≠ GetSnapshotUnitApple2Name)
    (hn2 : env.MemGetSnapshotUnitAuxSlotName ≠ GetSnapshotUnitSlotsName)
    (htype : ParseApple2Type model = .ok type) (hS : ∀ e ∈ S, GoodSlot env e) :
    (Snapshot_LoadState_v2 env (savedDocumentOf env model cpu S) m).loadedSaveStateFlag = true ∧
    (Snapshot_LoadState_v2 env (savedDocumentOf env model cpu S) m).g_Apple2Type = type ∧
    (Snapshot_LoadState_v2 env (savedDocumentOf env model cpu S) m).m_ConfigNew.m_Apple2Type
      = type ∧
    (Snapshot_LoadState_v2 env (savedDocumentOf env model cpu S) m).m_ConfigNew.m_Slot =
      (if env.USE_RETROACHIEVEMENTS = true then clearSlots m.m_ConfigNew.m_Slot
        else recorded env S (clearSlots m.m_ConfigNew.m_Slot)) := by
  obtain ⟨mb, hb, hbc⟩ := begin_good env (savedDocumentOf env model cpu S)
    { m with restart := false } rfl rfl rfl rfl hguard
  obtain ⟨mr, hr, hrs⟩ := reset_good env mb hquiet
  obtain ⟨mc, hc, hcs, hct, -, hcn, -⟩ := ParseUnit_core_good env (savedCoreUnit model cpu) mr
    UNIT_APPLE2_VER model type cpu hquiet rfl rfl (by decide) rfl rfl htype rfl rfl rfl rfl rfl
    rfl
  obtain ⟨ma, ha, hac, hat, -⟩ := ParseUnit_aux_good env (savedAuxUnit env) mc 1 true rfl rfl
    rfl rfl hn1
  obtain ⟨ms, hs, hss, hst, -, hsn, -⟩ := ParseUnit_slots_good env S ma hquiet hn2 hS
  obtain ⟨me, he, hec, het, -, hef⟩ := end_good env ms hquiet
  have hrun : Snapshot_LoadState_v2_try env (savedDocumentOf env model cpu S)
      { m with restart := false } = .ok true me := by
    unfold Snapshot_LoadState_v2_try Snapshot_LoadState_v2_armed
    simp only [run_bind, hb, Bool.true_eq_false, if_false, hr]
    have htop : (savedDocumentOf env model cpu S).top =
        [{ scalar := env.SS_YAML_KEY_UNIT, unit := savedCoreUnit model cpu },
         { scalar := env.SS_YAML_KEY_UNIT, unit := savedAuxUnit env },
         { scalar := env.SS_YAML_KEY_UNIT, unit := savedSlotsUnit S }] := rfl
    rw [htop, units_cons_run env _ _ mr mc rfl hc, units_cons_run env _ _ mc ma rfl ha,
      units_cons_run env _ _ ma ms rfl hs]
    unfold Snapshot_LoadState_v2_units
    simp only [run_pure, he]
  unfold Snapshot_LoadState_v2
  rw [hrun]
  refine ⟨hef, ?_, ?_, ?_⟩
  · show me.g_Apple2Type = type
    rw [het, hst, hat, hct]
  · show me.m_ConfigNew.m_Apple2Type = type
    rw [hec, hsn, hac, hcn]
  · show me.m_ConfigNew.m_Slot = _
    rw [hec, hss, hac, hcs, hrs, hbc]

/-- C1, the claim at a failing input: in a RetroAchievements build the enhanced //e with a
Mockingboard in slot 4 is a valid live configuration, the save calls `MB_SaveSnapshot(4)`, and
the load of the written document runs to its end without entering `ParseSlots`: the slot table
of the new configuration has slot 4 (and slot 6, the disk controller) empty. -/
theorem round_trip_loses_slots :
    ValidLive envRA machine0 ∧ NamesDistinct envRA ∧
      machine0.g_Slot4 = CT_MockingboardC ∧
      Event.MB_SaveSnapshot 4 ∈ (Snapshot_SaveState envRA machine0).trace ∧
      (Snapshot_LoadState envRA (savedDocument envRA machine0 true)
        machinePlus).loadedSaveStateFlag = true ∧
      (Snapshot_LoadState envRA (savedDocument envRA machine0 true)
        machinePlus).m_ConfigNew.m_Slot 4 = CT_Empty ∧
      (Snapshot_LoadState envRA (savedDocument envRA machine0 true)
        machinePlus).m_ConfigNew.m_Slot 6 = CT_Empty :=
  ⟨⟨⟨"Enhanced Apple//e", rfl⟩, by decide, by decide, by decide⟩, by decide!, rfl, by decide!,
    by decide!, by decide!, by decide!⟩

/-- C1, amended: for every valid live configuration, when no call of the save or the load
throws, the guard (if compiled in) does not decline and the path name is not rejected as a v1
name, `Snapshot_SaveState` followed by `Snapshot_LoadState` on the written document runs the load
to its end and yields the machine variant of the save, live and in the new configuration; the
slot table of the new configuration holds, in every slot 0..7, the card of the live machine
when the build is without `USE_RETROACHIEVEMENTS`, and `CT_Empty` when the build is with
it. -/
theorem save_load_round_trip (env : Env) (m m1 : Machine) (hd : Bool)
    (hvalid : ValidLive env m) (hnames : NamesDistinct env)
    (hquiet : ∀ e, env.raises e = none)
    (hguard : env.USE_RETROACHIEVEMENTS = true → env.guardAnswer = true)
    (hpath : string_find m1.g_strSaveStatePathname ".aws"
      ((m1.g_strSaveStatePathname.length + (2 ^ SIZE_BITS - (".aws" : String).length))
        % 2 ^ SIZE_BITS) = none) :
    (Snapshot_LoadState env (savedDocument env m hd) m1).loadedSaveStateFlag = true ∧
    (Snapshot_LoadState env (savedDocument env m hd) m1).g_Apple2Type = m.g_Apple2Type ∧
    (Snapshot_LoadState env (savedDocument env m hd) m1).m_ConfigNew.m_Apple2Type
      = m.g_Apple2Type ∧
    ∀ s, s < NUM_SLOTS →
      (Snapshot_LoadState env (savedDocument env m hd) m1).m_ConfigNew.m_Slot s =
        if env.USE_RETROACHIEVEMENTS = true then CT_Empty else liveSlot m hd s := by
  have hv2 : Snapshot_LoadState env (savedDocument env m hd) m1 =
      Snapshot_LoadState_v2 env (savedDocument env m hd) m1 := by
    unfold Snapshot_LoadState
    exact if_neg (not_not_intro hpath)
  obtain ⟨model, hmodel⟩ := hvalid.1
  rw [hv2, savedDocument_eq env m hd model hquiet hmodel]
  obtain ⟨h1, h2, h3, h4⟩ := load_savedDocumentOf env m1 model m.g_Apple2Type m.mainCpu
    ((slotCalls env m).flatMap (savedSlots env m hd)) hquiet hguard hnames.2.1 hnames.2.2
    (ParseApple2Type_GetApple2TypeAsString _ _ hmodel) (saved_slots_good env m hd)
  refine ⟨h1, h2, h3, ?_⟩
  intro s hs
  rw [h4]
  by_cases hra : env.USE_RETROACHIEVEMENTS = true
  · rw [if_pos hra, if_pos hra]
    exact clearSlots_apply _ s hs
  · rw [if_neg hra, if_neg hra]
    rw [recorded_congr env _ _ (fun _ => CT_Empty) s (clearSlots_apply _ s hs)]
    exact recorded_saved env m hd s hs hvalid hnames

/-- The round trip in a build without RetroAchievements: the enhanced //e with a Mockingboard
in slot 4, saved and loaded into a machine that was a ][+, is an enhanced //e with the
Mockingboard recorded in slot 4. -/
theorem save_load_round_trip_witness :
    (Snapshot_LoadState envPlain (savedDocument envPlain machine0 true)
        machinePlus).g_Apple2Type = machine0.g_Apple2Type ∧
      (Snapshot_LoadState envPlain (savedDocument envPlain machine0 true)
        machinePlus).m_ConfigNew.m_Slot 4 =
          if envPlain.USE_RETROACHIEVEMENTS = true then CT_Empty else liveSlot machine0 true 4 :=
  ⟨(save_load_round_trip envPlain machine0 machinePlus true
      ⟨⟨"Enhanced Apple//e", rfl⟩, by decide, by decide, by decide⟩ (by decide!)
      (fun _ => rfl) (by decide) (by decide!)).2.1,
   (save_load_round_trip envPlain machine0 machinePlus true
      ⟨⟨"Enhanced Apple//e", rfl⟩, by decide, by decide, by decide⟩ (by decide!)
      (fun _ => rfl) (by decide) (by decide!)).2.2.2 4 (by decide)⟩

/-! ## Top-level scalars and model names -/

theorem ParseApple2Type_unknown (type : String) (h : type ∉ apple2TypeNames) :
    ParseApple2Type type = .error "Load: Unknown Apple2 type" := by
  simp only [apple2TypeNames, List.mem_cons, List.mem_singleton, List.not_mem_nil, or_false,
    not_or] at h
  obtain ⟨h1, h2, h3, h4, h5, h6, h7, h8, h9⟩ := h
  simp [ParseApple2Type, h1, h2, h3, h4, h5, h6, h7, h8, h9]

theorem ParseApple2Type_ok_mem (type : String) (t : eApple2Type)
    (h : ParseApple2Type type = .ok t) : type ∈ apple2TypeNames := by
  by_contra hn
  rw [ParseApple2Type_unknown type hn] at h
  simp at h

theorem ParseApple2Type_mem_ok (type : String) (h : type ∈ apple2TypeNames) :
    ∃ t, ParseApple2Type type = .ok t ∧ t ∈ namedApple2Types ∧
      GetApple2TypeAsString t = .ok type := by
  simp only [apple2TypeNames, List.mem_cons, List.mem_singleton, List.not_mem_nil,
    or_false] at h
  rcases h with h | h | h | h | h | h | h | h | h <;> subst h
  · exact ⟨A2TYPE_APPLE2, by decide, by decide, by decide⟩
  · exact ⟨A2TYPE_APPLE2PLUS, by decide, by decide, by decide⟩
  · exact ⟨A2TYPE_APPLE2E, by decide, by decide, by decide⟩
  · exact ⟨A2TYPE_APPLE2EENHANCED, by decide, by decide, by decide⟩
  · exact ⟨A2TYPE_APPLE2C, by decide, by decide, by decide⟩
  · exact ⟨A2TYPE_PRAVETS82, by decide, by decide, by decide⟩
  · exact ⟨A2TYPE_PRAVETS8M, by decide, by decide, by decide⟩
  · exact ⟨A2TYPE_PRAVETS8A, by decide, by decide, by decide⟩
  · exact ⟨A2TYPE_TK30002E, by decide, by decide, by decide⟩

theorem loadUpTo_top (env : Env) (doc : Document) (top : List TopEntry) (pre : List TopEntry) :
    loadUpTo env { doc with top := top } pre = loadUpTo env doc pre := rfl

/-- C13: when the unit loop of `Snapshot_LoadState_v2` reaches, after the entries `pre` parsed
without error, a top-level scalar that is not the unit marker, the load shows the message
"Unknown top-level scalar: " followed by that scalar, posts the restart and finalises the
parser. The machine is the one the entries `pre` left plus these three calls: `ParseUnit` is not
entered for the offending entry, and nothing of the entries `post` after it is read, so the
outcome is the same whatever follows the offending scalar. -/
theorem unknown_scalar_stops_load (env : Env) (doc : Document) (m : Machine)
    (pre post : List TopEntry) (scalar : String) (u : UnitDoc)
    (hdoc : doc.top = pre ++ { scalar := scalar, unit := u } :: post)
    (hscalar : scalar ≠ env.SS_YAML_KEY_UNIT)
    (hreach : (loadUpTo env doc pre { m with restart := false }).value = some true) :
    Snapshot_LoadState_v2 env doc m =
        { (loadUpTo env doc pre { m with restart := false }).machine with
          trace := (loadUpTo env doc pre { m with restart := false }).machine.trace ++
            [Event.MessageBox ("Unknown top-level scalar: " ++ scalar) "Load State",
             Event.PostMessage_WM_USER_RESTART,
             Event.FinaliseParser] } ∧
      ∀ post1,
        Snapshot_LoadState_v2 env
            { doc with top := pre ++ { scalar := scalar, unit := u } :: post1 } m =
          Snapshot_LoadState_v2 env doc m := by
  obtain ⟨m1, m2, -, -, -, hres⟩ := loadUpTo_true env doc pre _ hreach
  have key : ∀ (d : Document) (p : List TopEntry),
      d.top = pre ++ { scalar := scalar, unit := u } :: p →
      loadUpTo env d pre = loadUpTo env doc pre →
      Snapshot_LoadState_v2 env d m =
        { (loadUpTo env doc pre { m with restart := false }).machine with
          trace := (loadUpTo env doc pre { m with restart := false }).machine.trace ++
            [Event.MessageBox ("Unknown top-level scalar: " ++ scalar) "Load State",
             Event.PostMessage_WM_USER_RESTART,
             Event.FinaliseParser] } := by
    intro d p hd hl
    rw [load_fails_at_entry env d m pre p { scalar := scalar, unit := u }
      ("Unknown top-level scalar: " ++ scalar)
      (loadUpTo env doc pre { m with restart := false }).machine hd (by rw [hl]; exact hreach)
      (by rw [hl, if_neg hscalar]; rfl) (by simpa using hres)]
  refine ⟨key doc post hdoc rfl, ?_⟩
  intro post1
  rw [key doc post hdoc rfl]
  exact key _ post1 rfl (loadUpTo_top env doc _ pre)

/-- The load of `docStray` stops at the scalar "Comment". -/
theorem unknown_scalar_stops_load_witness :
    Snapshot_LoadState_v2 envRA docStray machine0 =
      { (loadUpTo envRA docStray [{ scalar := "Unit", unit := unitApple2 }]
          { machine0 with restart := false }).machine with
        trace := (loadUpTo envRA docStray [{ scalar := "Unit", unit := unitApple2 }]
            { machine0 with restart := false }).machine.trace ++
          [Event.MessageBox ("Unknown top-level scalar: " ++ "Comment") "Load State",
           Event.PostMessage_WM_USER_RESTART,
           Event.FinaliseParser] } :=
  (unknown_scalar_stops_load envRA docStray machine0 [{ scalar := "Unit", unit := unitApple2 }]
    [{ scalar := "Unit", unit := unitOf "Slots" 1 [slotOf "6" "Disk]["] }]
    "Comment" (unitOf "Slots" 1 []) rfl (by decide) (by decide!)).1

/-- C14: `ParseApple2Type` returns a machine variant exactly for the nine model names, compared
as `std::string` (so case-sensitively); for every other string it throws
"Load: Unknown Apple2 type", and then `ParseUnitApple2` (for a version it accepts) throws that
message with the machine as it was: `SetApple2Type` is not called and the live machine variant
is unchanged. -/
theorem ParseApple2Type_iff (type : String) :
    ((∃ t, ParseApple2Type type = .ok t) ↔
      type ∈ ["Apple][", "Apple][+", "Apple//e", "Enhanced Apple//e", "Apple2c", "Pravets82",
        "Pravets8M", "Pravets8A", "TK3000//e"]) ∧
    (type ∉ ["Apple][", "Apple][+", "Apple//e", "Enhanced Apple//e", "Apple2c", "Pravets82",
        "Pravets8M", "Pravets8A", "TK3000//e"] →
      ParseApple2Type type = .error "Load: Unknown Apple2 type" ∧
      ∀ (env : Env) (u : UnitDoc) (version : Nat) (m : Machine),
        ¬(version = 0 ∨ version > UNIT_APPLE2_VER) → u.model = .ok type →
        ParseUnitApple2 env u version m = .throw "Load: Unknown Apple2 type" m) := by
  have hnames : apple2TypeNames =
      ["Apple][", "Apple][+", "Apple//e", "Enhanced Apple//e", "Apple2c", "Pravets82",
        "Pravets8M", "Pravets8A", "TK3000//e"] := rfl
  rw [← hnames]
  refine ⟨⟨fun ⟨t, ht⟩ => ParseApple2Type_ok_mem type t ht,
    fun h => (ParseApple2Type_mem_ok type h).imp fun _ ht => ht.1⟩, ?_⟩
  intro h
  have he := ParseApple2Type_unknown type h
  refine ⟨he, ?_⟩
  intro env u version m hv hmodel
  simp [ParseUnitApple2, hv, hmodel, he]

/-- The name "apple//e" in lower case is not a model name: `ParseApple2Type` throws, and a
core-machine unit with that model leaves the enhanced //e as it is. -/
theorem ParseApple2Type_iff_witness :
    ParseApple2Type "apple//e" = .error "Load: Unknown Apple2 type" ∧
      ParseUnitApple2 envRA { unitApple2 with model := .ok "apple//e" } 2 machine0 =
        .throw "Load: Unknown Apple2 type" machine0 :=
  ⟨((ParseApple2Type_iff "apple//e").2 (by decide)).1,
   ((ParseApple2Type_iff "apple//e").2 (by decide)).2 envRA
     { unitApple2 with model := .ok "apple//e" } 2 machine0 (by decide) rfl⟩

/-- C15: for each of the nine machine variants with a model name, `ParseApple2Type` applied to
the name `GetApple2TypeAsString` returns gives the variant back; `GetApple2TypeAsString` returns
a name exactly for these nine variants and throws "Save: Unknown Apple2 type" for every other
value; the nine names are pairwise different, and `ParseApple2Type` followed by
`GetApple2TypeAsString` gives each of the nine names back, so the two functions are inverse
bijections between the nine variants and the nine names. -/
theorem model_name_round_trip (t : eApple2Type) :
    (∀ name, GetApple2TypeAsString t = .ok name →
      ParseApple2Type name = .ok t ∧ name ∈ apple2TypeNames) ∧
    ((∃ name, GetApple2TypeAsString t = .ok name) ↔ t ∈ namedApple2Types) ∧
    (t ∉ namedApple2Types → GetApple2TypeAsString t = .error "Save: Unknown Apple2 type") ∧
    apple2TypeNames.Nodup ∧
    (∀ name ∈ apple2TypeNames, ∃ t1, ParseApple2Type name = .ok t1 ∧ t1 ∈ namedApple2Types ∧
      GetApple2TypeAsString t1 = .ok name) := by
  refine ⟨?_, ?_, ?_, by decide, fun name h => ParseApple2Type_mem_ok name h⟩
  · intro name h
    have hp := ParseApple2Type_GetApple2TypeAsString t name h
    exact ⟨hp, ParseApple2Type_ok_mem name t hp⟩
  · cases t <;> simp [GetApple2TypeAsString, namedApple2Types]
  · cases t <;> simp [GetApple2TypeAsString, namedApple2Types]

/-- The enhanced //e is saved as "Enhanced Apple//e", which parses to the enhanced //e. -/
theorem model_name_round_trip_witness :
    GetApple2TypeAsString A2TYPE_APPLE2EENHANCED = .ok "Enhanced Apple//e" ∧
      ParseApple2Type "Enhanced Apple//e" = .ok A2TYPE_APPLE2EENHANCED :=
  ⟨rfl, ((model_name_round_trip A2TYPE_APPLE2EENHANCED).1 "Enhanced Apple//e" rfl).1⟩

/-! ## Slot keys and the dispatch on the card name -/

theorem isspace_of_isDigit (c : Char) (h : c.isDigit = true) : isspace c = false := by
  by_contra hs
  have hs1 : isspace c = true := by
    cases hc : isspace c
    · exact absurd hc hs
    · rfl
  simp only [isspace, Bool.or_eq_true, decide_eq_true_eq] at hs1
  rcases hs1 with ((((h1 | h1) | h1) | h1) | h1) | h1 <;> subst h1 <;> revert h <;> decide

theorem not_sign_of_isDigit (c : Char) (h : c.isDigit = true) : c ≠ '-' ∧ c ≠ '+' := by
  constructor <;> intro hc <;> subst hc <;> revert h <;> decide

/-- The value `strtoul` returns for a key that starts with a character that is no white space,
no sign and no digit: no conversion is performed and the value is 0. -/
theorem strtoul_no_digits (s : String) (c : Char) (rest : List Char)
    (hs : s.toList = c :: rest) (h1 : isspace c = false) (h2 : c ≠ '-') (h3 : c ≠ '+')
    (h4 : c.isDigit = false) : strtoul s = 0 := by
  unfold strtoul
  simp only [hs]
  simp [List.dropWhile_cons, h1, h2, h3, List.takeWhile_cons, h4, digitsValue, ULONG_MAX]

theorem takeWhile_digits (ds rest : List Char) (hd : ∀ c ∈ ds, c.isDigit = true)
    (hr : ∀ c, rest.head? = some c → c.isDigit = false) :
    (ds ++ rest).takeWhile Char.isDigit = ds := by
  induction ds with
  | nil =>
    cases rest with
    | nil => rfl
    | cons c r => simp [List.takeWhile_cons, hr c rfl]
  | cons d ds ih =>
    simp only [List.cons_append, List.takeWhile_cons, hd d (List.mem_cons_self d ds), if_true]
    rw [ih (fun c hc => hd c (List.mem_cons_of_mem d hc))]

/-- The value `strtoul` returns for a key that starts with a run of decimal digits: the value
of the run (clamped to `ULONG_MAX`), whatever follows the run. -/
theorem strtoul_digits (s : String) (ds rest : List Char) (hs : s.toList = ds ++ rest)
    (hne : ds ≠ []) (hd : ∀ c ∈ ds, c.isDigit = true)
    (hr : ∀ c, rest.head? = some c → c.isDigit = false) :
    strtoul s = if digitsValue ds > ULONG_MAX then ULONG_MAX else digitsValue ds := by
  obtain ⟨d, ds1, rfl⟩ := List.exists_cons_of_ne_nil hne
  have hdd := hd d (List.mem_cons_self d ds1)
  have h1 := isspace_of_isDigit d hdd
  obtain ⟨h2, h3⟩ := not_sign_of_isDigit d hdd
  have ht := takeWhile_digits (d :: ds1) rest hd hr
  unfold strtoul
  simp only [hs, List.cons_append, List.dropWhile_cons, h1, Bool.false_eq_true, if_false,
    List.head?_cons, Option.some.injEq, h2, h3, or_self]
  rw [← List.cons_append, ht]

theorem toInt32_clamped_out_of_range (v : Nat) (hv : v > 7) :
    toInt32 (if v > ULONG_MAX then ULONG_MAX else v) < 0 ∨
      toInt32 (if v > ULONG_MAX then ULONG_MAX else v) > 7 := by
  unfold toInt32 ULONG_MAX
  split_ifs <;> omega

theorem ParseSlots_card_run (env : Env) (e : SlotDoc) (slot : Nat) (card : String)
    (cardVersion : Nat) (m : Machine) (t : SS_CARDTYPE) (b : Bool)
    (hquiet : ∀ e, env.raises e = none)
    (ht : cardTypeOfName env card = some t) (hl : e.load = .ok b) :
    ParseSlots_card env e slot card cardVersion m = .ok (b, t)
      { m with
        trace := m.trace ++ cardLoadCalls t slot cardVersion m.g_strSaveStatePath
        m_ConfigNew := { m.m_ConfigNew with
          m_bEnableHDD := if t = CT_GenericHDD then true else m.m_ConfigNew.m_bEnableHDD } } := by
  unfold ParseSlots_card
  unfold cardTypeOfName at ht
  by_cases h0 : card = env.Printer_GetSnapshotCardName
  · rw [if_pos h0] at ht ⊢
    simp only [Option.some.injEq] at ht
    subst ht
    simp [callLoad, hl, call, hquiet, getMachine, modify, cardLoadCalls]
  rw [if_neg h0] at ht ⊢
  by_cases h1 : card = env.SSC_GetSnapshotCardName
  · rw [if_pos h1] at ht ⊢
    simp only [Option.some.injEq] at ht
    subst ht
    simp [callLoad, hl, call, hquiet, getMachine, modify, cardLoadCalls]
  rw [if_neg h1] at ht ⊢
  by_cases h2 : card = env.Mouse_GetSnapshotCardName
  · rw [if_pos h2] at ht ⊢
    simp only [Option.some.injEq] at ht
    subst ht
    simp [callLoad, hl, call, hquiet, getMachine, modify, cardLoadCalls]
  rw [if_neg h2] at ht ⊢
  by_cases h3 : card = env.Z80_GetSnapshotCardName
  · rw [if_pos h3] at ht ⊢
    simp only [Option.some.injEq] at ht
    subst ht
    simp [callLoad, hl, call, hquiet, getMachine, modify, cardLoadCalls]
  rw [if_neg h3] at ht ⊢
  by_cases h4 : card = env.MB_GetSnapshotCardName
  · rw [if_pos h4] at ht ⊢
    simp only [Option.some.injEq] at ht
    subst ht
    simp [callLoad, hl, call, hquiet, getMachine, modify, cardLoadCalls]
  rw [if_neg h4] at ht ⊢
  by_cases h5 : card = env.Phasor_GetSnapshotCardName
  · rw [if_pos h5] at ht ⊢
    simp only [Option.some.injEq] at ht
    subst ht
    simp [callLoad, hl, call, hquiet, getMachine, modify, cardLoadCalls]
  rw [if_neg h5] at ht ⊢
  by_cases h6 : card = env.DiskGetSnapshotCardName
  · rw [if_pos h6] at ht ⊢
    simp only [Option.some.injEq] at ht
    subst ht
    simp [callLoad, hl, call, hquiet, getMachine, modify, cardLoadCalls]
  rw [if_neg h6] at ht ⊢
  by_cases h7 : card = env.HD_GetSnapshotCardName
  · rw [if_pos h7] at ht ⊢
    simp only [Option.some.injEq] at ht
    subst ht
    simp [callLoad, hl, call, hquiet, getMachine, modify, cardLoadCalls]
  rw [if_neg h7] at ht ⊢
  by_cases h8 : card = env.LanguageCardSlot0_GetSnapshotCardName
  · rw [if_pos h8] at ht ⊢
    simp only [Option.some.injEq] at ht
    subst ht
    simp [callLoad, hl, call, hquiet, getMachine, modify, cardLoadCalls]
  rw [if_neg h8] at ht ⊢
  by_cases h9 : card = env.Saturn128K_GetSnapshotCardName
  · rw [if_pos h9] at ht ⊢
    simp only [Option.some.injEq] at ht
    subst ht
    simp [callLoad, hl, call, hquiet, getMachine, modify, cardLoadCalls]
  rw [if_neg h9] at ht ⊢
  simp at ht

theorem ParseSlots_entry_run (env : Env) (e : SlotDoc) (m : Machine) (card : String) (v : Nat)
    (t : SS_CARDTYPE) (b : Bool) (hquiet : ∀ e, env.raises e = none)
    (hlo : 0 ≤ toInt32 (strtoul e.key)) (hhi : toInt32 (strtoul e.key) ≤ 7)
    (hcard : e.card = .ok card) (hver : e.cardVersion = .ok v) (hstate : e.hasState = true)
    (ht : cardTypeOfName env card = some t) (hl : e.load = .ok b) :
    ParseSlots_entry env e m = .ok ()
      { m with
        trace := m.trace ++ cardLoadCalls t (slotNumber e) v m.g_strSaveStatePath
        m_ConfigNew := { m.m_ConfigNew with
          m_Slot := if b = true then Function.update m.m_ConfigNew.m_Slot (slotNumber e) t
            else m.m_ConfigNew.m_Slot
          m_bEnableHDD := if t = CT_GenericHDD then true else m.m_ConfigNew.m_bEnableHDD } } := by
  have hr : ¬(toInt32 (strtoul e.key) < 0 ∨ toInt32 (strtoul e.key) > 7) := by omega
  unfold ParseSlots_entry
  simp only [hr, if_false, run_bind, hcard, hver, run_readDoc_ok, hstate, Bool.true_eq_false,
    ParseSlots_card_run env e _ card v m t b hquiet ht hl]
  cases b <;> simp [modify, slotNumber]

theorem ParseSlots_entry_invalid (env : Env) (e : SlotDoc) (m : Machine)
    (h : toInt32 (strtoul e.key) < 0 ∨ toInt32 (strtoul e.key) > 7) :
    ParseSlots_entry env e m = .throw ("Slots: Invalid slot #: " ++ e.key) m := by
  simp [ParseSlots_entry, h]

theorem ParseSlots_loop_end (env : Env) (pre post : List SlotDoc) (e : SlotDoc) (m : Machine)
    (hkeys : ∀ x ∈ pre, x.key ≠ "") (hkey : e.key = "") :
    ParseSlots_loop env (pre ++ e :: post) m = ParseSlots_loop env pre m := by
  rw [ParseSlots_loop_append env pre _ m hkeys]
  cases ParseSlots_loop env pre m with
  | throw msg m1 => rfl
  | ok a m1 =>
    show ParseSlots_loop env (e :: post) m1 = _
    unfold ParseSlots_loop
    rw [if_pos hkey]
    rfl

theorem ParseSlots_run (env : Env) (u : UnitDoc) (m : Machine) :
    ParseSlots env u UNIT_SLOTS_VER m = ParseSlots_loop env u.slots m := by
  unfold ParseSlots
  rw [if_neg (by simp)]

/-- C11, amended: in `ParseSlots` (unit version `UNIT_SLOTS_VER`), after the entries `pre` parsed
without error: a next entry whose non-empty key is converted by `strtoul` and the conversion to
`int` to a number outside 0..7 makes `ParseSlots` throw "Slots: Invalid slot #: " followed by the key, with the machine as the entries `pre` left
it, so no call is made for the entry; every key of decimal digits with a value above 7 converts
to such a number; when the reader has no further entry or yields an empty key, `ParseSlots`
returns without error, whatever follows the empty key. So a slots unit of any number (zero
included) of well-formed entries, when no call throws, is parsed without error. -/
theorem invalid_slot_key_rejected (env : Env) (u : UnitDoc) (m : Machine)
    (pre post : List SlotDoc) (e : SlotDoc) :
    ((∀ x ∈ pre, x.key ≠ "") → (ParseSlots_loop env pre m).error = none →
      u.slots = pre ++ e :: post → e.key ≠ "" →
      (toInt32 (strtoul e.key) < 0 ∨ toInt32 (strtoul e.key) > 7) →
      ParseSlots env u UNIT_SLOTS_VER m =
        .throw ("Slots: Invalid slot #: " ++ e.key) (ParseSlots_loop env pre m).machine) ∧
    (e.key.toList ≠ [] → (∀ c ∈ e.key.toList, c.isDigit = true) →
      digitsValue e.key.toList > 7 →
      (toInt32 (strtoul e.key) < 0 ∨ toInt32 (strtoul e.key) > 7)) ∧
    ((∀ x ∈ pre, x.key ≠ "") → (ParseSlots_loop env pre m).error = none →
      (u.slots = pre ∨ (u.slots = pre ++ e :: post ∧ e.key = "")) →
      ParseSlots env u UNIT_SLOTS_VER m = .ok () (ParseSlots_loop env pre m).machine) ∧
    ((∀ ev, env.raises ev = none) → (∀ x ∈ pre, GoodSlot env x) →
      (u.slots = pre ∨ (u.slots = pre ++ e :: post ∧ e.key = "")) →
      (ParseSlots env u UNIT_SLOTS_VER m).error = none) := by
  have hend : (∀ x ∈ pre, x.key ≠ "") →
      (u.slots = pre ∨ (u.slots = pre ++ e :: post ∧ e.key = "")) →
      ParseSlots env u UNIT_SLOTS_VER m = ParseSlots_loop env pre m := by
    intro hkeys h
    rw [ParseSlots_run]
    rcases h with h | ⟨h, hk⟩
    · rw [h]
    · rw [h, ParseSlots_loop_end env pre post e m hkeys hk]
  refine ⟨?_, ?_, ?_, ?_⟩
  · intro hkeys hpre hslots hkey hbad
    rw [ParseSlots_run, hslots, ParseSlots_loop_append env pre _ m hkeys]
    cases hM : ParseSlots_loop env pre m with
    | throw msg M => rw [hM] at hpre; simp [Res.error] at hpre
    | ok _ M =>
      simp only
      rw [ParseSlots_loop_cons env e post _ hkey, ParseSlots_entry_invalid env e _ hbad]
      rfl
  · intro hne hd hv
    rw [strtoul_digits e.key e.key.toList [] (by simp) hne hd (by simp)]
    exact toInt32_clamped_out_of_range _ hv
  · intro hkeys hpre h
    rw [hend hkeys h]
    cases hM : ParseSlots_loop env pre m with
    | throw msg M => rw [hM] at hpre; simp [Res.error] at hpre
    | ok _ M => rfl
  · intro hquiet hgood h
    rw [hend (fun x hx => (hgood x hx).1) h]
    obtain ⟨m1, h1, -⟩ := ParseSlots_loop_good env pre m hquiet hgood
    rw [h1]
    rfl

/-- The key "8" after a disk controller in slot 6: the error names the key and the only call
made is the load routine of the disk controller. -/
theorem invalid_slot_key_rejected_witness :
    (ParseSlots envPlain unitSlotsEight UNIT_SLOTS_VER machine0).error =
        some "Slots: Invalid slot #: 8" ∧
      (ParseSlots envPlain unitSlotsEight UNIT_SLOTS_VER machine0).machine.trace =
        [Event.DiskLoadSnapshot 6 1] := by
  have h := (invalid_slot_key_rejected envPlain unitSlotsEight machine0 [slotOf "6" "Disk]["]
    [slotOf "1" "Generic Printer"] (slotOf "8" "Z80")).1 (by decide) (by decide!) rfl
    (by decide) (by decide!)
  rw [h]
  decide!

/-- C12 fails as stated: the slots unit `unitSlotsText`, whose keys are "abc", "3x" and "+5",
is parsed without error; the printer of the key "abc" is recorded in slot 0, the Z80 card of
the key "3x" in slot 3 and the Mockingboard of the key "+5" in slot 5. -/
theorem text_slot_keys_accepted :
    (ParseSlots envPlain unitSlotsText UNIT_SLOTS_VER machine0).error = none ∧
      (ParseSlots envPlain unitSlotsText UNIT_SLOTS_VER machine0).machine.m_ConfigNew.m_Slot 0
        = CT_GenericPrinter ∧
      (ParseSlots envPlain unitSlotsText UNIT_SLOTS_VER machine0).machine.m_ConfigNew.m_Slot 3
        = CT_Z80 ∧
      (ParseSlots envPlain unitSlotsText UNIT_SLOTS_VER machine0).machine.m_ConfigNew.m_Slot 5
        = CT_MockingboardC ∧
      (ParseSlots envPlain unitSlotsText UNIT_SLOTS_VER machine0).machine.trace =
        [Event.Printer_LoadSnapshot 0 1, Event.Z80_LoadSnapshot 3 1,
         Event.MB_LoadSnapshot 5 1] := by
  decide!

/-- C12, as amended: `ParseSlots` converts a non-empty slot key with `strtoul(key, NULL, 10)`
and never checks that the whole key was converted. The entry is rejected with
"Slots: Invalid slot #: " followed by the key, before any call, when the converted number, as
an `int`, is outside 0..7; otherwise the converted number is the slot number (for a known card
whose load routine returns true, when no call throws, the card is recorded in that slot). A key that starts with a character that is no white space, no sign and no digit converts
to 0, and a key that starts with a run of decimal digits converts to the value of the run,
whatever follows it (at most `ULONG_MAX`). -/
theorem slot_key_converted (env : Env) (e : SlotDoc) (m : Machine) :
    ((toInt32 (strtoul e.key) < 0 ∨ toInt32 (strtoul e.key) > 7) →
      ParseSlots_entry env e m = .throw ("Slots: Invalid slot #: " ++ e.key) m) ∧
    (∀ card v t, (∀ ev, env.raises ev = none) →
      0 ≤ toInt32 (strtoul e.key) → toInt32 (strtoul e.key) ≤ 7 →
      e.card = .ok card → e.cardVersion = .ok v → e.hasState = true →
      cardTypeOfName env card = some t → e.load = .ok true →
      ∃ m1, ParseSlots_entry env e m = .ok () m1 ∧
        m1.m_ConfigNew.m_Slot =
          Function.update m.m_ConfigNew.m_Slot (toInt32 (strtoul e.key)).toNat t) ∧
    (∀ c rest, e.key.toList = c :: rest → isspace c = false → c ≠ '-' → c ≠ '+' →
      c.isDigit = false → strtoul e.key = 0) ∧
    (∀ ds rest, e.key.toList = ds ++ rest → ds ≠ [] → (∀ c ∈ ds, c.isDigit = true) →
      (∀ c, rest.head? = some c → c.isDigit = false) →
      strtoul e.key = if digitsValue ds > ULONG_MAX then ULONG_MAX else digitsValue ds) := by
  refine ⟨ParseSlots_entry_invalid env e m, ?_, fun c rest => strtoul_no_digits e.key c rest,
    fun ds rest => strtoul_digits e.key ds rest⟩
  intro card v t hquiet hlo hhi hcard hver hstate ht hl
  exact ⟨_, ParseSlots_entry_run env e m card v t true hquiet hlo hhi hcard hver hstate ht hl,
    rfl⟩

/-- The key "3x" converts to 3 and the key "abc" to 0; the key "-1" converts to a negative
`int` and is rejected. -/
theorem slot_key_converted_witness :
    strtoul "3x" = (if digitsValue ['3'] > ULONG_MAX then ULONG_MAX else digitsValue ['3']) ∧
      strtoul "abc" = 0 ∧
      ParseSlots_entry envPlain (slotOf "-1" "Z80") machine0 =
        .throw ("Slots: Invalid slot #: " ++ (slotOf "-1" "Z80").key) machine0 :=
  ⟨(slot_key_converted envPlain (slotOf "3x" "Z80") machine0).2.2.2 ['3'] ['x'] rfl (by decide)
      (by decide) (by decide),
   (slot_key_converted envPlain (slotOf "abc" "Z80") machine0).2.2.1 'a' ['b', 'c'] rfl
      (by decide) (by decide) (by decide) (by decide),
   (slot_key_converted envPlain (slotOf "-1" "Z80") machine0).1 (by decide!)⟩

theorem reset_hdd (env : Env) (m m1 : Machine) (hquiet : ∀ e, env.raises e = none)
    (h : Snapshot_LoadState_v2_reset env m = .ok () m1) :
    m1.m_ConfigNew.m_bEnableHDD = false := by
  unfold Snapshot_LoadState_v2_reset at h
  by_cases hs : env.USE_SPEECH_API = true <;> simp [hs, call, hquiet, modify] at h <;>
    rw [← h]

theorem end_applied (env : Env) (m m1 : Machine) (hquiet : ∀ e, env.raises e = none)
    (h : Snapshot_LoadState_v2_end env m = .ok () m1) :
    m1.applied = some (m.m_ConfigNew, ConfigOld env) ∧ Event.ApplyNewConfig ∈ m1.trace := by
  unfold Snapshot_LoadState_v2_end at h
  by_cases hra : env.USE_RETROACHIEVEMENTS = true <;>
    simp [hra, call, hquiet, modify, getMachine] at h <;> rw [← h] <;> simp

theorem sameHdd_of_core (env : Env) (u : UnitDoc) (m m1 : Machine) (v : Nat)
    (hu : u.type = .ok GetSnapshotUnitApple2Name) (hver : u.version = .ok v)
    (hstate : u.hasState = true)
    (h : ParseUnit env u true m = .ok () m1) :
    m1.m_ConfigNew.m_bEnableHDD = m.m_ConfigNew.m_bEnableHDD := by
  have hR : Frame (fun a b : Machine =>
      b.m_ConfigNew.m_bEnableHDD = a.m_ConfigNew.m_bEnableHDD) :=
    ⟨fun _ => rfl, fun _ _ _ h1 h2 => h2.trans h1, fun _ _ _ => rfl⟩
  have hk := ParseUnitApple2_keeps hR (fun _ _ _ _ _ => rfl) env u v
    { m with trace := m.trace ++ [Event.ParseUnit true] }
  have hrun : ParseUnit env u true m =
      ParseUnitApple2 env u v { m with trace := m.trace ++ [Event.ParseUnit true] } := by
    unfold ParseUnit
    simp [hu, hver, hstate, log]
  rw [← hrun, h] at hk
  exact hk

theorem hddListed_cons (env : Env) (e : SlotDoc) (l : List SlotDoc) :
    hddListed env (e :: l) =
      (decide (cardTypeOf env e = some CT_GenericHDD) || hddListed env l) := by
  simp [hddListed]

theorem ParseSlots_loop_hdd (env : Env) (l : List SlotDoc) (m m1 : Machine)
    (hquiet : ∀ e, env.raises e = none) (hl : ∀ e ∈ l, GoodSlot env e)
    (h : ParseSlots_loop env l m = .ok () m1) :
    m1.m_ConfigNew.m_bEnableHDD = (m.m_ConfigNew.m_bEnableHDD || hddListed env l) := by
  induction l generalizing m with
  | nil =>
    have : m1 = m := by
      have h2 : ParseSlots_loop env [] m = .ok () m := rfl
      rw [h2] at h
      exact (Res.ok.inj h).2.symm
    subst this
    simp [hddListed]
  | cons e l ih =>
    obtain ⟨hk, hlo, hhi, ⟨card, t, hcard, ht⟩, ⟨v, hv⟩, hstate, hload⟩ :=
      hl e (List.mem_cons_self e l)
    rw [ParseSlots_loop_cons env e l m hk,
      ParseSlots_entry_run env e m card v t true hquiet hlo hhi hcard hv hstate ht hload] at h
    have hi := ih _ (fun x hx => hl x (List.mem_cons_of_mem e hx)) h
    have hc : cardTypeOf env e = some t := by simp [cardTypeOf, hcard, ht]
    rw [hi, hddListed_cons, hc]
    by_cases hh : t = CT_GenericHDD <;> simp [hh]

theorem hddListed_of_mem (env : Env) (l : List SlotDoc) (e : SlotDoc) (he : e ∈ l)
    (hc : cardTypeOf env e = some CT_GenericHDD) : hddListed env l = true := by
  unfold hddListed
  rw [List.any_eq_true]
  exact ⟨e, he, by simp [hc]⟩

theorem recorded_of_unique (env : Env) (l : List SlotDoc) (f : Nat → SS_CARDTYPE) (s : Nat)
    (t : SS_CARDTYPE) (hex : ∃ e ∈ l, slotNumber e = s)
    (hall : ∀ e ∈ l, slotNumber e = s → cardTypeOf env e = some t)
    (hsome : ∀ e ∈ l, ∃ t1, cardTypeOf env e = some t1) :
    recorded env l f s = t := by
  induction l using List.reverseRecOn with
  | nil => simp at hex
  | append_singleton l e ih =>
    obtain ⟨t1, ht1⟩ := hsome e (by simp)
    rw [recorded_append, recorded_cons env e [] _ t1 ht1, recorded_nil]
    by_cases hs : slotNumber e = s
    · have := hall e (by simp) hs
      rw [ht1] at this
      rw [← hs, Function.update_same]
      exact Option.some.inj this
    · rw [Function.update_noteq (Ne.symm hs)]
      obtain ⟨x, hx, hxs⟩ := hex
      have hxl : x ∈ l := by
        rcases List.mem_append.1 hx with h | h
        · exact h
        · simp at h
          subst h
          exact absurd hxs hs
      exact ih ⟨x, hxl, hxs⟩ (fun y hy => hall y (List.mem_append_left _ hy))
        (fun y hy => hsome y (List.mem_append_left _ hy))

theorem load_savedDocumentOf_hdd (env : Env) (m : Machine) (model : String)
    (type : eApple2Type) (cpu : eCpuType) (S : List SlotDoc)
    (hquiet : ∀ e, env.raises e = none)
    (hguard : env.USE_RETROACHIEVEMENTS = true → env.guardAnswer = true)
    (hn1 : env.MemGetSnapshotUnitAuxSlotName ≠ GetSnapshotUnitApple2Name)
    (hn2 : env.MemGetSnapshotUnitAuxSlotName ≠ GetSnapshotUnitSlotsName)
    (htype : ParseApple2Type model = .ok type) (hS : ∀ e ∈ S, GoodSlot env e) :
    (Snapshot_LoadState_v2 env (savedDocumentOf env model cpu S) m).m_ConfigNew.m_bEnableHDD =
      (if env.USE_RETROACHIEVEMENTS = true then false else hddListed env S) ∧
    (Snapshot_LoadState_v2 env (savedDocumentOf env model cpu S) m).applied =
      some ((Snapshot_LoadState_v2 env (savedDocumentOf env model cpu S) m).m_ConfigNew,
        ConfigOld env) ∧
    Event.ApplyNewConfig ∈
      (Snapshot_LoadState_v2 env (savedDocumentOf env model cpu S) m).trace := by
  obtain ⟨mb, hb, hbc⟩ := begin_good env (savedDocumentOf env model cpu S)
    { m with restart := false } rfl rfl rfl rfl hguard
  obtain ⟨mr, hr, -⟩ := reset_good env mb hquiet
  have hrh := reset_hdd env mb mr hquiet hr
  obtain ⟨mc, hc, -⟩ := ParseUnit_core_good env (savedCoreUnit model cpu) mr
    UNIT_APPLE2_VER model type cpu hquiet rfl rfl (by decide) rfl rfl htype rfl rfl rfl rfl rfl
    rfl
  have hch := sameHdd_of_core env (savedCoreUnit model cpu) mr mc UNIT_APPLE2_VER rfl rfl rfl hc
  obtain ⟨ma, ha, hac, -⟩ := ParseUnit_aux_good env (savedAuxUnit env) mc 1 true rfl rfl
    rfl rfl hn1
  obtain ⟨ms, hs, -⟩ := ParseUnit_slots_good env S ma hquiet hn2 hS
  have hsh : ms.m_ConfigNew.m_bEnableHDD =
      (if env.USE_RETROACHIEVEMENTS = true then false else hddListed env S) := by
    by_cases hra : env.USE_RETROACHIEVEMENTS = true
    · have h := ParseUnit_slots_skipped env (savedSlotsUnit S) ma UNIT_SLOTS_VER hra rfl rfl rfl
        hn2
      rw [h] at hs
      rw [if_pos hra, ← (Res.ok.inj hs).2]
      show ma.m_ConfigNew.m_bEnableHDD = false
      rw [hac, hch, hrh]
    · have hra1 : env.USE_RETROACHIEVEMENTS = false := by
        cases h : env.USE_RETROACHIEVEMENTS
        · rfl
        · exact absurd h hra
      have h := ParseUnit_slots_run env (savedSlotsUnit S) ma hra1 rfl rfl rfl hn2
      rw [h] at hs
      have hl := ParseSlots_loop_hdd env S _ ms hquiet hS hs
      rw [if_neg hra, hl]
      show (ma.m_ConfigNew.m_bEnableHDD || hddListed env S) = hddListed env S
      rw [hac, hch, hrh, Bool.false_or]
  obtain ⟨me, he, hec, -⟩ := end_good env ms hquiet
  obtain ⟨hea, het⟩ := end_applied env ms me hquiet he
  have hrun : Snapshot_LoadState_v2_try env (savedDocumentOf env model cpu S)
      { m with restart := false } = .ok true me := by
    unfold Snapshot_LoadState_v2_try Snapshot_LoadState_v2_armed
    simp only [run_bind, hb, Bool.true_eq_false, if_false, hr]
    have htop : (savedDocumentOf env model cpu S).top =
        [{ scalar := env.SS_YAML_KEY_UNIT, unit := savedCoreUnit model cpu },
         { scalar := env.SS_YAML_KEY_UNIT, unit := savedAuxUnit env },
         { scalar := env.SS_YAML_KEY_UNIT, unit := savedSlotsUnit S }] := rfl
    rw [htop, units_cons_run env _ _ mr mc rfl hc, units_cons_run env _ _ mc ma rfl ha,
      units_cons_run env _ _ ma ms rfl hs]
    unfold Snapshot_LoadState_v2_units
    simp only [run_pure, he]
  unfold Snapshot_LoadState_v2
  rw [hrun]
  refine ⟨?_, ?_, ?_⟩
  · show me.m_ConfigNew.m_bEnableHDD = _
    rw [hec, hsh]
  · show me.applied = some (me.m_ConfigNew, ConfigOld env)
    rw [hea, hec]
  · show Event.ApplyNewConfig ∈ me.trace ++ [Event.FinaliseParser]
    exact List.mem_append_left _ het

/-- C16 fails as stated: in a RetroAchievements build the load of the document with the model
"Enhanced Apple//e", a disk controller in slot 6 and a hard disk in slot 7 runs to its end and
calls `ApplyNewConfig`, but `ParseSlots` is not entered: slots 6 and 7 of the new configuration
are empty and `m_bEnableHDD` is false. -/
theorem load_scenario_skips_slots :
    (Snapshot_LoadState envRA (savedDocumentOf envRA "Enhanced Apple//e" 2 slotsDiskHdd)
        machinePlus).loadedSaveStateFlag = true ∧
      Event.ApplyNewConfig ∈
        (Snapshot_LoadState envRA (savedDocumentOf envRA "Enhanced Apple//e" 2 slotsDiskHdd)
          machinePlus).trace ∧
      (Snapshot_LoadState envRA (savedDocumentOf envRA "Enhanced Apple//e" 2 slotsDiskHdd)
        machinePlus).m_ConfigNew.m_Apple2Type = A2TYPE_APPLE2EENHANCED ∧
      (Snapshot_LoadState envRA (savedDocumentOf envRA "Enhanced Apple//e" 2 slotsDiskHdd)
        machinePlus).m_ConfigNew.m_Slot 6 = CT_Empty ∧
      (Snapshot_LoadState envRA (savedDocumentOf envRA "Enhanced Apple//e" 2 slotsDiskHdd)
        machinePlus).m_ConfigNew.m_Slot 7 = CT_Empty ∧
      (Snapshot_LoadState envRA (savedDocumentOf envRA "Enhanced Apple//e" 2 slotsDiskHdd)
        machinePlus).m_ConfigNew.m_bEnableHDD = false := by
  decide!

/-- C16, as amended: the load through `Snapshot_LoadState` of a document with a good header, the
core-machine unit of the model "Enhanced Apple//e", the auxiliary-slot unit and a slots unit of
well-formed entries in which slot 6 is a disk controller and slot 7 a hard disk, when no call
throws, the guard (if compiled in) does not decline and the path name is not rejected, runs to
its end with the model `A2TYPE_APPLE2EENHANCED` in the new configuration; `ApplyNewConfig` is
called, and what it is given is that new configuration and the old configuration `ConfigOld`,
whose slot 6 is `CT_Disk2`. In a build without `USE_RETROACHIEVEMENTS` the new configuration has
`m_Slot[6] = CT_Disk2`, `m_Slot[7] = CT_GenericHDD` and `m_bEnableHDD = true`; in a build with
it the slots 6 and 7 are `CT_Empty` and `m_bEnableHDD` is false. -/
theorem load_enhanced_disk_hdd (env : Env) (m : Machine) (cpu : eCpuType) (S : List SlotDoc)
    (hquiet : ∀ e, env.raises e = none)
    (hguard : env.USE_RETROACHIEVEMENTS = true → env.guardAnswer = true)
    (hn1 : env.MemGetSnapshotUnitAuxSlotName ≠ GetSnapshotUnitApple2Name)
    (hn2 : env.MemGetSnapshotUnitAuxSlotName ≠ GetSnapshotUnitSlotsName)
    (hpath : string_find m.g_strSaveStatePathname ".aws"
      ((m.g_strSaveStatePathname.length + (2 ^ SIZE_BITS - (".aws" : String).length))
        % 2 ^ SIZE_BITS) = none)
    (hS : ∀ e ∈ S, GoodSlot env e)
    (h6 : ∃ e ∈ S, slotNumber e = 6)
    (h6c : ∀ e ∈ S, slotNumber e = 6 → cardTypeOf env e = some CT_Disk2)
    (h7 : ∃ e ∈ S, slotNumber e = 7)
    (h7c : ∀ e ∈ S, slotNumber e = 7 → cardTypeOf env e = some CT_GenericHDD) :
    (Snapshot_LoadState env (savedDocumentOf env SS_YAML_VALUE_APPLE2EENHANCED cpu S)
      m).loadedSaveStateFlag = true ∧
    (Snapshot_LoadState env (savedDocumentOf env SS_YAML_VALUE_APPLE2EENHANCED cpu S)
      m).m_ConfigNew.m_Apple2Type = A2TYPE_APPLE2EENHANCED ∧
    Event.ApplyNewConfig ∈
      (Snapshot_LoadState env (savedDocumentOf env SS_YAML_VALUE_APPLE2EENHANCED cpu S)
        m).trace ∧
    (Snapshot_LoadState env (savedDocumentOf env SS_YAML_VALUE_APPLE2EENHANCED cpu S)
      m).applied =
      some ((Snapshot_LoadState env (savedDocumentOf env SS_YAML_VALUE_APPLE2EENHANCED cpu S)
        m).m_ConfigNew, ConfigOld env) ∧
    (ConfigOld env).m_Slot 6 = CT_Disk2 ∧
    (env.USE_RETROACHIEVEMENTS = false →
      (Snapshot_LoadState env (savedDocumentOf env SS_YAML_VALUE_APPLE2EENHANCED cpu S)
        m).m_ConfigNew.m_Slot 6 = CT_Disk2 ∧
      (Snapshot_LoadState env (savedDocumentOf env SS_YAML_VALUE_APPLE2EENHANCED cpu S)
        m).m_ConfigNew.m_Slot 7 = CT_GenericHDD ∧
      (Snapshot_LoadState env (savedDocumentOf env SS_YAML_VALUE_APPLE2EENHANCED cpu S)
        m).m_ConfigNew.m_bEnableHDD = true) ∧
    (env.USE_RETROACHIEVEMENTS = true →
      (Snapshot_LoadState env (savedDocumentOf env SS_YAML_VALUE_APPLE2EENHANCED cpu S)
        m).m_ConfigNew.m_Slot 6 = CT_Empty ∧
      (Snapshot_LoadState env (savedDocumentOf env SS_YAML_VALUE_APPLE2EENHANCED cpu S)
        m).m_ConfigNew.m_Slot 7 = CT_Empty ∧
      (Snapshot_LoadState env (savedDocumentOf env SS_YAML_VALUE_APPLE2EENHANCED cpu S)
        m).m_ConfigNew.m_bEnableHDD = false) := by
  have hv2 : Snapshot_LoadState env (savedDocumentOf env SS_YAML_VALUE_APPLE2EENHANCED cpu S) m =
      Snapshot_LoadState_v2 env (savedDocumentOf env SS_YAML_VALUE_APPLE2EENHANCED cpu S) m := by
    unfold Snapshot_LoadState
    exact if_neg (not_not_intro hpath)
  rw [hv2]
  obtain ⟨h1, -, h3, h4⟩ := load_savedDocumentOf env m SS_YAML_VALUE_APPLE2EENHANCED
    A2TYPE_APPLE2EENHANCED cpu S hquiet hguard hn1 hn2 (by decide) hS
  obtain ⟨h5, h6a, h7a⟩ := load_savedDocumentOf_hdd env m SS_YAML_VALUE_APPLE2EENHANCED
    A2TYPE_APPLE2EENHANCED cpu S hquiet hguard hn1 hn2 (by decide) hS
  have hsome : ∀ e ∈ S, ∃ t1, cardTypeOf env e = some t1 := by
    intro e he
    obtain ⟨-, -, -, ⟨card, t, hc, ht⟩, -⟩ := hS e he
    exact ⟨t, by simp [cardTypeOf, hc, ht]⟩
  refine ⟨h1, h3, h7a, h6a, by simp [ConfigOld, Function.update_apply], ?_, ?_⟩
  · intro hra
    rw [h4, h5]
    simp only [hra, Bool.false_eq_true, if_false]
    refine ⟨recorded_of_unique env S _ 6 _ h6 h6c hsome,
      recorded_of_unique env S _ 7 _ h7 h7c hsome, ?_⟩
    obtain ⟨e, he, hes⟩ := h7
    exact hddListed_of_mem env S e he (h7c e he hes)
  · intro hra
    rw [h4, h5]
    simp only [hra, if_true]
    exact ⟨clearSlots_apply _ 6 (by decide), clearSlots_apply _ 7 (by decide), trivial⟩

/-- The scenario in a build without RetroAchievements, loaded into a machine that was a ][+: the
new configuration has the disk controller in slot 6, the hard disk in slot 7 and the hard disk
enabled. -/
theorem load_enhanced_disk_hdd_witness :
    (Snapshot_LoadState envPlain
        (savedDocumentOf envPlain SS_YAML_VALUE_APPLE2EENHANCED 2 slotsDiskHdd)
        machinePlus).m_ConfigNew.m_Slot 6 = CT_Disk2 ∧
      (Snapshot_LoadState envPlain
        (savedDocumentOf envPlain SS_YAML_VALUE_APPLE2EENHANCED 2 slotsDiskHdd)
        machinePlus).m_ConfigNew.m_Slot 7 = CT_GenericHDD ∧
      (Snapshot_LoadState envPlain
        (savedDocumentOf envPlain SS_YAML_VALUE_APPLE2EENHANCED 2 slotsDiskHdd)
        machinePlus).m_ConfigNew.m_bEnableHDD = true :=
  (load_enhanced_disk_hdd envPlain machinePlus 2 slotsDiskHdd (fun _ => rfl) (by decide)
    (by decide) (by decide) (by decide!) (by decide!) (by decide!) (by decide!) (by decide!)
    (by decide!)).2.2.2.2.2.1 rfl

/-! ## The calls of a save -/

theorem traceOk_pure {α : Type} (a : α) : TraceOk (pure a : Exec α) [] := by
  intro m b m1 h
  simp only [run_pure, Res.ok.injEq] at h
  rw [← h.2, List.append_nil]

theorem traceOk_raise {α : Type} (msg : String) (l : List Event) :
    TraceOk (raise msg : Exec α) l := by
  intro m b m1 h
  simp at h

theorem traceOk_call (env : Env) (e : Event) : TraceOk (call env e) [e] := by
  intro m b m1 h
  unfold call at h
  cases hr : env.raises e with
  | none =>
    simp only [hr, Res.ok.injEq] at h
    rw [← h.2]
  | some msg => simp [hr] at h

theorem traceOk_callLoad {α : Type} (e : Event) (r : Except String α) :
    TraceOk (callLoad e r) [e] := by
  intro m b m1 h
  cases r with
  | error msg => simp at h
  | ok a =>
    simp only [run_callLoad_ok, Res.ok.injEq] at h
    rw [← h.2]

theorem traceOk_log (e : Event) : TraceOk (log e) [e] := by
  intro m b m1 h
  simp only [run_log, Res.ok.injEq] at h
  rw [← h.2]

theorem traceOk_modify (f : Machine → Machine) (hf : ∀ m, (f m).trace = m.trace) :
    TraceOk (modify f) [] := by
  intro m b m1 h
  simp only [run_modify, Res.ok.injEq] at h
  rw [← h.2, hf, List.append_nil]

theorem traceOk_bind {α β : Type} {x : Exec α} {f : α → Exec β} {l1 l2 : List Event}
    (hx : TraceOk x l1) (hf : ∀ a, TraceOk (f a) l2) : TraceOk (x >>= f) (l1 ++ l2) := by
  intro m b m2 h
  rw [run_bind] at h
  cases hxm : x m with
  | throw msg m1 => rw [hxm] at h; simp at h
  | ok a m1 =>
    rw [hxm] at h
    rw [hf a m1 b m2 h, hx m a m1 hxm, List.append_assoc]

theorem traceOk_readDoc_bind {α β : Type} (r : Except String α) {f : α → Exec β}
    {l : List Event} (hf : ∀ a, r = .ok a → TraceOk (f a) l) :
    TraceOk (readDoc r >>= f) l := by
  intro m b m1 h
  cases r with
  | error msg => simp at h
  | ok a =>
    simp only [run_bind, run_readDoc_ok] at h
    exact hf a rfl m b m1 h

theorem traceOk_ite {α : Type} (c : Prop) [Decidable c] {x y : Exec α} {l1 l2 : List Event}
    (hx : TraceOk x l1) (hy : TraceOk y l2) :
    TraceOk (if c then x else y) (if c then l1 else l2) := by
  split
  · exact hx
  · exact hy

theorem traceOk_unit : TraceOk (pure () : Exec Unit) [] := traceOk_pure ()

theorem traceOk_seq {x y : Exec Unit} {l1 l2 : List Event} (hx : TraceOk x l1)
    (hy : TraceOk y l2) : TraceOk (x >>= fun _ => y) (l1 ++ l2) :=
  traceOk_bind hx (fun _ => hy)

theorem traceOk_readDoc_ok {α : Type} (a : α) {f : α → Exec Unit} {l : List Event}
    (hf : TraceOk (f a) l) : TraceOk (readDoc (.ok a) >>= f) l :=
  traceOk_readDoc_bind (.ok a) (fun b hb => by
    cases hb
    exact hf)

theorem value_none_bind {α β : Type} (x : Exec α) (f : α → Exec β)
    (hf : ∀ a m, (f a m).value = none) (m : Machine) : ((x >>= f) m).value = none := by
  rw [run_bind]
  cases x m with
  | throw msg m1 => rfl
  | ok a m1 => exact hf a m1

theorem save_try_trace (env : Env) (m : Machine)
    (h : (Snapshot_SaveState_try env m).error = none) :
    ∃ model, GetApple2TypeAsString m.g_Apple2Type = .ok model ∧
      (Snapshot_SaveState env m).trace = m.trace ++ saveCalls env m model := by
  cases hr : Snapshot_SaveState_try env m with
  | throw msg m1 => rw [hr] at h; simp [Res.error] at h
  | ok a m1 =>
    have hs : Snapshot_SaveState env m = m1 := by simp [Snapshot_SaveState, hr]
    rw [hs]
    unfold Snapshot_SaveState_try at hr
    rw [run_bind, run_getMachine] at hr
    simp only at hr
    cases hmodel : GetApple2TypeAsString m.g_Apple2Type with
    | error msg =>
      exfalso
      rw [hmodel] at hr
      refine absurd (congrArg Res.value hr) ?_
      rw [value_none_bind]
      · simp [Res.value]
      · intro _ _
        apply value_none_bind
        intro _ _
        apply value_none_bind
        intro _ _
        apply value_none_bind
        intro _ _
        rfl
    | ok model =>
      refine ⟨model, rfl, ?_⟩
      rw [hmodel] at hr
      have key : ∀ (x : Exec Unit), x m = .ok a m1 → ∀ (l : List Event), TraceOk x l →
          l = saveCalls env m model → m1.trace = m.trace ++ saveCalls env m model :=
        fun x hrun l hx hl => by rw [hx m a m1 hrun, hl]
      apply key _ hr
      · repeat' first
          | exact traceOk_unit
          | exact traceOk_call env _
          | apply traceOk_ite
          | apply traceOk_readDoc_ok
          | apply traceOk_seq
      · simp [saveCalls, slotCalls]

theorem ParseUnitApple2_trace (env : Env) (u : UnitDoc) (version : Nat) (m : Machine)
    (h : (ParseUnitApple2 env u version m).error = none) :
    ∃ type, (ParseUnitApple2 env u version m).machine.trace = m.trace ++
      [Event.SetApple2Type type, Event.CpuLoadSnapshot, Event.JoyLoadSnapshot,
       Event.KeybLoadSnapshot version, Event.SpkrLoadSnapshot, Event.VideoLoadSnapshot,
       Event.MemLoadSnapshot version, Event.VideoReinitialize,
       Event.FrameUpdateApple2Type] := by
  unfold ParseUnitApple2 SetApple2Type call at h ⊢
  by_cases hg : version = 0 ∨ version > UNIT_APPLE2_VER
  · simp [hg, Res.error] at h
  cases hm : u.model with
  | error msg => simp [hg, hm, Res.error] at h
  | ok model =>
  cases ht : ParseApple2Type model with
  | error msg => simp [hg, hm, ht, Res.error] at h
  | ok type =>
  refine ⟨type, ?_⟩
  cases h1 : env.raises (Event.SetApple2Type type) with
  | some msg => simp [hg, hm, ht, h1, Res.error] at h
  | none =>
  cases hc : u.cpu with
  | error msg => simp [hg, hm, ht, h1, hc, Res.error] at h
  | ok cpu =>
  cases h2 : u.joy with
  | error msg => simp [hg, hm, ht, h1, hc, h2, Res.error] at h
  | ok _ =>
  cases h3 : u.keyb with
  | error msg => simp [hg, hm, ht, h1, hc, h2, h3, Res.error] at h
  | ok _ =>
  cases h4 : u.spkr with
  | error msg => simp [hg, hm, ht, h1, hc, h2, h3, h4, Res.error] at h
  | ok _ =>
  cases h5 : u.video with
  | error msg => simp [hg, hm, ht, h1, hc, h2, h3, h4, h5, Res.error] at h
  | ok _ =>
  cases h6 : u.mem with
  | error msg => simp [hg, hm, ht, h1, hc, h2, h3, h4, h5, h6, Res.error] at h
  | ok _ =>
  cases h7 : env.raises Event.VideoReinitialize with
  | some msg => simp [hg, hm, ht, h1, hc, h2, h3, h4, h5, h6, h7, Res.error] at h
  | none =>
  cases h8 : env.raises Event.FrameUpdateApple2Type with
  | some msg => simp [hg, hm, ht, h1, hc, h2, h3, h4, h5, h6, h7, h8, Res.error] at h
  | none => simp [hg, hm, ht, h1, hc, h2, h3, h4, h5, h6, h7, h8, Res.machine]

theorem mem_ite_singleton {α : Type} (c : Prop) [Decidable c] (a e : α) :
    a ∈ (if c then [e] else []) ↔ c ∧ a = e := by
  split <;> simp [*]

theorem savedBlock_of_cardSave (e : Event) (h : Event.isCardSave e = true) :
    Event.savedBlock e = none := by
  cases e <;> first | rfl | simp [Event.isCardSave] at h

theorem save_calls (env : Env) (m : Machine)
    (h : (Snapshot_SaveState_try env m).error = none) :
    ∃ model, GetApple2TypeAsString m.g_Apple2Type = .ok model ∧
      (Snapshot_SaveState env m).trace.drop m.trace.length = saveCalls env m model := by
  obtain ⟨model, hmodel, ht⟩ := save_try_trace env m h
  exact ⟨model, hmodel, by rw [ht, List.drop_left]⟩

/-- C18: in a `Snapshot_SaveState` call in which no error is raised, the calls of the slots
part are these. The save routine of the language card (or Saturn card) is called exactly when
slot 0 is not empty and the machine is of the ][ or ][+ kind; the save routines of the printer,
the serial card, the mouse card, the disk controller and the hard disk are always called (they
take no slot number); `Z80_SaveSnapshot` is called with slot 4 exactly when slot 4 holds a Z80
card and with slot 5 exactly when slot 5 holds one, and with no other slot number; likewise
`MB_SaveSnapshot` for a Mockingboard in slot 4 or 5; `Phasor_SaveSnapshot` is called exactly
when slot 4 holds a Phasor, with slot 4. -/
theorem save_invokes_card_routines (env : Env) (m : Machine)
    (h : (Snapshot_SaveState_try env m).error = none) :
    (Event.LanguageCard_SaveSnapshot ∈ (Snapshot_SaveState env m).trace.drop m.trace.length ↔
      (m.g_Slot0 ≠ CT_Empty ∧ env.IsApple2PlusOrClone m.g_Apple2Type = true)) ∧
    Event.Printer_SaveSnapshot ∈ (Snapshot_SaveState env m).trace.drop m.trace.length ∧
    Event.SSC_SaveSnapshot ∈ (Snapshot_SaveState env m).trace.drop m.trace.length ∧
    Event.Mouse_SaveSnapshot ∈ (Snapshot_SaveState env m).trace.drop m.trace.length ∧
    Event.DiskSaveSnapshot ∈ (Snapshot_SaveState env m).trace.drop m.trace.length ∧
    Event.HD_SaveSnapshot ∈ (Snapshot_SaveState env m).trace.drop m.trace.length ∧
    (∀ s, Event.Z80_SaveSnapshot s ∈ (Snapshot_SaveState env m).trace.drop m.trace.length ↔
      (s = 4 ∧ m.g_Slot4 = CT_Z80) ∨ (s = 5 ∧ m.g_Slot5 = CT_Z80)) ∧
    (∀ s, Event.MB_SaveSnapshot s ∈ (Snapshot_SaveState env m).trace.drop m.trace.length ↔
      (s = 4 ∧ m.g_Slot4 = CT_MockingboardC) ∨ (s = 5 ∧ m.g_Slot5 = CT_MockingboardC)) ∧
    (∀ s, Event.Phasor_SaveSnapshot s ∈ (Snapshot_SaveState env m).trace.drop m.trace.length ↔
      (s = 4 ∧ m.g_Slot4 = CT_Phasor)) := by
  obtain ⟨model, -, hc⟩ := save_calls env m h
  rw [hc]
  simp only [saveCalls, slotCalls, List.mem_append, List.mem_cons, List.mem_singleton,
    List.not_mem_nil, mem_ite_singleton, reduceCtorEq, Event.Z80_SaveSnapshot.injEq,
    Event.MB_SaveSnapshot.injEq, Event.Phasor_SaveSnapshot.injEq, or_false, false_or,
    and_false, or_true, true_or, and_true]
  refine ⟨by tauto, trivial, trivial, trivial, trivial, trivial, ?_, ?_, ?_⟩ <;>
    intro s <;> tauto

/-- The enhanced //e with a Mockingboard in slot 4: `MB_SaveSnapshot` is called with slot 4. -/
theorem save_invokes_card_routines_witness :
    Event.MB_SaveSnapshot 4 ∈
      (Snapshot_SaveState envRA machine0).trace.drop machine0.trace.length :=
  ((save_invokes_card_routines envRA machine0 (by decide!)).2.2.2.2.2.2.2.1 4).2
    (Or.inl ⟨rfl, rfl⟩)

/-- C19: a `Snapshot_SaveState` call in which no error is raised makes exactly these calls, in
this order: the writer is opened; the file header with version `SS_FILE_VER`; the header of the
unit "Apple2" with version 2 and its state label, the model name, then the save routines of the
CPU, joystick, keyboard, speaker, video and memory; the auxiliary-memory unit; the header of the
unit "Slots" with version 1 and its state label, then the save routines of the cards (and the
RetroAchievements notification when compiled in). The blocks of the core-machine unit are
written in the order model, CPU, joystick, keyboard, speaker, video, memory, and every run of
`ParseUnitApple2` that returns has gone through the blocks in that same order. -/
theorem save_emits_in_order (env : Env) (m : Machine)
    (h : (Snapshot_SaveState_try env m).error = none) :
    (∃ model, GetApple2TypeAsString m.g_Apple2Type = .ok model ∧
      (Snapshot_SaveState env m).trace = m.trace ++
        ([Event.YamlSaveHelper m.g_strSaveStatePathname, Event.FileHdr 2,
          Event.UnitHdr "Apple2" 2, Event.Label_State, Event.Save_Model model,
          Event.CpuSaveSnapshot, Event.JoySaveSnapshot, Event.KeybSaveSnapshot,
          Event.SpkrSaveSnapshot, Event.VideoSaveSnapshot, Event.MemSaveSnapshot,
          Event.MemSaveSnapshotAux, Event.UnitHdr "Slots" 1, Event.Label_State] ++
         slotCalls env m ++
         (if env.USE_RETROACHIEVEMENTS = true
           then [Event.RA_OnSaveState m.g_strSaveStatePathname] else []))) ∧
    ((Snapshot_SaveState env m).trace.drop m.trace.length).filterMap Event.savedBlock =
      [CoreBlock.model, CoreBlock.cpu, CoreBlock.joystick, CoreBlock.keyboard,
       CoreBlock.speaker, CoreBlock.video, CoreBlock.memory] ∧
    ∀ (u : UnitDoc) (version : Nat) (m2 : Machine),
      (ParseUnitApple2 env u version m2).error = none →
      ((ParseUnitApple2 env u version m2).machine.trace.drop m2.trace.length).filterMap
          Event.loadedBlock =
        [CoreBlock.model, CoreBlock.cpu, CoreBlock.joystick, CoreBlock.keyboard,
         CoreBlock.speaker, CoreBlock.video, CoreBlock.memory] := by
  obtain ⟨model, hmodel, ht⟩ := save_try_trace env m h
  refine ⟨⟨model, hmodel, ht⟩, ?_, ?_⟩
  · rw [ht, List.drop_left]
    have h1 : (slotCalls env m).filterMap Event.savedBlock = [] :=
      List.filterMap_eq_nil_iff.2 (fun e he =>
        savedBlock_of_cardSave e (slotCalls_cardSave env m e he))
    have h2 : (if env.USE_RETROACHIEVEMENTS = true
        then [Event.RA_OnSaveState m.g_strSaveStatePathname] else []).filterMap
          Event.savedBlock = [] := by
      split <;> rfl
    unfold saveCalls
    rw [List.filterMap_append, List.filterMap_append, h1, h2]
    rfl
  · intro u version m2 h2
    obtain ⟨type, htr⟩ := ParseUnitApple2_trace env u version m2 h2
    rw [htr, List.drop_left]
    rfl

/-- The save of the enhanced //e with a Mockingboard in slot 4, in a RetroAchievements
build. -/
theorem save_emits_in_order_witness :
    (Snapshot_SaveState envRA machine0).trace =
      [Event.YamlSaveHelper "C:\\A2\\game.aws.yaml", Event.FileHdr 2,
       Event.UnitHdr "Apple2" 2, Event.Label_State, Event.Save_Model "Enhanced Apple//e",
       Event.CpuSaveSnapshot, Event.JoySaveSnapshot, Event.KeybSaveSnapshot,
       Event.SpkrSaveSnapshot, Event.VideoSaveSnapshot, Event.MemSaveSnapshot,
       Event.MemSaveSnapshotAux, Event.UnitHdr "Slots" 1, Event.Label_State,
       Event.Printer_SaveSnapshot, Event.SSC_SaveSnapshot, Event.Mouse_SaveSnapshot,
       Event.MB_SaveSnapshot 4, Event.DiskSaveSnapshot, Event.HD_SaveSnapshot,
       Event.RA_OnSaveState "C:\\A2\\game.aws.yaml"] := by
  obtain ⟨model, hmodel, ht⟩ := (save_emits_in_order envRA machine0 (by decide!)).1
  have hm : model = "Enhanced Apple//e" := by
    have h0 : GetApple2TypeAsString machine0.g_Apple2Type = .ok "Enhanced Apple//e" := rfl
    rw [h0] at hmodel
    exact (Except.ok.inj hmodel).symm
  subst hm
  rw [ht]
  decide!

/-! ## The path name of the snapshot -/

theorem lastIndexOf_of_not_mem (c : Char) (l : List Char) (h : c ∉ l) :
    lastIndexOf c l = none := by
  induction l with
  | nil => rfl
  | cons x xs ih =>
    simp only [List.mem_cons, not_or] at h
    simp [lastIndexOf, ih h.2, Ne.symm h.1]

theorem lastIndexOf_append (c : Char) (pre post : List Char) (h : c ∉ post) :
    lastIndexOf c (pre ++ c :: post) = some pre.length := by
  induction pre with
  | nil => simp [lastIndexOf, lastIndexOf_of_not_mem c post h]
  | cons x xs ih => simp [lastIndexOf, ih]

theorem toInt32_of_lt (v : Nat) (h : v < 2 ^ 31) : toInt32 v = (v : Int) := by
  unfold toInt32
  have h1 : v % 2 ^ 32 = v := Nat.mod_eq_of_lt (by omega)
  rw [h1, if_pos h]

theorem toInt32_npos : toInt32 (2 ^ SIZE_BITS - 1) = -1 := by decide

theorem exists_last_occurrence (c : Char) (l : List Char) (h : c ∈ l) :
    ∃ pre post, l = pre ++ c :: post ∧ c ∉ post := by
  induction l with
  | nil => simp at h
  | cons x xs ih =>
    by_cases hx : c ∈ xs
    · obtain ⟨pre, post, hl, hp⟩ := ih hx
      exact ⟨x :: pre, post, by rw [hl, List.cons_append], hp⟩
    · have hxc : c = x := by
        rcases List.mem_cons.1 h with h1 | h1
        · exact h1
        · exact absurd h1 hx
      exact ⟨[], xs, by rw [hxc, List.nil_append], hx⟩

theorem fromCString_of_no_nul (cs : List Char) (h : '\x00' ∉ cs) :
    fromCString cs = String.mk cs := by
  unfold fromCString
  congr 1
  rw [List.takeWhile_eq_self_iff]
  intro c hc
  simp only [ne_eq, decide_eq_true_eq]
  rintro rfl
  exact h hc

theorem setFilename_at_backslash (cur p : String) (m : Machine) (pre file : List Char)
    (hp : p.toList = pre ++ '\\' :: file) (hfile : file ≠ []) (hlast : '\\' ∉ file)
    (hlen : p.length < 2 ^ 31) :
    Snapshot_SetFilename cur p m =
      { m with g_strSaveStateFilename := fromCString file
               g_strSaveStatePath := String.mk (pre ++ ['\\'])
               g_strSaveStatePathname := p } := by
  have hne : p ≠ "" := by
    intro h
    rw [h] at hp
    simp at hp
  have hl : p.length = pre.length + 1 + file.length := by
    show p.toList.length = _
    rw [hp]
    simp
    omega
  have hflen : 0 < file.length := List.length_pos.2 hfile
  have hidx : find_last_of p '\\' = pre.length := by
    unfold find_last_of
    rw [hp, lastIndexOf_append _ pre file hlast]
  unfold Snapshot_SetFilename
  rw [if_neg hne]
  simp only [hidx]
  rw [toInt32_of_lt pre.length (by omega), toInt32_of_lt p.length hlen]
  have hc : ((pre.length : Int) ≥ 0 ∧ (pre.length : Int) + 1 < (p.length : Int)) := by
    constructor <;> omega
  rw [if_pos hc]
  have ht : ((pre.length : Int) + 1).toNat = pre.length + 1 := by omega
  rw [ht, hp]
  have h1 : (pre ++ '\\' :: file).drop (pre.length + 1) = file := by
    rw [show pre ++ '\\' :: file = (pre ++ ['\\']) ++ file by simp]
    rw [List.drop_left' (by simp)]
  have h2 : (pre ++ '\\' :: file).take (pre.length + 1) = pre ++ ['\\'] := by
    rw [show pre ++ '\\' :: file = (pre ++ ['\\']) ++ file by simp]
    rw [List.take_left' (by simp)]
  rw [h1, h2]

theorem setFilename_whole (cur p : String) (m : Machine) (hne : p ≠ "")
    (hlen : p.length < 2 ^ 31)
    (h : '\\' ∉ p.toList ∨ ∃ pre : List Char, p.toList = pre ++ ['\\']) :
    Snapshot_SetFilename cur p m =
      { m with g_strSaveStateFilename := p
               g_strSaveStatePath := ""
               g_strSaveStatePathname := p } := by
  unfold Snapshot_SetFilename
  rw [if_neg hne]
  rcases h with h | ⟨pre, h⟩
  · have hidx : find_last_of p '\\' = 2 ^ SIZE_BITS - 1 := by
      unfold find_last_of
      rw [lastIndexOf_of_not_mem _ _ h]
    simp only [hidx, toInt32_npos]
    rw [if_neg (by omega)]
  · have hidx : find_last_of p '\\' = pre.length := by
      unfold find_last_of
      rw [h, lastIndexOf_append _ pre [] (by simp)]
    have hl : p.length = pre.length + 1 := by
      show p.toList.length = _
      rw [h]
      simp
    simp only [hidx]
    rw [toInt32_of_lt pre.length (by omega), toInt32_of_lt p.length hlen]
    rw [if_neg (by omega)]

/-- C20: for every non-empty path name `p` (shorter than 2^31 characters, as every
`std::string` of the target is), `Snapshot_SetFilename(p)` stores `p` as the full path name.
A path name is the text of a C string and holds no NUL character: then the stored path followed
by the stored file name is `p`; when `p` is `pre`, a backslash and a non-empty `file` without a
backslash, the stored path is `pre` with the backslash and the stored file name is `file`; when
`p` has no backslash or ends in a backslash, the stored file name is `p` and the stored path is
empty. (The file name is assigned from a `const char *`, so for a text with a NUL it would be
`file` up to the first NUL.) -/
theorem Snapshot_SetFilename_splits (cur p : String) (m : Machine) (hne : p ≠ "")
    (hlen : p.length < 2 ^ 31) :
    (Snapshot_SetFilename cur p m).g_strSaveStatePathname = p ∧
    (∀ pre file : String, p = pre ++ "\\" ++ file → file ≠ "" → '\\' ∉ file.toList →
      (Snapshot_SetFilename cur p m).g_strSaveStatePath = pre ++ "\\" ∧
      (Snapshot_SetFilename cur p m).g_strSaveStateFilename = fromCString file.toList ∧
      ('\x00' ∉ file.toList →
        (Snapshot_SetFilename cur p m).g_strSaveStateFilename = file)) ∧
    (('\\' ∉ p.toList ∨ ∃ pre : String, p = pre ++ "\\") →
      (Snapshot_SetFilename cur p m).g_strSaveStatePath = "" ∧
      (Snapshot_SetFilename cur p m).g_strSaveStateFilename = p) ∧
    ('\x00' ∉ p.toList →
      (Snapshot_SetFilename cur p m).g_strSaveStatePath ++
        (Snapshot_SetFilename cur p m).g_strSaveStateFilename = p) := by
  have hsplit : ∀ pre file : List Char, p.toList = pre ++ '\\' :: file → file ≠ [] →
      '\\' ∉ file →
      (Snapshot_SetFilename cur p m).g_strSaveStatePath = String.mk (pre ++ ['\\']) ∧
      (Snapshot_SetFilename cur p m).g_strSaveStateFilename = fromCString file := by
    intro pre file hp hfile hlast
    rw [setFilename_at_backslash cur p m pre file hp hfile hlast hlen]
    exact ⟨rfl, rfl⟩
  have hwhole : ('\\' ∉ p.toList ∨ ∃ pre : List Char, p.toList = pre ++ ['\\']) →
      (Snapshot_SetFilename cur p m).g_strSaveStatePath = "" ∧
      (Snapshot_SetFilename cur p m).g_strSaveStateFilename = p := by
    intro h
    rw [setFilename_whole cur p m hne hlen h]
    exact ⟨rfl, rfl⟩
  refine ⟨?_, ?_, ?_, ?_⟩
  · unfold Snapshot_SetFilename
    rw [if_neg hne]
    simp only
    split <;> rfl
  · intro pre file hp hfile hlast
    have hpl : p.toList = pre.toList ++ '\\' :: file.toList := by
      rw [hp]
      simp [String.toList]
    have hfl : file.toList ≠ [] := by
      intro h
      apply hfile
      exact String.ext h
    obtain ⟨h1, h2⟩ := hsplit pre.toList file.toList hpl hfl hlast
    refine ⟨?_, h2, ?_⟩
    · rw [h1]
      apply String.ext
      simp [String.toList]
    · intro hn
      rw [h2, fromCString_of_no_nul _ hn]
      rfl
  · intro h
    apply hwhole
    rcases h with h | ⟨pre, h⟩
    · exact Or.inl h
    · exact Or.inr ⟨pre.toList, by rw [h]; simp [String.toList]⟩
  · intro hn
    by_cases hb : '\\' ∈ p.toList
    · obtain ⟨pre, file, hp, hlast⟩ := exists_last_occurrence _ _ hb
      by_cases hfile : file = []
      · subst hfile
        obtain ⟨h1, h2⟩ := hwhole (Or.inr ⟨pre, hp⟩)
        rw [h1, h2]
        apply String.ext
        simp
      · obtain ⟨h1, h2⟩ := hsplit pre file hp hfile hlast
        have hnf : '\x00' ∉ file := by
          intro hin
          apply hn
          rw [hp]
          simp [hin]
        rw [h1, h2, fromCString_of_no_nul _ hnf]
        apply String.ext
        show (pre ++ ['\\']) ++ file = p.data
        rw [show p.data = p.toList from rfl, hp]
        simp
    · obtain ⟨h1, h2⟩ := hwhole (Or.inl hb)
      rw [h1, h2]
      apply String.ext
      simp

/-- The path name of `machine0` is split into the directory "C:\\A2\\" and the file name
"game.aws.yaml". -/
theorem Snapshot_SetFilename_splits_witness :
    (Snapshot_SetFilename "" "C:\\A2\\game.aws.yaml"
        machine0).g_strSaveStatePath = "C:\\A2" ++ "\\" ∧
      (Snapshot_SetFilename "" "C:\\A2\\game.aws.yaml"
        machine0).g_strSaveStateFilename = "game.aws.yaml" :=
  ⟨((Snapshot_SetFilename_splits "" "C:\\A2\\game.aws.yaml" machine0
      (by decide) (by decide)).2.1 "C:\\A2" "game.aws.yaml" (by decide) (by decide)
      (by decide)).1,
   ((Snapshot_SetFilename_splits "" "C:\\A2\\game.aws.yaml" machine0
      (by decide) (by decide)).2.1 "C:\\A2" "game.aws.yaml" (by decide) (by decide)
      (by decide)).2.2 (by decide)⟩

/-! ## Loading at startup -/

theorem startupRun_append (env : Env) (l1 l2 : List StartupStep) (s : StartupState) :
    startupRun env (l1 ++ l2) s = startupRun env l2 (startupRun env l1 s) := by
  simp [startupRun, List.foldl_append]

theorem startupStep_done (env : Env) (s : StartupState) (st : StartupStep)
    (h : s.bDone = true) :
    (startupStep env s st).bDone = true ∧ (startupStep env s st).loads = s.loads := by
  cases st with
  | call flag doc => simp [startupStep, Snapshot_Startup, h]
  | other f => simp [startupStep, h]

theorem startupRun_done (env : Env) (steps : List StartupStep) (s : StartupState)
    (h : s.bDone = true) :
    (startupRun env steps s).bDone = true ∧ (startupRun env steps s).loads = s.loads := by
  induction steps generalizing s with
  | nil => exact ⟨h, rfl⟩
  | cons st rest ih =>
    obtain ⟨h1, h2⟩ := startupStep_done env s st h
    obtain ⟨h3, h4⟩ := ih (startupStep env s st) h1
    exact ⟨h3, h4.trans h2⟩

theorem startupRun_idle (env : Env) (steps : List StartupStep) (s : StartupState)
    (h : ∀ st ∈ steps, StartupStep.isArmedCall st = false) :
    (startupRun env steps s).bDone = s.bDone ∧ (startupRun env steps s).loads = s.loads := by
  induction steps generalizing s with
  | nil => exact ⟨rfl, rfl⟩
  | cons st rest ih =>
    have hst := h st (List.mem_cons_self st rest)
    obtain ⟨h3, h4⟩ := ih (startupStep env s st) (fun x hx => h x (List.mem_cons_of_mem st hx))
    have h0 : (startupStep env s st).bDone = s.bDone ∧ (startupStep env s st).loads = s.loads := by
      cases st with
      | call flag doc =>
        simp only [StartupStep.isArmedCall] at hst
        simp [startupStep, Snapshot_Startup, hst]
      | other f => simp [startupStep]
    exact ⟨h3.trans h0.1, h4.trans h0.2⟩

/-- C26: across any sequence of calls of `Snapshot_Startup`, with anything else done to the
machine in between, starting with `bDone` false: a call made while `g_bSaveStateOnExit` is false
changes nothing, `bDone` included; a call made while `bDone` is true changes nothing; a call
made while `g_bSaveStateOnExit` is true and `bDone` is false calls `Snapshot_LoadState` once and
sets `bDone`. So `Snapshot_LoadState` is called at most once in all: not at all when no call is
made while `g_bSaveStateOnExit` is true, and otherwise exactly once, at the first such call. -/
theorem Snapshot_Startup_once (env : Env) (steps : List StartupStep) (s : StartupState)
    (hdone : s.bDone = false) :
    (∀ doc t, Snapshot_Startup env doc false t = t) ∧
    (∀ doc flag t, t.bDone = true → Snapshot_Startup env doc flag t = t) ∧
    (∀ doc t, t.bDone = false → Snapshot_Startup env doc true t =
      { machine := Snapshot_LoadState env doc t.machine, bDone := true,
        loads := t.loads + 1 }) ∧
    (startupRun env steps s).loads ≤ s.loads + 1 ∧
    ((∀ st ∈ steps, StartupStep.isArmedCall st = false) →
      (startupRun env steps s).loads = s.loads ∧ (startupRun env steps s).bDone = false) ∧
    (∀ pre doc post, steps = pre ++ StartupStep.call true doc :: post →
      (∀ st ∈ pre, StartupStep.isArmedCall st = false) →
      startupRun env (pre ++ [StartupStep.call true doc]) s =
        { machine := Snapshot_LoadState env doc (startupRun env pre s).machine, bDone := true,
          loads := s.loads + 1 } ∧
      (startupRun env steps s).loads = s.loads + 1 ∧
      (startupRun env steps s).bDone = true) := by
  have hfirst : ∀ pre doc post, steps = pre ++ StartupStep.call true doc :: post →
      (∀ st ∈ pre, StartupStep.isArmedCall st = false) →
      startupRun env (pre ++ [StartupStep.call true doc]) s =
        { machine := Snapshot_LoadState env doc (startupRun env pre s).machine, bDone := true,
          loads := s.loads + 1 } ∧
      (startupRun env steps s).loads = s.loads + 1 ∧
      (startupRun env steps s).bDone = true := by
    intro pre doc post hsteps hpre
    obtain ⟨h1, h2⟩ := startupRun_idle env pre s hpre
    have hcall : startupRun env (pre ++ [StartupStep.call true doc]) s =
        { machine := Snapshot_LoadState env doc (startupRun env pre s).machine, bDone := true,
          loads := s.loads + 1 } := by
      rw [startupRun_append]
      show Snapshot_Startup env doc true (startupRun env pre s) = _
      simp [Snapshot_Startup, h1, hdone, h2]
    have hsplit : steps = (pre ++ [StartupStep.call true doc]) ++ post := by
      rw [hsteps]; simp
    obtain ⟨h3, h4⟩ := startupRun_done env post
      (startupRun env (pre ++ [StartupStep.call true doc]) s) (by rw [hcall])
    refine ⟨hcall, ?_, ?_⟩
    · rw [hsplit, startupRun_append, h4, hcall]
    · rw [hsplit, startupRun_append, h3]
  refine ⟨?_, ?_, ?_, ?_, ?_, hfirst⟩
  · intro doc t
    simp [Snapshot_Startup]
  · intro doc flag t ht
    simp [Snapshot_Startup, ht]
  · intro doc t ht
    simp [Snapshot_Startup, ht]
  · by_cases hall : ∀ st ∈ steps, StartupStep.isArmedCall st = false
    · rw [(startupRun_idle env steps s hall).2]
      omega
    · have hex : ∃ st ∈ steps, StartupStep.isArmedCall st = true := by
        by_contra hn
        apply hall
        intro st hst
        cases h : StartupStep.isArmedCall st
        · rfl
        · exact absurd ⟨st, hst, h⟩ hn
      obtain ⟨pre, st, post, hsteps, hpre, hst⟩ :
          ∃ pre st post, steps = pre ++ st :: post ∧
            (∀ x ∈ pre, StartupStep.isArmedCall x = false) ∧
            StartupStep.isArmedCall st = true := by
        clear hfirst hall
        induction steps with
        | nil => simp at hex
        | cons x xs ih =>
          by_cases hx : StartupStep.isArmedCall x = true
          · exact ⟨[], x, xs, rfl, by simp, hx⟩
          · obtain ⟨y, hy, hya⟩ := hex
            have hyx : y ∈ xs := by
              rcases List.mem_cons.1 hy with h | h
              · subst h; exact absurd hya hx
              · exact h
            obtain ⟨pre, st, post, h1, h2, h3⟩ := ih ⟨y, hyx, hya⟩
            refine ⟨x :: pre, st, post, by rw [h1]; rfl, ?_, h3⟩
            intro z hz
            rcases List.mem_cons.1 hz with h | h
            · subst h
              cases hz2 : StartupStep.isArmedCall z
              · rfl
              · exact absurd hz2 hx
            · exact h2 z h
      cases st with
      | other f => simp [StartupStep.isArmedCall] at hst
      | call flag doc =>
        simp only [StartupStep.isArmedCall] at hst
        subst hst
        rw [(hfirst pre doc post hsteps hpre).2.1]
  · intro hall
    obtain ⟨h1, h2⟩ := startupRun_idle env steps s hall
    exact ⟨h2, h1.trans hdone⟩

/-- Three calls of `Snapshot_Startup`, the first while `g_bSaveStateOnExit` is false, with a
restart before the third: one load. -/
theorem Snapshot_Startup_once_witness :
    (startupRun envRA
      [StartupStep.call false (docOf 2 [unitApple2]), StartupStep.call true (docOf 2 [unitApple2]),
       StartupStep.other (fun m => { m with restart := false }),
       StartupStep.call true (docOf 2 [unitApple2])]
      { machine := machine0, bDone := false, loads := 0 }).loads ≤ 0 + 1 :=
  (Snapshot_Startup_once envRA
    [StartupStep.call false (docOf 2 [unitApple2]), StartupStep.call true (docOf 2 [unitApple2]),
     StartupStep.other (fun m => { m with restart := false }),
     StartupStep.call true (docOf 2 [unitApple2])]
    { machine := machine0, bDone := false, loads := 0 } rfl).2.2.2.1

/-! ## The old file name and the default file name -/

theorem string_find_none_of_lt (s ext : String) (pos : Nat) (h : s.length < pos) :
    string_find s ext pos = none := by
  unfold string_find
  rw [List.find?_eq_none]
  intro p hp
  rw [List.mem_range] at hp
  have : ¬ pos ≤ p := by omega
  simp [this]

theorem string_find_at_end (s ext : String) (pos : Nat) (hpos : pos + ext.length = s.length)
    (h : string_find s ext pos ≠ none) : ∃ stem : String, s = stem ++ ext := by
  unfold string_find at h
  obtain ⟨i, hi⟩ := Option.ne_none_iff_exists'.1 h
  have hp := List.find?_some hi
  simp only [Bool.and_eq_true, decide_eq_true_eq, List.isPrefixOf_iff_prefix] at hp
  obtain ⟨hle, hpre⟩ := hp
  have hmem := List.mem_range.1 (List.mem_of_find?_eq_some hi)
  have hl := hpre.length_le
  rw [List.length_drop] at hl
  have hsl : s.toList.length = s.length := rfl
  have hel : ext.toList.length = ext.length := rfl
  have hi2 : i = pos := by omega
  subst hi2
  have heq : ext.toList = s.toList.drop i := by
    apply hpre.eq_of_length
    rw [List.length_drop]
    omega
  refine ⟨String.mk (s.toList.take i), ?_⟩
  apply String.ext
  show s.toList = s.toList.take i ++ ext.toList
  rw [heq, List.take_append_drop]

theorem not_suffix_of_other (a b ext : String) (hb : b.length = ext.length) (hne : b ≠ ext) :
    ¬∃ stem : String, a ++ b = stem ++ ext := by
  rintro ⟨stem, h⟩
  have h1 : a.toList ++ b.toList = stem.toList ++ ext.toList := by
    have := congrArg String.toList h
    simpa using this
  have h2 := (List.append_inj' h1 hb).2
  exact hne (String.ext h2)

theorem not_suffix_of_short (s ext : String) (h : s.length < ext.length) :
    ¬∃ stem : String, s = stem ++ ext := by
  rintro ⟨stem, rfl⟩
  rw [String.length_append] at h
  omega

/-- C23: for a path name shorter than 2^32 characters (every `std::string` of the target is),
`Snapshot_LoadState` takes the rejection of the old format exactly when the path name ends in
the four characters ".aws": then it shows the message box and does nothing else; otherwise it
calls `Snapshot_LoadState_v2`. In particular a path name shorter than four characters (for which
`size() - 4` wraps around), the default name "SaveState.aws.yaml" and a path name that ends in
".AWS" go on to `Snapshot_LoadState_v2`. -/
theorem load_rejects_iff_aws (env : Env) (doc : Document) (m : Machine)
    (hlen : m.g_strSaveStatePathname.length < 2 ^ SIZE_BITS) :
    ((∃ stem : String, m.g_strSaveStatePathname = stem ++ ".aws") →
      Snapshot_LoadState env doc m =
        { m with trace := m.trace ++ [Event.MessageBox MSG_V1_UNSUPPORTED "Load State"] }) ∧
    ((¬∃ stem : String, m.g_strSaveStatePathname = stem ++ ".aws") →
      Snapshot_LoadState env doc m = Snapshot_LoadState_v2 env doc m) ∧
    (m.g_strSaveStatePathname.length < 4 →
      Snapshot_LoadState env doc m = Snapshot_LoadState_v2 env doc m) ∧
    (m.g_strSaveStatePathname = DEFAULT_SNAPSHOT_NAME →
      Snapshot_LoadState env doc m = Snapshot_LoadState_v2 env doc m) ∧
    ((∃ stem : String, m.g_strSaveStatePathname = stem ++ ".AWS") →
      Snapshot_LoadState env doc m = Snapshot_LoadState_v2 env doc m) := by
  have h32 : 2 ^ SIZE_BITS = 4294967296 := by norm_num [SIZE_BITS]
  have h4 : (".aws" : String).length = 4 := by decide
  have hyes : (∃ stem : String, m.g_strSaveStatePathname = stem ++ ".aws") →
      Snapshot_LoadState env doc m =
        { m with trace := m.trace ++ [Event.MessageBox MSG_V1_UNSUPPORTED "Load State"] } := by
    rintro ⟨stem, h⟩
    unfold Snapshot_LoadState
    have hpos : (m.g_strSaveStatePathname.length + (2 ^ SIZE_BITS - (".aws" : String).length))
        % 2 ^ SIZE_BITS ≤ stem.length := by
      rw [h, String.length_append, h4, h32]
      omega
    have hf := string_find_suffix stem ".aws" _ hpos
    rw [← h] at hf
    rw [if_pos hf]
  have hno : (¬∃ stem : String, m.g_strSaveStatePathname = stem ++ ".aws") →
      Snapshot_LoadState env doc m = Snapshot_LoadState_v2 env doc m := by
    intro hn
    unfold Snapshot_LoadState
    apply if_neg
    intro hf
    apply hn
    by_cases hshort : m.g_strSaveStatePathname.length < 4
    · exfalso
      apply hf
      apply string_find_none_of_lt
      rw [h4, h32]
      rw [h32] at hlen
      omega
    · apply string_find_at_end _ _ _ _ hf
      rw [h4, h32]
      rw [h32] at hlen
      omega
  refine ⟨hyes, hno, ?_, ?_, ?_⟩
  · intro hs
    exact hno (not_suffix_of_short _ _ (by rw [h4]; exact hs))
  · intro hd
    apply hno
    rw [hd]
    exact not_suffix_of_other "SaveState.aws." "yaml" ".aws" (by decide) (by decide)
  · rintro ⟨stem, hs⟩
    apply hno
    rw [hs]
    exact not_suffix_of_other stem ".AWS" ".aws" (by decide) (by decide)

/-- The path name "C:\\A2\\game.aws.yaml" of `machine0` contains ".aws" before its end: the load
goes on to `Snapshot_LoadState_v2`. -/
theorem load_rejects_iff_aws_witness :
    Snapshot_LoadState envRA (docOf 2 [unitApple2]) machine0 =
      Snapshot_LoadState_v2 envRA (docOf 2 [unitApple2]) machine0 :=
  (load_rejects_iff_aws envRA (docOf 2 [unitApple2]) machine0 (by decide!)).2.1
    (not_suffix_of_other "C:\\A2\\game.aws." "yaml" ".aws" (by decide) (by decide))

/-- C25: `Snapshot_SetFilename` with an empty argument stores the default file name
"SaveState.aws.yaml" as the file name and the current directory, unchanged, as the path; the
full path name is the current directory, then one backslash if the directory is not empty and
does not end in a backslash, then the default file name. So with an empty current directory the
path name is the default file name, and with a directory that ends in a backslash no backslash
is added. Nothing else of the machine changes. -/
theorem Snapshot_SetFilename_default (cur : String) (m : Machine) :
    Snapshot_SetFilename cur "" m =
      { m with
        g_strSaveStateFilename := "SaveState.aws.yaml"
        g_strSaveStatePath := cur
        g_strSaveStatePathname :=
          if cur ≠ "" ∧ cur.toList.getLast? ≠ some '\\' then cur ++ "\\" ++ "SaveState.aws.yaml"
          else cur ++ "SaveState.aws.yaml" } ∧
    (cur = "" →
      (Snapshot_SetFilename cur "" m).g_strSaveStatePathname = "SaveState.aws.yaml") ∧
    (∀ dir : String, cur = dir ++ "\\" →
      (Snapshot_SetFilename cur "" m).g_strSaveStatePathname = cur ++ "SaveState.aws.yaml") ∧
    (∀ (dir : String) (c : Char), cur = dir ++ String.singleton c → c ≠ '\\' →
      (Snapshot_SetFilename cur "" m).g_strSaveStatePathname =
        cur ++ "\\" ++ "SaveState.aws.yaml") := by
  have hlen : cur.length ≠ 0 ↔ cur ≠ "" := by
    constructor
    · intro h h0
      rw [h0] at h
      exact h rfl
    · intro h h0
      apply h
      apply String.ext
      exact List.length_eq_zero.1 h0
  have hmain : Snapshot_SetFilename cur "" m =
      { m with
        g_strSaveStateFilename := "SaveState.aws.yaml"
        g_strSaveStatePath := cur
        g_strSaveStatePathname :=
          if cur ≠ "" ∧ cur.toList.getLast? ≠ some '\\' then cur ++ "\\" ++ "SaveState.aws.yaml"
          else cur ++ "SaveState.aws.yaml" } := by
    unfold Snapshot_SetFilename DEFAULT_SNAPSHOT_NAME
    simp only [if_true, hlen]
    by_cases hc : cur ≠ "" ∧ cur.toList.getLast? ≠ some '\\'
    · rw [if_pos hc, if_pos hc]
    · rw [if_neg hc, if_neg hc]
  refine ⟨hmain, ?_, ?_, ?_⟩
  · intro h
    rw [hmain]
    show (if _ then _ else _) = _
    rw [if_neg (fun hc => hc.1 h), h]
    rfl
  · intro dir h
    rw [hmain]
    have hl : cur.toList.getLast? = some '\\' := by
      rw [h]
      simp [String.toList]
    show (if _ then _ else _) = _
    rw [if_neg (fun hc => hc.2 hl)]
  · intro dir c h hc
    rw [hmain]
    have hl : cur.toList.getLast? = some c := by
      rw [h]
      simp [String.toList, String.singleton]
    have hne : cur ≠ "" := by
      intro h0
      rw [h0] at hl
      simp at hl
    have hcond : cur ≠ "" ∧ cur.toList.getLast? ≠ some '\\' := by
      refine ⟨hne, ?_⟩
      rw [hl]
      intro h1
      exact hc (Option.some.inj h1)
    show (if _ then _ else _) = _
    rw [if_pos hcond]

/-- With the current directory "C:\\A2" the default path name is "C:\\A2\\SaveState.aws.yaml". -/
theorem Snapshot_SetFilename_default_witness :
    (Snapshot_SetFilename "C:\\A2" "" machine0).g_strSaveStatePathname =
      "C:\\A2" ++ "\\" ++ "SaveState.aws.yaml" :=
  (Snapshot_SetFilename_default "C:\\A2" machine0).2.2.2 "C:\\A" '2' (by decide) (by decide)

/-! ## The slots unit on load in a RetroAchievements build -/

theorem steps_pure {α : Type} {P : Event → Bool} {R : Machine → Machine → Prop}
    (hR : Steps P R) (a : α) : Keeps R (pure a : Exec α) := fun m => hR.refl m

theorem steps_raise {α : Type} {P : Event → Bool} {R : Machine → Machine → Prop}
    (hR : Steps P R) (msg : String) : Keeps R (raise msg : Exec α) := fun m => hR.refl m

theorem steps_getMachine {P : Event → Bool} {R : Machine → Machine → Prop}
    (hR : Steps P R) : Keeps R getMachine := fun m => hR.refl m

theorem steps_readDoc {α : Type} {P : Event → Bool} {R : Machine → Machine → Prop}
    (hR : Steps P R) (r : Except String α) : Keeps R (readDoc r) := by
  intro m; cases r <;> exact hR.refl m

theorem steps_log {P : Event → Bool} {R : Machine → Machine → Prop} (hR : Steps P R)
    (e : Event) (he : P e = true) : Keeps R (log e) := fun m => hR.event m e he

theorem steps_call {P : Event → Bool} {R : Machine → Machine → Prop} (hR : Steps P R)
    (env : Env) (e : Event) (he : P e = true) : Keeps R (call env e) := by
  intro m
  unfold SaveState.call
  cases env.raises e <;> exact hR.event m e he

theorem steps_callLoad {α : Type} {P : Event → Bool} {R : Machine → Machine → Prop}
    (hR : Steps P R) (e : Event) (r : Except String α) (he : P e = true) :
    Keeps R (callLoad e r) := by
  intro m; cases r <;> exact hR.event m e he

theorem steps_bind {α β : Type} {P : Event → Bool} {R : Machine → Machine → Prop}
    (hR : Steps P R) {x : Exec α} {f : α → Exec β} (hx : Keeps R x)
    (hf : ∀ a, Keeps R (f a)) : Keeps R (x >>= f) := by
  intro m
  have h1 := hx m
  simp only [run_bind]
  cases h : x m with
  | ok a m1 =>
    rw [h] at h1
    exact hR.trans _ _ _ h1 (hf a m1)
  | throw msg m1 =>
    rw [h] at h1
    exact h1

/-- The machine after `x >>= f` is related to `m0` when the machine after `x` is and `f`
keeps the relation. -/
theorem steps_bind_from {α β : Type} {P : Event → Bool} {R : Machine → Machine → Prop}
    (hR : Steps P R) (x : Exec α) (f : α → Exec β) (m0 m : Machine)
    (hx : R m0 (x m).machine) (hf : ∀ a, Keeps R (f a)) : R m0 ((x >>= f) m).machine := by
  simp only [run_bind]
  cases h : x m with
  | ok a m1 =>
    rw [h] at hx
    exact hR.trans _ _ _ hx (hf a m1)
  | throw msg m1 =>
    rw [h] at hx
    exact hx

theorem slotsUntouched_steps : Steps (fun e => !Event.isCardLoad e) SlotsUntouched where
  refl := fun m =>
    ⟨rfl, rfl, rfl, [], (List.append_nil _).symm, fun _ h => absurd h (List.not_mem_nil _)⟩
  trans := by
    rintro a b c ⟨h1, h2, h3, e1, ht1, he1⟩ ⟨g1, g2, g3, e2, ht2, he2⟩
    refine ⟨g1.trans h1, g2.trans h2, g3.trans h3, e1 ++ e2, ?_, ?_⟩
    · rw [ht2, ht1, List.append_assoc]
    · intro e he
      rcases List.mem_append.1 he with h | h
      · exact he1 e h
      · exact he2 e h
  event := by
    intro m e he
    refine ⟨rfl, rfl, rfl, [e], rfl, ?_⟩
    intro x hx
    rw [List.mem_singleton.1 hx]
    simpa using he

theorem slotsUntouched_modelFree : ModelFree SlotsUntouched :=
  fun _ _ _ _ _ =>
    ⟨rfl, rfl, rfl, [], (List.append_nil _).symm, fun _ h => absurd h (List.not_mem_nil _)⟩

theorem SetApple2Type_untouched (env : Env) (t : eApple2Type) :
    Keeps SlotsUntouched (SetApple2Type env t) := by
  unfold SetApple2Type
  refine steps_bind slotsUntouched_steps (steps_call slotsUntouched_steps _ _ rfl) ?_
  intro _
  refine keeps_modify _ ?_
  intro m
  exact ⟨rfl, rfl, rfl, [], (List.append_nil _).symm, fun _ h => absurd h (List.not_mem_nil _)⟩

theorem ParseUnitApple2_untouched (env : Env) (u : UnitDoc) (version : Nat) :
    Keeps SlotsUntouched (ParseUnitApple2 env u version) := by
  unfold ParseUnitApple2
  repeat' first
    | exact steps_pure slotsUntouched_steps _
    | exact steps_raise slotsUntouched_steps _
    | exact steps_readDoc slotsUntouched_steps _
    | exact steps_call slotsUntouched_steps _ _ rfl
    | exact steps_callLoad slotsUntouched_steps _ _ rfl
    | exact SetApple2Type_untouched _ _
    | exact keeps_modify _ (fun m => slotsUntouched_modelFree m _ _ _ _)
    | exact keeps_modify _ (fun m => slotsUntouched_steps.refl _)
    | apply keeps_ite
    | apply steps_bind slotsUntouched_steps
    | intro _

/-- In a RetroAchievements build, `ParseUnit` called with `loading_state = true` leaves the
slot part of the new configuration alone and calls no card handler, whatever the unit holds and
however the run ends. -/
theorem ParseUnit_untouched (env : Env) (hra : env.USE_RETROACHIEVEMENTS = true) (u : UnitDoc) :
    Keeps SlotsUntouched (ParseUnit env u true) := by
  unfold ParseUnit
  repeat' first
    | exact steps_pure slotsUntouched_steps _
    | exact steps_raise slotsUntouched_steps _
    | exact steps_readDoc slotsUntouched_steps _
    | exact steps_log slotsUntouched_steps _ rfl
    | exact steps_callLoad slotsUntouched_steps _ _ rfl
    | exact ParseUnitApple2_untouched _ _ _
    | apply keeps_ite
    | apply steps_bind slotsUntouched_steps
    | intro _
  all_goals (exfalso; simp_all)

theorem units_untouched (env : Env) (hra : env.USE_RETROACHIEVEMENTS = true)
    (l : List TopEntry) : Keeps SlotsUntouched (Snapshot_LoadState_v2_units env l) := by
  induction l with
  | nil => exact steps_pure slotsUntouched_steps _
  | cons t rest ih =>
    unfold Snapshot_LoadState_v2_units
    apply steps_bind slotsUntouched_steps
    · apply keeps_ite
      · exact fun _ => ParseUnit_untouched env hra _
      · exact fun _ => steps_raise slotsUntouched_steps _
    · exact fun _ => ih

/-- The resets clear the slot part of the new configuration and then leave it alone. -/
theorem reset_untouched (env : Env) (m : Machine) :
    SlotsUntouched
      { m with m_ConfigNew :=
          { m.m_ConfigNew with m_Slot := clearSlots m.m_ConfigNew.m_Slot,
                               m_SlotAux := CT_Empty, m_bEnableHDD := false } }
      (Snapshot_LoadState_v2_reset env m).machine := by
  have key : ∀ (x : Exec Unit), Keeps SlotsUntouched x →
      ∀ (f : Machine → Machine) (m : Machine),
        SlotsUntouched (f m) ((modify f >>= fun _ => x) m).machine := fun x hx f m => hx (f m)
  unfold Snapshot_LoadState_v2_reset
  refine key _ ?_ _ m
  repeat' first
    | exact steps_pure slotsUntouched_steps _
    | exact steps_call slotsUntouched_steps _ _ rfl
    | apply keeps_ite
    | apply steps_bind slotsUntouched_steps
    | intro _

theorem clearSlots_empty (f : Nat → SS_CARDTYPE) (s : Nat) (hs : s < NUM_SLOTS) :
    clearSlots f s = CT_Empty := by
  have h8 : NUM_SLOTS = 8 := rfl
  rw [h8] at hs
  unfold clearSlots
  rw [h8]
  interval_cases s <;> simp [List.range_succ, Function.update]


/-- The machine after the resets and the loop over the units, in a RetroAchievements build. -/
theorem reset_units_untouched (env : Env) (hra : env.USE_RETROACHIEVEMENTS = true)
    (l : List TopEntry) (m : Machine) :
    SlotsUntouched
      { m with m_ConfigNew :=
          { m.m_ConfigNew with m_Slot := clearSlots m.m_ConfigNew.m_Slot,
                               m_SlotAux := CT_Empty, m_bEnableHDD := false } }
      ((Snapshot_LoadState_v2_reset env >>= fun _ =>
        Snapshot_LoadState_v2_units env l) m).machine :=
  steps_bind_from slotsUntouched_steps _ _ _ m (reset_untouched env m)
    (fun _ => units_untouched env hra l)

/-- C21: in a RetroAchievements build, `ParseUnit` called with `loading_state = true` (the only
way `Snapshot_LoadState_v2` calls it) returns without error on a peripheral-slots unit of any
version and with any entries, adding only its own call to the record; on any unit it calls no
card handler and leaves the slot part of the new configuration alone; and after the resets and
the loop over the units of any document, every slot 0..7 of the new configuration is
`CT_Empty`, the auxiliary slot is `CT_Empty`, `m_bEnableHDD` is false, and no card handler was
called. -/
theorem slots_unit_skipped_on_load (env : Env) (hra : env.USE_RETROACHIEVEMENTS = true) :
    (∀ (u : UnitDoc) (v : Nat) (m : Machine),
      u.type = .ok GetSnapshotUnitSlotsName → u.version = .ok v → u.hasState = true →
      env.MemGetSnapshotUnitAuxSlotName ≠ GetSnapshotUnitSlotsName →
      ParseUnit env u true m = .ok () { m with trace := m.trace ++ [Event.ParseUnit true] }) ∧
    (∀ (u : UnitDoc) (m : Machine), SlotsUntouched m (ParseUnit env u true m).machine) ∧
    (∀ (l : List TopEntry) (m : Machine),
      (∀ s, s < NUM_SLOTS →
        ((Snapshot_LoadState_v2_reset env >>= fun _ =>
          Snapshot_LoadState_v2_units env l) m).machine.m_ConfigNew.m_Slot s = CT_Empty) ∧
      ((Snapshot_LoadState_v2_reset env >>= fun _ =>
          Snapshot_LoadState_v2_units env l) m).machine.m_ConfigNew.m_SlotAux = CT_Empty ∧
      ((Snapshot_LoadState_v2_reset env >>= fun _ =>
          Snapshot_LoadState_v2_units env l) m).machine.m_ConfigNew.m_bEnableHDD = false ∧
      ∃ evs, ((Snapshot_LoadState_v2_reset env >>= fun _ =>
          Snapshot_LoadState_v2_units env l) m).machine.trace = m.trace ++ evs ∧
        ∀ e ∈ evs, Event.isCardLoad e = false) := by
  refine ⟨?_, ?_, ?_⟩
  · intro u v m hu hver hstate hname
    exact ParseUnit_slots_skipped env u m v hra hu hver hstate hname
  · exact fun u m => ParseUnit_untouched env hra u m
  · intro l m
    obtain ⟨h1, h2, h3, h4⟩ := reset_units_untouched env hra l m
    refine ⟨?_, h2, h3, h4⟩
    intro s hs
    rw [h1]
    exact clearSlots_empty _ s hs

theorem slots_unit_skipped_on_load_witness :
    envRA.USE_RETROACHIEVEMENTS = true ∧
    ParseUnit envRA (unitOf "Slots" 5 slotsDiskHdd) true machine0 =
      .ok () { machine0 with trace := machine0.trace ++ [Event.ParseUnit true] } ∧
    ((Snapshot_LoadState_v2_reset envRA >>= fun _ =>
      Snapshot_LoadState_v2_units envRA docSlotsV5.top) machine0).machine.m_ConfigNew.m_bEnableHDD =
        false := by
  have h := slots_unit_skipped_on_load envRA rfl
  exact ⟨rfl, h.1 _ 5 machine0 rfl rfl rfl (by decide), (h.2.2 docSlotsV5.top machine0).2.2.1⟩

/-! ## The hard-disk flag and the slot table -/

/-- When the dispatch returns, the hard-disk flag of the new configuration is set if the card is
the hard disk card and is otherwise the one before the call. -/
theorem ParseSlots_card_flag (env : Env) (e : SlotDoc) (slot : Nat) (card : String)
    (cardVersion : Nat) (m m1 : Machine) (b : Bool) (t : SS_CARDTYPE)
    (h : ParseSlots_card env e slot card cardVersion m = .ok (b, t) m1) :
    m1.m_ConfigNew.m_bEnableHDD =
      (if t = CT_GenericHDD then true else m.m_ConfigNew.m_bEnableHDD) := by
  unfold ParseSlots_card at h
  by_cases h0 : card = env.Printer_GetSnapshotCardName
  · rw [if_pos h0] at h
    cases hl : e.load <;> simp [hl] at h
    obtain ⟨⟨-, rfl⟩, rfl⟩ := h
    simp
  rw [if_neg h0] at h
  by_cases h1 : card = env.SSC_GetSnapshotCardName
  · rw [if_pos h1] at h
    cases hl : e.load <;> simp [hl] at h
    obtain ⟨⟨-, rfl⟩, rfl⟩ := h
    simp
  rw [if_neg h1] at h
  by_cases h2 : card = env.Mouse_GetSnapshotCardName
  · rw [if_pos h2] at h
    cases hl : e.load <;> simp [hl] at h
    obtain ⟨⟨-, rfl⟩, rfl⟩ := h
    simp
  rw [if_neg h2] at h
  by_cases h3 : card = env.Z80_GetSnapshotCardName
  · rw [if_pos h3] at h
    cases hl : e.load <;> simp [hl] at h
    obtain ⟨⟨-, rfl⟩, rfl⟩ := h
    simp
  rw [if_neg h3] at h
  by_cases h4 : card = env.MB_GetSnapshotCardName
  · rw [if_pos h4] at h
    cases hl : e.load <;> simp [hl] at h
    obtain ⟨⟨-, rfl⟩, rfl⟩ := h
    simp
  rw [if_neg h4] at h
  by_cases h5 : card = env.Phasor_GetSnapshotCardName
  · rw [if_pos h5] at h
    cases hl : e.load <;> simp [hl] at h
    obtain ⟨⟨-, rfl⟩, rfl⟩ := h
    simp
  rw [if_neg h5] at h
  by_cases h6 : card = env.DiskGetSnapshotCardName
  · rw [if_pos h6] at h
    cases hl : e.load <;> simp [hl] at h
    obtain ⟨⟨-, rfl⟩, rfl⟩ := h
    simp
  rw [if_neg h6] at h
  by_cases h7 : card = env.HD_GetSnapshotCardName
  · rw [if_pos h7] at h
    cases hl : e.load <;> simp [hl] at h
    obtain ⟨⟨-, rfl⟩, rfl⟩ := h
    simp
  rw [if_neg h7] at h
  by_cases g0 : card = env.LanguageCardSlot0_GetSnapshotCardName
  · rw [if_pos g0] at h
    cases hr1 : env.raises (Event.SetExpansionMemType CT_LanguageCard) <;>
      cases hr2 : env.raises Event.CreateLanguageCard <;>
      cases hl : e.load <;> simp [hl, call, hr1, hr2] at h
    obtain ⟨⟨-, rfl⟩, rfl⟩ := h
    simp
  rw [if_neg g0] at h
  by_cases g1 : card = env.Saturn128K_GetSnapshotCardName
  · rw [if_pos g1] at h
    cases hr1 : env.raises (Event.SetExpansionMemType CT_Saturn128K) <;>
      cases hr2 : env.raises Event.CreateLanguageCard <;>
      cases hl : e.load <;> simp [hl, call, hr1, hr2] at h
    obtain ⟨⟨-, rfl⟩, rfl⟩ := h
    simp
  rw [if_neg g1] at h
  simp at h

theorem ParseSlots_card_slots (env : Env) (e : SlotDoc) (slot : Nat) (card : String)
    (cardVersion : Nat) (m : Machine) :
    (ParseSlots_card env e slot card cardVersion m).machine.m_ConfigNew.m_Slot =
      m.m_ConfigNew.m_Slot :=
  ParseSlots_card_keeps sameSlots_frame sameSlots_hddFree env e slot card cardVersion m

/-- What an iteration of the loop of `ParseSlots` that returns has done to the new
configuration, whatever the calls of other modules did. -/
theorem ParseSlots_entry_effect (env : Env) (e : SlotDoc) (m m1 : Machine)
    (h : ParseSlots_entry env e m = .ok () m1) :
    ∃ t b, cardTypeOf env e = some t ∧ e.load = .ok b ∧ slotNumber e < NUM_SLOTS ∧
      m1.m_ConfigNew.m_Slot =
        (if b = true then Function.update m.m_ConfigNew.m_Slot (slotNumber e) t
         else m.m_ConfigNew.m_Slot) ∧
      m1.m_ConfigNew.m_bEnableHDD =
        (if t = CT_GenericHDD then true else m.m_ConfigNew.m_bEnableHDD) := by
  unfold ParseSlots_entry at h
  by_cases hr : toInt32 (strtoul e.key) < 0 ∨ toInt32 (strtoul e.key) > 7
  · simp [hr] at h
  · cases hc : e.card with
    | error msg => simp [hr, hc] at h
    | ok card =>
      cases hv : e.cardVersion with
      | error msg => simp [hr, hc, hv] at h
      | ok v =>
        by_cases hs : e.hasState = false
        · simp [hr, hc, hv, hs] at h
        · have hs1 : e.hasState = true := by
            cases h1 : e.hasState
            · exact absurd h1 hs
            · rfl
          simp only [hr, hc, hv, hs1, Bool.true_eq_false, if_false, run_bind,
            run_readDoc_ok] at h
          have hslots := ParseSlots_card_slots env e (toInt32 (strtoul e.key)).toNat card v m
          cases hd : ParseSlots_card env e (toInt32 (strtoul e.key)).toNat card v m with
          | throw msg m2 => rw [hd] at h; simp at h
          | ok r m2 =>
            obtain ⟨b, t⟩ := r
            obtain ⟨ht, hb⟩ := ParseSlots_card_ok env e _ card v m m2 b t hd
            have hf := ParseSlots_card_flag env e _ card v m m2 b t hd
            rw [hd] at h hslots
            have hlt : slotNumber e < NUM_SLOTS := by
              have h8 : NUM_SLOTS = 8 := rfl
              unfold slotNumber
              rw [h8]
              omega
            refine ⟨t, b, by simp [cardTypeOf, hc, ht], hb, hlt, ?_, ?_⟩
            · cases b
              · simp only [Bool.false_eq_true, if_false, run_pure, Res.ok.injEq, true_and] at h
                subst h
                simpa [Res.machine] using hslots
              · simp only [if_true, run_modify, Res.ok.injEq, true_and] at h
                subst h
                have hs2 : m2.m_ConfigNew.m_Slot = m.m_ConfigNew.m_Slot := by
                  simpa [Res.machine] using hslots
                simp [slotNumber, hs2]
            · cases b
              · simp only [Bool.false_eq_true, if_false, run_pure, Res.ok.injEq, true_and] at h
                subst h
                exact hf
              · simp only [if_true, run_modify, Res.ok.injEq, true_and] at h
                subst h
                exact hf

/-- What a run of the loop of `ParseSlots` that returns has done to the new configuration,
whatever the calls of other modules did: every entry it reached names a known card and a slot in
0..7 and its load routine returned; the hard-disk flag is set exactly if it was set before or a
reached entry is a hard disk entry; a slot of 0..7 holds the hard disk type only if the flag is
set, provided this held before; and the slot table is the one recorded from the reached entries
when every load routine returned true. -/
theorem ParseSlots_loop_effect (env : Env) (l : List SlotDoc) (m m1 : Machine)
    (h : ParseSlots_loop env l m = .ok () m1) :
    (∀ e ∈ l.takeWhile (fun e => decide (e.key ≠ "")),
      (∃ t, cardTypeOf env e = some t) ∧ slotNumber e < NUM_SLOTS) ∧
    m1.m_ConfigNew.m_bEnableHDD =
      (m.m_ConfigNew.m_bEnableHDD ||
        hddListed env (l.takeWhile (fun e => decide (e.key ≠ "")))) ∧
    ((∀ s, s < NUM_SLOTS → m.m_ConfigNew.m_Slot s = CT_GenericHDD →
        m.m_ConfigNew.m_bEnableHDD = true) →
      ∀ s, s < NUM_SLOTS → m1.m_ConfigNew.m_Slot s = CT_GenericHDD →
        m1.m_ConfigNew.m_bEnableHDD = true) ∧
    ((∀ e ∈ l.takeWhile (fun e => decide (e.key ≠ "")), e.load = .ok true) →
      m1.m_ConfigNew.m_Slot =
        recorded env (l.takeWhile (fun e => decide (e.key ≠ ""))) m.m_ConfigNew.m_Slot) := by
  induction l generalizing m with
  | nil =>
    have : m1 = m := by
      have h2 : ParseSlots_loop env [] m = .ok () m := rfl
      rw [h2] at h
      exact (Res.ok.inj h).2.symm
    subst this
    simp [hddListed, recorded]
  | cons e l ih =>
    by_cases hk : e.key = ""
    · have h2 : ParseSlots_loop env (e :: l) m = .ok () m := by
        unfold ParseSlots_loop
        rw [if_pos hk]
        rfl
      rw [h2] at h
      have : m1 = m := (Res.ok.inj h).2.symm
      subst this
      simp [List.takeWhile_cons, hk, hddListed, recorded]
    · rw [ParseSlots_loop_cons env e l m hk] at h
      cases he : ParseSlots_entry env e m with
      | throw msg m2 => rw [he] at h; simp at h
      | ok x m2 =>
        rw [he] at h
        obtain ⟨t, b, ht, hb, hlt, hslot, hflag⟩ := ParseSlots_entry_effect env e m m2 he
        obtain ⟨i1, i2, i3, i4⟩ := ih m2 h
        have htw : (e :: l).takeWhile (fun e => decide (e.key ≠ "")) =
            e :: l.takeWhile (fun e => decide (e.key ≠ "")) := by
          simp [List.takeWhile_cons, hk]
        rw [htw]
        refine ⟨?_, ?_, ?_, ?_⟩
        · intro x hx
          rcases List.mem_cons.1 hx with rfl | hx
          · exact ⟨⟨t, ht⟩, hlt⟩
          · exact i1 x hx
        · rw [i2, hflag, hddListed_cons, ht]
          by_cases hh : t = CT_GenericHDD <;> simp [hh]
        · intro hinv
          apply i3
          intro s hs hsl
          rw [hflag]
          by_cases hh : t = CT_GenericHDD
          · simp [hh]
          · rw [if_neg hh]
            apply hinv s hs
            rw [hslot] at hsl
            cases b
            · simpa using hsl
            · simp only [if_true] at hsl
              by_cases hs2 : s = slotNumber e
              · subst hs2
                rw [Function.update_same] at hsl
                exact absurd hsl hh
              · rwa [Function.update_noteq hs2] at hsl
        · intro hall
          have hbt : b = true := by
            have := hall e (List.mem_cons_self _ _)
            rw [hb] at this
            injection this
          subst hbt
          rw [i4 (fun x hx => hall x (List.mem_cons_of_mem _ hx)), hslot,
            recorded_cons env e _ _ t ht]
          simp

/-- C24, counterexample: from the cleared configuration, `ParseSlots` returns without error
with `m_bEnableHDD` true and no slot of 0..7 equal to `CT_GenericHDD`, both on a unit whose hard
disk entry the load routine refuses (it returns false, so the slot is not recorded) and on a
unit whose hard disk entry for slot 7 is followed by a Z80 entry for slot 7. -/
theorem hdd_flag_without_slot :
    (ParseSlots envPlain unitHddRefused UNIT_SLOTS_VER machine0).error = none ∧
    (ParseSlots envPlain unitHddRefused UNIT_SLOTS_VER machine0).machine.m_ConfigNew.m_bEnableHDD
      = true ∧
    (∀ s, s < NUM_SLOTS →
      (ParseSlots envPlain unitHddRefused UNIT_SLOTS_VER machine0).machine.m_ConfigNew.m_Slot s
        ≠ CT_GenericHDD) ∧
    (ParseSlots envPlain unitHddReplaced UNIT_SLOTS_VER machine0).error = none ∧
    (ParseSlots envPlain unitHddReplaced UNIT_SLOTS_VER machine0).machine.m_ConfigNew.m_bEnableHDD
      = true ∧
    (∀ s, s < NUM_SLOTS →
      (ParseSlots envPlain unitHddReplaced UNIT_SLOTS_VER machine0).machine.m_ConfigNew.m_Slot s
        ≠ CT_GenericHDD) := by
  decide!

/-- C24, amended: from a configuration with every slot 0..7 `CT_Empty` and `m_bEnableHDD` false,
after `ParseSlots` returns without error `m_bEnableHDD` is true if and only if one of the entries
the loop reached is a hard disk entry; if some slot 0..7 equals `CT_GenericHDD` then
`m_bEnableHDD` is true; and the converse holds when the load routine of every reached entry
returned true and every reached entry that names the slot of a hard disk entry is a hard disk
entry. -/
theorem hdd_flag_after_ParseSlots (env : Env) (u : UnitDoc) (m m1 : Machine)
    (hinit : ∀ s, s < NUM_SLOTS → m.m_ConfigNew.m_Slot s = CT_Empty)
    (hhdd : m.m_ConfigNew.m_bEnableHDD = false)
    (h : ParseSlots env u UNIT_SLOTS_VER m = .ok () m1) :
    (m1.m_ConfigNew.m_bEnableHDD = true ↔
      ∃ e ∈ reachedSlots u, cardTypeOf env e = some CT_GenericHDD) ∧
    ((∃ s, s < NUM_SLOTS ∧ m1.m_ConfigNew.m_Slot s = CT_GenericHDD) →
      m1.m_ConfigNew.m_bEnableHDD = true) ∧
    ((∀ e ∈ reachedSlots u, e.load = .ok true) →
      (∀ e ∈ reachedSlots u, cardTypeOf env e = some CT_GenericHDD →
        ∀ x ∈ reachedSlots u, slotNumber x = slotNumber e →
          cardTypeOf env x = some CT_GenericHDD) →
      (m1.m_ConfigNew.m_bEnableHDD = true ↔
        ∃ s, s < NUM_SLOTS ∧ m1.m_ConfigNew.m_Slot s = CT_GenericHDD)) := by
  have hl : ParseSlots_loop env u.slots m = .ok () m1 := by
    unfold ParseSlots at h
    rwa [if_neg (by simp)] at h
  obtain ⟨h1, h2, h3, h4⟩ := ParseSlots_loop_effect env u.slots m m1 hl
  have hflag : m1.m_ConfigNew.m_bEnableHDD = true ↔
      ∃ e ∈ reachedSlots u, cardTypeOf env e = some CT_GenericHDD := by
    rw [h2, hhdd]
    simp [hddListed, reachedSlots]
  have hinv : (∃ s, s < NUM_SLOTS ∧ m1.m_ConfigNew.m_Slot s = CT_GenericHDD) →
      m1.m_ConfigNew.m_bEnableHDD = true := by
    rintro ⟨s, hs, hsl⟩
    refine h3 ?_ s hs hsl
    intro s hs hsl
    rw [hinit s hs] at hsl
    exact absurd hsl (by decide)
  refine ⟨hflag, hinv, ?_⟩
  intro hall huniq
  refine ⟨?_, hinv⟩
  intro hb
  obtain ⟨e, he, hc⟩ := hflag.1 hb
  refine ⟨slotNumber e, (h1 e he).2, ?_⟩
  rw [h4 hall]
  exact recorded_of_unique env _ _ _ _ ⟨e, he, rfl⟩ (fun x hx hs => huniq e he hc x hx hs)
    (fun x hx => (h1 x hx).1)

theorem hdd_flag_after_ParseSlots_witness :
    (∀ s, s < NUM_SLOTS → machine0.m_ConfigNew.m_Slot s = CT_Empty) ∧
    machine0.m_ConfigNew.m_bEnableHDD = false ∧
    ((ParseSlots envPlain (unitOf "Slots" 1 slotsDiskHdd) UNIT_SLOTS_VER
        machine0).machine.m_ConfigNew.m_bEnableHDD = true ↔
      ∃ e ∈ reachedSlots (unitOf "Slots" 1 slotsDiskHdd),
        cardTypeOf envPlain e = some CT_GenericHDD) := by
  have hrun : ∀ r : Res Unit, r.error = none → r = .ok () r.machine := by
    intro r hr
    cases r with
    | ok a m => rfl
    | throw msg m => simp [Res.error] at hr
  refine ⟨by decide, by decide, ?_⟩
  exact (hdd_flag_after_ParseSlots envPlain (unitOf "Slots" 1 slotsDiskHdd) machine0
    (ParseSlots envPlain (unitOf "Slots" 1 slotsDiskHdd) UNIT_SLOTS_VER machine0).machine
    (by decide) (by decide) (hrun _ (by decide!))).1

/-! ## The last part of the load -/

theorem beforeEnd_of_eq (m m1 : Machine) (h1 : m1.loadedSaveStateFlag = m.loadedSaveStateFlag)
    (h2 : m1.applied = m.applied) (h3 : m1.trace = m.trace) : BeforeEnd m m1 :=
  ⟨h1, h2, [], by rw [h3, List.append_nil], fun _ h => absurd h (List.not_mem_nil _)⟩

theorem beforeEnd_steps : Steps (fun e => !Event.isEndStep e) BeforeEnd where
  refl := fun m => beforeEnd_of_eq m m rfl rfl rfl
  trans := by
    rintro a b c ⟨h1, h2, e1, ht1, he1⟩ ⟨g1, g2, e2, ht2, he2⟩
    refine ⟨g1.trans h1, g2.trans h2, e1 ++ e2, ?_, ?_⟩
    · rw [ht2, ht1, List.append_assoc]
    · intro e he
      rcases List.mem_append.1 he with h | h
      · exact he1 e h
      · exact he2 e h
  event := by
    intro m e he
    refine ⟨rfl, rfl, [e], rfl, ?_⟩
    intro x hx
    rw [List.mem_singleton.1 hx]
    simpa using he

theorem ParseSlots_card_beforeEnd (env : Env) (e : SlotDoc) (slot : Nat) (card : String)
    (cardVersion : Nat) : Keeps BeforeEnd (ParseSlots_card env e slot card cardVersion) := by
  unfold ParseSlots_card
  repeat' first
    | exact steps_pure beforeEnd_steps _
    | exact steps_raise beforeEnd_steps _
    | exact steps_getMachine beforeEnd_steps
    | exact steps_readDoc beforeEnd_steps _
    | exact steps_log beforeEnd_steps _ rfl
    | exact steps_call beforeEnd_steps _ _ rfl
    | exact steps_callLoad beforeEnd_steps _ _ rfl
    | exact keeps_modify _ (fun m => beforeEnd_of_eq m _ rfl rfl rfl)
    | apply keeps_ite
    | apply steps_bind beforeEnd_steps
    | intro _

theorem ParseSlots_entry_beforeEnd (env : Env) (e : SlotDoc) :
    Keeps BeforeEnd (ParseSlots_entry env e) := by
  unfold ParseSlots_entry
  repeat' first
    | exact steps_pure beforeEnd_steps _
    | exact steps_raise beforeEnd_steps _
    | exact steps_getMachine beforeEnd_steps
    | exact steps_readDoc beforeEnd_steps _
    | exact steps_log beforeEnd_steps _ rfl
    | exact steps_call beforeEnd_steps _ _ rfl
    | exact steps_callLoad beforeEnd_steps _ _ rfl
    | exact keeps_modify _ (fun m => beforeEnd_of_eq m _ rfl rfl rfl)
    | exact ParseSlots_card_beforeEnd _ _ _ _ _
    | apply keeps_ite
    | apply steps_bind beforeEnd_steps
    | intro _

theorem ParseSlots_loop_beforeEnd (env : Env) (l : List SlotDoc) :
    Keeps BeforeEnd (ParseSlots_loop env l) := by
  induction l with
  | nil => exact steps_pure beforeEnd_steps _
  | cons e rest ih =>
    unfold ParseSlots_loop
    apply keeps_ite
    · exact fun _ => steps_pure beforeEnd_steps _
    · intro _
      exact steps_bind beforeEnd_steps (ParseSlots_entry_beforeEnd env e) (fun _ => ih)

theorem ParseSlots_beforeEnd (env : Env) (u : UnitDoc) (unitVersion : Nat) :
    Keeps BeforeEnd (ParseSlots env u unitVersion) := by
  unfold ParseSlots
  apply keeps_ite
  · exact fun _ => steps_raise beforeEnd_steps _
  · exact fun _ => ParseSlots_loop_beforeEnd env _

theorem SetApple2Type_beforeEnd (env : Env) (t : eApple2Type) :
    Keeps BeforeEnd (SetApple2Type env t) := by
  unfold SetApple2Type
  repeat' first
    | exact steps_pure beforeEnd_steps _
    | exact steps_raise beforeEnd_steps _
    | exact steps_getMachine beforeEnd_steps
    | exact steps_readDoc beforeEnd_steps _
    | exact steps_log beforeEnd_steps _ rfl
    | exact steps_call beforeEnd_steps _ _ rfl
    | exact steps_callLoad beforeEnd_steps _ _ rfl
    | exact keeps_modify _ (fun m => beforeEnd_of_eq m _ rfl rfl rfl)
    | apply keeps_ite
    | apply steps_bind beforeEnd_steps
    | intro _

theorem ParseUnitApple2_beforeEnd (env : Env) (u : UnitDoc) (version : Nat) :
    Keeps BeforeEnd (ParseUnitApple2 env u version) := by
  unfold ParseUnitApple2
  repeat' first
    | exact steps_pure beforeEnd_steps _
    | exact steps_raise beforeEnd_steps _
    | exact steps_getMachine beforeEnd_steps
    | exact steps_readDoc beforeEnd_steps _
    | exact steps_log beforeEnd_steps _ rfl
    | exact steps_call beforeEnd_steps _ _ rfl
    | exact steps_callLoad beforeEnd_steps _ _ rfl
    | exact keeps_modify _ (fun m => beforeEnd_of_eq m _ rfl rfl rfl)
    | exact SetApple2Type_beforeEnd _ _
    | apply keeps_ite
    | apply steps_bind beforeEnd_steps
    | intro _

theorem ParseUnit_beforeEnd (env : Env) (u : UnitDoc) (loading_state : Bool) :
    Keeps BeforeEnd (ParseUnit env u loading_state) := by
  unfold ParseUnit
  repeat' first
    | exact steps_pure beforeEnd_steps _
    | exact steps_raise beforeEnd_steps _
    | exact steps_getMachine beforeEnd_steps
    | exact steps_readDoc beforeEnd_steps _
    | exact steps_log beforeEnd_steps _ rfl
    | exact steps_call beforeEnd_steps _ _ rfl
    | exact steps_callLoad beforeEnd_steps _ _ rfl
    | exact keeps_modify _ (fun m => beforeEnd_of_eq m _ rfl rfl rfl)
    | exact ParseUnitApple2_beforeEnd _ _ _
    | exact ParseSlots_beforeEnd _ _ _
    | apply keeps_ite
    | apply steps_bind beforeEnd_steps
    | intro _

theorem units_beforeEnd (env : Env) (l : List TopEntry) :
    Keeps BeforeEnd (Snapshot_LoadState_v2_units env l) := by
  induction l with
  | nil => exact steps_pure beforeEnd_steps _
  | cons t rest ih =>
    unfold Snapshot_LoadState_v2_units
    apply steps_bind beforeEnd_steps
    · apply keeps_ite
      · exact fun _ => ParseUnit_beforeEnd env _ _
      · exact fun _ => steps_raise beforeEnd_steps _
    · exact fun _ => ih

theorem reset_beforeEnd (env : Env) : Keeps BeforeEnd (Snapshot_LoadState_v2_reset env) := by
  unfold Snapshot_LoadState_v2_reset
  repeat' first
    | exact steps_pure beforeEnd_steps _
    | exact steps_raise beforeEnd_steps _
    | exact steps_getMachine beforeEnd_steps
    | exact steps_readDoc beforeEnd_steps _
    | exact steps_log beforeEnd_steps _ rfl
    | exact steps_call beforeEnd_steps _ _ rfl
    | exact steps_callLoad beforeEnd_steps _ _ rfl
    | exact keeps_modify _ (fun m => beforeEnd_of_eq m _ rfl rfl rfl)
    | apply keeps_ite
    | apply steps_bind beforeEnd_steps
    | intro _

theorem begin_beforeEnd (env : Env) (doc : Document) :
    Keeps BeforeEnd (Snapshot_LoadState_v2_begin env doc) := by
  have hg : Keeps BeforeEnd (RA_WarnDisableHardcore env "load a state") :=
    fun m => beforeEnd_steps.event m _ rfl
  have hh : Keeps BeforeEnd (ParseFileHdr env doc) := by
    unfold ParseFileHdr
    cases doc.hdrScalar with
    | none => exact steps_raise beforeEnd_steps _
    | some scalar =>
      show Keeps BeforeEnd (if _ then _ else _)
      repeat' first
        | exact steps_pure beforeEnd_steps _
        | exact steps_raise beforeEnd_steps _
        | exact steps_getMachine beforeEnd_steps
        | exact steps_readDoc beforeEnd_steps _
        | exact steps_log beforeEnd_steps _ rfl
        | exact steps_call beforeEnd_steps _ _ rfl
        | exact steps_callLoad beforeEnd_steps _ _ rfl
        | exact keeps_modify _ (fun m => beforeEnd_of_eq m _ rfl rfl rfl)
        | apply keeps_ite
        | apply steps_bind beforeEnd_steps
        | intro _
  unfold Snapshot_LoadState_v2_begin
  repeat' first
    | exact steps_pure beforeEnd_steps _
    | exact steps_raise beforeEnd_steps _
    | exact steps_getMachine beforeEnd_steps
    | exact steps_readDoc beforeEnd_steps _
    | exact steps_log beforeEnd_steps _ rfl
    | exact steps_call beforeEnd_steps _ _ rfl
    | exact steps_callLoad beforeEnd_steps _ _ rfl
    | exact keeps_modify _ (fun m => beforeEnd_of_eq m _ rfl rfl rfl)
    | exact hg
    | exact hh
    | apply keeps_ite
    | apply steps_bind beforeEnd_steps
    | intro _

theorem loadUpTo_beforeEnd (env : Env) (doc : Document) (pre : List TopEntry) :
    Keeps BeforeEnd (loadUpTo env doc pre) := by
  unfold loadUpTo
  repeat' first
    | exact steps_pure beforeEnd_steps _
    | exact steps_raise beforeEnd_steps _
    | exact steps_getMachine beforeEnd_steps
    | exact steps_readDoc beforeEnd_steps _
    | exact steps_log beforeEnd_steps _ rfl
    | exact steps_call beforeEnd_steps _ _ rfl
    | exact steps_callLoad beforeEnd_steps _ _ rfl
    | exact keeps_modify _ (fun m => beforeEnd_of_eq m _ rfl rfl rfl)
    | exact begin_beforeEnd _ _
    | exact reset_beforeEnd _
    | exact units_beforeEnd _ _
    | apply keeps_ite
    | apply steps_bind beforeEnd_steps
    | intro _

/-- The run of the last part of the `try` block, whatever its calls do: the calls made are those
of `endSteps` up to the first that throws, the flag is set once the first call has returned, and
the part returns exactly if no call throws. -/
theorem end_run (env : Env) (m : Machine) :
    (Snapshot_LoadState_v2_end env m).machine.trace =
      m.trace ++ callsMade env (endSteps env m.g_strSaveStatePathname) ∧
    (Snapshot_LoadState_v2_end env m).machine.loadedSaveStateFlag =
      (if env.raises (Event.SetLoadedSaveStateFlag true) = none then true
       else m.loadedSaveStateFlag) ∧
    ((Snapshot_LoadState_v2_end env m).error = none ↔
      ∀ e ∈ endSteps env m.g_strSaveStatePathname, env.raises e = none) := by
  by_cases hra : env.USE_RETROACHIEVEMENTS = true
  · cases hr0 : env.raises (Event.SetLoadedSaveStateFlag true)
    swap
    · simp [Snapshot_LoadState_v2_end, call, callsMade, endSteps, hra, Res.machine, Res.error,
        modify, getMachine, hr0]
    cases hr1 : env.raises Event.ApplyNewConfig
    swap
    · simp [Snapshot_LoadState_v2_end, call, callsMade, endSteps, hra, Res.machine, Res.error,
        modify, getMachine, hr0, hr1]
    cases hr2 : env.raises Event.MemInitializeROM
    swap
    · simp [Snapshot_LoadState_v2_end, call, callsMade, endSteps, hra, Res.machine, Res.error,
        modify, getMachine, hr0, hr1, hr2]
    cases hr3 : env.raises Event.MemInitializeCustomF8ROM
    swap
    · simp [Snapshot_LoadState_v2_end, call, callsMade, endSteps, hra, Res.machine, Res.error,
        modify, getMachine, hr0, hr1, hr2, hr3]
    cases hr4 : env.raises Event.MemInitializeIO
    swap
    · simp [Snapshot_LoadState_v2_end, call, callsMade, endSteps, hra, Res.machine, Res.error,
        modify, getMachine, hr0, hr1, hr2, hr3, hr4]
    cases hr5 : env.raises Event.MemInitializeCardExpansionRomFromSnapshot
    swap
    · simp [Snapshot_LoadState_v2_end, call, callsMade, endSteps, hra, Res.machine, Res.error,
        modify, getMachine, hr0, hr1, hr2, hr3, hr4, hr5]
    cases hr6 : env.raises (Event.MemUpdatePaging true)
    swap
    · simp [Snapshot_LoadState_v2_end, call, callsMade, endSteps, hra, Res.machine, Res.error,
        modify, getMachine, hr0, hr1, hr2, hr3, hr4, hr5, hr6]
    cases hr7 : env.raises (Event.RA_OnLoadState m.g_strSaveStatePathname)
    swap
    · simp [Snapshot_LoadState_v2_end, call, callsMade, endSteps, hra, Res.machine, Res.error,
        modify, getMachine, hr0, hr1, hr2, hr3, hr4, hr5, hr6, hr7]
    simp [Snapshot_LoadState_v2_end, call, callsMade, endSteps, hra, Res.machine, Res.error,
      modify, getMachine, hr0, hr1, hr2, hr3, hr4, hr5, hr6, hr7]
  · cases hr0 : env.raises (Event.SetLoadedSaveStateFlag true)
    swap
    · simp [Snapshot_LoadState_v2_end, call, callsMade, endSteps, hra, Res.machine, Res.error,
        modify, getMachine, hr0]
    cases hr1 : env.raises Event.ApplyNewConfig
    swap
    · simp [Snapshot_LoadState_v2_end, call, callsMade, endSteps, hra, Res.machine, Res.error,
        modify, getMachine, hr0, hr1]
    cases hr2 : env.raises Event.MemInitializeROM
    swap
    · simp [Snapshot_LoadState_v2_end, call, callsMade, endSteps, hra, Res.machine, Res.error,
        modify, getMachine, hr0, hr1, hr2]
    cases hr3 : env.raises Event.MemInitializeCustomF8ROM
    swap
    · simp [Snapshot_LoadState_v2_end, call, callsMade, endSteps, hra, Res.machine, Res.error,
        modify, getMachine, hr0, hr1, hr2, hr3]
    cases hr4 : env.raises Event.MemInitializeIO
    swap
    · simp [Snapshot_LoadState_v2_end, call, callsMade, endSteps, hra, Res.machine, Res.error,
        modify, getMachine, hr0, hr1, hr2, hr3, hr4]
    cases hr5 : env.raises Event.MemInitializeCardExpansionRomFromSnapshot
    swap
    · simp [Snapshot_LoadState_v2_end, call, callsMade, endSteps, hra, Res.machine, Res.error,
        modify, getMachine, hr0, hr1, hr2, hr3, hr4, hr5]
    cases hr6 : env.raises (Event.MemUpdatePaging true)
    swap
    · simp [Snapshot_LoadState_v2_end, call, callsMade, endSteps, hra, Res.machine, Res.error,
        modify, getMachine, hr0, hr1, hr2, hr3, hr4, hr5, hr6]
    simp [Snapshot_LoadState_v2_end, call, callsMade, endSteps, hra, Res.machine, Res.error,
      modify, getMachine, hr0, hr1, hr2, hr3, hr4, hr5, hr6]

theorem try_of_loadUpTo (env : Env) (doc : Document) (m : Machine) :
    Snapshot_LoadState_v2_try env doc m =
      match loadUpTo env doc doc.top m with
      | .ok true mu =>
        (match Snapshot_LoadState_v2_end env mu with
          | .ok _ me => .ok true me
          | .throw msg me => .throw msg me)
      | .ok false mb => .ok false mb
      | .throw msg mx => .throw msg mx := by
  unfold Snapshot_LoadState_v2_try Snapshot_LoadState_v2_armed loadUpTo
  simp only [run_bind]
  cases Snapshot_LoadState_v2_begin env doc m with
  | throw msg mx => rfl
  | ok p mb =>
    cases p
    · rfl
    · simp only [Bool.true_eq_false, if_false, run_bind]
      cases Snapshot_LoadState_v2_reset env mb with
      | throw msg mx => rfl
      | ok x mr =>
        simp only []
        cases Snapshot_LoadState_v2_units env doc.top mr with
        | throw msg mx => rfl
        | ok y mu =>
          simp only [run_pure]
          cases Snapshot_LoadState_v2_end env mu <;> rfl

theorem callsMade_take (env : Env) (l : List Event) :
    ∃ k, callsMade env l = l.take k ∧ (l ≠ [] → 1 ≤ k) := by
  induction l with
  | nil => exact ⟨0, rfl, fun h => absurd rfl h⟩
  | cons e rest ih =>
    obtain ⟨k, hk, -⟩ := ih
    by_cases he : env.raises e = none
    · exact ⟨k + 1, by simp [callsMade, he, hk], fun _ => Nat.le_add_left 1 k⟩
    · exact ⟨1, by simp [callsMade, he], fun _ => le_refl 1⟩

theorem callsMade_quiet (env : Env) (l : List Event) (h : ∀ e ∈ l, env.raises e = none) :
    callsMade env l = l := by
  induction l with
  | nil => rfl
  | cons e rest ih =>
    simp [callsMade, h e (List.mem_cons_self _ _),
      ih (fun x hx => h x (List.mem_cons_of_mem _ hx))]

theorem catch_beforeEnd (msg : String) (m : Machine) :
    BeforeEnd m (Snapshot_LoadState_v2_catch msg m) := by
  unfold Snapshot_LoadState_v2_catch
  by_cases hr : m.restart = true
  · refine ⟨by simp [hr], by simp [hr], [Event.MessageBox msg "Load State",
      Event.PostMessage_WM_USER_RESTART], by simp [hr], ?_⟩
    intro e he
    simp at he
    rcases he with rfl | rfl <;> rfl
  · refine ⟨by simp [hr], by simp [hr], [Event.MessageBox msg "Load State"], by simp [hr], ?_⟩
    intro e he
    simp at he
    subst he
    rfl

/-- The load when the part before the last part does not reach its end: the flag, the recorded
arguments of the reconciler and the calls of the last part are as before the load. -/
theorem load_beforeEnd (env : Env) (doc : Document) (m : Machine)
    (h : (loadUpTo env doc doc.top { m with restart := false }).value ≠ some true) :
    BeforeEnd m (Snapshot_LoadState_v2 env doc m) := by
  have hk := loadUpTo_beforeEnd env doc doc.top { m with restart := false }
  unfold Snapshot_LoadState_v2
  rw [try_of_loadUpTo]
  cases hl : loadUpTo env doc doc.top { m with restart := false } with
  | throw msg mx =>
    rw [hl] at hk
    simp only []
    have h1 : BeforeEnd m mx := hk
    have h2 := catch_beforeEnd msg mx
    exact beforeEnd_steps.trans _ _ _ (beforeEnd_steps.trans _ _ _ h1 h2)
      (beforeEnd_steps.event _ Event.FinaliseParser rfl)
  | ok b mb =>
    rw [hl] at hk h
    cases b
    · exact hk
    · exact absurd rfl h

/-- The load when the part before the last part reaches its end at `mu`. -/
theorem load_after_units (env : Env) (doc : Document) (m mu : Machine)
    (h : loadUpTo env doc doc.top { m with restart := false } = .ok true mu) :
    (∃ tail, (Snapshot_LoadState_v2 env doc m).trace =
        mu.trace ++ callsMade env (endSteps env mu.g_strSaveStatePathname) ++ tail ∧
      ∀ e ∈ tail, Event.isEndStep e = false) ∧
    (Snapshot_LoadState_v2 env doc m).loadedSaveStateFlag =
      (if env.raises (Event.SetLoadedSaveStateFlag true) = none then true
       else m.loadedSaveStateFlag) := by
  have hk := loadUpTo_beforeEnd env doc doc.top { m with restart := false }
  rw [h] at hk
  have hflag : mu.loadedSaveStateFlag = m.loadedSaveStateFlag := hk.1
  obtain ⟨ht, hf, -⟩ := end_run env mu
  unfold Snapshot_LoadState_v2
  rw [try_of_loadUpTo, h]
  simp only []
  cases he : Snapshot_LoadState_v2_end env mu with
  | ok x me =>
    rw [he] at ht hf
    simp only [Res.machine] at ht hf
    refine ⟨⟨[Event.FinaliseParser], by simp [ht], ?_⟩, by rw [← hflag]; exact hf⟩
    intro e he
    rw [List.mem_singleton.1 he]
    rfl
  | throw msg me =>
    rw [he] at ht hf
    simp only [Res.machine] at ht hf
    obtain ⟨c1, c2, evs, c3, c4⟩ := catch_beforeEnd msg me
    refine ⟨⟨evs ++ [Event.FinaliseParser], by simp [c3, ht], ?_⟩, ?_⟩
    · intro e he
      rcases List.mem_append.1 he with h1 | h1
      · exact c4 e h1
      · rw [List.mem_singleton.1 h1]
        rfl
    · show (Snapshot_LoadState_v2_catch msg me).loadedSaveStateFlag = _
      rw [c1, ← hflag]
      exact hf

/-- C22: in `Snapshot_LoadState_v2`, up to the end of the loop over the units the flag behind
`SetLoadedSaveStateFlag` keeps its value and none of the calls of the last part
(`SetLoadedSaveStateFlag`, `ApplyNewConfig`, the ROM, custom ROM, IO and expansion-ROM
initialisation, `MemUpdatePaging`, `RA_OnLoadState`) is made; when the load fails in the header or
in a unit, or the guard declines, this still holds at the end of the load; and when every unit
was parsed without error, the calls made after the units are a non-empty initial part of
`endSteps`, in that order with `SetLoadedSaveStateFlag(true)` first, followed by calls that are
none of them; the flag is set once `SetLoadedSaveStateFlag` has returned, and when no call of
`endSteps` throws all of them are made, the parser is finalised and the flag is set. -/
theorem flag_set_after_units (env : Env) (doc : Document) (m : Machine) :
    BeforeEnd m (loadUpTo env doc doc.top { m with restart := false }).machine ∧
    ((loadUpTo env doc doc.top { m with restart := false }).value ≠ some true →
      BeforeEnd m (Snapshot_LoadState_v2 env doc m)) ∧
    (∀ mu, loadUpTo env doc doc.top { m with restart := false } = .ok true mu →
      (∃ k tail, 1 ≤ k ∧
        (Snapshot_LoadState_v2 env doc m).trace =
          mu.trace ++ (endSteps env mu.g_strSaveStatePathname).take k ++ tail ∧
        ∀ e ∈ tail, Event.isEndStep e = false) ∧
      (Snapshot_LoadState_v2 env doc m).loadedSaveStateFlag =
        (if env.raises (Event.SetLoadedSaveStateFlag true) = none then true
         else m.loadedSaveStateFlag) ∧
      ((∀ e ∈ endSteps env mu.g_strSaveStatePathname, env.raises e = none) →
        (Snapshot_LoadState_v2 env doc m).trace =
          mu.trace ++ endSteps env mu.g_strSaveStatePathname ++ [Event.FinaliseParser] ∧
        (Snapshot_LoadState_v2 env doc m).loadedSaveStateFlag = true)) := by
  refine ⟨loadUpTo_beforeEnd env doc doc.top { m with restart := false },
    load_beforeEnd env doc m, ?_⟩
  intro mu h
  obtain ⟨⟨tail, ht, htail⟩, hf⟩ := load_after_units env doc m mu h
  obtain ⟨k, hk, hk1⟩ := callsMade_take env (endSteps env mu.g_strSaveStatePathname)
  refine ⟨⟨k, tail, hk1 (by simp [endSteps]), by rw [← hk]; exact ht, htail⟩, hf, ?_⟩
  intro hq
  have h0 : env.raises (Event.SetLoadedSaveStateFlag true) = none :=
    hq _ (by simp [endSteps])
  refine ⟨?_, by rw [hf, if_pos h0]⟩
  obtain ⟨ht1, -, he⟩ := end_run env mu
  unfold Snapshot_LoadState_v2
  rw [try_of_loadUpTo, h]
  simp only []
  cases hend : Snapshot_LoadState_v2_end env mu with
  | ok x me =>
    rw [hend] at ht1
    simp only [Res.machine] at ht1
    simp [ht1, callsMade_quiet env _ hq]
  | throw msg me =>
    have := he.2 hq
    rw [hend] at this
    simp [Res.error] at this

theorem flag_set_after_units_witness :
    ((loadUpTo envPlain docSlotsV5 docSlotsV5.top { machine0 with restart := false }).value ≠
        some true ∧
      BeforeEnd machine0 (Snapshot_LoadState_v2 envPlain docSlotsV5 machine0)) ∧
    (Snapshot_LoadState_v2 envRA docSlotsV5 machine0).loadedSaveStateFlag = true := by
  have hrun : ∀ r : Res Bool, r.value = some true → r = .ok true r.machine := by
    intro r hr
    cases r with
    | ok a m =>
      simp only [Res.value, Option.some.injEq] at hr
      rw [hr]
      rfl
    | throw msg m => simp [Res.value] at hr
  have h1 : (loadUpTo envPlain docSlotsV5 docSlotsV5.top
      { machine0 with restart := false }).value ≠ some true := by decide!
  have h2 : (loadUpTo envRA docSlotsV5 docSlotsV5.top
      { machine0 with restart := false }).value = some true := by decide!
  refine ⟨⟨h1, (flag_set_after_units envPlain docSlotsV5 machine0).2.1 h1⟩, ?_⟩
  exact (((flag_set_after_units envRA docSlotsV5 machine0).2.2 _
    (hrun _ h2)).2.2 (fun _ _ => rfl)).2

/-! ## Units, cards and keys that take another path -/

/-- C7, counterexample: a unit of the unknown type "Clock" that has no State sub-map, and one
whose version the reader does not find, stop the load with the message of that defect
("Unit: Expected sub-map name: State", the message of the reader); no message names the unit
type. -/
theorem unknown_unit_other_error :
    Event.MessageBox "Unit: Expected sub-map name: State" "Load State" ∈
      (Snapshot_LoadState_v2 envPlain docClockNoState machine0).trace ∧
    Event.MessageBox "Unit: Unknown type: Clock" "Load State" ∉
      (Snapshot_LoadState_v2 envPlain docClockNoState machine0).trace ∧
    Event.MessageBox "Unit: Missing: Version" "Load State" ∈
      (Snapshot_LoadState_v2 envPlain docClockNoVersion machine0).trace ∧
    Event.MessageBox "Unit: Unknown type: Clock" "Load State" ∉
      (Snapshot_LoadState_v2 envPlain docClockNoVersion machine0).trace := by
  decide!

/-- C8, counterexample: on the entries "1" printer, "01" Z80 card and "4" of the unknown name
"Clock Card", `ParseSlots` throws "Slots: Unknown card: Clock Card" with slot 1 holding the Z80
card, not the printer whose load routine had returned true before; and an entry of the unknown
name whose key is "9", or that has no State sub-map, or whose version the reader does not find,
throws the error of that defect, not the one that names the card. -/
theorem unknown_card_other_outcomes :
    (ParseSlots envPlain unitSlotsReplaced UNIT_SLOTS_VER machine0).error =
      some "Slots: Unknown card: Clock Card" ∧
    (ParseSlots envPlain unitSlotsReplaced UNIT_SLOTS_VER machine0).machine.trace =
      [Event.Printer_LoadSnapshot 1 1, Event.Z80_LoadSnapshot 1 1] ∧
    (ParseSlots envPlain unitSlotsReplaced UNIT_SLOTS_VER machine0).machine.m_ConfigNew.m_Slot 1 =
      CT_Z80 ∧
    (ParseSlots envPlain unitSlotsNine UNIT_SLOTS_VER machine0).error =
      some "Slots: Invalid slot #: 9" ∧
    (ParseSlots envPlain unitSlotsNoState UNIT_SLOTS_VER machine0).error =
      some "Unit: Expected sub-map name: State" ∧
    (ParseSlots envPlain unitSlotsNoVersion UNIT_SLOTS_VER machine0).error =
      some "4: Missing: Version" := by
  decide!

/-- C11, counterexample: the key "-4294967295", whose value lies outside 0..7, is converted by
`strtoul` to 1: `ParseSlots` returns without error, the load routine of the printer is called
for slot 1 and the printer is recorded in slot 1. -/
theorem signed_slot_key_accepted :
    (ParseSlots envPlain unitSlotsSigned UNIT_SLOTS_VER machine0).error = none ∧
    (ParseSlots envPlain unitSlotsSigned UNIT_SLOTS_VER machine0).machine.trace =
      [Event.Printer_LoadSnapshot 1 1] ∧
    (ParseSlots envPlain unitSlotsSigned UNIT_SLOTS_VER machine0).machine.m_ConfigNew.m_Slot 1 =
      CT_GenericPrinter := by
  decide!

end SaveState

namespace Rc
open rc_type

/-! ## The option parser -/

theorem shl1_eq (i : Nat) (hi : i < 32) :
    shl1 i = if i = 31 then -(2 ^ 31) else 2 ^ i := by
  interval_cases i <;> decide

theorem find_power (value : Int) :
    ((List.range 32).find? (fun i => decide (shl1 i = value))).getD 32 = 32 ↔
      ∀ i, i < 32 → shl1 i ≠ value := by
  cases h : (List.range 32).find? (fun i => decide (shl1 i = value)) with
  | none =>
    simp only [Option.getD_none, true_iff]
    intro i hi
    have := List.find?_eq_none.1 h i (List.mem_range.2 hi)
    simpa using this
  | some j =>
    have hj : j < 32 := List.mem_range.1 (List.mem_of_find?_eq_some h)
    have hv : shl1 j = value := by simpa using List.find?_some h
    simp only [Option.getD_some]
    constructor
    · intro h32
      omega
    · intro hall
      exact absurd hv (hall j hj)

/-- The values `rc_verify_power_of_2` accepts. -/
theorem power_of_2_accepted (value : Int) :
    (value = 0 ∨ ∃ i, i < 32 ∧ shl1 i = value) ↔
      (value = 0 ∨ (∃ i, i ≤ 30 ∧ value = 2 ^ i) ∨ value = -(2 ^ 31)) := by
  constructor
  · rintro (h | ⟨i, hi, h⟩)
    · exact Or.inl h
    · rw [shl1_eq i hi] at h
      by_cases h31 : i = 31
      · rw [if_pos h31] at h
        exact Or.inr (Or.inr h.symm)
      · rw [if_neg h31] at h
        exact Or.inr (Or.inl ⟨i, by omega, h.symm⟩)
  · rintro (h | ⟨i, hi, h⟩ | h)
    · exact Or.inl h
    · refine Or.inr ⟨i, by omega, ?_⟩
      rw [shl1_eq i (by omega), if_neg (by omega), h]
    · refine Or.inr ⟨31, by omega, ?_⟩
      rw [shl1_eq 31 (by omega), if_pos rfl, h]

/-- C29: `rc_verify_power_of_2` returns 0 exactly when the value of the option is 0, or is 2^i
for some i in 0..30, or is the value -2^31 that `1 << 31` gives in an `int` of 32 bits; when it
returns 0 it sets the priority of the option to the given priority and writes nothing else; for
every other value it returns -1, writes a line to `stderr` and leaves the priority and the
value as they were. -/
theorem rc_verify_power_of_2_iff {F : Type} (option : rc_option F) (arg : Option String)
    (priority : Int) (m : Mem F) :
    ((rc_verify_power_of_2 option arg priority m).1 = 0 ↔
      (m.ints option.dest = 0 ∨ (∃ i, i ≤ 30 ∧ m.ints option.dest = 2 ^ i) ∨
        m.ints option.dest = -(2 ^ 31))) ∧
    ((rc_verify_power_of_2 option arg priority m).1 = 0 →
      (rc_verify_power_of_2 option arg priority m).2 =
        { m with priority := Function.update m.priority option.addr priority }) ∧
    ((rc_verify_power_of_2 option arg priority m).1 ≠ 0 →
      (rc_verify_power_of_2 option arg priority m).1 = -1 ∧
      (rc_verify_power_of_2 option arg priority m).2 =
        m.fprintf_stderr ("error invalid value for " ++ option.name ++ ": " ++
          arg.getD "(null)" ++ "\n") ∧
      (rc_verify_power_of_2 option arg priority m).2.priority = m.priority ∧
      (rc_verify_power_of_2 option arg priority m).2.ints = m.ints) := by
  have hacc := power_of_2_accepted (m.ints option.dest)
  have hfind := find_power (m.ints option.dest)
  by_cases hbad : m.ints option.dest ≠ 0 ∧
      ((List.range 32).find? (fun i => decide (shl1 i = m.ints option.dest))).getD 32 = 32
  · have hrun : rc_verify_power_of_2 option arg priority m =
        (-1, m.fprintf_stderr ("error invalid value for " ++ option.name ++ ": " ++
          arg.getD "(null)" ++ "\n")) := by
      unfold rc_verify_power_of_2
      simp only []
      rw [if_pos hbad]
    rw [hrun]
    have hm1 : ¬((-1 : Int) = 0) := by decide
    refine ⟨?_, ?_, ?_⟩
    · constructor
      · intro h
        exact absurd h hm1
      · intro h
        rcases hacc.2 h with h0 | ⟨i, hi, hv⟩
        · exact absurd h0 hbad.1
        · exact absurd hv (hfind.1 hbad.2 i hi)
    · intro h
      exact absurd h hm1
    · intro _
      exact ⟨rfl, rfl, rfl, rfl⟩
  · have hrun : rc_verify_power_of_2 option arg priority m =
        (0, { m with priority := Function.update m.priority option.addr priority }) := by
      unfold rc_verify_power_of_2
      simp only []
      rw [if_neg hbad]
    rw [hrun]
    refine ⟨?_, ?_, ?_⟩
    · refine ⟨fun _ => hacc.1 ?_, fun _ => rfl⟩
      by_cases h0 : m.ints option.dest = 0
      · exact Or.inl h0
      · right
        by_contra hne
        apply hbad
        refine ⟨h0, hfind.2 ?_⟩
        intro i hi hv
        exact hne ⟨i, hi, hv⟩
    · intro _
      rfl
    · intro h
      exact absurd rfl h

theorem rc_verify_power_of_2_iff_witness :
    (rc_verify_power_of_2 optBufsize (some "64") 7
      { mem0 with ints := fun _ => 64 }).1 = 0 ∧
    (rc_verify_power_of_2 optBufsize (some "48") 7
      { mem0 with ints := fun _ => 48 }).1 = -1 := by
  refine ⟨(rc_verify_power_of_2_iff optBufsize (some "64") 7
    { mem0 with ints := fun _ => 64 }).1.2 (Or.inr (Or.inl ⟨6, by decide, by decide⟩)), ?_⟩
  decide

/-- A `return` inside the `switch` of `rc_set_option3` returns -1 after a line on `stderr`, and
nothing else is written. -/
theorem switch_return {F : Type} (T : Target F) (option : rc_option F) (arg : Option String)
    (m m1 : Mem F) (r : Int) (h : rc_set_option3_switch T option arg m = some (some r, m1)) :
    r = -1 ∧ ∃ line, m1 = m.fprintf_stderr line := by
  unfold rc_set_option3_switch at h
  cases ht : option.type <;> rw [ht] at h <;> simp only [] at h
  all_goals first
    | (cases arg with
        | none => simp at h
        | some a =>
          simp only [] at h
          split at h
          · simp only [Option.some.injEq, Prod.mk.injEq] at h
            exact ⟨h.1.symm, _, h.2.symm⟩
          · simp at h)
    | (simp only [Option.some.injEq, Prod.mk.injEq] at h
       exact ⟨h.1.symm, _, h.2.symm⟩)
    | simp at h

/-- What the `switch` of `rc_set_option3` has written when it is left by `break`: the variable
of the option, by the type of the option, and nothing of the priorities, of `stderr` or of the
calls of callbacks. -/
theorem switch_break {F : Type} (T : Target F) (option : rc_option F) (arg : Option String)
    (m m1 : Mem F) (h : rc_set_option3_switch T option arg m = some (none, m1)) :
    m1.priority = m.priority ∧ m1.calls = m.calls ∧ m1.err = m.err ∧
    (option.type = rc_string → arg ≠ none ∧ m1.strs option.dest = arg) ∧
    (option.type = rc_int ∨ option.type = rc_bool →
      ∃ a, arg = some a ∧ m1.ints option.dest = toInt32 (strtol T.LONG_BITS a).1) ∧
    (option.type = rc_float → ∃ a, arg = some a ∧ m1.floats option.dest = (T.strtod a).1) ∧
    (option.type = rc_set_int → m1.ints option.dest = T.toInt option.min) ∧
    (option.type = rc_file →
      ∃ a f, arg = some a ∧
        T.fopen a (if T.isZero option.min = true then "r" else "w") = some f ∧
        m1.files option.dest = some f) := by
  unfold rc_set_option3_switch at h
  cases ht : option.type <;> rw [ht] at h <;> simp only [] at h
  all_goals first
    | (simp at h; done)
    | (simp only [Option.some.injEq, Prod.mk.injEq, true_and] at h
       subst h
       simp [ht])
    | (cases arg with
        | none => simp at h
        | some a =>
          simp only [] at h
          split at h
          · simp at h
          · simp only [Option.some.injEq, Prod.mk.injEq, true_and] at h
            subst h
            simp_all)

/-- C27: in `rc_set_option3`, a call with a priority strictly lower than the current priority
of the option returns 0 and leaves the memory as it was: the variable of the option, its
priority, and the record of callback calls. For an option without a callback, a call that
returns 0 with a priority not lower than the current one has set the priority of the option to
that priority, called no callback, and stored the new value in the variable of the option (the
argument for a string, the converted argument for an integer, boolean or float, `min` for
`rc_set_int`, the opened stream for a file); and every later call with a lower priority returns
0 and leaves that memory as it is. -/
theorem rc_set_option3_priority {F : Type} (T : Target F) (funcs : Funcs F)
    (option : rc_option F) (arg : Option String) (priority : Int) (m : Mem F) :
    (priority < m.priority option.addr →
      rc_set_option3 T funcs option arg priority m = some (0, m)) ∧
    (option.func = none → m.priority option.addr ≤ priority →
      ∀ m1, rc_set_option3 T funcs option arg priority m = some (0, m1) →
        m1.priority option.addr = priority ∧ m1.calls = m.calls ∧
        (option.type = rc_string → arg ≠ none ∧ m1.strs option.dest = arg) ∧
        (option.type = rc_int ∨ option.type = rc_bool →
          ∃ a, arg = some a ∧ m1.ints option.dest = toInt32 (strtol T.LONG_BITS a).1) ∧
        (option.type = rc_float →
          ∃ a, arg = some a ∧ m1.floats option.dest = (T.strtod a).1) ∧
        (option.type = rc_set_int → m1.ints option.dest = T.toInt option.min) ∧
        (option.type = rc_file →
          ∃ a f, arg = some a ∧
            T.fopen a (if T.isZero option.min = true then "r" else "w") = some f ∧
            m1.files option.dest = some f) ∧
        ∀ (arg1 : Option String) (q : Int), q < priority →
          rc_set_option3 T funcs option arg1 q m1 = some (0, m1)) := by
  refine ⟨?_, ?_⟩
  · intro hlt
    unfold rc_set_option3
    rw [if_pos hlt]
  · intro hf hp m1 h
    unfold rc_set_option3 at h
    rw [if_neg (not_lt.2 hp)] at h
    cases hsw : rc_set_option3_switch T option arg m with
    | none => rw [hsw] at h; simp at h
    | some res =>
      obtain ⟨ret, m2⟩ := res
      rw [hsw] at h
      cases ret with
      | some r =>
        have hr := (switch_return T option arg m m2 r hsw).1
        simp only [Option.some.injEq, Prod.mk.injEq] at h
        rw [hr] at h
        exact absurd h.1 (by decide)
      | none =>
        simp only [hf, Option.some.injEq, Prod.mk.injEq, true_and] at h
        obtain ⟨b1, b2, -, b4, b5, b6, b7, b8⟩ := switch_break T option arg m m2 hsw
        subst h
        refine ⟨by simp, b2, b4, b5, b6, b7, b8, ?_⟩
        intro arg1 q hq
        unfold rc_set_option3
        rw [if_pos (by simpa using hq)]

theorem rc_set_option3_priority_witness :
    optVolume.func = none ∧ mem0.priority optVolume.addr ≤ 5 ∧
    (∀ m1, rc_set_option3 intTarget funcs0 optVolume (some "-12") 5 mem0 = some (0, m1) →
      m1.priority optVolume.addr = 5 ∧
      ∀ (arg1 : Option String) (q : Int), q < 5 →
        rc_set_option3 intTarget funcs0 optVolume arg1 q m1 = some (0, m1)) ∧
    (rc_set_option3 intTarget funcs0 optVolume (some "-12") 5 mem0).map
      (fun r => (r.1, r.2.ints 2, r.2.priority 102)) = some (0, -12, 5) := by
  refine ⟨rfl, by decide, ?_, by decide⟩
  intro m1 h
  have h2 := (rc_set_option3_priority intTarget funcs0 optVolume (some "-12") 5 mem0).2 rfl
    (by decide) m1 h
  exact ⟨h2.1, h2.2.2.2.2.2.2.2⟩

theorem toList_dash (X : String) : ("-" ++ X).toList = '-' :: X.toList := by
  simp [String.toList]

theorem optionName_dashdash (X : String) : optionName ("--" ++ X) = X := by
  unfold optionName
  have h : ("--" ++ X).toList = '-' :: '-' :: X.toList := by simp [String.toList]
  rw [h]
  simp

theorem optionName_dash (X : String) (hX : X.toList.head? ≠ some '-') :
    optionName ("-" ++ X) = X := by
  unfold optionName
  rw [toList_dash]
  have h1 : ('-' :: X.toList).get? 1 = X.toList.head? := by
    cases X.toList <;> rfl
  rw [h1, if_neg hX]
  simp

theorem strtol_one (bits : Nat) (h : 2 ≤ bits) : strtol bits "1" = (1, "") := by
  have h1 : strtol bits "1" =
      (if (1 : Int) > 2 ^ (bits - 1) - 1 then 2 ^ (bits - 1) - 1
       else if (1 : Int) < -(2 ^ (bits - 1)) then -(2 ^ (bits - 1)) else 1, "") := by
    rfl
  rw [h1]
  have h2 : (2 : Int) ^ 1 ≤ 2 ^ (bits - 1) :=
    pow_le_pow_right₀ (by norm_num) (by omega)
  have h3 : (0 : Int) < 2 ^ (bits - 1) := by positivity
  rw [if_neg (by omega), if_neg (by omega)]

theorem strtol_zero (bits : Nat) : strtol bits "0" = (0, "") := by
  have h1 : strtol bits "0" =
      (if (0 : Int) > 2 ^ (bits - 1) - 1 then 2 ^ (bits - 1) - 1
       else if (0 : Int) < -(2 ^ (bits - 1)) then -(2 ^ (bits - 1)) else 0, "") := by
    rfl
  rw [h1]
  have h3 : (0 : Int) < 2 ^ (bits - 1) := by positivity
  rw [if_neg (by omega), if_neg (by omega)]

theorem head_dash (X : String) : ("-" ++ X).toList.head? = some '-' := by
  rw [toList_dash]
  rfl

theorem head_dashdash (X : String) : ("--" ++ X).toList.head? = some '-' := by
  have h : ("--" ++ X).toList = '-' :: '-' :: X.toList := by simp [String.toList]
  rw [h]
  rfl

theorem optionName_no (X : String) :
    (String.mk ("no" ++ X).toList).toList.take 2 = ['n', 'o'] ∧
      String.mk (("no" ++ X).toList.drop 2) = X := by
  have h : ("no" ++ X).toList = 'n' :: 'o' :: X.toList := by simp [String.toList]
  rw [h]
  simp

/-- The option chosen for an argument whose name is that of a boolean option. -/
theorem chooseOption_bool {F : Type} (options : rc_options F) (a : String) (o : rc_option F)
    (h : rc_get_option2 options (optionName a) = some o) (hb : o.type = rc_bool) :
    chooseOption options a = some (o, some "1", false) := by
  unfold chooseOption
  rw [h]
  simp [hb]

/-- The option chosen for an argument whose name is `no` followed by the name of an
option, when the whole name is not the name of an option. -/
theorem chooseOption_no {F : Type} (options : rc_options F) (a X : String)
    (o : rc_option F) (ha : optionName a = "no" ++ X)
    (hno : rc_get_option2 options ("no" ++ X) = none)
    (h : rc_get_option2 options X = some o) :
    chooseOption options a =
      if o.type = rc_bool then some (o, some "0", false) else none := by
  unfold chooseOption
  rw [ha, hno]
  have h1 := optionName_no X
  have h2 : ("no" ++ X).toList.take 2 = ['n', 'o'] := by simp [String.toList]
  simp only [h2, if_true, h1.2, h]

/-- The run of the loop of `rc_parse_commandline` on an argument for which an option and an
argument are chosen and no further argument is taken. -/
theorem loop_chosen {F : Type} (T : Target F) (funcs : Funcs F) (priority : Int)
    (cb : Option (String → Mem F → Int × Mem F)) (a : String) (rest : List String)
    (rc : rc_struct F) (options : rc_options F) (m : Mem F) (o : rc_option F)
    (arg : Option String) (hrc : rc.option = some options)
    (ha : a.toList.head? = some '-')
    (hc : chooseOption options a = some (o, arg, false)) :
    rc_parse_commandline_loop T funcs priority cb (a :: rest) rc m =
      match rc_set_option3 T funcs o arg priority m with
      | none => none
      | some (r, m1) =>
        if r ≠ 0 then some (-1, rc, m1)
        else rc_parse_commandline_loop T funcs priority cb rest rc m1 := by
  conv_lhs => unfold rc_parse_commandline_loop
  simp only [ha, if_true, hrc, hc]

theorem loop_unknown {F : Type} (T : Target F) (funcs : Funcs F) (priority : Int)
    (cb : Option (String → Mem F → Int × Mem F)) (a : String) (rest : List String)
    (rc : rc_struct F) (options : rc_options F) (m : Mem F)
    (hrc : rc.option = some options) (ha : a.toList.head? = some '-')
    (hc : chooseOption options a = none) :
    rc_parse_commandline_loop T funcs priority cb (a :: rest) rc m =
      some (-1, rc, m.fprintf_stderr ("error: unknown option " ++ a ++ "\n")) := by
  conv_lhs => unfold rc_parse_commandline_loop
  simp only [ha, if_true, hrc, hc]

theorem quasi88_chosen {F : Type} (T : Target F) (funcs : Funcs F) (priority : Int)
    (a : String) (arg2 : Option String)
    (rc : rc_struct F) (options : rc_options F) (m : Mem F) (o : rc_option F)
    (arg : Option String) (hrc : rc.option = some options)
    (ha : a.toList.head? = some '-')
    (hc : chooseOption options a = some (o, arg, false)) :
    rc_quasi88 T funcs rc a arg2 priority m =
      match rc_set_option3 T funcs o arg priority m with
      | none => none
      | some (r, m1) => if r ≠ 0 then some (-1, m1) else some (1, m1) := by
  unfold rc_quasi88
  simp only [ha, if_true, hrc, hc]

theorem quasi88_unknown {F : Type} (T : Target F) (funcs : Funcs F) (priority : Int)
    (a : String) (arg2 : Option String)
    (rc : rc_struct F) (options : rc_options F) (m : Mem F)
    (hrc : rc.option = some options) (ha : a.toList.head? = some '-')
    (hc : chooseOption options a = none) :
    rc_quasi88 T funcs rc a arg2 priority m = some (0, m) := by
  unfold rc_quasi88
  simp only [ha, if_true, hrc, hc]

/-- The value `rc_set_option3` stores for the arguments "1" and "0" in an integer or boolean
option without a callback, when the priority is not lower than that of the option and the range
of the option admits the value. -/
theorem rc_set_option3_digit {F : Type} (T : Target F) (funcs : Funcs F) (o : rc_option F)
    (priority : Int) (m : Mem F) (hb : o.type = rc_bool) (hf : o.func = none)
    (hp : m.priority o.addr ≤ priority) (hbits : 2 ≤ T.LONG_BITS) :
    (rc_verify T o (T.ofInt 1) = 0 →
      rc_set_option3 T funcs o (some "1") priority m =
        some (0, { m with ints := Function.update m.ints o.dest 1
                          priority := Function.update m.priority o.addr priority })) ∧
    (rc_verify T o (T.ofInt 0) = 0 →
      rc_set_option3 T funcs o (some "0") priority m =
        some (0, { m with ints := Function.update m.ints o.dest 0
                          priority := Function.update m.priority o.addr priority })) := by
  have t1 : toInt32 1 = 1 := by decide
  have t0 : toInt32 0 = 0 := by decide
  constructor
  · intro hv
    unfold rc_set_option3 rc_set_option3_switch
    rw [if_neg (not_lt.2 hp), hb]
    simp [strtol_one T.LONG_BITS hbits, t1, hv, hf]
  · intro hv
    unfold rc_set_option3 rc_set_option3_switch
    rw [if_neg (not_lt.2 hp), hb]
    simp [strtol_zero T.LONG_BITS, t0, hv, hf]

theorem dashdash_no (X : String) : "--no" ++ X = "--" ++ ("no" ++ X) := by
  apply String.ext
  simp

theorem dash_no (X : String) : "-no" ++ X = "-" ++ ("no" ++ X) := by
  apply String.ext
  simp

theorem head_no (X : String) : ("no" ++ X).toList.head? ≠ some '-' := by
  have h : ("no" ++ X).toList = 'n' :: 'o' :: X.toList := by simp [String.toList]
  rw [h]
  simp

/-- An integer or boolean option without a callback: when `rc_set_option3` returns a value
other than 0, the variable of the option and every priority are as before the call. -/
theorem rc_set_option3_atomic_without_callback {F : Type} (T : Target F) (funcs : Funcs F)
    (option : rc_option F) (arg : Option String) (priority : Int) (m m1 : Mem F) (r : Int)
    (hf : option.func = none) (hr : r ≠ 0)
    (h : rc_set_option3 T funcs option arg priority m = some (r, m1)) :
    r = -1 ∧ m1.ints = m.ints ∧ m1.priority = m.priority := by
  unfold rc_set_option3 at h
  by_cases hp : priority < m.priority option.addr
  · rw [if_pos hp] at h
    simp only [Option.some.injEq, Prod.mk.injEq] at h
    exact absurd h.1.symm hr
  · rw [if_neg hp] at h
    cases hsw : rc_set_option3_switch T option arg m with
    | none => rw [hsw] at h; simp at h
    | some res =>
      obtain ⟨ret, m2⟩ := res
      rw [hsw] at h
      cases ret with
      | some r1 =>
        obtain ⟨hr1, line, hm⟩ := switch_return T option arg m m2 r1 hsw
        simp only [Option.some.injEq, Prod.mk.injEq] at h
        obtain ⟨h1, h2⟩ := h
        subst h1 h2 hm
        exact ⟨hr1, rfl, rfl⟩
      | none =>
        simp only [hf, Option.some.injEq, Prod.mk.injEq] at h
        exact absurd h.1.symm hr

/-- C28: an integer option with the callback `rc_verify_power_of_2`, variable 0 and priority
0, set to "3" with priority 0: `rc_set_option3` returns -1, and the variable holds 3. The value
was stored before the callback was called (the record shows the one call), and the priority is
still 0. -/
theorem rc_set_option3_not_atomic :
    mem0.ints optBufsize.dest = 0 ∧ mem0.priority optBufsize.addr = 0 ∧
    optBufsize.type = rc_int ∧ optBufsize.func = some 0 ∧
    (rc_set_option3 intTarget funcs0 optBufsize (some "3") 0 mem0).map
      (fun r => (r.1, r.2.ints optBufsize.dest, r.2.priority optBufsize.addr)) =
      some (-1, 3, 0) ∧
    (rc_set_option3 intTarget funcs0 optBufsize (some "3") 0 mem0).map (fun r => r.2.calls) =
      some [(0, 101, some "3", 0)] := by
  decide

/-- C30, counterexample: with the boolean option `sound` registered at priority 5 and its
variable 0, `rc_parse_commandline` with priority 0 on `-sound`, and on `--sound`, returns 0 and
the variable is still 0; and with a boolean option registered under the name `-v`, the argument
made of `-` and that name is an unknown option. -/
theorem bool_option_not_set :
    rc_get_option2 (.cons (linkEntry 10 100) soundOptions .nil) "sound" = some optSound ∧
    optSound.type = rc_bool ∧ memSet.ints optSound.dest = 0 ∧
    (rc_parse_commandline intTarget funcs0 rc0 ["prog", "-sound"] 0 none memSet).map
      (fun r => (r.1, r.2.2.ints optSound.dest)) = some (0, 0) ∧
    (rc_parse_commandline intTarget funcs0 rc0 ["prog", "--sound"] 0 none memSet).map
      (fun r => (r.1, r.2.2.ints optSound.dest)) = some (0, 0) ∧
    rc_get_option2 (.cons optDashV .nil .nil) "-v" = some optDashV ∧
    optDashV.type = rc_bool ∧
    (rc_parse_commandline intTarget funcs0 rcDash ["prog", "-" ++ "-v"] 0 none mem0).map
      (fun r => (r.1, r.2.2.ints optDashV.dest, r.2.2.err)) =
      some (-1, 0, ["error: unknown option --v\n"]) := by
  decide

/-- C30, amended: for a boolean option that `rc_get_option2` finds under the name X, the loop
of `rc_parse_commandline` on the argument `--X`, and on `-X` when X does not start with `-`,
calls `rc_set_option3` on the option with the argument "1" and goes on with the next argument
of the command line, which it has not consumed (it returns -1 if the call does not return 0);
`rc_quasi88` makes the same call and returns 1. On `--noX` and `-noX`, when `noX` is not itself
found, both make the call with the argument "0". The call stores 1 (or 0) in the variable of
the option and sets its priority when the priority given is not lower than that of the option,
the option has no callback and its range admits the value. When the option found under X is not
boolean and `noX` is not found, `--noX` and `-noX` are unknown options: `rc_parse_commandline`
returns -1 having written only a line to `stderr`, `rc_quasi88` returns 0 and the memory is as
before. -/
theorem bool_option_on_commandline {F : Type} (T : Target F) (funcs : Funcs F)
    (priority : Int) (cb : Option (String → Mem F → Int × Mem F)) (rest : List String)
    (arg2 : Option String) (rc : rc_struct F) (options : rc_options F) (m : Mem F)
    (X : String) (o : rc_option F) (hrc : rc.option = some options)
    (hX : rc_get_option2 options X = some o) :
    (o.type = rc_bool →
      (∀ a, a = "--" ++ X ∨ (a = "-" ++ X ∧ X.toList.head? ≠ some '-') →
        rc_parse_commandline_loop T funcs priority cb (a :: rest) rc m =
          (match rc_set_option3 T funcs o (some "1") priority m with
            | none => none
            | some (r, m1) =>
              if r ≠ 0 then some (-1, rc, m1)
              else rc_parse_commandline_loop T funcs priority cb rest rc m1) ∧
        rc_quasi88 T funcs rc a arg2 priority m =
          (match rc_set_option3 T funcs o (some "1") priority m with
            | none => none
            | some (r, m1) => if r ≠ 0 then some (-1, m1) else some (1, m1))) ∧
      (rc_get_option2 options ("no" ++ X) = none →
        ∀ a, a = "--no" ++ X ∨ a = "-no" ++ X →
          rc_parse_commandline_loop T funcs priority cb (a :: rest) rc m =
            (match rc_set_option3 T funcs o (some "0") priority m with
              | none => none
              | some (r, m1) =>
                if r ≠ 0 then some (-1, rc, m1)
                else rc_parse_commandline_loop T funcs priority cb rest rc m1) ∧
          rc_quasi88 T funcs rc a arg2 priority m =
            (match rc_set_option3 T funcs o (some "0") priority m with
              | none => none
              | some (r, m1) => if r ≠ 0 then some (-1, m1) else some (1, m1))) ∧
      (o.func = none → m.priority o.addr ≤ priority → 2 ≤ T.LONG_BITS →
        (rc_verify T o (T.ofInt 1) = 0 →
          rc_set_option3 T funcs o (some "1") priority m =
            some (0, { m with ints := Function.update m.ints o.dest 1
                              priority := Function.update m.priority o.addr priority })) ∧
        (rc_verify T o (T.ofInt 0) = 0 →
          rc_set_option3 T funcs o (some "0") priority m =
            some (0, { m with ints := Function.update m.ints o.dest 0
                              priority := Function.update m.priority o.addr priority })))) ∧
    (o.type ≠ rc_bool → rc_get_option2 options ("no" ++ X) = none →
      ∀ a, a = "--no" ++ X ∨ a = "-no" ++ X →
        rc_parse_commandline_loop T funcs priority cb (a :: rest) rc m =
          some (-1, rc, m.fprintf_stderr ("error: unknown option " ++ a ++ "\n")) ∧
        rc_quasi88 T funcs rc a arg2 priority m = some (0, m)) := by
  have hname : ∀ a, a = "--" ++ X ∨ (a = "-" ++ X ∧ X.toList.head? ≠ some '-') →
      a.toList.head? = some '-' ∧ optionName a = X := by
    rintro a (rfl | ⟨rfl, hd⟩)
    · exact ⟨head_dashdash X, optionName_dashdash X⟩
    · exact ⟨head_dash X, optionName_dash X hd⟩
  have hnoname : ∀ a, a = "--no" ++ X ∨ a = "-no" ++ X →
      a.toList.head? = some '-' ∧ optionName a = "no" ++ X := by
    rintro a (rfl | rfl)
    · rw [dashdash_no]
      exact ⟨head_dashdash _, optionName_dashdash _⟩
    · rw [dash_no]
      exact ⟨head_dash _, optionName_dash _ (head_no X)⟩
  refine ⟨fun hb => ⟨?_, ?_, ?_⟩, ?_⟩
  · intro a ha
    obtain ⟨h1, h2⟩ := hname a ha
    have hc := chooseOption_bool options a o (by rw [h2]; exact hX) hb
    exact ⟨loop_chosen T funcs priority cb a rest rc options m o _ hrc h1 hc,
      quasi88_chosen T funcs priority a arg2 rc options m o _ hrc h1 hc⟩
  · intro hno a ha
    obtain ⟨h1, h2⟩ := hnoname a ha
    have hc := chooseOption_no options a X o h2 hno hX
    rw [if_pos hb] at hc
    exact ⟨loop_chosen T funcs priority cb a rest rc options m o _ hrc h1 hc,
      quasi88_chosen T funcs priority a arg2 rc options m o _ hrc h1 hc⟩
  · intro hf hp hbits
    exact rc_set_option3_digit T funcs o priority m hb hf hp hbits
  · intro hb hno a ha
    obtain ⟨h1, h2⟩ := hnoname a ha
    have hc := chooseOption_no options a X o h2 hno hX
    rw [if_neg hb] at hc
    exact ⟨loop_unknown T funcs priority cb a rest rc options m hrc h1 hc,
      quasi88_unknown T funcs priority a arg2 rc options m hrc h1 hc⟩

theorem bool_option_on_commandline_witness :
    rc0.option = some (.cons (linkEntry 10 100) soundOptions .nil) ∧
    rc_get_option2 (.cons (linkEntry 10 100) soundOptions .nil) "sound" = some optSound ∧
    optSound.type = rc_bool ∧
    rc_parse_commandline_loop intTarget funcs0 0 none ["-sound", "x"] rc0 mem0 =
      (match rc_set_option3 intTarget funcs0 optSound (some "1") 0 mem0 with
        | none => none
        | some (r, m1) =>
          if r ≠ 0 then some (-1, rc0, m1)
          else rc_parse_commandline_loop intTarget funcs0 0 none ["x"] rc0 m1) ∧
    (rc_parse_commandline intTarget funcs0 rc0 ["prog", "-sound", "x"] 0 none mem0).map
      (fun r => (r.1, r.2.1.arg, r.2.2.ints optSound.dest)) = some (0, ["x"], 1) := by
  refine ⟨rfl, by decide, rfl, ?_, by decide⟩
  exact (((bool_option_on_commandline intTarget funcs0 0 none ["x"] none rc0
    (.cons (linkEntry 10 100) soundOptions .nil) mem0 "sound" optSound rfl (by decide)).1
      rfl).1 "-sound" (Or.inr ⟨rfl, by decide⟩)).1

/-! ## Registering and unregistering option arrays -/

theorem find_last_some (p : Nat → Bool) (n i : Nat)
    (h : (List.range n).reverse.find? p = some i) :
    i < n ∧ p i = true ∧ ∀ j, i < j → j < n → p j = false := by
  induction n with
  | zero => simp at h
  | succ n ih =>
    rw [List.range_succ, List.reverse_append, List.reverse_singleton, List.singleton_append,
      List.find?_cons] at h
    cases hp : p n with
    | true =>
      rw [hp] at h
      simp only [Option.some.injEq] at h
      subst h
      exact ⟨Nat.lt_succ_self _, hp, fun j h1 h2 => by omega⟩
    | false =>
      rw [hp] at h
      obtain ⟨h1, h2, h3⟩ := ih h
      refine ⟨by omega, h2, ?_⟩
      intro j hj hjn
      by_cases hjn1 : j = n
      · rw [hjn1]
        exact hp
      · exact h3 j hj (by omega)

theorem find_last_none (p : Nat → Bool) (n : Nat)
    (h : (List.range n).reverse.find? p = none) : ∀ j, j < n → p j = false := by
  intro j hj
  have := List.find?_eq_none.1 h j (by simp [hj])
  simpa using this

/-- The greatest index below `n` at which `p` holds is the one the search from the top
finds. -/
theorem find_last_of_greatest (p : Nat → Bool) (n i : Nat) (hi : i < n) (hp : p i = true)
    (hmax : ∀ j, i < j → j < n → p j = false) :
    (List.range n).reverse.find? p = some i := by
  cases h : (List.range n).reverse.find? p with
  | none =>
    have := find_last_none p n h i hi
    rw [hp] at this
    exact absurd this (by decide)
  | some k =>
    obtain ⟨hk, hpk, hmaxk⟩ := find_last_some p n k h
    rcases Nat.lt_trichotomy i k with hlt | heq | hgt
    · have := hmax k hlt hk
      rw [hpk] at this
      exact absurd this (by decide)
    · rw [heq]
    · have := hmaxk i hgt hi
      rw [hp] at this
      exact absurd this (by decide)

theorem toList_setAt_nil {F : Type} (T : Target F) (i : Nat)
    (e : rc_option F × rc_options F) :
    (rc_options.setAt T .nil i e).toList =
      List.replicate i (zeroEntry T, rc_options.nil) ++ [e] := by
  induction i with
  | zero => rfl
  | succ i ih =>
    show (zeroEntry T, rc_options.nil) :: (rc_options.setAt T .nil i e).toList = _
    rw [ih]
    rfl

/-- A write of the entry `option[i]` changes that entry and no other. -/
theorem entryAt_setAt {F : Type} (T : Target F) (l : rc_options F) (i j : Nat)
    (e : rc_option F × rc_options F) :
    (l.setAt T i e).entryAt T j = if j = i then e else l.entryAt T j := by
  induction l generalizing i j with
  | nil =>
    unfold rc_options.entryAt
    rw [toList_setAt_nil]
    simp only [rc_options.toList, List.get?_nil, Option.getD_none]
    by_cases hji : j = i
    · subst hji
      simp [List.getElem?_append_right]
    · rw [if_neg hji]
      rcases Nat.lt_or_gt_of_ne hji with hlt | hgt
      · simp [List.getElem?_append_left, hlt]
      · have h1 : i + 1 ≤ j := hgt
        simp only [List.get?_eq_getElem?, List.length_replicate, Nat.le_of_lt hgt,
          List.getElem?_append_right]
        have h2 : j - i = (j - i - 1) + 1 := by omega
        rw [h2]
        rfl
  | cons o sub rest _ ih =>
    cases i with
    | zero =>
      cases j with
      | zero => rfl
      | succ j => rfl
    | succ i =>
      cases j with
      | zero => rfl
      | succ j =>
        have h := ih i j
        unfold rc_options.entryAt at h ⊢
        simp only [rc_options.setAt, rc_options.toList, List.get?_cons_succ] at h ⊢
        rw [h]
        simp

/-- What `rc_unregister` does on a struct with an option array: when no entry below
`option_size` has the address in `dest` it returns -1 and the struct is as before; otherwise it
returns 0 and zeroes, with the type `rc_ignore`, the entry of the greatest index that has the
address in `dest`, and every other entry is as before. -/
theorem unregister_highest {F : Type} (T : Target F) (rc : rc_struct F)
    (table : rc_options F) (dest : Nat) (h : rc.option = some table) :
    ((∀ i, i < rc.option_size → (table.entryAt T i).1.dest ≠ dest) →
      rc_unregister T rc dest = some (-1, rc)) ∧
    (∀ i, i < rc.option_size → (table.entryAt T i).1.dest = dest →
      (∀ j, i < j → j < rc.option_size → (table.entryAt T j).1.dest ≠ dest) →
      ∃ table1, rc_unregister T rc dest = some (0, { rc with option := some table1 }) ∧
        (table1.entryAt T i).1.type = rc_ignore ∧ (table1.entryAt T i).1.dest = 0 ∧
        ∀ j, j ≠ i → table1.entryAt T j = table.entryAt T j) := by
  constructor
  · intro hall
    have hnone : lastWith T table rc.option_size dest = none := by
      unfold lastWith
      rw [List.find?_eq_none]
      intro i hi
      have hi1 : i < rc.option_size := by simpa using hi
      simpa using hall i hi1
    unfold rc_unregister
    rw [h]
    simp only [hnone]
  · intro i hi hd hmax
    have hsome : lastWith T table rc.option_size dest = some i := by
      unfold lastWith
      apply find_last_of_greatest _ _ _ hi
      · simpa using hd
      · intro j h1 h2
        simpa using hmax j h1 h2
    refine ⟨table.setAt T i
      ({ zeroEntry T with addr := (table.entryAt T i).1.addr, type := rc_ignore }, .nil),
      ?_, ?_, ?_, ?_⟩
    · unfold rc_unregister
      rw [h]
      simp only [hsome]
    · rw [entryAt_setAt, if_pos rfl]
    · rw [entryAt_setAt, if_pos rfl]
      rfl
    · intro j hj
      rw [entryAt_setAt, if_neg hj]

/-- When `rc_register` returns 0, the entry it has written is the first one whose type is not
above 0, a zeroed entry or one left by `rc_unregister`, wherever it lies among the entries
registered before. -/
theorem register_first_free {F : Type} (T : Target F) (funcs : Funcs F) (rc rc1 : rc_struct F)
    (dest : Nat) (option : rc_options F) (m m1 : Mem F)
    (h : rc_register T funcs rc dest option m = some (0, rc1, m1)) :
    rc1.option = some ((rc.option.getD .nil).setAt T
      (firstFree T (rc.option.getD .nil) rc.option_size)
      ({ ((rc.option.getD .nil).entryAt T
            (firstFree T (rc.option.getD .nil) rc.option_size)).1 with
          type := rc_link, dest := dest }, option)) := by
  unfold rc_register at h
  simp only [] at h
  by_cases h0 : rc.option.isNone = true ∧ rc.option_size ≠ 0
  · rw [if_pos h0] at h
    simp at h
  rw [if_neg h0] at h
  by_cases h1 : (firstFree T (rc.option.getD .nil) rc.option_size : Int) ≥
      (rc.option_size : Int) - 1 ∧ T.realloc (rc.option_size + T.BUF_SIZE) = false
  · rw [if_pos h1] at h
    simp at h
  rw [if_neg h1] at h
  cases hd : rc_set_defaults T funcs option m with
  | none => rw [hd] at h; simp at h
  | some p =>
    obtain ⟨r, m2⟩ := p
    rw [hd] at h
    simp only [] at h
    by_cases hr : r ≠ 0
    · rw [if_pos hr] at h
      simp only [Option.some.injEq, Prod.mk.injEq] at h
      exact absurd h.1 (by decide)
    rw [if_neg hr] at h
    split at h <;> simp at h <;> (obtain ⟨-, h2, -⟩ := h; rw [← h2])

/-- C31: on a struct from `rc_create`, the option arrays at 200, 300 and 100 are registered, the
one at 200 is unregistered, and the one at 100 is registered again: the second registration is
written to index 0, the entry that the unregistration left, below the first one at index 2. The
call of `rc_unregister` for the array at 100 then returns 0 and zeroes the entry at index 2,
the one registered first; the entry registered last stays, so that the name `volume` is
still found in the array at 100 and not, as with the entry registered last removed, in the
array at 300. -/
theorem rc_unregister_removes_older :
    (rc_run intTarget funcs0 callsBefore rcFresh mem0).map (fun r => (r.1, r.2.1.links)) =
      some ([0, 0, 0, 0], [(rc_ignore, 0), (rc_link, 300), (rc_link, 100)]) ∧
    (rc_run intTarget funcs0 (callsBefore ++ [.register 100 soundOptions]) rcFresh mem0).map
        (fun r => (r.1, r.2.1.links)) =
      some ([0, 0, 0, 0, 0], [(rc_link, 100), (rc_link, 300), (rc_link, 100)]) ∧
    (rc_run intTarget funcs0 (callsBefore ++ [.register 100 soundOptions, .unregister 100])
        rcFresh mem0).map (fun r => (r.1, r.2.1.links)) =
      some ([0, 0, 0, 0, 0, 0], [(rc_link, 100), (rc_link, 300), (rc_ignore, 0)]) ∧
    (rc_run intTarget funcs0 (callsBefore ++ [.register 100 soundOptions, .unregister 100])
        rcFresh mem0).bind (fun r => rc_get_option2 (r.2.1.option.getD .nil) "volume") =
      some optVolume ∧
    rc_get_option2 newestRemoved "volume" = some optFxVolume := by
  decide!

end Rc
